import Mathlib

/-!
ETX OTA protocol: a shallow embedding of the host tool (`etx_ota_protocol_host.c`) and of the
bootloader receiver (`bl_side_etx_ota.c`).

Machine integers are natural numbers; every place where the C code relies on a
fixed width carries an explicit `% 2 ^ w`.  Bytes are naturals below 256.
-/

namespace EtxOta

/-! ## CRC engine (`etx_ota_protocol_host.c`) -/

/-- The 256-entry lookup table `crc_table` of `etx_ota_protocol_host.c`. -/
def crc_table : List Nat := [
   0x00000000, 0x04C11DB7, 0x09823B6E, 0x0D4326D9, 0x130476DC, 0x17C56B6B, 0x1A864DB2, 0x1E475005, 0x2608EDB8, 0x22C9F00F, 0x2F8AD6D6, 0x2B4BCB61, 0x350C9B64, 0x31CD86D3, 0x3C8EA00A, 0x384FBDBD,
   0x4C11DB70, 0x48D0C6C7, 0x4593E01E, 0x4152FDA9, 0x5F15ADAC, 0x5BD4B01B, 0x569796C2, 0x52568B75, 0x6A1936C8, 0x6ED82B7F, 0x639B0DA6, 0x675A1011, 0x791D4014, 0x7DDC5DA3, 0x709F7B7A, 0x745E66CD,
   0x9823B6E0, 0x9CE2AB57, 0x91A18D8E, 0x95609039, 0x8B27C03C, 0x8FE6DD8B, 0x82A5FB52, 0x8664E6E5, 0xBE2B5B58, 0xBAEA46EF, 0xB7A96036, 0xB3687D81, 0xAD2F2D84, 0xA9EE3033, 0xA4AD16EA, 0xA06C0B5D,
   0xD4326D90, 0xD0F37027, 0xDDB056FE, 0xD9714B49, 0xC7361B4C, 0xC3F706FB, 0xCEB42022, 0xCA753D95, 0xF23A8028, 0xF6FB9D9F, 0xFBB8BB46, 0xFF79A6F1, 0xE13EF6F4, 0xE5FFEB43, 0xE8BCCD9A, 0xEC7DD02D,
   0x34867077, 0x30476DC0, 0x3D044B19, 0x39C556AE, 0x278206AB, 0x23431B1C, 0x2E003DC5, 0x2AC12072, 0x128E9DCF, 0x164F8078, 0x1B0CA6A1, 0x1FCDBB16, 0x018AEB13, 0x054BF6A4, 0x0808D07D, 0x0CC9CDCA,
   0x7897AB07, 0x7C56B6B0, 0x71159069, 0x75D48DDE, 0x6B93DDDB, 0x6F52C06C, 0x6211E6B5, 0x66D0FB02, 0x5E9F46BF, 0x5A5E5B08, 0x571D7DD1, 0x53DC6066, 0x4D9B3063, 0x495A2DD4, 0x44190B0D, 0x40D816BA,
   0xACA5C697, 0xA864DB20, 0xA527FDF9, 0xA1E6E04E, 0xBFA1B04B, 0xBB60ADFC, 0xB6238B25, 0xB2E29692, 0x8AAD2B2F, 0x8E6C3698, 0x832F1041, 0x87EE0DF6, 0x99A95DF3, 0x9D684044, 0x902B669D, 0x94EA7B2A,
   0xE0B41DE7, 0xE4750050, 0xE9362689, 0xEDF73B3E, 0xF3B06B3B, 0xF771768C, 0xFA325055, 0xFEF34DE2, 0xC6BCF05F, 0xC27DEDE8, 0xCF3ECB31, 0xCBFFD686, 0xD5B88683, 0xD1799B34, 0xDC3ABDED, 0xD8FBA05A,
   0x690CE0EE, 0x6DCDFD59, 0x608EDB80, 0x644FC637, 0x7A089632, 0x7EC98B85, 0x738AAD5C, 0x774BB0EB, 0x4F040D56, 0x4BC510E1, 0x46863638, 0x42472B8F, 0x5C007B8A, 0x58C1663D, 0x558240E4, 0x51435D53,
   0x251D3B9E, 0x21DC2629, 0x2C9F00F0, 0x285E1D47, 0x36194D42, 0x32D850F5, 0x3F9B762C, 0x3B5A6B9B, 0x0315D626, 0x07D4CB91, 0x0A97ED48, 0x0E56F0FF, 0x1011A0FA, 0x14D0BD4D, 0x19939B94, 0x1D528623,
   0xF12F560E, 0xF5EE4BB9, 0xF8AD6D60, 0xFC6C70D7, 0xE22B20D2, 0xE6EA3D65, 0xEBA91BBC, 0xEF68060B, 0xD727BBB6, 0xD3E6A601, 0xDEA580D8, 0xDA649D6F, 0xC423CD6A, 0xC0E2D0DD, 0xCDA1F604, 0xC960EBB3,
   0xBD3E8D7E, 0xB9FF90C9, 0xB4BCB610, 0xB07DABA7, 0xAE3AFBA2, 0xAAFBE615, 0xA7B8C0CC, 0xA379DD7B, 0x9B3660C6, 0x9FF77D71, 0x92B45BA8, 0x9675461F, 0x8832161A, 0x8CF30BAD, 0x81B02D74, 0x857130C3,
   0x5D8A9099, 0x594B8D2E, 0x5408ABF7, 0x50C9B640, 0x4E8EE645, 0x4A4FFBF2, 0x470CDD2B, 0x43CDC09C, 0x7B827D21, 0x7F436096, 0x7200464F, 0x76C15BF8, 0x68860BFD, 0x6C47164A, 0x61043093, 0x65C52D24,
   0x119B4BE9, 0x155A565E, 0x18197087, 0x1CD86D30, 0x029F3D35, 0x065E2082, 0x0B1D065B, 0x0FDC1BEC, 0x3793A651, 0x3352BBE6, 0x3E119D3F, 0x3AD08088, 0x2497D08D, 0x2056CD3A, 0x2D15EBE3, 0x29D4F654,
   0xC5A92679, 0xC1683BCE, 0xCC2B1D17, 0xC8EA00A0, 0xD6AD50A5, 0xD26C4D12, 0xDF2F6BCB, 0xDBEE767C, 0xE3A1CBC1, 0xE760D676, 0xEA23F0AF, 0xEEE2ED18, 0xF0A5BD1D, 0xF464A0AA, 0xF9278673, 0xFDE69BC4,
   0x89B8FD09, 0x8D79E0BE, 0x803AC667, 0x84FBDBD0, 0x9ABC8BD5, 0x9E7D9662, 0x933EB0BB, 0x97FFAD0C, 0xAFB010B1, 0xAB710D06, 0xA6322BDF, 0xA2F33668, 0xBCB4666D, 0xB8757BDA, 0xB5365D03, 0xB1F740B4]

/-- One pass of the `for` loop of `crc32_mpeg2`:
`top = (uint8_t)(checksum >> 24); top ^= p_data[i]; checksum = (checksum << 8) ^ crc_table[top]`
with `checksum` a `uint32_t` and `top` a `uint8_t`. -/
def crc32_mpeg2_step (checksum b : Nat) : Nat :=
  let top := (((checksum >>> 24) % 256) ^^^ b) % 256
  ((checksum <<< 8) % 2 ^ 32) ^^^ crc_table.getD top 0

/-- The function `crc32_mpeg2(p_data, DataLength)`; the list holds the `DataLength` bytes
that `p_data` points to.  The device sources call the `crc32_mpeg2` of their own CRC module,
which section 4.1 of the specification states to be this same computation. -/
def crc32_mpeg2 (p_data : List Nat) : Nat :=
  p_data.foldl crc32_mpeg2_step 0xFFFFFFFF

/-- Reference CRC, one bit: shift left by one, and XOR the polynomial `0x04C11DB7` in when
the bit shifted out (the most significant one) was set; arithmetic modulo `2 ^ 32`. -/
def crc_ref_bit (crc : Nat) : Nat :=
  if crc &&& 0x80000000 = 0 then (crc <<< 1) % 2 ^ 32
  else ((crc <<< 1) ^^^ 0x04C11DB7) % 2 ^ 32

/-- Reference CRC, `k` bit steps. -/
def crc_ref_bits : Nat → Nat → Nat
  | 0, crc => crc
  | k + 1, crc => crc_ref_bits k (crc_ref_bit crc)

/-- Reference CRC, one byte: the byte enters unreflected at the top of the register, then
eight bit steps follow. -/
def crc_ref_byte (crc b : Nat) : Nat :=
  crc_ref_bits 8 ((crc ^^^ (b <<< 24)) % 2 ^ 32)

/-- Reference CRC-32/MPEG-2 as the specification words it: initial value `0xFFFFFFFF`,
most significant bit first, no reflection, no final XOR. -/
def crc32_mpeg2_ref (data : List Nat) : Nat :=
  data.foldl crc_ref_byte 0xFFFFFFFF

/-! ## Memory, little-endian fields, protocol constants -/

/-- Memory reached through a `uint8_t *`: byte offset from the pointer ↦ byte.  C performs no
bound check, so offsets past the end of the array the pointer designates are ordinary
offsets into the memory that follows it. -/
abbrev Mem := Nat → Nat

/-- The assignment `buf[i] = b`. -/
def Mem.store (m : Mem) (i b : Nat) : Mem := fun j => if j = i then b else m j

/-- Consecutive bytes stored from offset `i` on (`memcpy`, or a multi-byte receive). -/
def storeBytes (m : Mem) (i : Nat) : List Nat → Mem
  | [] => m
  | b :: bs => storeBytes (m.store i b) (i + 1) bs

/-- The `n` bytes found from offset `i` on. -/
def readBytes (m : Mem) (i : Nat) : Nat → List Nat
  | 0 => []
  | n + 1 => m i :: readBytes m (i + 1) n

/-- The call `memset(buf, b, n)`. -/
def memset (m : Mem) (b n : Nat) : Mem := fun j => if j < n then b else m j

/-- The read `*(uint16_t *) &buf[i]` on a little-endian machine. -/
def le16 (m : Mem) (i : Nat) : Nat := m i + 256 * m (i + 1)

/-- The read `*(uint32_t *) &buf[i]` on a little-endian machine. -/
def le32 (m : Mem) (i : Nat) : Nat :=
  m i + 256 * m (i + 1) + 65536 * m (i + 2) + 16777216 * m (i + 3)

/-- The two bytes of a `uint16_t` in memory order. -/
def bytes_le16 (x : Nat) : List Nat := [x % 256, (x / 256) % 256]

/-- The four bytes of a `uint32_t` in memory order. -/
def bytes_le32 (x : Nat) : List Nat :=
  [x % 256, (x / 256) % 256, (x / 65536) % 256, (x / 16777216) % 256]

def ETX_OTA_SOF : Nat := 0xAA
def ETX_OTA_EOF : Nat := 0xBB
def ETX_OTA_SOF_SIZE : Nat := 1
def ETX_OTA_PACKET_TYPE_SIZE : Nat := 1
def ETX_OTA_DATA_LENGTH_SIZE : Nat := 2
def ETX_OTA_DATA_MAX_SIZE : Nat := 1024
def ETX_OTA_CRC32_SIZE : Nat := 4
def ETX_OTA_EOF_SIZE : Nat := 1
def ETX_OTA_DATA_OVERHEAD : Nat :=
  ETX_OTA_SOF_SIZE + ETX_OTA_PACKET_TYPE_SIZE + ETX_OTA_DATA_LENGTH_SIZE + ETX_OTA_CRC32_SIZE
    + ETX_OTA_EOF_SIZE
def ETX_OTA_PACKET_MAX_SIZE : Nat := ETX_OTA_DATA_MAX_SIZE + ETX_OTA_DATA_OVERHEAD
def ETX_OTA_DATA_FIELD_INDEX : Nat :=
  ETX_OTA_SOF_SIZE + ETX_OTA_PACKET_TYPE_SIZE + ETX_OTA_DATA_LENGTH_SIZE

/-! `ETX_OTA_Status` -/
def ETX_OTA_EC_OK : Nat := 0
def ETX_OTA_EC_STOP : Nat := 1
def ETX_OTA_EC_NR : Nat := 2
def ETX_OTA_EC_NA : Nat := 3
def ETX_OTA_EC_ERR : Nat := 4

/-! `ETX_OTA_State` -/
def ETX_OTA_STATE_IDLE : Nat := 0
def ETX_OTA_STATE_START : Nat := 1
def ETX_OTA_STATE_HEADER : Nat := 2
def ETX_OTA_STATE_DATA : Nat := 3
def ETX_OTA_STATE_END : Nat := 4

/-! `ETX_OTA_Packet_t` -/
def ETX_OTA_PACKET_TYPE_CMD : Nat := 0
def ETX_OTA_PACKET_TYPE_DATA : Nat := 1
def ETX_OTA_PACKET_TYPE_HEADER : Nat := 2
def ETX_OTA_PACKET_TYPE_RESPONSE : Nat := 3

/-! `ETX_OTA_Command` -/
def ETX_OTA_CMD_START : Nat := 0
def ETX_OTA_CMD_END : Nat := 1
def ETX_OTA_CMD_ABORT : Nat := 2

/-! `ETX_OTA_Payload_t` -/
def ETX_OTA_Application_Firmware_Image : Nat := 0
def ETX_OTA_Bootloader_Firmware_Image : Nat := 1
def ETX_OTA_Custom_Data : Nat := 2

/-! `ETX_OTA_Response_Status` -/
def ETX_OTA_ACK : Nat := 0
def ETX_OTA_NACK : Nat := 1

/-- The wire format of section 3 for a packet with the given type and data field: SOF, type,
length (little-endian), data, CRC of the data (little-endian), EOF. -/
def packet_bytes (packet_type : Nat) (d : List Nat) : List Nat :=
  [ETX_OTA_SOF, packet_type, d.length % 256, d.length / 256] ++ d
    ++ bytes_le32 (crc32_mpeg2 d) ++ [ETX_OTA_EOF]

/-! ## Host tool (`etx_ota_protocol_host.c`) -/

/-- The serial port of the host as the RS232 library presents it.  `sent` are the bytes
`RS232_SendByte` has accepted, oldest first.  `send_rets` scripts the results of the coming
`RS232_SendByte` calls (0 is success; a missing entry is success), `polls` the bytes the coming
`RS232_PollComport` calls deliver (a missing entry is no byte). -/
structure SerialPort where
  sent : List Nat
  send_rets : List Nat
  polls : List (List Nat)

/-- The call `RS232_SendByte(comport, b)`: nonzero when the byte could not be written. -/
def RS232_SendByte (p : SerialPort) (b : Nat) : Nat × SerialPort :=
  let r := p.send_rets.headD 0
  if r = 0 then (0, { p with sent := p.sent ++ [b], send_rets := p.send_rets.tail })
  else (r, { p with send_rets := p.send_rets.tail })

/-- The call `RS232_PollComport(comport, buf, size)`: at most `size` bytes are delivered. -/
def RS232_PollComport (p : SerialPort) (size : Nat) : List Nat × SerialPort :=
  ((p.polls.headD []).take size, { p with polls := p.polls.tail })

/-- Globals of the host tool. -/
structure Host where
  ETX_OTA_Packet_Buffer : Mem
  port : SerialPort
  payload_send_attempts : Nat

/-- The sending loop shared by the `send_etx_ota_*` functions:
`for (i = 0; i < n; i++) { usleep(..); if (RS232_SendByte(comport, buf[i])) return ERR; }`
over the bytes `buf[0 .. n-1]`; `false` when the loop took the early return. -/
def send_packet_bytes (p : SerialPort) : List Nat → Bool × SerialPort
  | [] => (true, p)
  | b :: bs =>
    match RS232_SendByte p b with
    | (r, p1) => if r ≠ 0 then (false, p1) else send_packet_bytes p1 bs

/-- The function `is_ack_resp_received`. -/
def is_ack_resp_received (h : Host) : Bool × Host :=
  let buf0 := memset h.ETX_OTA_Packet_Buffer 0 ETX_OTA_PACKET_MAX_SIZE
  match RS232_PollComport h.port 10 with
  | (bytes, port1) =>
    let len := bytes.length % 65536
    let buf1 := storeBytes buf0 0 bytes
    let h1 : Host := { h with ETX_OTA_Packet_Buffer := buf1, port := port1 }
    if len > 0 then
      if buf1 1 = ETX_OTA_PACKET_TYPE_RESPONSE then
        if le32 buf1 5 = crc32_mpeg2 (readBytes buf1 4 1) then
          if buf1 4 = ETX_OTA_ACK then (true, h1) else (false, h1)
        else (false, h1)
      else (false, h1)
    else (false, h1)

/-- The function `send_etx_ota_data(comport, payload, data_len)`; `payload` lists the bytes
the pointer designates, `data_len` is a `uint16_t`. -/
def send_etx_ota_data (h : Host) (payload : List Nat) (data_len : Nat) : Nat × Host :=
  let buf0 := memset h.ETX_OTA_Packet_Buffer 0 ETX_OTA_PACKET_MAX_SIZE
  let buf1 := buf0.store 0 ETX_OTA_SOF
  let buf2 := buf1.store 1 ETX_OTA_PACKET_TYPE_DATA
  let buf3 := storeBytes buf2 2 (bytes_le16 data_len)
  let buf4 := storeBytes buf3 ETX_OTA_DATA_FIELD_INDEX (payload.take data_len)
  let offset_index := (ETX_OTA_DATA_FIELD_INDEX + data_len) % 65536
  let crc := crc32_mpeg2 (payload.take data_len)
  let buf5 := storeBytes buf4 offset_index (bytes_le32 crc)
  let offset_index := (offset_index + ETX_OTA_CRC32_SIZE) % 65536
  let buf6 := buf5.store offset_index ETX_OTA_EOF
  let offset_index := (offset_index + ETX_OTA_EOF_SIZE) % 65536
  match send_packet_bytes h.port (readBytes buf6 0 offset_index) with
  | (false, port1) =>
    (ETX_OTA_EC_ERR, { h with ETX_OTA_Packet_Buffer := buf6, port := port1 })
  | (true, port1) =>
    match is_ack_resp_received { h with ETX_OTA_Packet_Buffer := buf6, port := port1 } with
    | (false, h1) => (ETX_OTA_EC_ERR, h1)
    | (true, h1) => (ETX_OTA_EC_OK, h1)

/-! ## Bootloader receiver (`bl_side_etx_ota.c`): transport and packet reception -/

/-! `HAL_StatusTypeDef` of the STM32 HAL -/
def HAL_OK : Nat := 0
def HAL_ERROR : Nat := 1
def HAL_BUSY : Nat := 2
def HAL_TIMEOUT : Nat := 3

/-- The function `HAL_ret_handler`. -/
def HAL_ret_handler (HAL_status : Nat) : Nat :=
  if HAL_status = HAL_BUSY ∨ HAL_status = HAL_TIMEOUT then ETX_OTA_EC_NR
  else if HAL_status = HAL_ERROR then ETX_OTA_EC_ERR
  else HAL_status

/-- `ETX_OTA_hw_Protocol`, the value of `ETX_OTA_hardware_protocol`; `other` stands for every
value that is neither of the two protocols. -/
inductive ETX_OTA_hw_Protocol where
  | UART
  | BT
  | other
  deriving DecidableEq, Repr

/-- A failure a blocking read of the serial link can report. -/
inductive LinkFault where
  | error
  | busy
  | timeout
  deriving DecidableEq, Repr

/-- The `HAL_StatusTypeDef` value of a link failure. -/
def LinkFault.toHAL : LinkFault → Nat
  | .error => HAL_ERROR
  | .busy => HAL_BUSY
  | .timeout => HAL_TIMEOUT

/-- What the serial link of the device delivers next: a byte, or a failure of the read that
is waiting at that moment. -/
inductive RxEvent where
  | byte (b : Nat)
  | fault (f : LinkFault)
  deriving DecidableEq, Repr

/-- The call `HAL_UART_Receive(p_huart, p, size, ETX_CUSTOM_HAL_TIMEOUT)` on the incoming
events: the status, the bytes stored from `p` on, and the events left.  A link that has
nothing more to deliver makes the read time out. -/
def HAL_UART_Receive : Nat → List RxEvent → Nat × List Nat × List RxEvent
  | 0, rx => (HAL_OK, [], rx)
  | _ + 1, [] => (HAL_TIMEOUT, [], [])
  | _ + 1, RxEvent.fault f :: rx => (f.toHAL, [], rx)
  | n + 1, RxEvent.byte b :: rx =>
    match HAL_UART_Receive n rx with
    | (st, bs, rx1) => (st, b :: bs, rx1)

/-- Modelled from the spec: `get_hm10_ota_data` of the HM-10 driver, which is not among the
sources.  Section 4.4 gives the BT-serial adapter the contract of the UART one: the same byte
stream, failing with `NoResponse` on timeout or busy and with `TransportError` otherwise. -/
def get_hm10_ota_data : Nat → List RxEvent → Nat × List Nat × List RxEvent
  | 0, rx => (ETX_OTA_EC_OK, [], rx)
  | _ + 1, [] => (ETX_OTA_EC_NR, [], [])
  | _ + 1, RxEvent.fault LinkFault.error :: rx => (ETX_OTA_EC_ERR, [], rx)
  | _ + 1, RxEvent.fault _ :: rx => (ETX_OTA_EC_NR, [], rx)
  | n + 1, RxEvent.byte b :: rx =>
    match get_hm10_ota_data n rx with
    | (st, bs, rx1) => (st, b :: bs, rx1)

/-- Outcome of `etx_ota_receive_packet`: the returned status, the buffer, the events left. -/
structure Received where
  status : Nat
  buf : Mem
  rx : List RxEvent

/-- The loop `for (uint16_t i=0; i<data_len; i++)` of the UART branch of
`etx_ota_receive_packet`, with the number of passes still to make; `len` is a `uint16_t`.
Gives the last status, `len`, the buffer and the events left. -/
def receive_data_UART : Nat → Nat → Mem → List RxEvent → Nat × Nat × Mem × List RxEvent
  | 0, len, buf, rx => (HAL_OK, len, buf, rx)
  | n + 1, len, buf, rx =>
    match HAL_UART_Receive 1 rx with
    | (st, bs, rx1) =>
      let buf1 := storeBytes buf len bs
      let len1 := (len + 1) % 65536
      let ret := HAL_ret_handler st
      if ret ≠ HAL_OK then (ret, len1, buf1, rx1)
      else receive_data_UART n len1 buf1 rx1

/-- The same loop in the BT branch. -/
def receive_data_BT : Nat → Nat → Mem → List RxEvent → Nat × Nat × Mem × List RxEvent
  | 0, len, buf, rx => (HAL_OK, len, buf, rx)
  | n + 1, len, buf, rx =>
    match get_hm10_ota_data 1 rx with
    | (ret, bs, rx1) =>
      let buf1 := storeBytes buf len bs
      let len1 := (len + 1) % 65536
      if ret ≠ HAL_OK then (ret, len1, buf1, rx1)
      else receive_data_BT n len1 buf1 rx1

/-- The part of `etx_ota_receive_packet` that follows the `switch`: EOF check, CRC check and
the `max_len < len` check; `len` indexes the byte received last. -/
def receive_packet_checks (buf : Mem) (rx : List RxEvent) (len data_len rec_data_crc max_len : Nat) :
    Received :=
  if buf len ≠ ETX_OTA_EOF then ⟨ETX_OTA_EC_ERR, buf, rx⟩
  else
    let len := (len + 1) % 65536
    let cal_data_crc := crc32_mpeg2 (readBytes buf ETX_OTA_DATA_FIELD_INDEX data_len)
    if cal_data_crc ≠ rec_data_crc then ⟨ETX_OTA_EC_ERR, buf, rx⟩
    else if max_len < len then ⟨ETX_OTA_EC_ERR, buf, rx⟩
    else ⟨ETX_OTA_EC_OK, buf, rx⟩

/-- The `case ETX_OTA_hw_Protocol_UART` of `etx_ota_receive_packet`. -/
def etx_ota_receive_packet_UART (rx : List RxEvent) (buf : Mem) (max_len : Nat) : Received :=
  let len := 0
  match HAL_UART_Receive ETX_OTA_SOF_SIZE rx with
  | (st, bs, rx) =>
  let buf := storeBytes buf len bs
  let ret := HAL_ret_handler st
  if ret ≠ HAL_OK then ⟨ret, buf, rx⟩
  else if buf len ≠ ETX_OTA_SOF then ⟨ETX_OTA_EC_ERR, buf, rx⟩
  else
  let len := (len + 1) % 65536
  match HAL_UART_Receive ETX_OTA_PACKET_TYPE_SIZE rx with
  | (st, bs, rx) =>
  let buf := storeBytes buf len bs
  let ret := HAL_ret_handler st
  if ret ≠ HAL_OK then ⟨ret, buf, rx⟩
  else if ¬ (buf len = ETX_OTA_PACKET_TYPE_CMD ∨ buf len = ETX_OTA_PACKET_TYPE_DATA
      ∨ buf len = ETX_OTA_PACKET_TYPE_HEADER ∨ buf len = ETX_OTA_PACKET_TYPE_RESPONSE) then
    ⟨ETX_OTA_EC_ERR, buf, rx⟩
  else
  let len := (len + 1) % 65536
  match HAL_UART_Receive ETX_OTA_DATA_LENGTH_SIZE rx with
  | (st, bs, rx) =>
  let buf := storeBytes buf len bs
  let ret := HAL_ret_handler st
  if ret ≠ HAL_OK then ⟨ret, buf, rx⟩
  else
  let data_len := le16 buf len
  let len := (len + ETX_OTA_DATA_LENGTH_SIZE) % 65536
  match receive_data_UART data_len len buf rx with
  | (ret, len, buf, rx) =>
  if ret ≠ HAL_OK then ⟨ret, buf, rx⟩
  else
  match HAL_UART_Receive ETX_OTA_CRC32_SIZE rx with
  | (st, bs, rx) =>
  let buf := storeBytes buf len bs
  let ret := HAL_ret_handler st
  if ret ≠ HAL_OK then ⟨ret, buf, rx⟩
  else
  let rec_data_crc := le32 buf len
  let len := (len + ETX_OTA_CRC32_SIZE) % 65536
  match HAL_UART_Receive ETX_OTA_EOF_SIZE rx with
  | (st, bs, rx) =>
  let buf := storeBytes buf len bs
  let ret := HAL_ret_handler st
  if ret ≠ HAL_OK then ⟨ret, buf, rx⟩
  else receive_packet_checks buf rx len data_len rec_data_crc max_len

/-- The `case ETX_OTA_hw_Protocol_BT` of `etx_ota_receive_packet`. -/
def etx_ota_receive_packet_BT (rx : List RxEvent) (buf : Mem) (max_len : Nat) : Received :=
  let len := 0
  match get_hm10_ota_data ETX_OTA_SOF_SIZE rx with
  | (ret, bs, rx) =>
  let buf := storeBytes buf len bs
  if ret ≠ HAL_OK then ⟨ret, buf, rx⟩
  else if buf len ≠ ETX_OTA_SOF then ⟨ETX_OTA_EC_ERR, buf, rx⟩
  else
  let len := (len + 1) % 65536
  match get_hm10_ota_data ETX_OTA_PACKET_TYPE_SIZE rx with
  | (ret, bs, rx) =>
  let buf := storeBytes buf len bs
  if ret ≠ HAL_OK then ⟨ret, buf, rx⟩
  else if ¬ (buf len = ETX_OTA_PACKET_TYPE_CMD ∨ buf len = ETX_OTA_PACKET_TYPE_DATA
      ∨ buf len = ETX_OTA_PACKET_TYPE_HEADER ∨ buf len = ETX_OTA_PACKET_TYPE_RESPONSE) then
    ⟨ETX_OTA_EC_ERR, buf, rx⟩
  else
  let len := (len + 1) % 65536
  match get_hm10_ota_data ETX_OTA_DATA_LENGTH_SIZE rx with
  | (ret, bs, rx) =>
  let buf := storeBytes buf len bs
  if ret ≠ HAL_OK then ⟨ret, buf, rx⟩
  else
  let data_len := le16 buf len
  let len := (len + ETX_OTA_DATA_LENGTH_SIZE) % 65536
  match receive_data_BT data_len len buf rx with
  | (ret, len, buf, rx) =>
  if ret ≠ HAL_OK then ⟨ret, buf, rx⟩
  else
  match get_hm10_ota_data ETX_OTA_CRC32_SIZE rx with
  | (ret, bs, rx) =>
  let buf := storeBytes buf len bs
  if ret ≠ HAL_OK then ⟨ret, buf, rx⟩
  else
  let rec_data_crc := le32 buf len
  let len := (len + ETX_OTA_CRC32_SIZE) % 65536
  match get_hm10_ota_data ETX_OTA_EOF_SIZE rx with
  | (ret, bs, rx) =>
  let buf := storeBytes buf len bs
  if ret ≠ HAL_OK then ⟨ret, buf, rx⟩
  else receive_packet_checks buf rx len data_len rec_data_crc max_len

/-- The function `etx_ota_receive_packet(buf, max_len)`, reading the events `rx` of the link
selected by `ETX_OTA_hardware_protocol`; `max_len` is a `uint16_t`. -/
def etx_ota_receive_packet (hw : ETX_OTA_hw_Protocol) (rx : List RxEvent) (buf : Mem)
    (max_len : Nat) : Received :=
  match hw with
  | .UART => etx_ota_receive_packet_UART rx buf max_len
  | .BT => etx_ota_receive_packet_BT rx buf max_len
  | .other => ⟨ETX_OTA_EC_ERR, buf, rx⟩

/-! ## Bootloader receiver: configuration record, flash, device state -/

/-- Build-time constants of the device that the sources under study use but do not define
(`etx_ota_config.h` of the device, `firmware_update_config.h`). -/
structure Target where
  FLASH_PAGE_SIZE_IN_BYTES : Nat
  ETX_BL_FLASH_PAGES_SIZE : Nat
  ETX_APP_FLASH_PAGES_SIZE : Nat
  ETX_APP_FLASH_ADDR : Nat
  BT_FW_NOT_STORED_IN_APP_FW : Nat
  BT_FW_STORED_IN_APP_FW : Nat
  NOT_PENDING : Nat
  IS_PENDING : Nat
  FIRM_UPDT_CONF_EC_OK : Nat

/-- The macro `ETX_OTA_BL_FW_SIZE`, an `unsigned int` product. -/
def ETX_OTA_BL_FW_SIZE (T : Target) : Nat :=
  (T.FLASH_PAGE_SIZE_IN_BYTES * T.ETX_BL_FLASH_PAGES_SIZE) % 2 ^ 32

/-- The macro `ETX_OTA_APP_FW_SIZE`, an `unsigned int` product. -/
def ETX_OTA_APP_FW_SIZE (T : Target) : Nat :=
  (T.FLASH_PAGE_SIZE_IN_BYTES * T.ETX_APP_FLASH_PAGES_SIZE) % 2 ^ 32

/-- The fields of `firmware_update_config_data_t` that the protocol reads or writes. -/
structure firmware_update_config_data_t where
  App_fw_size : Nat
  App_fw_rec_crc : Nat
  BL_fw_size : Nat
  BL_fw_rec_crc : Nat
  is_bl_fw_stored_in_app_fw : Nat
  is_bl_fw_install_pending : Nat
  data : List Nat
  deriving DecidableEq, Repr

/-- The firmware-update configuration store.  `records` are the records committed so far,
latest first; `write_rets` scripts the `FirmUpdConf_Status` of the coming write calls (a missing
entry is `FIRM_UPDT_CONF_EC_OK`). -/
structure ConfStore where
  records : List firmware_update_config_data_t
  write_rets : List Nat

/-- Modelled from the spec: `firmware_update_configurations_write` of the configuration
sub-module, which is not among the sources.  Section 4.3: a write that completes makes its
record the latest one; a write that fails reports its `FirmUpdConf_Status`. -/
def firmware_update_configurations_write (T : Target) (c : ConfStore)
    (r : firmware_update_config_data_t) : Nat × ConfStore :=
  let ret := c.write_rets.headD T.FIRM_UPDT_CONF_EC_OK
  if ret = T.FIRM_UPDT_CONF_EC_OK then
    (ret, { records := r :: c.records, write_rets := c.write_rets.tail })
  else (ret, { c with write_rets := c.write_rets.tail })

/-- A call of the flash HAL. -/
inductive FlashOp where
  | unlock
  | erase (page_address nb_pages : Nat)
  | program (address word : Nat)
  | lock
  deriving DecidableEq, Repr

/-- The flash memory behind the HAL.  `mem` is its byte content by address; `hal_rets` scripts
the `HAL_StatusTypeDef` of the coming HAL calls (a missing entry is `HAL_OK`); `log` lists the
calls made with the status each returned, oldest first. -/
structure Flash where
  mem : Mem
  hal_rets : List Nat
  log : List (FlashOp × Nat)

/-- The status the next flash HAL call returns, and the flash with that call logged. -/
def Flash.call (f : Flash) (op : FlashOp) : Nat × Flash :=
  let ret := f.hal_rets.headD HAL_OK
  (ret, { f with hal_rets := f.hal_rets.tail, log := f.log ++ [(op, ret)] })

/-- The call `HAL_FLASH_Unlock()`. -/
def HAL_FLASH_Unlock (f : Flash) : Nat × Flash := f.call FlashOp.unlock

/-- The call `HAL_FLASH_Lock()`. -/
def HAL_FLASH_Lock (f : Flash) : Nat × Flash := f.call FlashOp.lock

/-- The call `HAL_FLASHEx_Erase` for `nb_pages` pages from `page_address` on: when it
succeeds every byte of those pages reads `0xFF`. -/
def HAL_FLASHEx_Erase (T : Target) (f : Flash) (page_address nb_pages : Nat) : Nat × Flash :=
  match f.call (FlashOp.erase page_address nb_pages) with
  | (ret, f1) =>
    if ret = HAL_OK then
      (ret, { f1 with mem := (fun a =>
        if page_address ≤ a ∧ a < page_address + nb_pages * T.FLASH_PAGE_SIZE_IN_BYTES then 0xFF
        else f1.mem a) })
    else (ret, f1)

/-- The call `HAL_FLASH_Program(FLASH_TYPEPROGRAM_WORD, address, word)`: when it succeeds
the four bytes at `address` hold the word, least significant byte first. -/
def HAL_FLASH_Program (f : Flash) (address word : Nat) : Nat × Flash :=
  match f.call (FlashOp.program address word) with
  | (ret, f1) =>
    if ret = HAL_OK then (ret, { f1 with mem := storeBytes f1.mem address (bytes_le32 word) })
    else (ret, f1)

/-- Globals of `bl_side_etx_ota.c` and the peripherals they drive.  `Rx_Buffer` is the memory
from the first byte of the array `Rx_Buffer[ETX_OTA_PACKET_MAX_SIZE]` on.  `rx` are the events
the link has not delivered yet.  `tx` lists the packets handed to the transmit call of the link,
oldest first; `tx_rets` scripts the status of the coming transmit calls (a missing entry is
success). -/
structure Device where
  Rx_Buffer : Mem
  etx_ota_state : Nat
  etx_ota_fw_received_size : Nat
  fw_config : firmware_update_config_data_t
  ETX_OTA_hardware_protocol : ETX_OTA_hw_Protocol
  rx : List RxEvent
  tx : List (List Nat)
  tx_rets : List Nat
  flash : Flash
  conf : ConfStore

/-- The ten bytes of the packed `ETX_OTA_Response_Packet_t` that `etx_ota_send_resp` fills in. -/
def response_packet (response_status : Nat) : List Nat :=
  [ETX_OTA_SOF, ETX_OTA_PACKET_TYPE_RESPONSE] ++ bytes_le16 1 ++ [response_status % 256]
    ++ bytes_le32 (crc32_mpeg2 [response_status % 256]) ++ [ETX_OTA_EOF]

/-- The function `etx_ota_send_resp`.  On the UART the status of `HAL_UART_Transmit` goes
through `HAL_ret_handler`; on BT the status of `send_hm10_ota_data` is returned as it is. -/
def etx_ota_send_resp (d : Device) (response_status : Nat) : Nat × Device :=
  let response := response_packet response_status
  match d.ETX_OTA_hardware_protocol with
  | .UART =>
    (HAL_ret_handler (d.tx_rets.headD HAL_OK),
      { d with tx := d.tx ++ [response], tx_rets := d.tx_rets.tail })
  | .BT =>
    (d.tx_rets.headD HAL_OK, { d with tx := d.tx ++ [response], tx_rets := d.tx_rets.tail })
  | .other => (ETX_OTA_EC_ERR, d)

/-- The first loop of `write_data_to_flash_app`,
`for ( ; bytes_flashed<data_len_minus_one_word; bytes_flashed+=4)`, with a bound on the passes
still to make (the loop makes at most `data_len_minus_one_word` of them).  Gives the last
status, `bytes_flashed`, `etx_ota_fw_received_size` and the flash. -/
def write_full_words (T : Target) (data : List Nat) (data_len_minus_one_word : Nat) :
    Nat → Nat → Nat → Flash → Nat × Nat × Nat × Flash
  | 0, bytes_flashed, received_size, f => (HAL_OK, bytes_flashed, received_size, f)
  | passes + 1, bytes_flashed, received_size, f =>
    if bytes_flashed < data_len_minus_one_word then
      let word := le32 (fun i => data.getD i 0) (4 * (bytes_flashed / 4))
      match HAL_FLASH_Program f ((T.ETX_APP_FLASH_ADDR + received_size) % 2 ^ 32) word with
      | (st, f1) =>
        let ret := HAL_ret_handler st % 256
        if ret = HAL_OK then
          write_full_words T data data_len_minus_one_word passes ((bytes_flashed + 4) % 65536)
            ((received_size + 4) % 2 ^ 32) f1
        else (ret, bytes_flashed, received_size, f1)
    else (HAL_OK, bytes_flashed, received_size, f)

/-- The array `word_data` after `for (i=0; i<remaining; i++) word_data[i] = data[from + i]`,
starting from `{0x00, 0x00, 0x00, 0x00}`. -/
def fill_word_data (data : List Nat) (from_index remaining : Nat) : List Nat :=
  (List.range 4).map (fun i => if i < remaining then data.getD (from_index + i) 0 else 0x00)

/-- The function `write_data_to_flash_app(data, data_len, is_first_block)`; `data` lists the
bytes the pointer designates, `data_len` is a `uint16_t`. -/
def write_data_to_flash_app (T : Target) (d : Device) (data : List Nat) (data_len : Nat)
    (is_first_block : Bool) : Nat × Device :=
  match HAL_FLASH_Unlock d.flash with
  | (st, f) =>
  let ret := HAL_ret_handler st % 256
  if ret ≠ HAL_OK then (ret, { d with flash := f })
  else
  match (if is_first_block then
      (match HAL_FLASHEx_Erase T f T.ETX_APP_FLASH_ADDR T.ETX_APP_FLASH_PAGES_SIZE with
        | (st, f1) => (HAL_ret_handler st % 256, f1))
    else (HAL_OK, f)) with
  | (ret, f) =>
  if ret ≠ HAL_OK then (ret, { d with flash := f })
  else
  let data_len_minus_one_word := (data_len + 65536 - 4) % 65536
  if data_len > 4 then
    match write_full_words T data data_len_minus_one_word data_len_minus_one_word 0
      d.etx_ota_fw_received_size f with
    | (ret, bytes_flashed, received_size, f) =>
    if ret ≠ HAL_OK then
      (ret, { d with flash := f, etx_ota_fw_received_size := received_size })
    else
    let remaining_data_len_of_last_word := (data_len + 65536 - bytes_flashed) % 256
    let word_data := fill_word_data data bytes_flashed remaining_data_len_of_last_word
    match HAL_FLASH_Program f ((T.ETX_APP_FLASH_ADDR + received_size) % 2 ^ 32)
      (le32 (fun i => word_data.getD i 0) 0) with
    | (st, f) =>
    let ret := HAL_ret_handler st % 256
    if ret ≠ HAL_OK then
      (ret, { d with flash := f, etx_ota_fw_received_size := received_size })
    else
    let received_size := (received_size + remaining_data_len_of_last_word) % 2 ^ 32
    match HAL_FLASH_Lock f with
    | (st, f) =>
    (HAL_ret_handler st % 256, { d with flash := f, etx_ota_fw_received_size := received_size })
  else
    let received_size := d.etx_ota_fw_received_size
    let remaining_data_len_of_last_word := data_len % 256
    let word_data := fill_word_data data 0 remaining_data_len_of_last_word
    match HAL_FLASH_Program f ((T.ETX_APP_FLASH_ADDR + received_size) % 2 ^ 32)
      (le32 (fun i => word_data.getD i 0) 0) with
    | (st, f) =>
    let ret := HAL_ret_handler st % 256
    if ret ≠ HAL_OK then
      (ret, { d with flash := f, etx_ota_fw_received_size := received_size })
    else
    let received_size := (received_size + remaining_data_len_of_last_word) % 2 ^ 32
    match HAL_FLASH_Lock f with
    | (st, f) =>
    (HAL_ret_handler st % 256, { d with flash := f, etx_ota_fw_received_size := received_size })

/-! ## Bootloader receiver: packet processing and the receive loop -/

/-- The function `etx_ota_process_data(buf)` on the globals of the device; `buf` is
`Rx_Buffer`.  The packed structs overlay the buffer: `packet_type` is byte 1, `data_len`
bytes 2..3, `cmd` byte 4, `meta_data.package_size` bytes 4..7, `meta_data.package_crc` bytes
8..11 and `meta_data.payload_type` byte 19. -/
def etx_ota_process_data (T : Target) (d : Device) : Nat × Device :=
  let buf := d.Rx_Buffer
  let packet_type := buf 1
  let cmd := buf 4
  if packet_type = ETX_OTA_PACKET_TYPE_CMD ∧ cmd = ETX_OTA_CMD_ABORT then (ETX_OTA_EC_STOP, d)
  else if d.etx_ota_state = ETX_OTA_STATE_IDLE then (ETX_OTA_EC_OK, d)
  else if d.etx_ota_state = ETX_OTA_STATE_START then
    if packet_type = ETX_OTA_PACKET_TYPE_CMD ∧ cmd = ETX_OTA_CMD_START then
      (ETX_OTA_EC_OK, { d with etx_ota_state := ETX_OTA_STATE_HEADER })
    else (ETX_OTA_EC_ERR, d)
  else if d.etx_ota_state = ETX_OTA_STATE_HEADER then
    if packet_type = ETX_OTA_PACKET_TYPE_HEADER then
      let package_size := le32 buf 4
      let package_crc := le32 buf 8
      let payload_type := buf 19
      let flags : Option (Nat × Nat) :=
        if payload_type = ETX_OTA_Application_Firmware_Image then
          if package_size > ETX_OTA_APP_FW_SIZE T then none
          else some (T.BT_FW_NOT_STORED_IN_APP_FW, T.NOT_PENDING)
        else if payload_type = ETX_OTA_Bootloader_Firmware_Image then
          if package_size > ETX_OTA_BL_FW_SIZE T then none
          else some (T.BT_FW_STORED_IN_APP_FW, T.IS_PENDING)
        else if payload_type = ETX_OTA_Custom_Data then none
        else none
      match flags with
      | none => (ETX_OTA_EC_NA, d)
      | some (stored, pending) =>
        let cfg : firmware_update_config_data_t :=
          { d.fw_config with
            is_bl_fw_stored_in_app_fw := stored
            is_bl_fw_install_pending := pending
            App_fw_size := package_size
            App_fw_rec_crc := package_crc }
        match firmware_update_configurations_write T d.conf cfg with
        | (header_ret, conf1) =>
          if header_ret ≠ T.FIRM_UPDT_CONF_EC_OK then
            (header_ret, { d with fw_config := cfg, conf := conf1 })
          else
            (ETX_OTA_EC_OK,
              { d with fw_config := cfg, conf := conf1, etx_ota_state := ETX_OTA_STATE_DATA })
    else (ETX_OTA_EC_ERR, d)
  else if d.etx_ota_state = ETX_OTA_STATE_DATA then
    if packet_type = ETX_OTA_PACKET_TYPE_DATA then
      let data_len := le16 buf 2
      if data_len % 4 ≠ 0 then (ETX_OTA_EC_ERR, d)
      else
        match write_data_to_flash_app T d (readBytes buf ETX_OTA_DATA_FIELD_INDEX data_len)
          data_len (d.etx_ota_fw_received_size = 0) with
        | (st, d1) =>
          let data_ret := HAL_ret_handler st
          if data_ret ≠ HAL_OK then (data_ret, d1)
          else if d1.etx_ota_fw_received_size ≥ d1.fw_config.App_fw_size then
            (ETX_OTA_EC_OK, { d1 with etx_ota_state := ETX_OTA_STATE_END })
          else (ETX_OTA_EC_OK, d1)
    else (ETX_OTA_EC_ERR, d)
  else if d.etx_ota_state = ETX_OTA_STATE_END then
    if packet_type = ETX_OTA_PACKET_TYPE_CMD ∧ cmd = ETX_OTA_CMD_END then
      let cal_crc := crc32_mpeg2 (readBytes d.flash.mem T.ETX_APP_FLASH_ADDR d.fw_config.App_fw_size)
      if cal_crc ≠ d.fw_config.App_fw_rec_crc then (ETX_OTA_EC_ERR, d)
      else (ETX_OTA_EC_OK, { d with etx_ota_state := ETX_OTA_STATE_IDLE })
    else (ETX_OTA_EC_ERR, d)
  else (ETX_OTA_EC_ERR, d)

/-- The device after `etx_ota_process_data` has accepted a Header packet and the configuration
store has taken the record: the two flags as given, `App_fw_size` and `App_fw_rec_crc` from the
`package_size` and `package_crc` fields of the packet, the record committed as the latest one,
and the Data state. -/
def header_accepted (d : Device) (stored pending : Nat) : Device :=
  { d with
    fw_config :=
      { d.fw_config with
        is_bl_fw_stored_in_app_fw := stored
        is_bl_fw_install_pending := pending
        App_fw_size := le32 d.Rx_Buffer 4
        App_fw_rec_crc := le32 d.Rx_Buffer 8 }
    conf :=
      { records :=
          { d.fw_config with
            is_bl_fw_stored_in_app_fw := stored
            is_bl_fw_install_pending := pending
            App_fw_size := le32 d.Rx_Buffer 4
            App_fw_rec_crc := le32 d.Rx_Buffer 8 } :: d.conf.records
        write_rets := d.conf.write_rets.tail }
    etx_ota_state := ETX_OTA_STATE_DATA }

/-- One pass through the body of the `do ... while` loop of
`firmware_image_download_and_install`: `some ret` when the pass ends in `return ret`, `none`
when it reaches the loop condition. -/
def download_pass (T : Target) (d : Device) : Option Nat × Device :=
  let r := etx_ota_receive_packet d.ETX_OTA_hardware_protocol d.rx d.Rx_Buffer
    ETX_OTA_PACKET_MAX_SIZE
  let d := { d with Rx_Buffer := r.buf, rx := r.rx }
  let ret := r.status
  if ret = ETX_OTA_EC_OK then
    match etx_ota_process_data T d with
    | (ret, d) =>
      if ret = ETX_OTA_EC_OK then (none, (etx_ota_send_resp d ETX_OTA_ACK).2)
      else if ret = ETX_OTA_EC_STOP then
        (some ETX_OTA_EC_STOP, (etx_ota_send_resp d ETX_OTA_ACK).2)
      else if ret = ETX_OTA_EC_NR then (some ETX_OTA_EC_ERR, d)
      else if ret = ETX_OTA_EC_NA then
        (some ETX_OTA_EC_NA, (etx_ota_send_resp d ETX_OTA_NACK).2)
      else if ret = ETX_OTA_EC_ERR then
        (some ETX_OTA_EC_ERR, (etx_ota_send_resp d ETX_OTA_NACK).2)
      else (some ret, d)
  else if ret = ETX_OTA_EC_NR then (some ETX_OTA_EC_NR, d)
  else if ret = ETX_OTA_EC_ERR then
    (some ETX_OTA_EC_ERR, (etx_ota_send_resp d ETX_OTA_NACK).2)
  else (some ret, (etx_ota_send_resp d ETX_OTA_NACK).2)

/-- The `do ... while (etx_ota_state != ETX_OTA_STATE_IDLE)` loop with a bound on the number
of passes; `none` when the bound is used up before the loop is left. -/
def download_loop (T : Target) : Nat → Device → Option (Nat × Device)
  | 0, _ => none
  | passes + 1, d =>
    match download_pass T d with
    | (some ret, d1) => some (ret, d1)
    | (none, d1) =>
      if d1.etx_ota_state ≠ ETX_OTA_STATE_IDLE then download_loop T passes d1
      else some (ETX_OTA_EC_OK, d1)

/-- The function `firmware_image_download_and_install`.  A pass that does not return has
consumed at least one event of the link, so `rx.length + 1` passes always suffice. -/
def firmware_image_download_and_install (T : Target) (d : Device) : Option (Nat × Device) :=
  download_loop T (d.rx.length + 1)
    { d with etx_ota_fw_received_size := 0, etx_ota_state := ETX_OTA_STATE_START }

/-! ## Concrete inputs -/

/-- The reference target of the sources: 1 KiB pages, 34 pages of bootloader from
`0x08002000` on followed by 86 pages of application, and the flag and status values counted
from zero. -/
def reference_target : Target :=
  { FLASH_PAGE_SIZE_IN_BYTES := 1024
    ETX_BL_FLASH_PAGES_SIZE := 34
    ETX_APP_FLASH_PAGES_SIZE := 86
    ETX_APP_FLASH_ADDR := 0x0800A800
    BT_FW_NOT_STORED_IN_APP_FW := 0
    BT_FW_STORED_IN_APP_FW := 1
    NOT_PENDING := 0
    IS_PENDING := 1
    FIRM_UPDT_CONF_EC_OK := 0 }

/-- The 16 bytes of a packed `header_data_t`: `package_size`, `package_crc`, the reserved
fields at their reset value, `payload_type`. -/
def header_data (package_size package_crc payload_type : Nat) : List Nat :=
  bytes_le32 package_size ++ bytes_le32 package_crc ++ [0xFF, 0xFF, 0xFF, 0xFF] ++ [0xFF, 0xFF]
    ++ [0xFF] ++ [payload_type]

/-- A device on the UART in the given state, with the given buffer content and incoming
events, an erased configuration record, erased flash, and peripherals that never fail. -/
def sample_device (state : Nat) (buffer : Mem) (rx : List RxEvent) : Device :=
  { Rx_Buffer := buffer
    etx_ota_state := state
    etx_ota_fw_received_size := 0
    fw_config :=
      { App_fw_size := 0xFFFFFFFF
        App_fw_rec_crc := 0xFFFFFFFF
        BL_fw_size := 0xFFFFFFFF
        BL_fw_rec_crc := 0xFFFFFFFF
        is_bl_fw_stored_in_app_fw := 0xFF
        is_bl_fw_install_pending := 0xFF
        data := [] }
    ETX_OTA_hardware_protocol := ETX_OTA_hw_Protocol.UART
    rx := rx
    tx := []
    tx_rets := []
    flash := { mem := fun _ => 0xFF, hal_rets := [], log := [] }
    conf := { records := [], write_rets := [] } }

/-- A device in the Data state about to receive a Command packet carrying Abort. -/
def abort_device : Device :=
  sample_device ETX_OTA_STATE_DATA (fun _ => 0)
    ((packet_bytes ETX_OTA_PACKET_TYPE_CMD [ETX_OTA_CMD_ABORT]).map RxEvent.byte)

/-- A device in the given state whose buffer holds the given packet. -/
def device_holding (state packet_type : Nat) (data : List Nat) : Device :=
  sample_device state (storeBytes (fun _ => 0) 0 (packet_bytes packet_type data)) []

/-! ## Flash programming of a data block: reference values -/

/-- The flash after `HAL_FLASH_Unlock` and, for a first block, `HAL_FLASHEx_Erase` of the
application pages, when both calls succeed. -/
def flash_opened (T : Target) (f : Flash) (is_first_block : Bool) : Flash :=
  if is_first_block then
    Flash.mk
      (fun a =>
        if T.ETX_APP_FLASH_ADDR ≤ a
            ∧ a < T.ETX_APP_FLASH_ADDR + T.ETX_APP_FLASH_PAGES_SIZE * T.FLASH_PAGE_SIZE_IN_BYTES
        then 0xFF else f.mem a)
      []
      (f.log ++ [(FlashOp.unlock, HAL_OK)]
        ++ [(FlashOp.erase T.ETX_APP_FLASH_ADDR T.ETX_APP_FLASH_PAGES_SIZE, HAL_OK)])
  else Flash.mk f.mem [] (f.log ++ [(FlashOp.unlock, HAL_OK)])

/-- The words `write_data_to_flash_app` programs for a block of `n` whole words. -/
def programmed_words (T : Target) (data : List Nat) (r n : Nat) : List (FlashOp × Nat) :=
  (List.range n).map (fun k =>
    (FlashOp.program (T.ETX_APP_FLASH_ADDR + r + 4 * k) (le32 (fun i => data.getD i 0) (4 * k)),
      HAL_OK))


/-! ## Concrete inputs for the Data and End states -/

/-- The device after a Header packet declaring `package_size` bytes of application firmware
with CRC `package_crc` has been accepted. -/
def with_header (d : Device) (package_size package_crc : Nat) : Device :=
  { d with
    fw_config :=
      { App_fw_size := package_size
        App_fw_rec_crc := package_crc
        BL_fw_size := 0xFFFFFFFF
        BL_fw_rec_crc := 0xFFFFFFFF
        is_bl_fw_stored_in_app_fw := 0
        is_bl_fw_install_pending := 0
        data := [] } }

/-- A device in the Data state whose accepted Header packet declared `package_size` bytes with
CRC `package_crc`, with nothing received yet and the given Data packet in its buffer. -/
def data_device (package_size package_crc : Nat) (data : List Nat) : Device :=
  with_header (device_holding ETX_OTA_STATE_DATA ETX_OTA_PACKET_TYPE_DATA data) package_size
    package_crc

/-- A device in the End state, its flash erased, whose accepted Header packet declared
`package_size` bytes with CRC `package_crc`, holding the given packet in its buffer. -/
def end_device (package_size package_crc packet_type : Nat) (data : List Nat) : Device :=
  with_header (device_holding ETX_OTA_STATE_END packet_type data) package_size package_crc

/-- The events of a link that delivers the given packets byte by byte and then falls
silent. -/
def link_of (packets : List (List Nat)) : List RxEvent := packets.flatten.map RxEvent.byte

/-- A device about to be sent a whole transaction for an application image of 3 bytes: Start,
the Header declaring 3 bytes, and the single Data packet carrying them. -/
def short_final_chunk_device : Device :=
  sample_device ETX_OTA_STATE_IDLE (fun _ => 0)
    (link_of [packet_bytes ETX_OTA_PACKET_TYPE_CMD [ETX_OTA_CMD_START],
      packet_bytes ETX_OTA_PACKET_TYPE_HEADER
        (header_data 3 0x1B0D6951 ETX_OTA_Application_Firmware_Image),
      packet_bytes ETX_OTA_PACKET_TYPE_DATA [1, 2, 3]])

/-- A device about to be sent Start, a Header declaring 8 bytes, and a Data packet with
`data_len = 0`. -/
def empty_data_packet_device : Device :=
  sample_device ETX_OTA_STATE_IDLE (fun _ => 0)
    (link_of [packet_bytes ETX_OTA_PACKET_TYPE_CMD [ETX_OTA_CMD_START],
      packet_bytes ETX_OTA_PACKET_TYPE_HEADER
        (header_data 8 0 ETX_OTA_Application_Firmware_Image),
      packet_bytes ETX_OTA_PACKET_TYPE_DATA []])

/-- A device about to be sent Start, a Header declaring 8 bytes and the Data packet carrying
them, on which the first `HAL_FLASH_Program` call times out (after a successful unlock and
erase). -/
def flash_timeout_device : Device :=
  { sample_device ETX_OTA_STATE_IDLE (fun _ => 0)
      (link_of [packet_bytes ETX_OTA_PACKET_TYPE_CMD [ETX_OTA_CMD_START],
        packet_bytes ETX_OTA_PACKET_TYPE_HEADER
          (header_data 8 0 ETX_OTA_Application_Firmware_Image),
        packet_bytes ETX_OTA_PACKET_TYPE_DATA [1, 2, 3, 4, 5, 6, 7, 8]]) with
    flash := { mem := fun _ => 0xFF, hal_rets := [HAL_OK, HAL_OK, HAL_TIMEOUT], log := [] } }

/-! ## A link that stalls -/

/-- The link stalls: it has nothing more to deliver (the read times out), or the next read
reports `HAL_BUSY` or `HAL_TIMEOUT`. -/
def link_stalls (t : List RxEvent) : Prop :=
  t = [] ∨ (∃ rest, t = RxEvent.fault LinkFault.busy :: rest)
    ∨ (∃ rest, t = RxEvent.fault LinkFault.timeout :: rest)

/-! ## The packets a transaction accepts -/

/-- A packet for which `etx_ota_process_data` returned `ETX_OTA_EC_OK`: the state it was
processed in and the fields `packet_type`, `data_len` and `meta_data.package_size` of the
buffer at that moment. -/
structure Accepted where
  state : Nat
  packet_type : Nat
  data_len : Nat
  package_size : Nat
  deriving DecidableEq, Repr

/-- The packet a pass of the loop of `firmware_image_download_and_install` accepts: the one
`etx_ota_receive_packet` has received with `ETX_OTA_EC_OK` and `etx_ota_process_data` has
processed with `ETX_OTA_EC_OK`; `none` for every other pass. -/
def pass_accepted (T : Target) (d : Device) : Option Accepted :=
  let r := etx_ota_receive_packet d.ETX_OTA_hardware_protocol d.rx d.Rx_Buffer
    ETX_OTA_PACKET_MAX_SIZE
  let d := { d with Rx_Buffer := r.buf, rx := r.rx }
  if r.status = ETX_OTA_EC_OK ∧ (etx_ota_process_data T d).1 = ETX_OTA_EC_OK then
    some
      { state := d.etx_ota_state
        packet_type := d.Rx_Buffer 1
        data_len := le16 d.Rx_Buffer 2
        package_size := le32 d.Rx_Buffer 4 }
  else none

/-- The packets accepted along the passes of `download_loop`, oldest first. -/
def download_accepted (T : Target) : Nat → Device → List Accepted
  | 0, _ => []
  | passes + 1, d =>
    (pass_accepted T d).toList ++
      match download_pass T d with
      | (some _, _) => []
      | (none, d1) =>
        if d1.etx_ota_state ≠ ETX_OTA_STATE_IDLE then download_accepted T passes d1 else []

/-- The packets accepted in the transaction that `firmware_image_download_and_install` runs
on the device. -/
def transaction_accepted (T : Target) (d : Device) : List Accepted :=
  download_accepted T (d.rx.length + 1)
    { d with etx_ota_fw_received_size := 0, etx_ota_state := ETX_OTA_STATE_START }

/-- The `package_size` fields of the Header packets accepted. -/
def declared_package_sizes (tr : List Accepted) : List Nat :=
  (tr.filter (fun a => a.packet_type = ETX_OTA_PACKET_TYPE_HEADER)).map (fun a => a.package_size)

/-- The sum of `data_len` over the Data packets accepted. -/
def accepted_data_len (tr : List Accepted) : Nat :=
  ((tr.filter (fun a => a.packet_type = ETX_OTA_PACKET_TYPE_DATA)).map (fun a => a.data_len)).sum

/-- A device about to be sent a whole transaction whose Header declares 4 bytes (with the CRC
of the bytes 1, 2, 3, 4) and whose single Data packet carries 8 bytes. -/
def overshoot_device : Device :=
  sample_device ETX_OTA_STATE_IDLE (fun _ => 0)
    (link_of [packet_bytes ETX_OTA_PACKET_TYPE_CMD [ETX_OTA_CMD_START],
      packet_bytes ETX_OTA_PACKET_TYPE_HEADER
        (header_data 4 0x793737CD ETX_OTA_Application_Firmware_Image),
      packet_bytes ETX_OTA_PACKET_TYPE_DATA [1, 2, 3, 4, 5, 6, 7, 8],
      packet_bytes ETX_OTA_PACKET_TYPE_CMD [ETX_OTA_CMD_END]])

/-- The device once a pass of the loop has called `etx_ota_receive_packet`: the buffer filled
and the events consumed. -/
def after_reception (d : Device) : Device :=
  { d with
    Rx_Buffer := (etx_ota_receive_packet d.ETX_OTA_hardware_protocol d.rx d.Rx_Buffer
      ETX_OTA_PACKET_MAX_SIZE).buf
    rx := (etx_ota_receive_packet d.ETX_OTA_hardware_protocol d.rx d.Rx_Buffer
      ETX_OTA_PACKET_MAX_SIZE).rx }

/-- A device about to be sent a whole transaction for an image of the 8 bytes 1 .. 8: Start,
the Header declaring 8 bytes and their CRC, one Data packet carrying them, End. -/
def whole_image_device : Device :=
  sample_device ETX_OTA_STATE_IDLE (fun _ => 0)
    (link_of [packet_bytes ETX_OTA_PACKET_TYPE_CMD [ETX_OTA_CMD_START],
      packet_bytes ETX_OTA_PACKET_TYPE_HEADER
        (header_data 8 336301528 ETX_OTA_Application_Firmware_Image),
      packet_bytes ETX_OTA_PACKET_TYPE_DATA [1, 2, 3, 4, 5, 6, 7, 8],
      packet_bytes ETX_OTA_PACKET_TYPE_CMD [ETX_OTA_CMD_END]])

/-! ## Host tool: Command and Header packets, the transaction (`start_etx_ota_process`) -/

/-! `sizeof` of the packed structs `ETX_OTA_Command_Packet_t`, `header_data_t` and
`ETX_OTA_Header_Packet_t` -/
def ETX_OTA_CMD_PACKET_T_SIZE : Nat := 10
def ETX_OTA_HEADER_DATA_T_SIZE : Nat := 16
def ETX_OTA_HEADER_PACKET_T_SIZE : Nat := 25

/-! `etx_ota_protocol_host.h` -/
def ETX_OTA_32BITS_RESET_VALUE : Nat := 0xFFFFFFFF
def ETX_OTA_16BITS_RESET_VALUE : Nat := 0xFFFF
def ETX_OTA_8BITS_RESET_VALUE : Nat := 0xFF

namespace PcTool

/-! Configuration of the host tool: `etx_ota_config.h` with the overrides of
`app_etx_ota_config.h`, and the size macros of `etx_ota_protocol_host.c`. -/
def FLASH_PAGE_SIZE_IN_BYTES : Nat := 1024
def ETX_BL_PAGE_SIZE : Nat := 34
def ETX_APP_PAGE_SIZE : Nat := 86
def CUSTOM_DATA_MAX_SIZE : Nat := 2048
def ETX_OTA_BL_FW_SIZE : Nat := (FLASH_PAGE_SIZE_IN_BYTES * ETX_BL_PAGE_SIZE) % 2 ^ 32
def ETX_OTA_APP_FW_SIZE : Nat := (FLASH_PAGE_SIZE_IN_BYTES * ETX_APP_PAGE_SIZE) % 2 ^ 32
def ETX_OTA_MAX_FW_SIZE : Nat := ETX_OTA_APP_FW_SIZE

end PcTool

/-- The packet buffer as `send_etx_ota_abort`, `send_etx_ota_start` and `send_etx_ota_end`
fill it in: `memset` to zero, then the fields of the packed `ETX_OTA_Command_Packet_t` (`sof` at
byte 0, `packet_type` at 1, `data_len` at 2..3, `cmd` at 4, `crc` at 5..8, `eof` at 9), the CRC
being computed over the `cmd` byte in the buffer. -/
def command_packet_buffer (m : Mem) (cmd : Nat) : Mem :=
  let buf0 := memset m 0 ETX_OTA_PACKET_MAX_SIZE
  let buf1 := buf0.store 0 ETX_OTA_SOF
  let buf2 := buf1.store 1 ETX_OTA_PACKET_TYPE_CMD
  let buf3 := storeBytes buf2 2 (bytes_le16 1)
  let buf4 := buf3.store 4 cmd
  let buf5 := storeBytes buf4 5 (bytes_le32 (crc32_mpeg2 (readBytes buf4 4 1)))
  buf5.store 9 ETX_OTA_EOF

/-- The body that `send_etx_ota_abort`, `send_etx_ota_start` and `send_etx_ota_end` have in
common, for the command each of them writes into the `cmd` field: fill the buffer, send its
first `ETX_OTA_CMD_PACKET_T_SIZE` bytes, wait for the response. -/
def send_command_packet (h : Host) (cmd : Nat) : Nat × Host :=
  let buf := command_packet_buffer h.ETX_OTA_Packet_Buffer cmd
  match send_packet_bytes h.port (readBytes buf 0 ETX_OTA_CMD_PACKET_T_SIZE) with
  | (false, port1) =>
    (ETX_OTA_EC_ERR, { h with ETX_OTA_Packet_Buffer := buf, port := port1 })
  | (true, port1) =>
    match is_ack_resp_received { h with ETX_OTA_Packet_Buffer := buf, port := port1 } with
    | (false, h1) => (ETX_OTA_EC_ERR, h1)
    | (true, h1) => (ETX_OTA_EC_OK, h1)

/-- The function `send_etx_ota_abort`. -/
def send_etx_ota_abort (h : Host) : Nat × Host := send_command_packet h ETX_OTA_CMD_ABORT

/-- The function `send_etx_ota_start`. -/
def send_etx_ota_start (h : Host) : Nat × Host := send_command_packet h ETX_OTA_CMD_START

/-- The function `send_etx_ota_end`. -/
def send_etx_ota_end (h : Host) : Nat × Host := send_command_packet h ETX_OTA_CMD_END

/-- The struct `header_data_t` of the host. -/
structure header_data_t where
  package_size : Nat
  package_crc : Nat
  reserved1 : Nat
  reserved2 : Nat
  reserved3 : Nat
  payload_type : Nat

/-- The `ETX_OTA_HEADER_DATA_T_SIZE` bytes of a packed `header_data_t` in memory order:
`uint32_t package_size`, `uint32_t package_crc`, `uint32_t reserved1`, `uint16_t reserved2`,
`uint8_t reserved3`, `uint8_t payload_type`. -/
def header_data_t.bytes (x : header_data_t) : List Nat :=
  bytes_le32 x.package_size ++ bytes_le32 x.package_crc ++ bytes_le32 x.reserved1
    ++ bytes_le16 x.reserved2 ++ [x.reserved3 % 256] ++ [x.payload_type % 256]

/-- The function `send_etx_ota_header(comport, etx_ota_header_info)`.  In the packed
`ETX_OTA_Header_Packet_t` the field `meta_data` is at bytes 4..19, `crc` at 20..23 and `eof`
at 24; the CRC is computed over the `meta_data` bytes in the buffer. -/
def send_etx_ota_header (h : Host) (etx_ota_header_info : header_data_t) : Nat × Host :=
  let buf0 := memset h.ETX_OTA_Packet_Buffer 0 ETX_OTA_PACKET_MAX_SIZE
  let buf1 := buf0.store 0 ETX_OTA_SOF
  let buf2 := buf1.store 1 ETX_OTA_PACKET_TYPE_HEADER
  let buf3 := storeBytes buf2 2 (bytes_le16 ETX_OTA_HEADER_DATA_T_SIZE)
  let buf4 := storeBytes buf3 4 etx_ota_header_info.bytes
  let buf5 := storeBytes buf4 20
    (bytes_le32 (crc32_mpeg2 (readBytes buf4 4 ETX_OTA_HEADER_DATA_T_SIZE)))
  let buf6 := buf5.store 24 ETX_OTA_EOF
  match send_packet_bytes h.port (readBytes buf6 0 ETX_OTA_HEADER_PACKET_T_SIZE) with
  | (false, port1) =>
    (ETX_OTA_EC_ERR, { h with ETX_OTA_Packet_Buffer := buf6, port := port1 })
  | (true, port1) =>
    match is_ack_resp_received { h with ETX_OTA_Packet_Buffer := buf6, port := port1 } with
    | (false, h1) => (ETX_OTA_EC_ERR, h1)
    | (true, h1) => (ETX_OTA_EC_OK, h1)

/-- What `start_etx_ota_process` meets besides the serial traffic.  `open_rets` scripts the
results of the coming `RS232_OpenComport` calls (a missing entry is 0, the port opened);
`payload_file` is the content of the file at `payload_path`, `none` when `fopen_s` fails;
`fread_fails` tells that `fread` delivers fewer bytes than asked for; `opened` counts the calls
of `RS232_OpenComport` made so far, one per run of the body of `start_etx_ota_process`. -/
structure HostEnv where
  open_rets : List Nat
  payload_file : Option (List Nat)
  fread_fails : Bool
  opened : Nat

/-- The three `switch (ETX_OTA_Payload_Type)` statements of `start_etx_ota_process` that get
the payload size, validate it and fill `PAYLOAD_CONTENT`: the status of the early return they
take, or the bytes `PAYLOAD_CONTENT[0 .. payload_size-1]` together with `payload_size` (a
`uint32_t`).  For Custom Data the content is generated, `PAYLOAD_CONTENT[i] = i` in `uint8_t`. -/
def load_payload (env : HostEnv) (ETX_OTA_Payload_Type : Nat) : Except Nat (List Nat × Nat) :=
  if ETX_OTA_Payload_Type = ETX_OTA_Bootloader_Firmware_Image
      ∨ ETX_OTA_Payload_Type = ETX_OTA_Application_Firmware_Image then
    match env.payload_file with
    | none => Except.error ETX_OTA_EC_ERR
    | some file =>
      let payload_size := file.length % 2 ^ 32
      if ETX_OTA_Payload_Type = ETX_OTA_Bootloader_Firmware_Image
          ∧ payload_size > PcTool.ETX_OTA_BL_FW_SIZE then Except.error ETX_OTA_EC_NA
      else if ETX_OTA_Payload_Type = ETX_OTA_Application_Firmware_Image
          ∧ payload_size > PcTool.ETX_OTA_APP_FW_SIZE then Except.error ETX_OTA_EC_NA
      else if env.fread_fails then Except.error ETX_OTA_EC_ERR
      else Except.ok (file.take payload_size, payload_size)
  else if ETX_OTA_Payload_Type = ETX_OTA_Custom_Data then
    let payload_size := PcTool.CUSTOM_DATA_MAX_SIZE
    if payload_size > PcTool.CUSTOM_DATA_MAX_SIZE then Except.error ETX_OTA_EC_NA
    else Except.ok ((List.range PcTool.CUSTOM_DATA_MAX_SIZE).map (fun i => i % 256), payload_size)
  else Except.error ETX_OTA_EC_NA

/-- The loop `do { ret = send_etx_ota_abort(comport); } while (ret != ETX_OTA_EC_OK);` of
`start_etx_ota_process` with a bound on the number of passes; `none` when the bound is used up
before the loop is left. -/
def abort_loop : Nat → Host → Option Host
  | 0, _ => none
  | passes + 1, h =>
    match send_etx_ota_abort h with
    | (ret, h1) => if ret ≠ ETX_OTA_EC_OK then abort_loop passes h1 else some h1

/-- The loop `for (uint32_t i=0; i<payload_size; )` of `start_etx_ota_process` that sends the
Data packets, with a bound on the number of passes; `none` when the bound is used up before the
loop is left.  `size` is a `uint16_t`, `i` a `uint32_t`; the pointer `&PAYLOAD_CONTENT[i]`
designates the bytes of the payload from index `i` on. -/
def data_packets_loop (PAYLOAD_CONTENT : List Nat) (payload_size : Nat) :
    Nat → Nat → Host → Option (Nat × Host)
  | 0, _, _ => none
  | passes + 1, i, h =>
    if i < payload_size then
      let size :=
        if payload_size - i ≥ ETX_OTA_DATA_MAX_SIZE then ETX_OTA_DATA_MAX_SIZE
        else (payload_size - i) % 65536
      match send_etx_ota_data h (PAYLOAD_CONTENT.drop i) size with
      | (ret, h1) =>
        if ret ≠ ETX_OTA_EC_OK then some (ETX_OTA_EC_ERR, h1)
        else data_packets_loop PAYLOAD_CONTENT payload_size passes ((i + size) % 2 ^ 32) h1
    else some (ETX_OTA_EC_OK, h)

/-- The function `start_etx_ota_process(comport, payload_path, ETX_OTA_Payload_Type)`.
`fuel` bounds the depth of the recursion and the passes of the Abort loop; `none` when it is
used up.  A pass of the Data loop advances `i` by at least one, so `payload_size + 1` passes
always suffice there.  `payload_send_attempts` is a `uint8_t`. -/
def start_etx_ota_process :
    Nat → HostEnv → Host → Nat → Option (Nat × Host × HostEnv)
  | 0, _, _, _ => none
  | fuel + 1, env, h, ETX_OTA_Payload_Type =>
    let open_ret := env.open_rets.headD 0
    let env := { env with open_rets := env.open_rets.tail, opened := env.opened + 1 }
    if open_ret ≠ 0 then some (ETX_OTA_EC_ERR, h, env)
    else
    match load_payload env ETX_OTA_Payload_Type with
    | Except.error ret => some (ret, h, env)
    | Except.ok (PAYLOAD_CONTENT, payload_size) =>
    match (if h.payload_send_attempts = 0 then abort_loop (fuel + 1) h else some h) with
    | none => none
    | some h =>
    match send_etx_ota_start h with
    | (ret, h) =>
    if ret ≠ ETX_OTA_EC_OK then
      let attempts := h.payload_send_attempts
      let h := { h with payload_send_attempts := (attempts + 1) % 256 }
      if attempts = 0 then start_etx_ota_process fuel env h ETX_OTA_Payload_Type
      else some (ETX_OTA_EC_ERR, h, env)
    else
    let etx_ota_header_info : header_data_t :=
      { package_size := payload_size
        package_crc := crc32_mpeg2 (PAYLOAD_CONTENT.take payload_size)
        reserved1 := ETX_OTA_32BITS_RESET_VALUE
        reserved2 := ETX_OTA_16BITS_RESET_VALUE
        reserved3 := ETX_OTA_8BITS_RESET_VALUE
        payload_type := ETX_OTA_Payload_Type }
    match send_etx_ota_header h etx_ota_header_info with
    | (ret, h) =>
    if ret ≠ ETX_OTA_EC_OK then
      let attempts := h.payload_send_attempts
      let h := { h with payload_send_attempts := (attempts + 1) % 256 }
      if attempts = 0 then start_etx_ota_process fuel env h ETX_OTA_Payload_Type
      else some (ETX_OTA_EC_ERR, h, env)
    else
    match data_packets_loop PAYLOAD_CONTENT payload_size (payload_size + 1) 0 h with
    | none => none
    | some (ret, h) =>
    if ret ≠ ETX_OTA_EC_OK then some (ETX_OTA_EC_ERR, h, env)
    else
    match send_etx_ota_end h with
    | (ret, h) =>
    if ret ≠ ETX_OTA_EC_OK then some (ETX_OTA_EC_ERR, h, env)
    else some (ETX_OTA_EC_OK, h, env)

/-- What `is_ack_resp_received` tests on the bytes of the next poll, of which it takes at most
`sizeof(ETX_OTA_Response_Packet_t)` and after which the buffer holds zeros: at least one byte,
the type byte 3, the CRC field equal to the CRC of the status byte, the status byte ACK. -/
def poll_is_ack (polls : List (List Nat)) : Bool :=
  decide (((polls.headD []).take 10).length % 65536 > 0
    ∧ ((polls.headD []).take 10).getD 1 0 = ETX_OTA_PACKET_TYPE_RESPONSE
    ∧ le32 (fun i => ((polls.headD []).take 10).getD i 0) 5
        = crc32_mpeg2 [((polls.headD []).take 10).getD 4 0]
    ∧ ((polls.headD []).take 10).getD 4 0 = ETX_OTA_ACK)

/-- Reference chunking as section 4.6 words it: `k` consecutive chunks of at most 1024 bytes,
taken from the front of the payload, nothing skipped. -/
def reference_chunks : Nat → List Nat → List (List Nat)
  | 0, _ => []
  | k + 1, p => p.take 1024 :: reference_chunks k (p.drop 1024)

/-! ## Pre-bootloader (`Pre_Bootloader_v0.4`, `main.c`) -/

/-- Constants of `firmware_update_config.h` that the pre-bootloader uses besides those of
`Target`; the header is not among the sources. -/
structure ConfigValues where
  DATA_BLOCK_8BIT_ERASED_VALUE : Nat
  DATA_BLOCK_32BIT_ERASED_VALUE : Nat
  FIRM_UPDT_CONF_EC_ERR : Nat

/-- The values of an erased flash byte and word, and the error status counted as in
`ETX_OTA_Status`. -/
def reference_values : ConfigValues :=
  { DATA_BLOCK_8BIT_ERASED_VALUE := 0xFF
    DATA_BLOCK_32BIT_ERASED_VALUE := 0xFFFFFFFF
    FIRM_UPDT_CONF_EC_ERR := 4 }

namespace PreBootloader

/-! `PRE_BL_Status` -/
def PRE_BL_EC_OK : Nat := 0
def PRE_BL_EC_ERR : Nat := 4

/-- Globals of the pre-bootloader and what it finds on the chip.  `fw_config` is the global
struct; `attempts` the static counter of `custom_firmware_update_config_init`; `init_rets`
scripts the status of the coming `firmware_update_configurations_init` calls (a missing entry is
`FIRM_UPDT_CONF_EC_OK`); `record` is the latest record of the configuration store; `flash` the
flash memory by address. -/
structure State where
  fw_config : firmware_update_config_data_t
  attempts : Nat
  init_rets : List Nat
  record : firmware_update_config_data_t
  flash : Mem

/-- Modelled from the spec: `firmware_update_configurations_read` of the configuration
sub-module, which is not among the sources.  Section 4.7, step 2: it delivers the latest record
of the store. -/
def firmware_update_configurations_read (s : State) : State :=
  { s with fw_config := s.record }

/-- The function `custom_firmware_update_config_init`, with a bound on the depth of its
recursion (the counter `attempts`, a `uint8_t`, grows by one in each call that goes on, and a
call that finds it above 2 returns at once); the half-second delay loop is left out.  The
status travels through the `int16_t ret`. -/
def custom_firmware_update_config_init (T : Target) (V : ConfigValues) : Nat → State → Nat × State
  | 0, s => (V.FIRM_UPDT_CONF_EC_ERR, s)
  | depth + 1, s =>
    if s.attempts > 2 then (V.FIRM_UPDT_CONF_EC_ERR, s)
    else
      let ret := s.init_rets.headD T.FIRM_UPDT_CONF_EC_OK
      let s := { s with init_rets := s.init_rets.tail, attempts := (s.attempts + 1) % 256 }
      if ret ≠ T.FIRM_UPDT_CONF_EC_OK then custom_firmware_update_config_init T V depth s
      else (T.FIRM_UPDT_CONF_EC_OK, firmware_update_configurations_read s)

/-- The function `validate_application_firmware` of the pre-bootloader. -/
def validate_application_firmware (T : Target) (V : ConfigValues) (s : State) : Nat :=
  if s.fw_config.App_fw_size = V.DATA_BLOCK_32BIT_ERASED_VALUE ∨ s.fw_config.App_fw_size = 0 then
    PRE_BL_EC_ERR
  else if s.fw_config.App_fw_rec_crc = V.DATA_BLOCK_32BIT_ERASED_VALUE then PRE_BL_EC_ERR
  else
    let cal_crc := crc32_mpeg2 (readBytes s.flash T.ETX_APP_FLASH_ADDR s.fw_config.App_fw_size)
    if cal_crc ≠ s.fw_config.App_fw_rec_crc then PRE_BL_EC_ERR
    else PRE_BL_EC_OK

/-- How `main` of the pre-bootloader ends: in one of its `while (1);`, in the reset handler
of the bootloader firmware (`goto_bootloader_firmware` does not come back), or in
`HAL_NVIC_SystemReset` after the call of `install_bl_stored_in_app_fw`, whose status it holds. -/
inductive Exit where
  | halt
  | goto_bootloader_firmware
  | install_then_reset (ret : Nat)
  deriving DecidableEq, Repr

/-- The function `main` of the pre-bootloader.  `install_bl_stored_in_app_fw`, whose body is
not among the sources, is a parameter: the status it returns and what it leaves of the globals,
the configuration store and the flash.  `ret` is a `uint8_t`. -/
def main (T : Target) (V : ConfigValues) (install_bl_stored_in_app_fw : State → Nat × State)
    (s : State) : Exit × State :=
  match custom_firmware_update_config_init T V 4 s with
  | (ret, s) =>
    let ret := ret % 256
    if ret ≠ T.FIRM_UPDT_CONF_EC_OK then (Exit.halt, s)
    else
      let pending := s.fw_config.is_bl_fw_install_pending
      if pending = V.DATA_BLOCK_8BIT_ERASED_VALUE ∨ pending = T.NOT_PENDING then
        (Exit.goto_bootloader_firmware, s)
      else if pending = T.IS_PENDING then
        if validate_application_firmware T V s ≠ PRE_BL_EC_OK
            ∨ s.fw_config.is_bl_fw_stored_in_app_fw ≠ T.BT_FW_STORED_IN_APP_FW then
          (Exit.goto_bootloader_firmware, s)
        else
          match install_bl_stored_in_app_fw s with
          | (ret, s) => (Exit.install_then_reset (ret % 256), s)
      else (Exit.halt, s)

/-- The state in which `main` starts after a reset: the globals are initialised again
(`fw_config` zeroed, `attempts` 0), the configuration store and the flash are as the previous
run left them. -/
def reset (s : State) : State :=
  { s with
    fw_config :=
      { App_fw_size := 0, App_fw_rec_crc := 0, BL_fw_size := 0, BL_fw_rec_crc := 0
        is_bl_fw_stored_in_app_fw := 0, is_bl_fw_install_pending := 0, data := [] }
    attempts := 0 }

end PreBootloader

/-! ## Concrete inputs for the transaction-level claims -/

/-- A device about to be sent Start, the Header of an application image of 8 bytes, and then a
Command packet carrying Abort in place of the Data packet. -/
def abort_mid_download_device : Device :=
  sample_device ETX_OTA_STATE_IDLE (fun _ => 0)
    (link_of [packet_bytes ETX_OTA_PACKET_TYPE_CMD [ETX_OTA_CMD_START],
      packet_bytes ETX_OTA_PACKET_TYPE_HEADER
        (header_data 8 336301528 ETX_OTA_Application_Firmware_Image),
      packet_bytes ETX_OTA_PACKET_TYPE_CMD [ETX_OTA_CMD_ABORT]])

/-- A host whose port delivers, at the next poll, ten bytes that are not a Response packet
of the protocol: 0x00 in place of the SOF, a length field of 0, 0x00 in place of the EOF; the
type byte is 3, the status byte ACK and the CRC field the CRC of the status byte. -/
def malformed_ack_host : Host :=
  { ETX_OTA_Packet_Buffer := fun _ => 0
    port :=
      { sent := []
        send_rets := []
        polls := [[0x00, ETX_OTA_PACKET_TYPE_RESPONSE, 0, 0, ETX_OTA_ACK]
          ++ bytes_le32 (crc32_mpeg2 [ETX_OTA_ACK]) ++ [0x00]] }
    payload_send_attempts := 0 }

/-- A device in the Data state about to receive a Data packet whose data field 1, 3, 4, 5
comes with the CRC of 1, 2, 4, 5. -/
def corrupted_data_packet_device : Device :=
  sample_device ETX_OTA_STATE_DATA (fun _ => 0)
    (([ETX_OTA_SOF, ETX_OTA_PACKET_TYPE_DATA, 4, 0] ++ [1, 3, 4, 5]
      ++ bytes_le32 (crc32_mpeg2 [1, 2, 4, 5]) ++ [ETX_OTA_EOF]).map RxEvent.byte)

/-- The pre-bootloader right after a reset, on a chip whose configuration store holds the given
record and whose flash has the given content; the configuration sub-module initialises at the
first attempt. -/
def boot_state (record : firmware_update_config_data_t) (flash : Mem) : PreBootloader.State :=
  PreBootloader.reset
    { fw_config := record, attempts := 0, init_rets := [], record := record, flash := flash }

/-- A configuration record with the given size, CRC and flags; the bootloader fields erased. -/
def config_record (App_fw_size App_fw_rec_crc stored pending : Nat) :
    firmware_update_config_data_t :=
  { App_fw_size := App_fw_size
    App_fw_rec_crc := App_fw_rec_crc
    BL_fw_size := 0xFFFFFFFF
    BL_fw_rec_crc := 0xFFFFFFFF
    is_bl_fw_stored_in_app_fw := stored
    is_bl_fw_install_pending := pending
    data := [] }

/-- Erased flash with the given bytes at the start of the application slot of the reference
target. -/
def flash_with_image (image : List Nat) : Mem :=
  storeBytes (fun _ => 0xFF) reference_target.ETX_APP_FLASH_ADDR image

/-- The pre-bootloader with its record read, for an image of the four bytes 185, 80, 155, 182,
whose CRC is `0xFFFFFFFF`, recorded with that CRC. -/
def all_ones_crc_state : PreBootloader.State :=
  { fw_config := config_record 4 0xFFFFFFFF 1 1
    attempts := 1
    init_rets := []
    record := config_record 4 0xFFFFFFFF 1 1
    flash := flash_with_image [185, 80, 155, 182] }

/-- The pre-bootloader with its record read, for a record of size 0 whose recorded CRC is the
CRC of no bytes. -/
def empty_image_state : PreBootloader.State :=
  { fw_config := config_record 0 0xFFFFFFFF 1 1
    attempts := 1
    init_rets := []
    record := config_record 0 0xFFFFFFFF 1 1
    flash := flash_with_image [] }

/-- An `install_bl_stored_in_app_fw` that succeeds: it copies the 8 bytes of the application
slot to the bootloader slot at `0x08002000` and commits the record with the size and CRC of the
bootloader set and the pending flag cleared. -/
def install_succeeding (s : PreBootloader.State) : Nat × PreBootloader.State :=
  (ETX_OTA_EC_OK,
    { s with
      fw_config :=
        { s.fw_config with
          BL_fw_size := s.fw_config.App_fw_size
          BL_fw_rec_crc := s.fw_config.App_fw_rec_crc
          is_bl_fw_install_pending := reference_target.NOT_PENDING }
      record :=
        { s.fw_config with
          BL_fw_size := s.fw_config.App_fw_size
          BL_fw_rec_crc := s.fw_config.App_fw_rec_crc
          is_bl_fw_install_pending := reference_target.NOT_PENDING }
      flash := storeBytes s.flash 0x08002000
        (readBytes s.flash reference_target.ETX_APP_FLASH_ADDR 8) })

/-- An `install_bl_stored_in_app_fw` that fails without touching the record or the flash. -/
def install_failing (s : PreBootloader.State) : Nat × PreBootloader.State :=
  (ETX_OTA_EC_ERR, s)

/-- The Header packet as section 3 words it, byte by byte: `0xAA`, `0x02`, the length 16
little-endian, the 16 bytes of the header data (`package_size` and `package_crc` little-endian,
seven bytes `0xFF` for the reserved fields, `payload_type`), the CRC of those 16 bytes
little-endian, `0xBB`. -/
def reference_header_packet (package_size package_crc payload_type : Nat) : List Nat :=
  [0xAA, 0x02, 0x10, 0x00]
    ++ (bytes_le32 package_size ++ bytes_le32 package_crc
      ++ [0xFF, 0xFF, 0xFF, 0xFF, 0xFF, 0xFF, 0xFF] ++ [payload_type])
    ++ bytes_le32 (crc32_mpeg2 (bytes_le32 package_size ++ bytes_le32 package_crc
      ++ [0xFF, 0xFF, 0xFF, 0xFF, 0xFF, 0xFF, 0xFF] ++ [payload_type]))
    ++ [0xBB]

/-- The Response packet with status NACK as the device sends it. -/
def nack_response : List Nat := response_packet ETX_OTA_NACK

/-- A host about to send the image 1 .. 8 to a device that acknowledges the Abort command and
then answers NACK to the Start command, twice. -/
def refused_start_host : Host :=
  { ETX_OTA_Packet_Buffer := fun _ => 0
    port :=
      { sent := []
        send_rets := []
        polls := [response_packet ETX_OTA_ACK, nack_response, nack_response] }
    payload_send_attempts := 0 }

/-- The environment of a host tool whose port opens and whose payload file holds the bytes
1 .. 8. -/
def small_image_env : HostEnv :=
  { open_rets := [], payload_file := some [1, 2, 3, 4, 5, 6, 7, 8], fread_fails := false,
    opened := 0 }

/-- The packets of a transaction for the application image `p` after the opening Abort, in wire
order: Command(Start), the Header packet declaring `|p|`, `crc32_mpeg2 p` and the application
payload type, the Data packets of the chunks of at most 1024 bytes, Command(End). -/
def reference_transaction (p : List Nat) : List Nat :=
  packet_bytes ETX_OTA_PACKET_TYPE_CMD [ETX_OTA_CMD_START]
    ++ reference_header_packet p.length (crc32_mpeg2 p) ETX_OTA_Application_Firmware_Image
    ++ ((reference_chunks ((p.length + 1023) / 1024) p).map
        (packet_bytes ETX_OTA_PACKET_TYPE_DATA)).flatten
    ++ packet_bytes ETX_OTA_PACKET_TYPE_CMD [ETX_OTA_CMD_END]

/-! ## Concrete inputs for the claims on bounds and order -/

/-- A device about to be sent Start and a Header-type packet whose data field has 20 bytes
(`data_len = 20`): the 16 bytes of a header declaring an application image of 8 bytes, and four
bytes more. -/
def long_header_device : Device :=
  sample_device ETX_OTA_STATE_IDLE (fun _ => 0)
    (link_of [packet_bytes ETX_OTA_PACKET_TYPE_CMD [ETX_OTA_CMD_START],
      packet_bytes ETX_OTA_PACKET_TYPE_HEADER
        (header_data 8 336301528 ETX_OTA_Application_Firmware_Image ++ [0, 0, 0, 0])])

/-- The order of the protocol from a state on, as pairs of the state a packet is processed in
and its packet type: the Start command, the Header packet, `k + 1` Data packets, the End
command. -/
def reference_order (state k : Nat) : List (Nat × Nat) :=
  if state = ETX_OTA_STATE_START then
    (ETX_OTA_STATE_START, ETX_OTA_PACKET_TYPE_CMD)
      :: (ETX_OTA_STATE_HEADER, ETX_OTA_PACKET_TYPE_HEADER)
      :: (List.replicate (k + 1) (ETX_OTA_STATE_DATA, ETX_OTA_PACKET_TYPE_DATA)
        ++ [(ETX_OTA_STATE_END, ETX_OTA_PACKET_TYPE_CMD)])
  else if state = ETX_OTA_STATE_HEADER then
    (ETX_OTA_STATE_HEADER, ETX_OTA_PACKET_TYPE_HEADER)
      :: (List.replicate (k + 1) (ETX_OTA_STATE_DATA, ETX_OTA_PACKET_TYPE_DATA)
        ++ [(ETX_OTA_STATE_END, ETX_OTA_PACKET_TYPE_CMD)])
  else if state = ETX_OTA_STATE_DATA then
    List.replicate (k + 1) (ETX_OTA_STATE_DATA, ETX_OTA_PACKET_TYPE_DATA)
      ++ [(ETX_OTA_STATE_END, ETX_OTA_PACKET_TYPE_CMD)]
  else [(ETX_OTA_STATE_END, ETX_OTA_PACKET_TYPE_CMD)]

/-! ## Application firmware (`Application_firmware_v0.4`, `main.c`) -/

namespace Application

/-- How `custom_firmware_update_config_init` of the application ends: it returns, or it stays
in its final `while (1);`. -/
inductive Outcome where
  | returned
  | halted
  deriving DecidableEq, Repr

/-- The `do ... while (attempts < 3)` loop of `custom_firmware_update_config_init` of the
application, with a bound on the number of passes (`none` when the bound is used up), followed
by the `while (1);` after it.  `attempts` is the local `uint8_t` counter; the globals and the
configuration store are those of `PreBootloader.State`, whose field `attempts` the application
does not have and leaves alone; the half-second delay is left out.  Gives how the function
ends, the value of `attempts` then, and the state. -/
def config_init_loop (T : Target) :
    Nat → Nat → PreBootloader.State → Option (Outcome × Nat × PreBootloader.State)
  | 0, _, _ => none
  | passes + 1, attempts, s =>
    let ret := s.init_rets.headD T.FIRM_UPDT_CONF_EC_OK
    let s := { s with init_rets := s.init_rets.tail }
    let attempts := (attempts + 1) % 256
    if ret = T.FIRM_UPDT_CONF_EC_OK then
      some (Outcome.returned, attempts, PreBootloader.firmware_update_configurations_read s)
    else if attempts < 3 then config_init_loop T passes attempts s
    else some (Outcome.halted, attempts, s)

/-- The function `custom_firmware_update_config_init` of the application: the loop entered
with `attempts = 0`; three passes are all it can make. -/
def custom_firmware_update_config_init (T : Target) (s : PreBootloader.State) :
    Option (Outcome × Nat × PreBootloader.State) :=
  config_init_loop T 3 0 s

end Application

/-- A boot state whose configuration module fails to initialise twice (status 1) and then
succeeds. -/
def third_attempt_state : PreBootloader.State :=
  { boot_state (config_record 8 336301528 0 0) (fun _ => 0xFF) with
    init_rets := [1, 1, 0] }

/-- A device about to be sent Start, a Header declaring the 8 bytes 1 .. 8 of an application
image, a Data packet with `data_len = 0`, the Data packet carrying the 8 bytes, and End. -/
def repeated_erase_device : Device :=
  sample_device ETX_OTA_STATE_IDLE (fun _ => 0)
    (link_of [packet_bytes ETX_OTA_PACKET_TYPE_CMD [ETX_OTA_CMD_START],
      packet_bytes ETX_OTA_PACKET_TYPE_HEADER
        (header_data 8 336301528 ETX_OTA_Application_Firmware_Image),
      packet_bytes ETX_OTA_PACKET_TYPE_DATA [],
      packet_bytes ETX_OTA_PACKET_TYPE_DATA [1, 2, 3, 4, 5, 6, 7, 8],
      packet_bytes ETX_OTA_PACKET_TYPE_CMD [ETX_OTA_CMD_END]])

/-- A device of the reference target in the Data state, four bytes short of the end of the
application slot: the Header accepted declared 88064 bytes (the whole slot), 88060 bytes have
been received, and the buffer holds a Data packet of 8 bytes. -/
def slot_end_device : Device :=
  { data_device 88064 0 [1, 2, 3, 4, 5, 6, 7, 8] with etx_ota_fw_received_size := 88060 }

/-! ## The configuration store on its two flash pages -/

namespace FirmwareUpdateConfig

/-- Modelled from the spec: the value of an erased flash word.  Section 4.3: Read-latest
"treats `0xFFFFFFFF` in the first word as slot empty". -/
def ERASED_WORD : Nat := 0xFFFFFFFF

/-- Modelled from the spec: a flash page of the configuration sub-module
(`firmware_update_config`), which is not among the sources.  Section 4.3: a page is an append
log of fixed-size records.  A record is taken as the 32-bit words its slot holds, its byte
layout being private to the firmware.  `slots` are the slots programmed since the page was
erased, oldest first, each with its words; the other `capacity - slots.length` slots are
erased. -/
structure Page where
  slots : List (List Nat)
  capacity : Nat

/-- Modelled from the spec: the two reserved flash pages of Section 4.3. -/
structure Store where
  page0 : Page
  page1 : Page

/-- Modelled from the spec: a slot counts as empty when its first word is `0xFFFFFFFF`. -/
def slot_empty (ws : List Nat) : Bool := decide (ws.headD ERASED_WORD = ERASED_WORD)

/-- A flash operation of the store on one of its pages (`false` is page 0, `true` page 1):
the erase of the page, or the programming of the words of a record into its next free slot. -/
inductive Op where
  | erase (page : Bool)
  | program (page : Bool) (ws : List Nat)

/-- The page a flash operation names. -/
def Store.page (s : Store) (p : Bool) : Page := if p then s.page1 else s.page0

/-- The store with one of its pages replaced. -/
def Store.with_page (s : Store) (p : Bool) (pg : Page) : Store :=
  if p then { s with page1 := pg } else { s with page0 := pg }

/-- Modelled from the spec: what a flash operation does.  An erase leaves every slot of the
page erased; programming fills the next free slot, and does nothing on a page that has none. -/
def Op.apply : Op → Store → Store
  | Op.erase p, s => s.with_page p { s.page p with slots := [] }
  | Op.program p ws, s =>
    if (s.page p).slots.length < (s.page p).capacity then
      s.with_page p { s.page p with slots := (s.page p).slots ++ [ws] }
    else s

/-- The flash operations carried out one after the other. -/
def run (ops : List Op) (s : Store) : Store := ops.foldl (fun s op => op.apply s) s

/-- Modelled from the spec: `firmware_update_configurations_read`, Read-latest of
Section 4.3: it scans both pages in order and returns the last slot that is not empty; `none`
when every slot is empty. -/
def firmware_update_configurations_read (s : Store) : Option (List Nat) :=
  ((s.page0.slots ++ s.page1.slots).filter (fun ws => !slot_empty ws)).getLast?

/-- The currently active page: the one that holds the slot programmed last. -/
def active_page (s : Store) : Bool := decide (s.page1.slots ≠ [])

/-- Modelled from the spec: the flash operations of Write, Section 4.3, in the order they
are made.  When the active page has a free slot the record is programmed into it (steps 1 and
3); otherwise the other page is erased, the record is programmed into its first slot, and the
page that was active is erased (step 2). -/
def write_ops (s : Store) (r : List Nat) : List Op :=
  if ((s.page (active_page s)).slots.length < (s.page (active_page s)).capacity) then
    [Op.program (active_page s) r]
  else
    [Op.erase (!active_page s), Op.program (!active_page s) r, Op.erase (active_page s)]

/-- Modelled from the spec: `firmware_update_configurations_write` when it completes. -/
def firmware_update_configurations_write (s : Store) (r : List Nat) : Store :=
  run (write_ops s r) s

end FirmwareUpdateConfig

/-- The Data packets of 87040 + 1020 = 88060 zero bytes: 85 of 1024 bytes and one of 1020. -/
def slot_overrun_chunks : List (List Nat) :=
  List.replicate 85 (List.replicate 1024 0) ++ [List.replicate 1020 0]

/-- A device of the reference target about to be sent Start, a Header that declares an
application image of 88064 bytes (the whole application slot), the Data packets of
`slot_overrun_chunks` and a Data packet of 8 bytes, after which the link falls silent. -/
def slot_overrun_device : Device :=
  sample_device ETX_OTA_STATE_IDLE (fun _ => 0)
    (link_of ([packet_bytes ETX_OTA_PACKET_TYPE_CMD [ETX_OTA_CMD_START],
        packet_bytes ETX_OTA_PACKET_TYPE_HEADER
          (header_data 88064 0 ETX_OTA_Application_Firmware_Image)]
      ++ slot_overrun_chunks.map (packet_bytes ETX_OTA_PACKET_TYPE_DATA)
      ++ [packet_bytes ETX_OTA_PACKET_TYPE_DATA [1, 2, 3, 4, 5, 6, 7, 8]]))

set_option maxRecDepth 100000 in
theorem crc_table_length : crc_table.length = 256 := by decide

set_option maxRecDepth 100000 in
theorem crc_table_lt : ∀ t, t < 256 → crc_table.getD t 0 < 2 ^ 32 := by decide

set_option maxRecDepth 100000 in
theorem crc_table_eq_ref_bits : ∀ t, t < 256 → crc_table.getD t 0 = crc_ref_bits 8 (t <<< 24) := by
  decide


theorem testBit_false_of_lt {v n j : Nat} (hv : v < 2 ^ n) (hj : n ≤ j) : v.testBit j = false :=
  Nat.testBit_lt_two_pow (lt_of_lt_of_le hv (Nat.pow_le_pow_right (by decide) hj))

theorem and_msb_eq_zero_iff (x : Nat) : x &&& 0x80000000 = 0 ↔ x.testBit 31 = false := by
  have h := Nat.and_two_pow x 31
  have e : (0x80000000 : Nat) = 2 ^ 31 := by norm_num
  rw [e, h]
  cases x.testBit 31 <;> simp

theorem crc_ref_bit_lt (x : Nat) : crc_ref_bit x < 2 ^ 32 := by
  unfold crc_ref_bit
  split <;> exact Nat.mod_lt _ (by positivity)

theorem crc_ref_bits_lt (k x : Nat) (hx : x < 2 ^ 32) : crc_ref_bits k x < 2 ^ 32 := by
  induction k generalizing x with
  | zero => simpa [crc_ref_bits] using hx
  | succ k ih => simpa [crc_ref_bits] using ih _ (crc_ref_bit_lt x)

/-- A bit step is linear over XOR with a value whose top bit is clear. -/
theorem crc_ref_bit_xor (u v : Nat) (hv : v < 2 ^ 31) :
    crc_ref_bit (u ^^^ v) = crc_ref_bit u ^^^ (v <<< 1) := by
  have hv31 : v.testBit 31 = false := Nat.testBit_lt_two_pow hv
  have hc : ((u ^^^ v) &&& 0x80000000 = 0) ↔ (u &&& 0x80000000 = 0) := by
    rw [and_msb_eq_zero_iff, and_msb_eq_zero_iff, Nat.testBit_xor, hv31]; simp
  unfold crc_ref_bit
  by_cases h : u &&& 0x80000000 = 0
  · rw [if_pos h, if_pos (hc.mpr h)]
    apply Nat.eq_of_testBit_eq
    intro i
    simp only [Nat.testBit_mod_two_pow, Nat.testBit_shiftLeft, Nat.testBit_xor]
    by_cases hi : i < 32
    · simp [hi]
      cases (decide (1 ≤ i)) <;> cases (u.testBit (i-1)) <;> cases (v.testBit (i-1)) <;> simp
    · have : v.testBit (i - 1) = false := testBit_false_of_lt hv (by omega)
      simp [hi, this]
  · rw [if_neg h, if_neg (fun h' => h (hc.mp h'))]
    apply Nat.eq_of_testBit_eq
    intro i
    simp only [Nat.testBit_mod_two_pow, Nat.testBit_shiftLeft, Nat.testBit_xor]
    by_cases hi : i < 32
    · simp [hi, Bool.xor_assoc, Bool.xor_comm]
      cases (decide (1 ≤ i)) <;> cases (u.testBit (i-1)) <;> cases (v.testBit (i-1)) <;> simp
    · have : v.testBit (i - 1) = false := testBit_false_of_lt hv (by omega)
      simp [hi, this]


theorem crc_ref_bits_xor (k u v : Nat) (hk : k ≤ 32) (hv : v < 2 ^ (32 - k)) :
    crc_ref_bits k (u ^^^ v) = crc_ref_bits k u ^^^ (v <<< k) := by
  induction k generalizing u v with
  | zero => simp [crc_ref_bits]
  | succ k ih =>
    have hv31 : v < 2 ^ 31 :=
      lt_of_lt_of_le hv (Nat.pow_le_pow_right (by decide) (by omega))
    have hv2 : v <<< 1 < 2 ^ (32 - k) := by
      rw [Nat.shiftLeft_eq]
      have : 32 - k = (32 - (k + 1)) + 1 := by omega
      rw [this, Nat.pow_succ]
      exact Nat.mul_lt_mul_of_pos_right hv (by decide)
    simp only [crc_ref_bits]
    rw [crc_ref_bit_xor u v hv31, ih _ _ (by omega) hv2]
    congr 1

/-- Split of the register after the byte has entered: the top byte selects the table entry,
the low 24 bits are only shifted. -/
theorem crc_split (c b : Nat) :
    (c ^^^ (b <<< 24)) % 2 ^ 32
      = (((((c >>> 24) % 256) ^^^ b) % 256) <<< 24) ^^^ (c % 2 ^ 24) := by
  apply Nat.eq_of_testBit_eq
  intro i
  have e : (256 : Nat) = 2 ^ 8 := by norm_num
  simp only [e, Nat.testBit_mod_two_pow, Nat.testBit_shiftLeft, Nat.testBit_xor,
    Nat.testBit_shiftRight]
  by_cases h24 : i < 24
  · have h1 : ¬ (i ≥ 24) := by omega
    have h2 : i < 32 := by omega
    simp [h24, h1, h2]
  · by_cases h32 : i < 32
    · have h1 : i ≥ 24 := by omega
      have h3 : i - 24 < 8 := by omega
      have h4 : 24 + (i - 24) = i := by omega
      simp [h24, h1, h32, h3, h4]
    · have h3 : ¬ (i - 24 < 8) := by omega
      simp [h24, h32, h3]

theorem crc32_mpeg2_step_eq_ref (c b : Nat) :
    crc32_mpeg2_step c b = crc_ref_byte c b := by
  unfold crc32_mpeg2_step crc_ref_byte
  simp only []
  rw [crc_split]
  have ht : (((c >>> 24) % 256) ^^^ b) % 256 < 256 := Nat.mod_lt _ (by decide)
  have hlo : c % 2 ^ 24 < 2 ^ (32 - 8) := Nat.mod_lt _ (by positivity)
  rw [crc_ref_bits_xor 8 _ _ (by decide) hlo, ← crc_table_eq_ref_bits _ ht, Nat.xor_comm]
  congr 1
  rw [Nat.shiftLeft_eq, Nat.shiftLeft_eq]
  omega

theorem crc32_mpeg2_step_lt (c b : Nat) : crc32_mpeg2_step c b < 2 ^ 32 := by
  unfold crc32_mpeg2_step
  exact Nat.xor_lt_two_pow (Nat.mod_lt _ (by positivity))
    (crc_table_lt _ (Nat.mod_lt _ (by decide)))

theorem foldl_crc32_mpeg2_step_lt (d : List Nat) (c : Nat) (hc : c < 2 ^ 32) :
    d.foldl crc32_mpeg2_step c < 2 ^ 32 := by
  induction d generalizing c with
  | nil => simpa using hc
  | cons b d ih => exact ih _ (crc32_mpeg2_step_lt c b)

theorem crc32_mpeg2_lt (d : List Nat) : crc32_mpeg2 d < 2 ^ 32 :=
  foldl_crc32_mpeg2_step_lt d _ (by decide)

theorem foldl_step_eq_ref (d : List Nat) (c : Nat) :
    d.foldl crc32_mpeg2_step c = d.foldl crc_ref_byte c := by
  induction d generalizing c with
  | nil => rfl
  | cons b d ih =>
    simp only [List.foldl_cons]
    rw [← crc32_mpeg2_step_eq_ref c b]
    exact ih _

/-- C2: on every byte sequence the table-driven `crc32_mpeg2` equals the bitwise
CRC-32/MPEG-2 reference (polynomial `0x04C11DB7`, initial value `0xFFFFFFFF`, most
significant bit first, no reflection, no final XOR, arithmetic modulo `2 ^ 32`). -/
theorem crc32_mpeg2_eq_ref (data : List Nat) : crc32_mpeg2 data = crc32_mpeg2_ref data :=
  foldl_step_eq_ref data _

/-! ## Memory lemmas -/

@[simp] theorem store_same (m : Mem) (i b : Nat) : (m.store i b) i = b := by
  simp [Mem.store]

theorem store_ne (m : Mem) {i j : Nat} (b : Nat) (h : j ≠ i) : (m.store i b) j = m j := by
  simp [Mem.store, h]

theorem storeBytes_lt (bs : List Nat) (m : Mem) (i j : Nat) (h : j < i) :
    storeBytes m i bs j = m j := by
  induction bs generalizing m i with
  | nil => rfl
  | cons b bs ih =>
    simp only [storeBytes]
    rw [ih _ _ (by omega), store_ne _ _ (by omega)]

theorem storeBytes_ge (bs : List Nat) (m : Mem) (i j : Nat) (h : i + bs.length ≤ j) :
    storeBytes m i bs j = m j := by
  induction bs generalizing m i with
  | nil => rfl
  | cons b bs ih =>
    simp only [storeBytes, List.length_cons] at h ⊢
    rw [ih _ _ (by omega), store_ne _ _ (by omega)]

theorem storeBytes_mid (bs : List Nat) (m : Mem) (i k : Nat) (h : k < bs.length) :
    storeBytes m i bs (i + k) = bs.getD k 0 := by
  induction bs generalizing m i k with
  | nil => simp at h
  | cons b bs ih =>
    simp only [storeBytes]
    cases k with
    | zero =>
      rw [storeBytes_lt _ _ _ _ (by omega)]
      simp [Mem.store]
    | succ k =>
      have := ih (m.store i b) (i + 1) k (by simpa using h)
      rw [show i + (k + 1) = i + 1 + k by omega, this]; rfl

theorem readBytes_length (m : Mem) (i n : Nat) : (readBytes m i n).length = n := by
  induction n generalizing i with
  | zero => rfl
  | succ n ih => simp [readBytes, ih]

theorem readBytes_congr (m m' : Mem) (i n : Nat) (h : ∀ j, i ≤ j → j < i + n → m j = m' j) :
    readBytes m i n = readBytes m' i n := by
  induction n generalizing i with
  | zero => rfl
  | succ n ih =>
    simp only [readBytes]
    rw [h i (by omega) (by omega), ih (i + 1) (fun j h1 h2 => h j (by omega) (by omega))]

theorem readBytes_storeBytes (bs : List Nat) (m : Mem) (i : Nat) :
    readBytes (storeBytes m i bs) i bs.length = bs := by
  induction bs generalizing m i with
  | nil => rfl
  | cons b bs ih =>
    simp only [storeBytes, List.length_cons, readBytes]
    rw [storeBytes_lt _ _ _ _ (by omega), store_same, ih]

theorem readBytes_add (m : Mem) (i a b : Nat) :
    readBytes m i (a + b) = readBytes m i a ++ readBytes m (i + a) b := by
  induction a generalizing i with
  | zero => simp [readBytes]
  | succ a ih =>
    rw [show a + 1 + b = (a + b) + 1 by omega]
    simp only [readBytes, List.cons_append]
    rw [ih, show i + 1 + a = i + (a + 1) by omega]

theorem le32_bytes_le32 (m : Mem) (i x : Nat) (hx : x < 2 ^ 32) :
    le32 (storeBytes m i (bytes_le32 x)) i = x := by
  have h0 := storeBytes_mid (bytes_le32 x) m i 0 (by simp [bytes_le32])
  have h1 := storeBytes_mid (bytes_le32 x) m i 1 (by simp [bytes_le32])
  have h2 := storeBytes_mid (bytes_le32 x) m i 2 (by simp [bytes_le32])
  have h3 := storeBytes_mid (bytes_le32 x) m i 3 (by simp [bytes_le32])
  simp only [Nat.add_zero] at h0
  unfold le32
  rw [h0, h1, h2, h3]
  simp only [bytes_le32, List.getD_cons_zero, List.getD_cons_succ]
  omega

theorem le16_bytes_le16 (m : Mem) (i x : Nat) (hx : x < 65536) :
    le16 (storeBytes m i (bytes_le16 x)) i = x := by
  have h0 := storeBytes_mid (bytes_le16 x) m i 0 (by simp [bytes_le16])
  have h1 := storeBytes_mid (bytes_le16 x) m i 1 (by simp [bytes_le16])
  simp only [Nat.add_zero] at h0
  unfold le16
  rw [h0, h1]
  simp only [bytes_le16, List.getD_cons_zero, List.getD_cons_succ]
  omega

/-! ## Host tool: the bytes of a Data packet -/

theorem data_field_index_eq : ETX_OTA_DATA_FIELD_INDEX = 4 := rfl

theorem packet_max_size_eq : ETX_OTA_PACKET_MAX_SIZE = 1033 := rfl

theorem send_packet_bytes_ok (bs sent : List Nat) (polls : List (List Nat)) :
    send_packet_bytes ⟨sent, [], polls⟩ bs = (true, ⟨sent ++ bs, [], polls⟩) := by
  induction bs generalizing sent with
  | nil => simp [send_packet_bytes]
  | cons b bs ih =>
    simp only [send_packet_bytes, RS232_SendByte, List.headD_nil, List.tail_nil]
    simp [ih]

theorem is_ack_resp_received_sent (h : Host) :
    (is_ack_resp_received h).2.port.sent = h.port.sent := by
  unfold is_ack_resp_received RS232_PollComport
  simp only []
  split_ifs <;> rfl

theorem packet_bytes_length (t : Nat) (d : List Nat) :
    (packet_bytes t d).length = d.length + 9 := by
  simp [packet_bytes, bytes_le32]

/-- The packet buffer of the host as `send_etx_ota_data` fills it in. -/
theorem data_packet_buffer (m : Mem) (d : List Nat) (hd : d.length ≤ 1024) :
    readBytes
      (((storeBytes (storeBytes (storeBytes (((memset m 0 1033).store 0 ETX_OTA_SOF).store 1
        ETX_OTA_PACKET_TYPE_DATA) 2 (bytes_le16 d.length)) 4 d) (4 + d.length)
        (bytes_le32 (crc32_mpeg2 d))).store (4 + d.length + 4) ETX_OTA_EOF)) 0 (d.length + 9)
      = packet_bytes ETX_OTA_PACKET_TYPE_DATA d := by
  have e : d.length + 9 = 4 + (d.length + (4 + 1)) := by omega
  rw [e, readBytes_add, readBytes_add, readBytes_add]
  have hcrc : (bytes_le32 (crc32_mpeg2 d)).length = 4 := rfl
  have h1 : ∀ (m1 : Mem) (x : Nat), readBytes (m1.store (4 + d.length + 4) x) (0 + 4 + d.length + 4) 1
      = [x] := by
    intro m1 x
    simp [readBytes, Mem.store]
  have h2 : ∀ (m1 : Mem) (x : Nat),
      readBytes ((storeBytes m1 (4 + d.length) (bytes_le32 (crc32_mpeg2 d))).store
        (4 + d.length + 4) x) (0 + 4 + d.length) 4 = bytes_le32 (crc32_mpeg2 d) := by
    intro m1 x
    rw [readBytes_congr _ (storeBytes m1 (4 + d.length) (bytes_le32 (crc32_mpeg2 d))) _ _
      (fun j _ hj => store_ne _ _ (by omega))]
    have := readBytes_storeBytes (bytes_le32 (crc32_mpeg2 d)) m1 (4 + d.length)
    rw [hcrc] at this
    simpa using this
  have h3 : ∀ (m1 : Mem) (x : Nat),
      readBytes ((storeBytes (storeBytes m1 4 d) (4 + d.length)
        (bytes_le32 (crc32_mpeg2 d))).store (4 + d.length + 4) x) (0 + 4) d.length = d := by
    intro m1 x
    rw [readBytes_congr _ (storeBytes m1 4 d) _ _ (fun j _ hj => by
      rw [store_ne _ _ (by omega), storeBytes_lt _ _ _ _ (by omega)])]
    simpa using readBytes_storeBytes d m1 4
  have h4 : ∀ (x : Nat),
      readBytes ((storeBytes (storeBytes (storeBytes (((memset m 0 1033).store 0
        ETX_OTA_SOF).store 1 ETX_OTA_PACKET_TYPE_DATA) 2 (bytes_le16 d.length)) 4 d)
        (4 + d.length) (bytes_le32 (crc32_mpeg2 d))).store (4 + d.length + 4) x) 0 4
        = [ETX_OTA_SOF, ETX_OTA_PACKET_TYPE_DATA, d.length % 256, d.length / 256] := by
    intro x
    rw [readBytes_congr _ (storeBytes (((memset m 0 1033).store 0 ETX_OTA_SOF).store 1
      ETX_OTA_PACKET_TYPE_DATA) 2 (bytes_le16 d.length)) _ _ (fun j _ hj => by
      rw [store_ne _ _ (by omega), storeBytes_lt _ _ _ _ (by omega),
        storeBytes_lt _ _ _ _ (by omega)])]
    have hq : d.length / 256 % 256 = d.length / 256 := by omega
    simp [readBytes, storeBytes, bytes_le16, Mem.store, hq]
  rw [h1, h2, h3, h4]
  simp [packet_bytes]

/-- With a port that accepts every byte, `send_etx_ota_data` appends the packet of its payload
to the bytes sent so far. -/
theorem send_etx_ota_data_sent_append (m : Mem) (sent : List Nat) (polls : List (List Nat))
    (attempts : Nat) (d : List Nat) (hd : d.length ≤ 1024) :
    (send_etx_ota_data ⟨m, ⟨sent, [], polls⟩, attempts⟩ d d.length).2.port.sent
      = sent ++ packet_bytes ETX_OTA_PACKET_TYPE_DATA d := by
  unfold send_etx_ota_data
  simp only [List.take_length, data_field_index_eq, packet_max_size_eq, ETX_OTA_CRC32_SIZE,
    ETX_OTA_EOF_SIZE]
  have e1 : (4 + d.length) % 65536 = 4 + d.length := by omega
  have e2 : (4 + d.length + 4) % 65536 = 4 + d.length + 4 := by omega
  have e3 : (4 + d.length + 4 + 1) % 65536 = d.length + 9 := by omega
  rw [e1, e2, e3, data_packet_buffer m d hd, send_packet_bytes_ok]
  simp only []
  split
  · next h1 heq =>
    have := is_ack_resp_received_sent
      ⟨(storeBytes (storeBytes (storeBytes (((memset m 0 1033).store 0 ETX_OTA_SOF).store 1
        ETX_OTA_PACKET_TYPE_DATA) 2 (bytes_le16 d.length)) 4 d) (4 + d.length)
        (bytes_le32 (crc32_mpeg2 d))).store (4 + d.length + 4) ETX_OTA_EOF,
        ⟨sent ++ packet_bytes ETX_OTA_PACKET_TYPE_DATA d, [], polls⟩, attempts⟩
    rw [heq] at this
    exact this
  · next h1 heq =>
    have := is_ack_resp_received_sent
      ⟨(storeBytes (storeBytes (storeBytes (((memset m 0 1033).store 0 ETX_OTA_SOF).store 1
        ETX_OTA_PACKET_TYPE_DATA) 2 (bytes_le16 d.length)) 4 d) (4 + d.length)
        (bytes_le32 (crc32_mpeg2 d))).store (4 + d.length + 4) ETX_OTA_EOF,
        ⟨sent ++ packet_bytes ETX_OTA_PACKET_TYPE_DATA d, [], polls⟩, attempts⟩
    rw [heq] at this
    exact this

/-! ## Packet reception on a stream of bytes -/

theorem HAL_ret_handler_OK : HAL_ret_handler HAL_OK = HAL_OK := by decide

theorem HAL_UART_Receive_bytes (bs : List Nat) (rest : List RxEvent) :
    HAL_UART_Receive bs.length (bs.map RxEvent.byte ++ rest) = (HAL_OK, bs, rest) := by
  induction bs with
  | nil => cases rest <;> rfl
  | cons b bs ih => simp [HAL_UART_Receive, ih]

theorem receive_data_UART_bytes (d : List Nat) (len : Nat) (buf : Mem) (rest : List RxEvent)
    (hlen : len < 65536) (h : len + d.length ≤ 65536) :
    receive_data_UART d.length len buf (d.map RxEvent.byte ++ rest)
      = (HAL_OK, (len + d.length) % 65536, storeBytes buf len d, rest) := by
  induction d generalizing len buf with
  | nil =>
    simp only [List.length_nil, List.map_nil, List.nil_append, receive_data_UART, storeBytes,
      Nat.add_zero]
    rw [Nat.mod_eq_of_lt hlen]
  | cons b d ih =>
    have e := HAL_UART_Receive_bytes [b] (d.map RxEvent.byte ++ rest)
    simp only [List.length_cons, List.length_nil, List.map_cons, List.map_nil, Nat.zero_add,
      List.cons_append, List.nil_append] at e h
    simp only [List.length_cons, List.map_cons, List.cons_append, receive_data_UART, e,
      HAL_ret_handler_OK, ne_eq, not_true_eq_false, if_false, storeBytes]
    cases d with
    | nil =>
      simp only [List.length_nil, List.map_nil, List.nil_append, receive_data_UART, storeBytes]
    | cons b2 d2 =>
      simp only [List.length_cons] at h
      have hl : (len + 1) % 65536 = len + 1 := Nat.mod_eq_of_lt (by omega)
      rw [hl, ih (len + 1) _ (by omega) (by simp only [List.length_cons]; omega)]
      simp only [List.length_cons]
      rw [show len + 1 + (d2.length + 1) = len + (d2.length + 1 + 1) by omega]

theorem HAL_UART_Receive_one (b : Nat) (rx : List RxEvent) :
    HAL_UART_Receive 1 (RxEvent.byte b :: rx) = (HAL_OK, [b], rx) := by
  simp [HAL_UART_Receive]

theorem HAL_UART_Receive_two (b0 b1 : Nat) (rx : List RxEvent) :
    HAL_UART_Receive 2 (RxEvent.byte b0 :: RxEvent.byte b1 :: rx) = (HAL_OK, [b0, b1], rx) := by
  simp [HAL_UART_Receive]

theorem HAL_UART_Receive_four (b0 b1 b2 b3 : Nat) (rx : List RxEvent) :
    HAL_UART_Receive 4
      (RxEvent.byte b0 :: RxEvent.byte b1 :: RxEvent.byte b2 :: RxEvent.byte b3 :: rx)
      = (HAL_OK, [b0, b1, b2, b3], rx) := by
  simp [HAL_UART_Receive]

/-- The header bytes of a packet as `etx_ota_receive_packet` stores them. -/
theorem header_stores (buf : Mem) (t lo hi : Nat) :
    storeBytes (storeBytes (storeBytes buf 0 [ETX_OTA_SOF]) 1 [t]) 2 [lo, hi]
      = storeBytes buf 0 [ETX_OTA_SOF, t, lo, hi] := rfl

/-- Symbolic run of the UART branch on a stream that starts with a frame-shaped sequence of
bytes whose data field does not run past offset 65535. -/
theorem receive_UART_frame (t lo hi : Nat) (d : List Nat) (c0 c1 c2 c3 e : Nat)
    (rest : List RxEvent) (buf : Mem) (max_len : Nat)
    (ht : t ≤ 3) (hn : d.length = lo + 256 * hi) (hd : 4 + d.length ≤ 65536) :
    etx_ota_receive_packet_UART
      (([ETX_OTA_SOF, t, lo, hi] ++ d ++ [c0, c1, c2, c3] ++ [e]).map RxEvent.byte ++ rest)
      buf max_len
    = receive_packet_checks
        (storeBytes (storeBytes (storeBytes (storeBytes buf 0 [ETX_OTA_SOF, t, lo, hi]) 4 d)
          ((4 + d.length) % 65536) [c0, c1, c2, c3]) (((4 + d.length) % 65536 + 4) % 65536) [e])
        rest (((4 + d.length) % 65536 + 4) % 65536) d.length
        (le32 (storeBytes (storeBytes (storeBytes buf 0 [ETX_OTA_SOF, t, lo, hi]) 4 d)
          ((4 + d.length) % 65536) [c0, c1, c2, c3]) ((4 + d.length) % 65536))
        max_len := by
  have hty : t = ETX_OTA_PACKET_TYPE_CMD ∨ t = ETX_OTA_PACKET_TYPE_DATA
      ∨ t = ETX_OTA_PACKET_TYPE_HEADER ∨ t = ETX_OTA_PACKET_TYPE_RESPONSE := by
    simp only [ETX_OTA_PACKET_TYPE_CMD, ETX_OTA_PACKET_TYPE_DATA, ETX_OTA_PACKET_TYPE_HEADER,
      ETX_OTA_PACKET_TYPE_RESPONSE]
    omega
  have hdl : le16 (storeBytes (storeBytes (storeBytes buf 0 [ETX_OTA_SOF]) 1 [t]) 2 [lo, hi]) 2
      = d.length := by
    rw [hn]; simp [le16, storeBytes, Mem.store]
  have hs : ([ETX_OTA_SOF, t, lo, hi] ++ d ++ [c0, c1, c2, c3] ++ [e]).map RxEvent.byte ++ rest
      = RxEvent.byte ETX_OTA_SOF :: RxEvent.byte t :: RxEvent.byte lo :: RxEvent.byte hi ::
        (d.map RxEvent.byte ++ (RxEvent.byte c0 :: RxEvent.byte c1 :: RxEvent.byte c2 ::
          RxEvent.byte c3 :: RxEvent.byte e :: rest)) := by
    simp
  rw [hs]
  have hdata := receive_data_UART_bytes d 4
    (storeBytes (storeBytes (storeBytes buf 0 [ETX_OTA_SOF]) 1 [t]) 2 [lo, hi])
    (RxEvent.byte c0 :: RxEvent.byte c1 :: RxEvent.byte c2 :: RxEvent.byte c3 ::
      RxEvent.byte e :: rest) (by omega) hd
  have s0 : (storeBytes buf 0 [ETX_OTA_SOF]) 0 = ETX_OTA_SOF := by simp [storeBytes, Mem.store]
  have s1 : (storeBytes (storeBytes buf 0 [ETX_OTA_SOF]) 1 [t]) 1 = t := by
    simp [storeBytes, Mem.store]
  unfold etx_ota_receive_packet_UART
  simp only [ETX_OTA_SOF_SIZE, ETX_OTA_PACKET_TYPE_SIZE, ETX_OTA_DATA_LENGTH_SIZE,
    ETX_OTA_CRC32_SIZE, ETX_OTA_EOF_SIZE, HAL_UART_Receive_one, HAL_UART_Receive_two,
    HAL_UART_Receive_four, HAL_ret_handler_OK, Nat.reduceAdd, Nat.reduceMod, s0, s1, hdl, hdata,
    hty, ne_eq, not_true_eq_false, if_false, ite_false]
  rfl

theorem storeBytes_append (a b : List Nat) (m : Mem) (i : Nat) :
    storeBytes m i (a ++ b) = storeBytes (storeBytes m i a) (i + a.length) b := by
  induction a generalizing m i with
  | nil => rfl
  | cons x a ih =>
    show storeBytes (m.store i x) (i + 1) (a ++ b)
      = storeBytes (storeBytes (m.store i x) (i + 1) a) (i + (a.length + 1)) b
    rw [ih, show i + 1 + a.length = i + (a.length + 1) by omega]

theorem le32_storeBytes_four (m : Mem) (i c0 c1 c2 c3 : Nat) :
    le32 (storeBytes m i [c0, c1, c2, c3]) i = c0 + 256 * c1 + 65536 * c2 + 16777216 * c3 := by
  have h0 := storeBytes_mid [c0, c1, c2, c3] m i 0 (by simp)
  have h1 := storeBytes_mid [c0, c1, c2, c3] m i 1 (by simp)
  have h2 := storeBytes_mid [c0, c1, c2, c3] m i 2 (by simp)
  have h3 := storeBytes_mid [c0, c1, c2, c3] m i 3 (by simp)
  simp only [Nat.add_zero] at h0
  unfold le32
  rw [h0, h1, h2, h3]
  rfl

/-- Outcome of the UART branch on a frame whose length field is its data length, whose last
byte is the EOF byte and whose CRC field is the CRC of its data, as long as the byte received
last still has an offset below 65536: only the comparison of `max_len` with the 16-bit `len`
remains. -/
theorem receive_UART_consistent_frame (t lo hi : Nat) (d : List Nat) (c0 c1 c2 c3 : Nat)
    (rest : List RxEvent) (buf : Mem) (max_len : Nat)
    (ht : t ≤ 3) (hn : d.length = lo + 256 * hi) (hd : d.length ≤ 65527)
    (hcrc : crc32_mpeg2 d = c0 + 256 * c1 + 65536 * c2 + 16777216 * c3) :
    etx_ota_receive_packet_UART
      (([ETX_OTA_SOF, t, lo, hi] ++ d ++ [c0, c1, c2, c3] ++ [ETX_OTA_EOF]).map RxEvent.byte
        ++ rest) buf max_len
    = ⟨if max_len < (d.length + 9) % 65536 then ETX_OTA_EC_ERR else ETX_OTA_EC_OK,
        storeBytes buf 0 ([ETX_OTA_SOF, t, lo, hi] ++ d ++ [c0, c1, c2, c3] ++ [ETX_OTA_EOF]),
        rest⟩ := by
  rw [receive_UART_frame t lo hi d c0 c1 c2 c3 ETX_OTA_EOF rest buf max_len ht hn (by omega)]
  have e1 : (4 + d.length) % 65536 = 4 + d.length := Nat.mod_eq_of_lt (by omega)
  have e2 : (4 + d.length + 4) % 65536 = 4 + d.length + 4 := Nat.mod_eq_of_lt (by omega)
  rw [e1, e2, le32_storeBytes_four]
  have hb : storeBytes buf 0 ([ETX_OTA_SOF, t, lo, hi] ++ d ++ [c0, c1, c2, c3] ++ [ETX_OTA_EOF])
      = storeBytes (storeBytes (storeBytes (storeBytes buf 0 [ETX_OTA_SOF, t, lo, hi]) 4 d)
          (4 + d.length) [c0, c1, c2, c3]) (4 + d.length + 4) [ETX_OTA_EOF] := by
    rw [storeBytes_append, storeBytes_append, storeBytes_append]
    simp only [List.length_append, List.length_cons, List.length_nil, Nat.zero_add]
  rw [← hb]
  have hlast : storeBytes buf 0
      ([ETX_OTA_SOF, t, lo, hi] ++ d ++ [c0, c1, c2, c3] ++ [ETX_OTA_EOF]) (4 + d.length + 4)
      = ETX_OTA_EOF := by
    rw [hb]; simp [storeBytes, Mem.store]
  have hdata : readBytes (storeBytes buf 0
      ([ETX_OTA_SOF, t, lo, hi] ++ d ++ [c0, c1, c2, c3] ++ [ETX_OTA_EOF])) 4 d.length = d := by
    rw [hb, readBytes_congr _ (storeBytes (storeBytes buf 0 [ETX_OTA_SOF, t, lo, hi]) 4 d) _ _
      (fun j _ hj => by
        rw [storeBytes_lt _ _ _ _ (by omega), storeBytes_lt _ _ _ _ (by omega)])]
    exact readBytes_storeBytes d _ 4
  unfold receive_packet_checks
  simp only [hlast, data_field_index_eq, hdata, hcrc, ne_eq, not_true_eq_false, if_false]
  rw [show (4 + d.length + 4 + 1) = d.length + 9 by omega]
  split_ifs <;> rfl

theorem bytes_le32_sum (x : Nat) (hx : x < 2 ^ 32) :
    x = x % 256 + 256 * (x / 256 % 256) + 65536 * (x / 65536 % 256)
      + 16777216 * (x / 16777216 % 256) := by
  omega

/-- The UART branch on a packet in wire order, within the range where the 16-bit `len`
has not wrapped when the EOF byte is stored. -/
theorem receive_UART_packet_bytes (t : Nat) (d : List Nat) (rest : List RxEvent) (buf : Mem)
    (max_len : Nat) (ht : t ≤ 3) (hd : d.length ≤ 65527) :
    etx_ota_receive_packet_UART ((packet_bytes t d).map RxEvent.byte ++ rest) buf max_len
    = ⟨if max_len < (d.length + 9) % 65536 then ETX_OTA_EC_ERR else ETX_OTA_EC_OK,
        storeBytes buf 0 (packet_bytes t d), rest⟩ := by
  have h := receive_UART_consistent_frame t (d.length % 256) (d.length / 256) d
    (crc32_mpeg2 d % 256) (crc32_mpeg2 d / 256 % 256) (crc32_mpeg2 d / 65536 % 256)
    (crc32_mpeg2 d / 16777216 % 256) rest buf max_len ht (by omega) hd
    (bytes_le32_sum _ (crc32_mpeg2_lt d))
  simpa [packet_bytes, bytes_le32] using h

/-! ## The two transports -/

theorem get_hm10_ota_data_eq (n : Nat) (rx : List RxEvent) :
    get_hm10_ota_data n rx
      = (HAL_ret_handler (HAL_UART_Receive n rx).1, (HAL_UART_Receive n rx).2.1,
          (HAL_UART_Receive n rx).2.2) := by
  induction n generalizing rx with
  | zero => cases rx <;> rfl
  | succ n ih =>
    cases rx with
    | nil => rfl
    | cons ev rx =>
      cases ev with
      | byte b => simp only [get_hm10_ota_data, HAL_UART_Receive, ih]
      | fault f => cases f <;> rfl

theorem get_hm10_ota_data_fun :
    get_hm10_ota_data = fun n rx =>
      (HAL_ret_handler (HAL_UART_Receive n rx).1, (HAL_UART_Receive n rx).2.1,
        (HAL_UART_Receive n rx).2.2) := by
  funext n rx
  exact get_hm10_ota_data_eq n rx

theorem receive_data_BT_eq (n len : Nat) (buf : Mem) (rx : List RxEvent) :
    receive_data_BT n len buf rx = receive_data_UART n len buf rx := by
  induction n generalizing len buf rx with
  | zero => rfl
  | succ n ih =>
    simp only [receive_data_BT, receive_data_UART, get_hm10_ota_data_eq, ih]

theorem receive_data_BT_fun : receive_data_BT = receive_data_UART := by
  funext n len buf rx
  exact receive_data_BT_eq n len buf rx

theorem etx_ota_receive_packet_BT_eq (rx : List RxEvent) (buf : Mem) (max_len : Nat) :
    etx_ota_receive_packet_BT rx buf max_len = etx_ota_receive_packet_UART rx buf max_len := by
  unfold etx_ota_receive_packet_BT etx_ota_receive_packet_UART
  rw [get_hm10_ota_data_fun, receive_data_BT_fun]

/-! ## The CRC register is updated injectively -/

theorem crc_ref_bit_testBit (x i : Nat) (hi : i < 32) :
    (crc_ref_bit x).testBit i
      = ((decide (1 ≤ i) && x.testBit (i - 1)) ^^ (x.testBit 31 && (0x04C11DB7 : Nat).testBit i)) := by
  unfold crc_ref_bit
  by_cases h : x &&& 0x80000000 = 0
  · have h31 := (and_msb_eq_zero_iff x).mp h
    rw [if_pos h]
    simp only [Nat.testBit_mod_two_pow, Nat.testBit_shiftLeft, h31]
    simp [hi]
  · have h31 : x.testBit 31 = true := by
      cases hb : x.testBit 31 with
      | false => exact absurd ((and_msb_eq_zero_iff x).mpr hb) h
      | true => rfl
    rw [if_neg h]
    simp only [Nat.testBit_mod_two_pow, Nat.testBit_shiftLeft, Nat.testBit_xor, h31]
    simp [hi]

theorem crc_ref_bit_injective (x y : Nat) (hx : x < 2 ^ 32) (hy : y < 2 ^ 32)
    (h : crc_ref_bit x = crc_ref_bit y) : x = y := by
  have h0 : x.testBit 31 = y.testBit 31 := by
    have hx0 := crc_ref_bit_testBit x 0 (by decide)
    have hy0 := crc_ref_bit_testBit y 0 (by decide)
    rw [h] at hx0
    rw [hx0] at hy0
    have hp : (0x04C11DB7 : Nat).testBit 0 = true := by decide
    simpa [hp] using hy0
  apply Nat.eq_of_testBit_eq
  intro j
  by_cases hj : j < 31
  · have hxj := crc_ref_bit_testBit x (j + 1) (by omega)
    have hyj := crc_ref_bit_testBit y (j + 1) (by omega)
    rw [h] at hxj
    rw [hxj, h0] at hyj
    simp only [Nat.add_sub_cancel, Nat.le_add_left, decide_True, Bool.true_and] at hyj
    cases hxb : x.testBit j <;> cases hyb : y.testBit j <;>
      cases hc : (y.testBit 31 && (0x04C11DB7 : Nat).testBit (j + 1)) <;>
      simp [hxb, hyb, hc] at hyj ⊢
  · by_cases hj31 : j = 31
    · rw [hj31]; exact h0
    · rw [testBit_false_of_lt hx (by omega), testBit_false_of_lt hy (by omega)]

theorem crc_ref_bits_injective (k x y : Nat) (hx : x < 2 ^ 32) (hy : y < 2 ^ 32)
    (h : crc_ref_bits k x = crc_ref_bits k y) : x = y := by
  induction k generalizing x y with
  | zero => simpa [crc_ref_bits] using h
  | succ k ih =>
    simp only [crc_ref_bits] at h
    exact crc_ref_bit_injective x y hx hy (ih _ _ (crc_ref_bit_lt x) (crc_ref_bit_lt y) h)

theorem xor_mod_two_pow (a b n : Nat) : (a ^^^ b) % 2 ^ n = (a % 2 ^ n) ^^^ (b % 2 ^ n) := by
  apply Nat.eq_of_testBit_eq
  intro i
  simp only [Nat.testBit_mod_two_pow, Nat.testBit_xor]
  cases decide (i < n) <;> simp

theorem xor_cancel_right (a b k : Nat) (h : a ^^^ k = b ^^^ k) : a = b := by
  have h2 : (a ^^^ k) ^^^ k = (b ^^^ k) ^^^ k := by rw [h]
  simpa [Nat.xor_assoc] using h2

/-- For a fixed byte the update of the CRC register is injective on 32-bit registers. -/
theorem crc32_mpeg2_step_injective (c c' b : Nat) (hc : c < 2 ^ 32) (hc' : c' < 2 ^ 32)
    (h : crc32_mpeg2_step c b = crc32_mpeg2_step c' b) : c = c' := by
  rw [crc32_mpeg2_step_eq_ref, crc32_mpeg2_step_eq_ref] at h
  unfold crc_ref_byte at h
  have h1 := crc_ref_bits_injective 8 _ _ (Nat.mod_lt _ (by positivity))
    (Nat.mod_lt _ (by positivity)) h
  rw [xor_mod_two_pow, xor_mod_two_pow c', Nat.mod_eq_of_lt hc, Nat.mod_eq_of_lt hc'] at h1
  exact xor_cancel_right _ _ _ h1

theorem foldl_crc32_mpeg2_step_ne (t : List Nat) (c c' : Nat) (hc : c < 2 ^ 32)
    (hc' : c' < 2 ^ 32) (h : c ≠ c') :
    t.foldl crc32_mpeg2_step c ≠ t.foldl crc32_mpeg2_step c' := by
  induction t generalizing c c' with
  | nil => simpa using h
  | cons b t ih =>
    simp only [List.foldl_cons]
    exact ih _ _ (crc32_mpeg2_step_lt c b) (crc32_mpeg2_step_lt c' b)
      (fun e => h (crc32_mpeg2_step_injective c c' b hc hc' e))

/-- Two data fields that differ in their first byte only, by two bytes that update the initial
register differently, have different CRCs. -/
theorem crc32_mpeg2_ne_of_first_byte (a b : Nat) (t : List Nat)
    (h : crc32_mpeg2_step 0xFFFFFFFF a ≠ crc32_mpeg2_step 0xFFFFFFFF b) :
    crc32_mpeg2 (a :: t) ≠ crc32_mpeg2 (b :: t) := by
  unfold crc32_mpeg2
  simp only [List.foldl_cons]
  exact foldl_crc32_mpeg2_step_ne t _ _ (crc32_mpeg2_step_lt _ a) (crc32_mpeg2_step_lt _ b) h

/-! ## Claims on framing -/

theorem etx_ota_receive_packet_eq_UART (hw : ETX_OTA_hw_Protocol)
    (hhw : hw ≠ ETX_OTA_hw_Protocol.other) (rx : List RxEvent) (buf : Mem) (max_len : Nat) :
    etx_ota_receive_packet hw rx buf max_len = etx_ota_receive_packet_UART rx buf max_len := by
  cases hw with
  | UART => rfl
  | BT => exact etx_ota_receive_packet_BT_eq rx buf max_len
  | other => exact absurd rfl hhw

theorem send_etx_ota_data_sent (m : Mem) (polls : List (List Nat)) (attempts : Nat)
    (d : List Nat) (hd : d.length ≤ 1024) :
    (send_etx_ota_data ⟨m, ⟨[], [], polls⟩, attempts⟩ d d.length).2.port.sent
      = packet_bytes ETX_OTA_PACKET_TYPE_DATA d := by
  rw [send_etx_ota_data_sent_append m [] polls attempts d hd]
  rfl

theorem packet_bytes_stored (buf : Mem) (t : Nat) (d : List Nat) :
    (storeBytes buf 0 (packet_bytes t d)) 1 = t
    ∧ le16 (storeBytes buf 0 (packet_bytes t d)) 2 = d.length % 256 + 256 * (d.length / 256)
    ∧ readBytes (storeBytes buf 0 (packet_bytes t d)) 4 d.length = d := by
  have hb : storeBytes buf 0 (packet_bytes t d)
      = storeBytes (storeBytes (storeBytes buf 0 [ETX_OTA_SOF, t, d.length % 256, d.length / 256])
          4 d) (4 + d.length) (bytes_le32 (crc32_mpeg2 d) ++ [ETX_OTA_EOF]) := by
    unfold packet_bytes
    have e : ([ETX_OTA_SOF, t, d.length % 256, d.length / 256] ++ d).length = 4 + d.length := by
      rw [List.length_append]; rfl
    rw [List.append_assoc _ (bytes_le32 (crc32_mpeg2 d)) [ETX_OTA_EOF],
      storeBytes_append ([ETX_OTA_SOF, t, d.length % 256, d.length / 256] ++ d),
      storeBytes_append [ETX_OTA_SOF, t, d.length % 256, d.length / 256] d, e]
    simp only [Nat.zero_add, List.length_cons, List.length_nil]
  have hhead : ∀ j, j < 4 → storeBytes buf 0 (packet_bytes t d) j
      = storeBytes buf 0 [ETX_OTA_SOF, t, d.length % 256, d.length / 256] j := by
    intro j hj
    rw [hb, storeBytes_lt _ _ _ _ (by omega), storeBytes_lt _ _ _ _ (by omega)]
  refine ⟨?_, ?_, ?_⟩
  · rw [hhead 1 (by omega)]
    simp [storeBytes, Mem.store]
  · unfold le16
    rw [hhead 2 (by omega), hhead 3 (by omega)]
    simp [storeBytes, Mem.store]
  · rw [hb, readBytes_congr _ (storeBytes (storeBytes buf 0
      [ETX_OTA_SOF, t, d.length % 256, d.length / 256]) 4 d) _ _
      (fun j _ hj => storeBytes_lt _ _ _ _ (by omega))]
    exact readBytes_storeBytes d _ 4

/-- C1: frame round trip.  For every data field `d` of at most 1024 bytes (whatever its bytes,
`0xAA` and `0xBB` included), the bytes that the host's `send_etx_ota_data` puts on the wire for
`d`, fed to the device's `etx_ota_receive_packet` with `max_len = 1033` on either transport with
every read succeeding, make it return `ETX_OTA_EC_OK` and leave in the buffer
`packet_type = Data`, `data_len = |d|` and a data field equal to `d`; the bytes that follow the
frame on the link are left unread. -/
theorem frame_round_trip (hw : ETX_OTA_hw_Protocol) (hhw : hw ≠ ETX_OTA_hw_Protocol.other)
    (m : Mem) (polls : List (List Nat)) (attempts : Nat) (d : List Nat) (hd : d.length ≤ 1024)
    (rest : List RxEvent) (buf : Mem) :
    (etx_ota_receive_packet hw
      ((send_etx_ota_data ⟨m, ⟨[], [], polls⟩, attempts⟩ d d.length).2.port.sent.map RxEvent.byte
        ++ rest) buf ETX_OTA_PACKET_MAX_SIZE).status = ETX_OTA_EC_OK
    ∧ (etx_ota_receive_packet hw
      ((send_etx_ota_data ⟨m, ⟨[], [], polls⟩, attempts⟩ d d.length).2.port.sent.map RxEvent.byte
        ++ rest) buf ETX_OTA_PACKET_MAX_SIZE).buf 1 = ETX_OTA_PACKET_TYPE_DATA
    ∧ le16 (etx_ota_receive_packet hw
      ((send_etx_ota_data ⟨m, ⟨[], [], polls⟩, attempts⟩ d d.length).2.port.sent.map RxEvent.byte
        ++ rest) buf ETX_OTA_PACKET_MAX_SIZE).buf 2 = d.length
    ∧ readBytes (etx_ota_receive_packet hw
      ((send_etx_ota_data ⟨m, ⟨[], [], polls⟩, attempts⟩ d d.length).2.port.sent.map RxEvent.byte
        ++ rest) buf ETX_OTA_PACKET_MAX_SIZE).buf ETX_OTA_DATA_FIELD_INDEX d.length = d
    ∧ (etx_ota_receive_packet hw
      ((send_etx_ota_data ⟨m, ⟨[], [], polls⟩, attempts⟩ d d.length).2.port.sent.map RxEvent.byte
        ++ rest) buf ETX_OTA_PACKET_MAX_SIZE).rx = rest := by
  rw [send_etx_ota_data_sent m polls attempts d hd, etx_ota_receive_packet_eq_UART hw hhw,
    receive_UART_packet_bytes ETX_OTA_PACKET_TYPE_DATA d rest buf _ (by decide) (by omega)]
  have hlen : ¬ (ETX_OTA_PACKET_MAX_SIZE < (d.length + 9) % 65536) := by
    rw [packet_max_size_eq]; omega
  obtain ⟨h1, h2, h3⟩ := packet_bytes_stored buf ETX_OTA_PACKET_TYPE_DATA d
  refine ⟨by simp only [if_neg hlen], h1, ?_, h3, rfl⟩
  simp only []
  rw [h2]
  omega

theorem frame_round_trip_witness :
    ETX_OTA_hw_Protocol.UART ≠ ETX_OTA_hw_Protocol.other ∧ [0xAA, 0xBB, 7].length ≤ 1024
    ∧ ((etx_ota_receive_packet ETX_OTA_hw_Protocol.UART
        ((send_etx_ota_data ⟨fun _ => 0, ⟨[], [], []⟩, 0⟩ [0xAA, 0xBB, 7]
          [0xAA, 0xBB, 7].length).2.port.sent.map RxEvent.byte ++ [RxEvent.byte 0xAA])
        (fun _ => 0) ETX_OTA_PACKET_MAX_SIZE).status = ETX_OTA_EC_OK
      ∧ (etx_ota_receive_packet ETX_OTA_hw_Protocol.UART
        ((send_etx_ota_data ⟨fun _ => 0, ⟨[], [], []⟩, 0⟩ [0xAA, 0xBB, 7]
          [0xAA, 0xBB, 7].length).2.port.sent.map RxEvent.byte ++ [RxEvent.byte 0xAA])
        (fun _ => 0) ETX_OTA_PACKET_MAX_SIZE).buf 1 = ETX_OTA_PACKET_TYPE_DATA
      ∧ le16 (etx_ota_receive_packet ETX_OTA_hw_Protocol.UART
        ((send_etx_ota_data ⟨fun _ => 0, ⟨[], [], []⟩, 0⟩ [0xAA, 0xBB, 7]
          [0xAA, 0xBB, 7].length).2.port.sent.map RxEvent.byte ++ [RxEvent.byte 0xAA])
        (fun _ => 0) ETX_OTA_PACKET_MAX_SIZE).buf 2 = [0xAA, 0xBB, 7].length
      ∧ readBytes (etx_ota_receive_packet ETX_OTA_hw_Protocol.UART
        ((send_etx_ota_data ⟨fun _ => 0, ⟨[], [], []⟩, 0⟩ [0xAA, 0xBB, 7]
          [0xAA, 0xBB, 7].length).2.port.sent.map RxEvent.byte ++ [RxEvent.byte 0xAA])
        (fun _ => 0) ETX_OTA_PACKET_MAX_SIZE).buf ETX_OTA_DATA_FIELD_INDEX
          [0xAA, 0xBB, 7].length = [0xAA, 0xBB, 7]
      ∧ (etx_ota_receive_packet ETX_OTA_hw_Protocol.UART
        ((send_etx_ota_data ⟨fun _ => 0, ⟨[], [], []⟩, 0⟩ [0xAA, 0xBB, 7]
          [0xAA, 0xBB, 7].length).2.port.sent.map RxEvent.byte ++ [RxEvent.byte 0xAA])
        (fun _ => 0) ETX_OTA_PACKET_MAX_SIZE).rx = [RxEvent.byte 0xAA]) :=
  ⟨by decide, by decide,
    frame_round_trip ETX_OTA_hw_Protocol.UART (by decide) (fun _ => 0) [] 0 [0xAA, 0xBB, 7]
      (by decide) [RxEvent.byte 0xAA] (fun _ => 0)⟩

/-- C5: for a payload of at most 1024 bytes and a port that accepts every byte,
`send_etx_ota_data` puts exactly `|d| + 9` bytes on the wire, in this order: `0xAA`, `0x01`,
`|d| mod 256`, `|d| div 256`, the bytes of `d`, the four bytes of `crc32_mpeg2 d` least
significant first, `0xBB`. -/
theorem send_etx_ota_data_wire (m : Mem) (sent : List Nat) (polls : List (List Nat))
    (attempts : Nat) (d : List Nat) (hd : d.length ≤ 1024) :
    (send_etx_ota_data ⟨m, ⟨sent, [], polls⟩, attempts⟩ d d.length).2.port.sent
      = sent ++ ([0xAA, 0x01, d.length % 256, d.length / 256] ++ d
          ++ [crc32_mpeg2 d % 256, crc32_mpeg2 d / 256 % 256, crc32_mpeg2 d / 65536 % 256,
              crc32_mpeg2 d / 16777216 % 256] ++ [0xBB])
    ∧ ([0xAA, 0x01, d.length % 256, d.length / 256] ++ d
          ++ [crc32_mpeg2 d % 256, crc32_mpeg2 d / 256 % 256, crc32_mpeg2 d / 65536 % 256,
              crc32_mpeg2 d / 16777216 % 256] ++ [0xBB]).length = d.length + 9 := by
  constructor
  · rw [send_etx_ota_data_sent_append m sent polls attempts d hd]
    rfl
  · simp

theorem send_etx_ota_data_wire_witness :
    [0xAA, 0xBB, 7].length ≤ 1024
    ∧ (send_etx_ota_data ⟨fun _ => 0, ⟨[], [], []⟩, 0⟩ [0xAA, 0xBB, 7]
        [0xAA, 0xBB, 7].length).2.port.sent
      = [0xAA, 0x01, 3, 0, 0xAA, 0xBB, 7, 127, 170, 201, 57, 0xBB] := by
  refine ⟨by decide, ?_⟩
  have h := (send_etx_ota_data_wire (fun _ => 0) [] [] 0 [0xAA, 0xBB, 7] (by decide)).1
  rw [h]
  decide

/-! ## Claims on packet processing -/

theorem process_abort (T : Target) (d : Device)
    (htype : d.Rx_Buffer 1 = ETX_OTA_PACKET_TYPE_CMD) (hcmd : d.Rx_Buffer 4 = ETX_OTA_CMD_ABORT) :
    etx_ota_process_data T d = (ETX_OTA_EC_STOP, d) := by
  unfold etx_ota_process_data
  simp only [htype, hcmd, and_self, if_true]

theorem received_ok_protocol (hw : ETX_OTA_hw_Protocol) (rx : List RxEvent) (buf : Mem)
    (max_len : Nat) (h : (etx_ota_receive_packet hw rx buf max_len).status = ETX_OTA_EC_OK) :
    hw ≠ ETX_OTA_hw_Protocol.other := by
  intro e
  subst e
  simp [etx_ota_receive_packet, ETX_OTA_EC_ERR, ETX_OTA_EC_OK] at h

theorem send_resp_tx (d : Device) (st : Nat)
    (hhw : d.ETX_OTA_hardware_protocol ≠ ETX_OTA_hw_Protocol.other) :
    (etx_ota_send_resp d st).2
      = { d with tx := d.tx ++ [response_packet st], tx_rets := d.tx_rets.tail } := by
  unfold etx_ota_send_resp
  cases h : d.ETX_OTA_hardware_protocol with
  | UART => rfl
  | BT => rfl
  | other => exact absurd h hhw

theorem download_pass_abort (T : Target) (d : Device)
    (hrecv : (etx_ota_receive_packet d.ETX_OTA_hardware_protocol d.rx d.Rx_Buffer
      ETX_OTA_PACKET_MAX_SIZE).status = ETX_OTA_EC_OK)
    (htype : (etx_ota_receive_packet d.ETX_OTA_hardware_protocol d.rx d.Rx_Buffer
      ETX_OTA_PACKET_MAX_SIZE).buf 1 = ETX_OTA_PACKET_TYPE_CMD)
    (hcmd : (etx_ota_receive_packet d.ETX_OTA_hardware_protocol d.rx d.Rx_Buffer
      ETX_OTA_PACKET_MAX_SIZE).buf 4 = ETX_OTA_CMD_ABORT) :
    download_pass T d = (some ETX_OTA_EC_STOP,
      { d with
        Rx_Buffer := (etx_ota_receive_packet d.ETX_OTA_hardware_protocol d.rx d.Rx_Buffer
          ETX_OTA_PACKET_MAX_SIZE).buf
        rx := (etx_ota_receive_packet d.ETX_OTA_hardware_protocol d.rx d.Rx_Buffer
          ETX_OTA_PACKET_MAX_SIZE).rx
        tx := d.tx ++ [response_packet ETX_OTA_ACK]
        tx_rets := d.tx_rets.tail }) := by
  have hhw := received_ok_protocol _ _ _ _ hrecv
  unfold download_pass
  simp only [hrecv, if_true]
  rw [process_abort T _ htype hcmd]
  simp only [show ETX_OTA_EC_STOP ≠ ETX_OTA_EC_OK by decide, if_false, if_true]
  rw [send_resp_tx]
  exact hhw

/-- C6: universal abort.  Whatever the receiver state (and the rest of the device state), when
the buffer holds a Command packet whose command byte is Abort, `etx_ota_process_data` returns
`ETX_OTA_EC_STOP`; and when `etx_ota_receive_packet` has decoded such a packet, the receive loop
of `firmware_image_download_and_install` sends one Response packet with status ACK and returns
`ETX_OTA_EC_STOP`, be it in the middle of a transaction or on the first packet of a call. -/
theorem universal_abort (T : Target) (d : Device)
    (hrecv : (etx_ota_receive_packet d.ETX_OTA_hardware_protocol d.rx d.Rx_Buffer
      ETX_OTA_PACKET_MAX_SIZE).status = ETX_OTA_EC_OK)
    (htype : (etx_ota_receive_packet d.ETX_OTA_hardware_protocol d.rx d.Rx_Buffer
      ETX_OTA_PACKET_MAX_SIZE).buf 1 = ETX_OTA_PACKET_TYPE_CMD)
    (hcmd : (etx_ota_receive_packet d.ETX_OTA_hardware_protocol d.rx d.Rx_Buffer
      ETX_OTA_PACKET_MAX_SIZE).buf 4 = ETX_OTA_CMD_ABORT) :
    (∀ d1 : Device, d1.Rx_Buffer 1 = ETX_OTA_PACKET_TYPE_CMD →
        d1.Rx_Buffer 4 = ETX_OTA_CMD_ABORT →
        etx_ota_process_data T d1 = (ETX_OTA_EC_STOP, d1))
    ∧ (∀ passes : Nat, download_loop T (passes + 1) d = some (ETX_OTA_EC_STOP,
        { d with
          Rx_Buffer := (etx_ota_receive_packet d.ETX_OTA_hardware_protocol d.rx d.Rx_Buffer
            ETX_OTA_PACKET_MAX_SIZE).buf
          rx := (etx_ota_receive_packet d.ETX_OTA_hardware_protocol d.rx d.Rx_Buffer
            ETX_OTA_PACKET_MAX_SIZE).rx
          tx := d.tx ++ [response_packet ETX_OTA_ACK]
          tx_rets := d.tx_rets.tail }))
    ∧ firmware_image_download_and_install T d = some (ETX_OTA_EC_STOP,
        { d with
          etx_ota_fw_received_size := 0
          etx_ota_state := ETX_OTA_STATE_START
          Rx_Buffer := (etx_ota_receive_packet d.ETX_OTA_hardware_protocol d.rx d.Rx_Buffer
            ETX_OTA_PACKET_MAX_SIZE).buf
          rx := (etx_ota_receive_packet d.ETX_OTA_hardware_protocol d.rx d.Rx_Buffer
            ETX_OTA_PACKET_MAX_SIZE).rx
          tx := d.tx ++ [response_packet ETX_OTA_ACK]
          tx_rets := d.tx_rets.tail }) := by
  refine ⟨fun d1 h1 h2 => process_abort T d1 h1 h2, ?_, ?_⟩
  · intro passes
    simp only [download_loop]
    rw [download_pass_abort T d hrecv htype hcmd]
  · have h := download_pass_abort T
      { d with etx_ota_fw_received_size := 0, etx_ota_state := ETX_OTA_STATE_START }
      hrecv htype hcmd
    unfold firmware_image_download_and_install
    simp only [download_loop]
    rw [h]

/-- C7: in the Start state `etx_ota_process_data` returns OK and moves to the Header state
when the packet is a Command packet carrying Start; for every other packet that is not a
Command packet carrying Abort it returns `ETX_OTA_EC_ERR` and leaves the device, its state
included, as it was. -/
theorem start_state_transition (T : Target) (d : Device)
    (hs : d.etx_ota_state = ETX_OTA_STATE_START) :
    (d.Rx_Buffer 1 = ETX_OTA_PACKET_TYPE_CMD ∧ d.Rx_Buffer 4 = ETX_OTA_CMD_START →
        etx_ota_process_data T d
          = (ETX_OTA_EC_OK, { d with etx_ota_state := ETX_OTA_STATE_HEADER }))
    ∧ (¬ (d.Rx_Buffer 1 = ETX_OTA_PACKET_TYPE_CMD ∧ d.Rx_Buffer 4 = ETX_OTA_CMD_START) →
        ¬ (d.Rx_Buffer 1 = ETX_OTA_PACKET_TYPE_CMD ∧ d.Rx_Buffer 4 = ETX_OTA_CMD_ABORT) →
        etx_ota_process_data T d = (ETX_OTA_EC_ERR, d)) := by
  constructor
  · rintro ⟨h1, h2⟩
    unfold etx_ota_process_data
    simp [h1, h2, hs, ETX_OTA_CMD_START, ETX_OTA_CMD_ABORT, ETX_OTA_STATE_START,
      ETX_OTA_STATE_IDLE]
  · intro h1 h2
    unfold etx_ota_process_data
    simp only [h1, h2, hs, if_false, show ETX_OTA_STATE_START ≠ ETX_OTA_STATE_IDLE by decide,
      if_true]

theorem header_packet_not_abort (d : Device)
    (ht : d.Rx_Buffer 1 = ETX_OTA_PACKET_TYPE_HEADER) :
    ¬ (d.Rx_Buffer 1 = ETX_OTA_PACKET_TYPE_CMD ∧ d.Rx_Buffer 4 = ETX_OTA_CMD_ABORT) := by
  rw [ht]
  simp [ETX_OTA_PACKET_TYPE_HEADER, ETX_OTA_PACKET_TYPE_CMD]

/-- `etx_ota_process_data` in the Header state on a Header packet, by the flags that the
`switch` on `payload_type` selects (`none` when it returns `ETX_OTA_EC_NA`). -/
theorem process_header (T : Target) (d : Device)
    (hs : d.etx_ota_state = ETX_OTA_STATE_HEADER)
    (ht : d.Rx_Buffer 1 = ETX_OTA_PACKET_TYPE_HEADER) :
    etx_ota_process_data T d =
      match (if d.Rx_Buffer 19 = ETX_OTA_Application_Firmware_Image then
          if le32 d.Rx_Buffer 4 > ETX_OTA_APP_FW_SIZE T then none
          else some (T.BT_FW_NOT_STORED_IN_APP_FW, T.NOT_PENDING)
        else if d.Rx_Buffer 19 = ETX_OTA_Bootloader_Firmware_Image then
          if le32 d.Rx_Buffer 4 > ETX_OTA_BL_FW_SIZE T then none
          else some (T.BT_FW_STORED_IN_APP_FW, T.IS_PENDING)
        else none : Option (Nat × Nat)) with
      | none => (ETX_OTA_EC_NA, d)
      | some (stored, pending) =>
        if d.conf.write_rets.headD T.FIRM_UPDT_CONF_EC_OK = T.FIRM_UPDT_CONF_EC_OK then
          (ETX_OTA_EC_OK, header_accepted d stored pending)
        else
          (d.conf.write_rets.headD T.FIRM_UPDT_CONF_EC_OK,
            { d with
              fw_config := (header_accepted d stored pending).fw_config
              conf := { d.conf with write_rets := d.conf.write_rets.tail } }) := by
  have hw : ∀ stored pending : Nat,
      (match firmware_update_configurations_write T d.conf
          { d.fw_config with
            is_bl_fw_stored_in_app_fw := stored
            is_bl_fw_install_pending := pending
            App_fw_size := le32 d.Rx_Buffer 4
            App_fw_rec_crc := le32 d.Rx_Buffer 8 } with
        | (header_ret, conf1) =>
          if header_ret ≠ T.FIRM_UPDT_CONF_EC_OK then
            (header_ret, { d with
              fw_config := { d.fw_config with
                is_bl_fw_stored_in_app_fw := stored
                is_bl_fw_install_pending := pending
                App_fw_size := le32 d.Rx_Buffer 4
                App_fw_rec_crc := le32 d.Rx_Buffer 8 }
              conf := conf1 })
          else
            (ETX_OTA_EC_OK, { d with
              fw_config := { d.fw_config with
                is_bl_fw_stored_in_app_fw := stored
                is_bl_fw_install_pending := pending
                App_fw_size := le32 d.Rx_Buffer 4
                App_fw_rec_crc := le32 d.Rx_Buffer 8 }
              conf := conf1
              etx_ota_state := ETX_OTA_STATE_DATA }))
      = (if d.conf.write_rets.headD T.FIRM_UPDT_CONF_EC_OK = T.FIRM_UPDT_CONF_EC_OK then
          (ETX_OTA_EC_OK, header_accepted d stored pending)
        else
          (d.conf.write_rets.headD T.FIRM_UPDT_CONF_EC_OK,
            { d with
              fw_config := (header_accepted d stored pending).fw_config
              conf := { d.conf with write_rets := d.conf.write_rets.tail } })) := by
    intro stored pending
    unfold firmware_update_configurations_write
    by_cases hw : d.conf.write_rets.headD T.FIRM_UPDT_CONF_EC_OK = T.FIRM_UPDT_CONF_EC_OK
    · simp only [hw, if_true, ne_eq, not_true_eq_false, if_false]
      rfl
    · simp only [hw, if_false, ne_eq, not_false_eq_true, if_true]
      rfl
  have hna := header_packet_not_abort d ht
  unfold etx_ota_process_data
  simp only [hna, if_false]
  rw [if_neg (by rw [hs]; decide), if_neg (by rw [hs]; decide), if_pos hs, if_pos ht]
  by_cases h0 : d.Rx_Buffer 19 = ETX_OTA_Application_Firmware_Image
  · by_cases h1 : le32 d.Rx_Buffer 4 > ETX_OTA_APP_FW_SIZE T
    · simp only [if_pos h0, if_pos h1]
    · simp only [if_pos h0, if_neg h1]
      exact hw _ _
  · by_cases h2 : d.Rx_Buffer 19 = ETX_OTA_Bootloader_Firmware_Image
    · by_cases h3 : le32 d.Rx_Buffer 4 > ETX_OTA_BL_FW_SIZE T
      · simp only [if_neg h0, if_pos h2, if_pos h3]
      · simp only [if_neg h0, if_pos h2, if_neg h3]
        exact hw _ _
    · simp only [if_neg h0, if_neg h2, ite_self]

/-- C8: in the Header state, for a Header packet with `payload_type = AppFirmware`:
a `package_size` above `ETX_OTA_APP_FW_SIZE` makes `etx_ota_process_data` return
`ETX_OTA_EC_NA`; a size up to the capacity (the capacity itself included) with a configuration
write that succeeds makes it return OK, with `is_bl_fw_stored_in_app_fw` set to not stored,
`is_bl_fw_install_pending` to `NOT_PENDING`, `App_fw_size` to `package_size`, `App_fw_rec_crc` to
`package_crc`, that record committed, and the state moved to Data; and the result is
`ETX_OTA_EC_NA` if and only if the size exceeds the capacity, whenever the configuration write
succeeds or fails with a status other than the value of `ETX_OTA_EC_NA`. -/
theorem header_application_firmware (T : Target) (d : Device)
    (hs : d.etx_ota_state = ETX_OTA_STATE_HEADER)
    (ht : d.Rx_Buffer 1 = ETX_OTA_PACKET_TYPE_HEADER)
    (hp : d.Rx_Buffer 19 = ETX_OTA_Application_Firmware_Image) :
    (le32 d.Rx_Buffer 4 > ETX_OTA_APP_FW_SIZE T →
        etx_ota_process_data T d = (ETX_OTA_EC_NA, d))
    ∧ (le32 d.Rx_Buffer 4 ≤ ETX_OTA_APP_FW_SIZE T →
        d.conf.write_rets.headD T.FIRM_UPDT_CONF_EC_OK = T.FIRM_UPDT_CONF_EC_OK →
        etx_ota_process_data T d
          = (ETX_OTA_EC_OK, header_accepted d T.BT_FW_NOT_STORED_IN_APP_FW T.NOT_PENDING))
    ∧ ((header_accepted d T.BT_FW_NOT_STORED_IN_APP_FW T.NOT_PENDING).fw_config
          = { d.fw_config with
              is_bl_fw_stored_in_app_fw := T.BT_FW_NOT_STORED_IN_APP_FW
              is_bl_fw_install_pending := T.NOT_PENDING
              App_fw_size := le32 d.Rx_Buffer 4
              App_fw_rec_crc := le32 d.Rx_Buffer 8 }
        ∧ (header_accepted d T.BT_FW_NOT_STORED_IN_APP_FW T.NOT_PENDING).conf.records.head?
          = some (header_accepted d T.BT_FW_NOT_STORED_IN_APP_FW T.NOT_PENDING).fw_config
        ∧ (header_accepted d T.BT_FW_NOT_STORED_IN_APP_FW T.NOT_PENDING).etx_ota_state
          = ETX_OTA_STATE_DATA)
    ∧ (d.conf.write_rets.headD T.FIRM_UPDT_CONF_EC_OK = T.FIRM_UPDT_CONF_EC_OK
          ∨ d.conf.write_rets.headD T.FIRM_UPDT_CONF_EC_OK ≠ ETX_OTA_EC_NA →
        ((etx_ota_process_data T d).1 = ETX_OTA_EC_NA
          ↔ le32 d.Rx_Buffer 4 > ETX_OTA_APP_FW_SIZE T)) := by
  have h := process_header T d hs ht
  rw [if_pos hp] at h
  refine ⟨?_, ?_, ⟨rfl, rfl, rfl⟩, ?_⟩
  · intro h1
    rw [h, if_pos h1]
  · intro h1 hw
    rw [h, if_neg (by omega)]
    simp only [if_pos hw]
  · intro hw
    by_cases h1 : le32 d.Rx_Buffer 4 > ETX_OTA_APP_FW_SIZE T
    · rw [h, if_pos h1]
      simp [h1]
    · rw [h, if_neg h1]
      simp only [h1, iff_false]
      by_cases hok : d.conf.write_rets.headD T.FIRM_UPDT_CONF_EC_OK = T.FIRM_UPDT_CONF_EC_OK
      · simp only [if_pos hok]
        decide
      · simp only [if_neg hok]
        rcases hw with hw | hw
        · exact absurd hw hok
        · exact hw

/-- C9: in the Header state, for a Header packet with `payload_type = BootloaderFirmware`:
a `package_size` above `ETX_OTA_BL_FW_SIZE` makes `etx_ota_process_data` return
`ETX_OTA_EC_NA`; otherwise, the configuration write succeeding, it returns OK with
`is_bl_fw_stored_in_app_fw` set to stored, `is_bl_fw_install_pending` to `IS_PENDING`,
`package_size` and `package_crc` recorded in `App_fw_size` and `App_fw_rec_crc` while
`BL_fw_size` and `BL_fw_rec_crc` keep their values, and the state moved to Data; and the result
is `ETX_OTA_EC_NA` if and only if the size exceeds the capacity, whenever the configuration
write succeeds or fails with a status other than the value of `ETX_OTA_EC_NA`. -/
theorem header_bootloader_firmware (T : Target) (d : Device)
    (hs : d.etx_ota_state = ETX_OTA_STATE_HEADER)
    (ht : d.Rx_Buffer 1 = ETX_OTA_PACKET_TYPE_HEADER)
    (hp : d.Rx_Buffer 19 = ETX_OTA_Bootloader_Firmware_Image) :
    (le32 d.Rx_Buffer 4 > ETX_OTA_BL_FW_SIZE T →
        etx_ota_process_data T d = (ETX_OTA_EC_NA, d))
    ∧ (le32 d.Rx_Buffer 4 ≤ ETX_OTA_BL_FW_SIZE T →
        d.conf.write_rets.headD T.FIRM_UPDT_CONF_EC_OK = T.FIRM_UPDT_CONF_EC_OK →
        etx_ota_process_data T d
          = (ETX_OTA_EC_OK, header_accepted d T.BT_FW_STORED_IN_APP_FW T.IS_PENDING))
    ∧ ((header_accepted d T.BT_FW_STORED_IN_APP_FW T.IS_PENDING).fw_config
          = { d.fw_config with
              is_bl_fw_stored_in_app_fw := T.BT_FW_STORED_IN_APP_FW
              is_bl_fw_install_pending := T.IS_PENDING
              App_fw_size := le32 d.Rx_Buffer 4
              App_fw_rec_crc := le32 d.Rx_Buffer 8 }
        ∧ (header_accepted d T.BT_FW_STORED_IN_APP_FW T.IS_PENDING).fw_config.BL_fw_size
          = d.fw_config.BL_fw_size
        ∧ (header_accepted d T.BT_FW_STORED_IN_APP_FW T.IS_PENDING).fw_config.BL_fw_rec_crc
          = d.fw_config.BL_fw_rec_crc
        ∧ (header_accepted d T.BT_FW_STORED_IN_APP_FW T.IS_PENDING).conf.records.head?
          = some (header_accepted d T.BT_FW_STORED_IN_APP_FW T.IS_PENDING).fw_config
        ∧ (header_accepted d T.BT_FW_STORED_IN_APP_FW T.IS_PENDING).etx_ota_state
          = ETX_OTA_STATE_DATA)
    ∧ (d.conf.write_rets.headD T.FIRM_UPDT_CONF_EC_OK = T.FIRM_UPDT_CONF_EC_OK
          ∨ d.conf.write_rets.headD T.FIRM_UPDT_CONF_EC_OK ≠ ETX_OTA_EC_NA →
        ((etx_ota_process_data T d).1 = ETX_OTA_EC_NA
          ↔ le32 d.Rx_Buffer 4 > ETX_OTA_BL_FW_SIZE T)) := by
  have h := process_header T d hs ht
  have hnapp : ¬ d.Rx_Buffer 19 = ETX_OTA_Application_Firmware_Image := by
    rw [hp]; decide
  rw [if_neg hnapp, if_pos hp] at h
  refine ⟨?_, ?_, ⟨rfl, rfl, rfl, rfl, rfl⟩, ?_⟩
  · intro h1
    rw [h, if_pos h1]
  · intro h1 hw
    rw [h, if_neg (by omega)]
    simp only [if_pos hw]
  · intro hw
    by_cases h1 : le32 d.Rx_Buffer 4 > ETX_OTA_BL_FW_SIZE T
    · rw [h, if_pos h1]
      simp [h1]
    · rw [h, if_neg h1]
      simp only [h1, iff_false]
      by_cases hok : d.conf.write_rets.headD T.FIRM_UPDT_CONF_EC_OK = T.FIRM_UPDT_CONF_EC_OK
      · simp only [if_pos hok]
        decide
      · simp only [if_neg hok]
        rcases hw with hw | hw
        · exact absurd hw hok
        · exact hw

/-- C10: in the Header state a Header packet whose `payload_type` is `CustomData` or a value
outside `{0, 1, 2}`, and likewise an AppFirmware or BootloaderFirmware header whose
`package_size` exceeds the capacity of its slot, makes `etx_ota_process_data` return
`ETX_OTA_EC_NA` and leaves the whole device as it was: the state is still Header and the
configuration record (flags, `App_fw_size`, `App_fw_rec_crc`) is unchanged. -/
theorem header_not_applicable (T : Target) (d : Device)
    (hs : d.etx_ota_state = ETX_OTA_STATE_HEADER)
    (ht : d.Rx_Buffer 1 = ETX_OTA_PACKET_TYPE_HEADER)
    (hp : d.Rx_Buffer 19 = ETX_OTA_Custom_Data
      ∨ (d.Rx_Buffer 19 ≠ ETX_OTA_Application_Firmware_Image
          ∧ d.Rx_Buffer 19 ≠ ETX_OTA_Bootloader_Firmware_Image
          ∧ d.Rx_Buffer 19 ≠ ETX_OTA_Custom_Data)
      ∨ (d.Rx_Buffer 19 = ETX_OTA_Application_Firmware_Image
          ∧ le32 d.Rx_Buffer 4 > ETX_OTA_APP_FW_SIZE T)
      ∨ (d.Rx_Buffer 19 = ETX_OTA_Bootloader_Firmware_Image
          ∧ le32 d.Rx_Buffer 4 > ETX_OTA_BL_FW_SIZE T)) :
    etx_ota_process_data T d = (ETX_OTA_EC_NA, d)
    ∧ (etx_ota_process_data T d).2.etx_ota_state = ETX_OTA_STATE_HEADER
    ∧ (etx_ota_process_data T d).2.fw_config = d.fw_config := by
  have h : etx_ota_process_data T d = (ETX_OTA_EC_NA, d) := by
    rw [process_header T d hs ht]
    rcases hp with hp | ⟨h0, h1, _⟩ | ⟨h0, h1⟩ | ⟨h0, h1⟩
    · rw [if_neg (by rw [hp]; decide), if_neg (by rw [hp]; decide)]
    · rw [if_neg h0, if_neg h1]
    · rw [if_pos h0, if_pos h1]
    · rw [if_neg (by rw [h0]; decide), if_pos h0, if_pos h1]
  rw [h]
  exact ⟨rfl, hs, rfl⟩

/-! ## The 16-bit `len` of `etx_ota_receive_packet` wraps around -/

/-- A consistent frame whose data field has 65527 bytes is accepted: storing its EOF byte
brings `len` to 65536, which a `uint16_t` holds as 0. -/
theorem receive_accepts_wrapped_len (t : Nat) (d : List Nat) (rest : List RxEvent)
    (buf : Mem) (ht : t ≤ 3) (h : d.length = 65527) :
    etx_ota_receive_packet_UART ((packet_bytes t d).map RxEvent.byte ++ rest) buf
      ETX_OTA_PACKET_MAX_SIZE
      = ⟨ETX_OTA_EC_OK, storeBytes buf 0 (packet_bytes t d), rest⟩ := by
  rw [receive_UART_packet_bytes t d rest buf _ ht (by omega), h]
  rfl

/-- Beyond the wrap-around of `len`, where 65536 bytes have been read: in this model, in which
a store past the end of `Rx_Buffer` is a store into the memory that follows, the Data frame
whose length field is 65527 (`0xFFF7`), with 65527 zero bytes as data, their CRC and the EOF
byte, is accepted with `max_len = 1033`.  The C program has overrun its buffer of 1033 bytes by
more than 64 KB at that point, so this shows what the 16-bit counter does, not what the device
returns. -/
theorem receive_accepts_data_len_65527 :
    (etx_ota_receive_packet ETX_OTA_hw_Protocol.UART
      ((packet_bytes ETX_OTA_PACKET_TYPE_DATA (List.replicate 65527 0)).map RxEvent.byte)
      (fun _ => 0) ETX_OTA_PACKET_MAX_SIZE).status = ETX_OTA_EC_OK
    ∧ le16 (etx_ota_receive_packet ETX_OTA_hw_Protocol.UART
      ((packet_bytes ETX_OTA_PACKET_TYPE_DATA (List.replicate 65527 0)).map RxEvent.byte)
      (fun _ => 0) ETX_OTA_PACKET_MAX_SIZE).buf 2 = 65527 := by
  have hl : (List.replicate 65527 0).length = 65527 := List.length_replicate _ _
  have h := receive_accepts_wrapped_len ETX_OTA_PACKET_TYPE_DATA (List.replicate 65527 0) []
    (fun _ => 0) (by decide) hl
  rw [List.append_nil] at h
  have e : etx_ota_receive_packet ETX_OTA_hw_Protocol.UART
      ((packet_bytes ETX_OTA_PACKET_TYPE_DATA (List.replicate 65527 0)).map RxEvent.byte)
      (fun _ => 0) ETX_OTA_PACKET_MAX_SIZE
      = ⟨ETX_OTA_EC_OK, storeBytes (fun _ => 0) 0
          (packet_bytes ETX_OTA_PACKET_TYPE_DATA (List.replicate 65527 0)), []⟩ := h
  rw [e]
  refine ⟨rfl, ?_⟩
  have h2 := (packet_bytes_stored (fun _ => 0) ETX_OTA_PACKET_TYPE_DATA
    (List.replicate 65527 0)).2.1
  rw [hl] at h2
  rw [h2]

/-- The UART branch on a frame-shaped sequence of bytes whose length field is 65532
(`0xFFFC`): `len` wraps to 0 after the data field, the CRC field is stored over the first four
bytes of the buffer and the EOF byte over the first data byte, so the CRC that is compared with
the CRC field is taken over the data field with its first byte replaced by the EOF byte. -/
theorem receive_UART_wrapped_frame (t x : Nat) (xs : List Nat) (c0 c1 c2 c3 : Nat)
    (rest : List RxEvent) (buf : Mem) (max_len : Nat) (ht : t ≤ 3) (hxs : xs.length = 65531)
    (hcrc : crc32_mpeg2 (ETX_OTA_EOF :: xs) = c0 + 256 * c1 + 65536 * c2 + 16777216 * c3)
    (hmax : 5 ≤ max_len) :
    (etx_ota_receive_packet_UART
      (([ETX_OTA_SOF, t, 252, 255] ++ (x :: xs) ++ [c0, c1, c2, c3] ++ [ETX_OTA_EOF]).map
        RxEvent.byte ++ rest) buf max_len).status = ETX_OTA_EC_OK := by
  have hlen : (x :: xs).length = 65532 := by simp only [List.length_cons, hxs]
  rw [receive_UART_frame t 252 255 (x :: xs) c0 c1 c2 c3 ETX_OTA_EOF rest buf max_len ht
    (by rw [hlen]) (by rw [hlen])]
  rw [hlen]
  have e1 : (4 + 65532) % 65536 = 0 := by decide
  have e2 : (0 + 4) % 65536 = 4 := by decide
  rw [e1, e2, le32_storeBytes_four]
  have hlast : storeBytes (storeBytes (storeBytes (storeBytes buf 0 [ETX_OTA_SOF, t, 252, 255]) 4
      (x :: xs)) 0 [c0, c1, c2, c3]) 4 [ETX_OTA_EOF] 4 = ETX_OTA_EOF := by
    simp [storeBytes, Mem.store]
  have htail : readBytes (storeBytes (storeBytes (storeBytes
      (storeBytes buf 0 [ETX_OTA_SOF, t, 252, 255]) 4 (x :: xs)) 0 [c0, c1, c2, c3]) 4
      [ETX_OTA_EOF]) 5 65531 = xs := by
    rw [readBytes_congr _ (storeBytes ((storeBytes buf 0 [ETX_OTA_SOF, t, 252, 255]).store 4 x)
      5 xs) _ _ (fun j hj _ => by
        rw [storeBytes_ge _ _ _ _ (by simp only [List.length_cons, List.length_nil]; omega),
          storeBytes_ge _ _ _ _ (by simp only [List.length_cons, List.length_nil]; omega)]
        rfl)]
    rw [← hxs]
    exact readBytes_storeBytes xs _ 5
  have hdata : readBytes (storeBytes (storeBytes (storeBytes
      (storeBytes buf 0 [ETX_OTA_SOF, t, 252, 255]) 4 (x :: xs)) 0 [c0, c1, c2, c3]) 4
      [ETX_OTA_EOF]) 4 65532 = ETX_OTA_EOF :: xs := by
    show _ :: readBytes _ 5 65531 = _
    rw [htail, hlast]
  unfold receive_packet_checks
  simp only [hlast, data_field_index_eq, hdata, hcrc, ne_eq, not_true_eq_false, if_false]
  have e3 : ¬ (max_len < (4 + 1) % 65536) := by
    have : (4 + 1) % 65536 = 5 := by decide
    rw [this]; omega
  simp only [if_neg e3]

/-- Beyond the wrap-around of `len` likewise: a frame-shaped sequence with length field 65532
(`0xFFFC`), 65532 zero bytes as data field, a CRC field holding the CRC of `0xBB` followed by
65531 zero bytes, and the EOF byte.  In this model `etx_ota_receive_packet` returns
`ETX_OTA_EC_OK` for it, although its CRC field is not the CRC of its data field; in the C
program the buffer has been overrun long before. -/
theorem receive_accepts_crc_mismatch :
    (etx_ota_receive_packet ETX_OTA_hw_Protocol.UART
      (([ETX_OTA_SOF, ETX_OTA_PACKET_TYPE_DATA, 0xFC, 0xFF] ++ List.replicate 65532 0
          ++ bytes_le32 (crc32_mpeg2 (ETX_OTA_EOF :: List.replicate 65531 0))
          ++ [ETX_OTA_EOF]).map RxEvent.byte)
      (fun _ => 0) ETX_OTA_PACKET_MAX_SIZE).status = ETX_OTA_EC_OK
    ∧ crc32_mpeg2 (ETX_OTA_EOF :: List.replicate 65531 0)
        ≠ crc32_mpeg2 (List.replicate 65532 0) := by
  have hr : List.replicate 65532 0 = 0 :: List.replicate 65531 0 := List.replicate_succ 0 65531
  rw [hr]
  constructor
  · have hl : (List.replicate 65531 0).length = 65531 := List.length_replicate _ _
    have h0 : ETX_OTA_PACKET_TYPE_DATA ≤ 3 := by decide
    have h5 : 5 ≤ ETX_OTA_PACKET_MAX_SIZE := by decide
    have hsum := bytes_le32_sum (crc32_mpeg2 (ETX_OTA_EOF :: List.replicate 65531 0))
      (crc32_mpeg2_lt _)
    have h := receive_UART_wrapped_frame ETX_OTA_PACKET_TYPE_DATA 0 (List.replicate 65531 0)
      _ _ _ _ [] (fun _ => 0) ETX_OTA_PACKET_MAX_SIZE h0 hl hsum h5
    rw [List.append_nil] at h
    rw [etx_ota_receive_packet_eq_UART _ (by decide)]
    simp only [bytes_le32]
    exact h
  · exact crc32_mpeg2_ne_of_first_byte ETX_OTA_EOF 0 (List.replicate 65531 0) (by decide)

/-! ## The claims on packet processing at concrete inputs -/

theorem universal_abort_witness :
    (etx_ota_receive_packet abort_device.ETX_OTA_hardware_protocol abort_device.rx
        abort_device.Rx_Buffer ETX_OTA_PACKET_MAX_SIZE).status = ETX_OTA_EC_OK
    ∧ (etx_ota_receive_packet abort_device.ETX_OTA_hardware_protocol abort_device.rx
        abort_device.Rx_Buffer ETX_OTA_PACKET_MAX_SIZE).buf 1 = ETX_OTA_PACKET_TYPE_CMD
    ∧ (etx_ota_receive_packet abort_device.ETX_OTA_hardware_protocol abort_device.rx
        abort_device.Rx_Buffer ETX_OTA_PACKET_MAX_SIZE).buf 4 = ETX_OTA_CMD_ABORT
    ∧ (firmware_image_download_and_install reference_target abort_device).map Prod.fst
        = some ETX_OTA_EC_STOP
    ∧ (firmware_image_download_and_install reference_target abort_device).map
        (fun r => r.2.tx) = some [response_packet ETX_OTA_ACK] := by
  have h1 : (etx_ota_receive_packet abort_device.ETX_OTA_hardware_protocol abort_device.rx
      abort_device.Rx_Buffer ETX_OTA_PACKET_MAX_SIZE).status = ETX_OTA_EC_OK := by decide
  have h2 : (etx_ota_receive_packet abort_device.ETX_OTA_hardware_protocol abort_device.rx
      abort_device.Rx_Buffer ETX_OTA_PACKET_MAX_SIZE).buf 1 = ETX_OTA_PACKET_TYPE_CMD := by decide
  have h3 : (etx_ota_receive_packet abort_device.ETX_OTA_hardware_protocol abort_device.rx
      abort_device.Rx_Buffer ETX_OTA_PACKET_MAX_SIZE).buf 4 = ETX_OTA_CMD_ABORT := by decide
  have h := (universal_abort reference_target abort_device h1 h2 h3).2.2
  refine ⟨h1, h2, h3, ?_, ?_⟩
  · rw [h]; rfl
  · rw [h]; rfl

theorem start_state_transition_witness :
    (device_holding ETX_OTA_STATE_START ETX_OTA_PACKET_TYPE_CMD
        [ETX_OTA_CMD_START]).etx_ota_state = ETX_OTA_STATE_START
    ∧ (etx_ota_process_data reference_target
        (device_holding ETX_OTA_STATE_START ETX_OTA_PACKET_TYPE_CMD [ETX_OTA_CMD_START])).1
        = ETX_OTA_EC_OK
    ∧ (etx_ota_process_data reference_target
        (device_holding ETX_OTA_STATE_START ETX_OTA_PACKET_TYPE_CMD
          [ETX_OTA_CMD_START])).2.etx_ota_state = ETX_OTA_STATE_HEADER := by
  have h := (start_state_transition reference_target
    (device_holding ETX_OTA_STATE_START ETX_OTA_PACKET_TYPE_CMD [ETX_OTA_CMD_START])
    (by decide)).1 (by decide)
  refine ⟨by decide, ?_, ?_⟩
  · rw [h]
  · rw [h]

theorem header_application_firmware_witness :
    (device_holding ETX_OTA_STATE_HEADER ETX_OTA_PACKET_TYPE_HEADER
        (header_data 88064 0x12345678 ETX_OTA_Application_Firmware_Image)).etx_ota_state
        = ETX_OTA_STATE_HEADER
    ∧ (device_holding ETX_OTA_STATE_HEADER ETX_OTA_PACKET_TYPE_HEADER
        (header_data 88064 0x12345678 ETX_OTA_Application_Firmware_Image)).Rx_Buffer 1
        = ETX_OTA_PACKET_TYPE_HEADER
    ∧ (device_holding ETX_OTA_STATE_HEADER ETX_OTA_PACKET_TYPE_HEADER
        (header_data 88064 0x12345678 ETX_OTA_Application_Firmware_Image)).Rx_Buffer 19
        = ETX_OTA_Application_Firmware_Image
    ∧ ETX_OTA_APP_FW_SIZE reference_target = 88064
    ∧ etx_ota_process_data reference_target
        (device_holding ETX_OTA_STATE_HEADER ETX_OTA_PACKET_TYPE_HEADER
          (header_data 88064 0x12345678 ETX_OTA_Application_Firmware_Image))
      = (ETX_OTA_EC_OK, header_accepted
          (device_holding ETX_OTA_STATE_HEADER ETX_OTA_PACKET_TYPE_HEADER
            (header_data 88064 0x12345678 ETX_OTA_Application_Firmware_Image))
          reference_target.BT_FW_NOT_STORED_IN_APP_FW reference_target.NOT_PENDING) :=
  ⟨by decide, by decide, by decide, by decide,
    (header_application_firmware reference_target
      (device_holding ETX_OTA_STATE_HEADER ETX_OTA_PACKET_TYPE_HEADER
        (header_data 88064 0x12345678 ETX_OTA_Application_Firmware_Image))
      (by decide) (by decide) (by decide)).2.1 (by decide) (by decide)⟩

theorem header_bootloader_firmware_witness :
    (device_holding ETX_OTA_STATE_HEADER ETX_OTA_PACKET_TYPE_HEADER
        (header_data 34816 0x12345678 ETX_OTA_Bootloader_Firmware_Image)).etx_ota_state
        = ETX_OTA_STATE_HEADER
    ∧ (device_holding ETX_OTA_STATE_HEADER ETX_OTA_PACKET_TYPE_HEADER
        (header_data 34816 0x12345678 ETX_OTA_Bootloader_Firmware_Image)).Rx_Buffer 1
        = ETX_OTA_PACKET_TYPE_HEADER
    ∧ (device_holding ETX_OTA_STATE_HEADER ETX_OTA_PACKET_TYPE_HEADER
        (header_data 34816 0x12345678 ETX_OTA_Bootloader_Firmware_Image)).Rx_Buffer 19
        = ETX_OTA_Bootloader_Firmware_Image
    ∧ ETX_OTA_BL_FW_SIZE reference_target = 34816
    ∧ etx_ota_process_data reference_target
        (device_holding ETX_OTA_STATE_HEADER ETX_OTA_PACKET_TYPE_HEADER
          (header_data 34816 0x12345678 ETX_OTA_Bootloader_Firmware_Image))
      = (ETX_OTA_EC_OK, header_accepted
          (device_holding ETX_OTA_STATE_HEADER ETX_OTA_PACKET_TYPE_HEADER
            (header_data 34816 0x12345678 ETX_OTA_Bootloader_Firmware_Image))
          reference_target.BT_FW_STORED_IN_APP_FW reference_target.IS_PENDING) :=
  ⟨by decide, by decide, by decide, by decide,
    (header_bootloader_firmware reference_target
      (device_holding ETX_OTA_STATE_HEADER ETX_OTA_PACKET_TYPE_HEADER
        (header_data 34816 0x12345678 ETX_OTA_Bootloader_Firmware_Image))
      (by decide) (by decide) (by decide)).2.1 (by decide) (by decide)⟩

theorem header_not_applicable_witness :
    (device_holding ETX_OTA_STATE_HEADER ETX_OTA_PACKET_TYPE_HEADER
        (header_data 2048 0x12345678 ETX_OTA_Custom_Data)).etx_ota_state = ETX_OTA_STATE_HEADER
    ∧ (device_holding ETX_OTA_STATE_HEADER ETX_OTA_PACKET_TYPE_HEADER
        (header_data 2048 0x12345678 ETX_OTA_Custom_Data)).Rx_Buffer 1
        = ETX_OTA_PACKET_TYPE_HEADER
    ∧ (device_holding ETX_OTA_STATE_HEADER ETX_OTA_PACKET_TYPE_HEADER
        (header_data 2048 0x12345678 ETX_OTA_Custom_Data)).Rx_Buffer 19 = ETX_OTA_Custom_Data
    ∧ etx_ota_process_data reference_target
        (device_holding ETX_OTA_STATE_HEADER ETX_OTA_PACKET_TYPE_HEADER
          (header_data 2048 0x12345678 ETX_OTA_Custom_Data))
      = (ETX_OTA_EC_NA, device_holding ETX_OTA_STATE_HEADER ETX_OTA_PACKET_TYPE_HEADER
          (header_data 2048 0x12345678 ETX_OTA_Custom_Data)) :=
  ⟨by decide, by decide, by decide,
    (header_not_applicable reference_target
      (device_holding ETX_OTA_STATE_HEADER ETX_OTA_PACKET_TYPE_HEADER
        (header_data 2048 0x12345678 ETX_OTA_Custom_Data))
      (by decide) (by decide) (Or.inl (by decide))).1⟩

/-! ## `write_data_to_flash_app` on blocks of whole words -/

theorem bytes_le32_le32 (m : Mem) (i : Nat) (h0 : m i < 256) (h1 : m (i + 1) < 256)
    (h2 : m (i + 2) < 256) (h3 : m (i + 3) < 256) :
    bytes_le32 (le32 m i) = [m i, m (i + 1), m (i + 2), m (i + 3)] := by
  simp only [bytes_le32, le32]
  have e0 : (m i + 256 * m (i + 1) + 65536 * m (i + 2) + 16777216 * m (i + 3)) % 256 = m i := by
    omega
  have e1 : (m i + 256 * m (i + 1) + 65536 * m (i + 2) + 16777216 * m (i + 3)) / 256 % 256
      = m (i + 1) := by omega
  have e2 : (m i + 256 * m (i + 1) + 65536 * m (i + 2) + 16777216 * m (i + 3)) / 65536 % 256
      = m (i + 2) := by omega
  have e3 : (m i + 256 * m (i + 1) + 65536 * m (i + 2) + 16777216 * m (i + 3)) / 16777216 % 256
      = m (i + 3) := by omega
  rw [e0, e1, e2, e3]

theorem storeBytes_four (m : Mem) (i c0 c1 c2 c3 a : Nat) :
    storeBytes m i [c0, c1, c2, c3] a
      = if i ≤ a ∧ a < i + 4 then [c0, c1, c2, c3].getD (a - i) 0 else m a := by
  by_cases h : i ≤ a ∧ a < i + 4
  · rw [if_pos h]
    have := storeBytes_mid [c0, c1, c2, c3] m i (a - i) (by simp; omega)
    rw [show i + (a - i) = a by omega] at this
    exact this
  · rw [if_neg h]
    by_cases h1 : a < i
    · exact storeBytes_lt _ _ _ _ h1
    · exact storeBytes_ge _ _ _ _ (by simp; omega)

theorem HAL_FLASH_Program_ok (f : Flash) (address word : Nat) (h : f.hal_rets = []) :
    HAL_FLASH_Program f address word
      = (HAL_OK, { mem := storeBytes f.mem address (bytes_le32 word), hal_rets := [],
                   log := f.log ++ [(FlashOp.program address word, HAL_OK)] }) := by
  simp [HAL_FLASH_Program, Flash.call, h]

/-- A word programmed from the block: its four bytes land at the address. -/
theorem program_word_mem (data : List Nat) (hb : ∀ i, data.getD i 0 < 256) (m : Mem)
    (address b a : Nat) :
    storeBytes m address (bytes_le32 (le32 (fun i => data.getD i 0) b)) a
      = if address ≤ a ∧ a < address + 4 then data.getD (b + (a - address)) 0 else m a := by
  rw [bytes_le32_le32 (fun i => data.getD i 0) b (hb _) (hb _) (hb _) (hb _), storeBytes_four]
  by_cases h : address ≤ a ∧ a < address + 4
  · rw [if_pos h, if_pos h]
    have h4 : a - address = 0 ∨ a - address = 1 ∨ a - address = 2 ∨ a - address = 3 := by omega
    rcases h4 with e | e | e | e <;> rw [e] <;> rfl
  · rw [if_neg h, if_neg h]

theorem write_full_words_ok (T : Target) (data : List Nat) (hb : ∀ i, data.getD i 0 < 256)
    (dlm : Nat) (hdlm : dlm < 65536) :
    ∀ (n passes b r : Nat) (f : Flash), f.hal_rets = [] → n ≤ passes → b + 4 * n = dlm →
      b % 4 = 0 → T.ETX_APP_FLASH_ADDR + r + 4 * n < 2 ^ 32 →
      (write_full_words T data dlm passes b r f).1 = HAL_OK
      ∧ (write_full_words T data dlm passes b r f).2.1 = dlm
      ∧ (write_full_words T data dlm passes b r f).2.2.1 = r + 4 * n
      ∧ (write_full_words T data dlm passes b r f).2.2.2.hal_rets = []
      ∧ (write_full_words T data dlm passes b r f).2.2.2.log
          = f.log ++ (List.range n).map (fun k =>
              (FlashOp.program (T.ETX_APP_FLASH_ADDR + r + 4 * k)
                (le32 (fun i => data.getD i 0) (b + 4 * k)), HAL_OK))
      ∧ ∀ a, (write_full_words T data dlm passes b r f).2.2.2.mem a
          = if T.ETX_APP_FLASH_ADDR + r ≤ a ∧ a < T.ETX_APP_FLASH_ADDR + r + 4 * n then
              data.getD (b + (a - (T.ETX_APP_FLASH_ADDR + r))) 0
            else f.mem a := by
  intro n
  induction n with
  | zero =>
    intro passes b r f hf _ hbd _ _
    have e : write_full_words T data dlm passes b r f = (HAL_OK, b, r, f) := by
      cases passes with
      | zero => rfl
      | succ p =>
        simp only [write_full_words]
        rw [if_neg (by omega)]
    rw [e]
    refine ⟨rfl, by simpa using hbd, rfl, hf, by simp, fun a => ?_⟩
    rw [if_neg (by omega)]
  | succ n ih =>
    intro passes b r f hf hp hbd hb4 haddr
    obtain ⟨p, rfl⟩ : ∃ p, passes = p + 1 := ⟨passes - 1, by omega⟩
    have e : write_full_words T data dlm (p + 1) b r f
        = write_full_words T data dlm p (b + 4) (r + 4)
            { mem := storeBytes f.mem (T.ETX_APP_FLASH_ADDR + r)
                (bytes_le32 (le32 (fun i => data.getD i 0) b)),
              hal_rets := [],
              log := f.log ++ [(FlashOp.program (T.ETX_APP_FLASH_ADDR + r)
                (le32 (fun i => data.getD i 0) b), HAL_OK)] } := by
      simp only [write_full_words]
      rw [if_pos (by omega), Nat.mod_eq_of_lt (show T.ETX_APP_FLASH_ADDR + r < 2 ^ 32 by omega),
        show 4 * (b / 4) = b by omega, HAL_FLASH_Program_ok _ _ _ hf]
      simp only [HAL_ret_handler_OK]
      rw [if_pos (by decide), Nat.mod_eq_of_lt (show b + 4 < 65536 by omega),
        Nat.mod_eq_of_lt (show r + 4 < 2 ^ 32 by omega)]
    rw [e]
    obtain ⟨h1, h2, h3, h4, h5, h6⟩ := ih p (b + 4) (r + 4)
      { mem := storeBytes f.mem (T.ETX_APP_FLASH_ADDR + r)
          (bytes_le32 (le32 (fun i => data.getD i 0) b)),
        hal_rets := [],
        log := f.log ++ [(FlashOp.program (T.ETX_APP_FLASH_ADDR + r)
          (le32 (fun i => data.getD i 0) b), HAL_OK)] }
      rfl (by omega) (by omega) (by omega) (by omega)
    refine ⟨h1, h2, by rw [h3]; omega, h4, ?_, fun a => ?_⟩
    · rw [h5, List.range_succ_eq_map, List.map_cons, List.map_map, List.append_assoc]
      simp only [List.singleton_append, Nat.mul_zero, Nat.add_zero, List.cons.injEq, true_and,
        List.append_cancel_left_eq]
      apply List.map_congr_left
      intro k _
      simp only [Function.comp, Nat.succ_eq_add_one]
      rw [show T.ETX_APP_FLASH_ADDR + (r + 4) + 4 * k = T.ETX_APP_FLASH_ADDR + r + 4 * (k + 1) by
        omega, show b + 4 + 4 * k = b + 4 * (k + 1) by omega]
    · rw [h6]
      dsimp only
      rw [program_word_mem data hb]
      by_cases c1 : T.ETX_APP_FLASH_ADDR + r ≤ a ∧ a < T.ETX_APP_FLASH_ADDR + r + 4
      · rw [if_neg (by omega), if_pos c1, if_pos (by omega)]
      · by_cases c2 : T.ETX_APP_FLASH_ADDR + (r + 4) ≤ a
            ∧ a < T.ETX_APP_FLASH_ADDR + (r + 4) + 4 * n
        · rw [if_pos c2, if_pos (by omega)]
          congr 1
          omega
        · rw [if_neg c2, if_neg c1, if_neg (by omega)]


theorem HAL_FLASH_Unlock_ok (f : Flash) (h : f.hal_rets = []) :
    HAL_FLASH_Unlock f
      = (HAL_OK, { mem := f.mem, hal_rets := [], log := f.log ++ [(FlashOp.unlock, HAL_OK)] }) := by
  simp [HAL_FLASH_Unlock, Flash.call, h]

theorem HAL_FLASH_Lock_ok (f : Flash) (h : f.hal_rets = []) :
    HAL_FLASH_Lock f
      = (HAL_OK, { mem := f.mem, hal_rets := [], log := f.log ++ [(FlashOp.lock, HAL_OK)] }) := by
  simp [HAL_FLASH_Lock, Flash.call, h]

theorem HAL_FLASHEx_Erase_ok (T : Target) (f : Flash) (page_address nb_pages : Nat)
    (h : f.hal_rets = []) :
    HAL_FLASHEx_Erase T f page_address nb_pages
      = (HAL_OK, Flash.mk
          (fun a =>
            if page_address ≤ a ∧ a < page_address + nb_pages * T.FLASH_PAGE_SIZE_IN_BYTES then 255
            else f.mem a)
          [] (f.log ++ [(FlashOp.erase page_address nb_pages, HAL_OK)])) := by
  simp [HAL_FLASHEx_Erase, Flash.call, h]

theorem fill_word_data_full (data : List Nat) (b : Nat) :
    le32 (fun i => (fill_word_data data b 4).getD i 0) 0 = le32 (fun i => data.getD i 0) b := by
  simp [fill_word_data, le32, List.range, List.range.loop]

theorem flash_opened_rets (T : Target) (f : Flash) (first : Bool) :
    (flash_opened T f first).hal_rets = [] := by
  cases first <;> rfl

theorem write_whole_words (T : Target) (d : Device) (data : List Nat) (L : Nat) (first : Bool)
    (hok : d.flash.hal_rets = []) (hb : ∀ i, data.getD i 0 < 256) (hL4 : L % 4 = 0) (h4 : 4 ≤ L)
    (hmax : L ≤ 1024) (haddr : T.ETX_APP_FLASH_ADDR + d.etx_ota_fw_received_size + L < 2 ^ 32) :
    write_data_to_flash_app T d data L first
      = (ETX_OTA_EC_OK,
          { d with
            flash := Flash.mk
              (fun a =>
                if T.ETX_APP_FLASH_ADDR + d.etx_ota_fw_received_size ≤ a
                    ∧ a < T.ETX_APP_FLASH_ADDR + d.etx_ota_fw_received_size + L then
                  data.getD (a - (T.ETX_APP_FLASH_ADDR + d.etx_ota_fw_received_size)) 0
                else (flash_opened T d.flash first).mem a)
              []
              ((flash_opened T d.flash first).log
                ++ programmed_words T data d.etx_ota_fw_received_size (L / 4)
                ++ [(FlashOp.lock, HAL_OK)]),
            etx_ota_fw_received_size := d.etx_ota_fw_received_size + L }) := by
  unfold write_data_to_flash_app
  rw [HAL_FLASH_Unlock_ok _ hok]
  dsimp only
  have hscr : (if first = true then
        (HAL_ret_handler (HAL_FLASHEx_Erase T
            { mem := d.flash.mem, hal_rets := [], log := d.flash.log ++ [(FlashOp.unlock, HAL_OK)] }
            T.ETX_APP_FLASH_ADDR T.ETX_APP_FLASH_PAGES_SIZE).1 % 256,
          (HAL_FLASHEx_Erase T
            { mem := d.flash.mem, hal_rets := [], log := d.flash.log ++ [(FlashOp.unlock, HAL_OK)] }
            T.ETX_APP_FLASH_ADDR T.ETX_APP_FLASH_PAGES_SIZE).2)
      else
        (HAL_OK,
          { mem := d.flash.mem, hal_rets := [], log := d.flash.log ++ [(FlashOp.unlock, HAL_OK)] }))
      = (HAL_OK, flash_opened T d.flash first) := by
    cases first
    · rfl
    · rw [if_pos rfl, HAL_FLASHEx_Erase_ok _ _ _ _ rfl]
      rfl
  rw [if_neg (by decide), hscr]
  dsimp only
  rw [if_neg (by decide)]
  have hf := flash_opened_rets T d.flash first
  generalize flash_opened T d.flash first = f at hf ⊢
  clear hscr
  by_cases hL : L > 4
  · rw [if_pos hL, show (L + 65536 - 4) % 65536 = L - 4 by omega]
    obtain ⟨k1, k2, k3, k4, k5, k6⟩ := write_full_words_ok T data hb (L - 4) (by omega)
      ((L - 4) / 4) (L - 4) 0 d.etx_ota_fw_received_size f hf (by omega) (by omega) rfl (by omega)
    have hn : 4 * ((L - 4) / 4) = L - 4 := by omega
    rw [hn] at k3 k6
    generalize write_full_words T data (L - 4) (L - 4) 0 d.etx_ota_fw_received_size f = W
      at k1 k2 k3 k4 k5 k6 ⊢
    obtain ⟨ret, bf, rs, f2⟩ := W
    obtain ⟨m2, r2, l2⟩ := f2
    dsimp only at k1 k2 k3 k4 k5 k6 ⊢
    subst k1 k2 k3 k4
    rw [if_neg (by decide), HAL_FLASH_Program_ok _ _ _ rfl]
    dsimp only
    have e1 : HAL_ret_handler HAL_OK % 256 = ETX_OTA_EC_OK := by decide
    rw [HAL_ret_handler_OK, if_neg (by decide), HAL_FLASH_Lock_ok _ rfl]
    dsimp only
    have e2 : (d.etx_ota_fw_received_size + (L - 4) + (L + 65536 - (L - 4)) % 256) % 2 ^ 32
        = d.etx_ota_fw_received_size + L := by omega
    have e3 : (T.ETX_APP_FLASH_ADDR + (d.etx_ota_fw_received_size + (L - 4))) % 2 ^ 32
        = T.ETX_APP_FLASH_ADDR + d.etx_ota_fw_received_size + (L - 4) := by omega
    have e4 : (L + 65536 - (L - 4)) % 256 = 4 := by omega
    have e5 : l2 ++ [(FlashOp.program (T.ETX_APP_FLASH_ADDR + d.etx_ota_fw_received_size + (L - 4))
          (le32 (fun i => data.getD i 0) (L - 4)), HAL_OK)]
        = f.log ++ programmed_words T data d.etx_ota_fw_received_size (L / 4) := by
      rw [k5, programmed_words, show L / 4 = (L - 4) / 4 + 1 by omega, List.range_succ,
        List.map_append, List.append_assoc, List.map_cons, List.map_nil, hn]
      simp only [Nat.zero_add]
    have e6 : storeBytes m2 (T.ETX_APP_FLASH_ADDR + d.etx_ota_fw_received_size + (L - 4))
        (bytes_le32 (le32 (fun i => data.getD i 0) (L - 4)))
        = fun a =>
            if T.ETX_APP_FLASH_ADDR + d.etx_ota_fw_received_size ≤ a
                ∧ a < T.ETX_APP_FLASH_ADDR + d.etx_ota_fw_received_size + L then
              data.getD (a - (T.ETX_APP_FLASH_ADDR + d.etx_ota_fw_received_size)) 0
            else f.mem a := by
      funext a
      rw [program_word_mem data hb, k6 a]
      by_cases c1 : T.ETX_APP_FLASH_ADDR + d.etx_ota_fw_received_size + (L - 4) ≤ a
          ∧ a < T.ETX_APP_FLASH_ADDR + d.etx_ota_fw_received_size + (L - 4) + 4
      · rw [if_pos c1, if_pos (by omega)]
        congr 1
        omega
      · rw [if_neg c1]
        by_cases c2 : T.ETX_APP_FLASH_ADDR + d.etx_ota_fw_received_size ≤ a
            ∧ a < T.ETX_APP_FLASH_ADDR + d.etx_ota_fw_received_size + (L - 4)
        · rw [if_pos c2, if_pos (by omega), Nat.zero_add]
        · rw [if_neg c2, if_neg (by omega)]
    rw [e1, e2, e3, e4, fill_word_data_full, e5, e6]
  · rw [if_neg hL]
    have e4 : L = 4 := by omega
    subst e4
    rw [HAL_FLASH_Program_ok _ _ _ hf]
    dsimp only
    rw [HAL_ret_handler_OK, if_neg (by decide), HAL_FLASH_Lock_ok _ rfl]
    dsimp only
    have e1 : HAL_ret_handler HAL_OK % 256 = ETX_OTA_EC_OK := by decide
    have e2 : (d.etx_ota_fw_received_size + 4 % 256) % 2 ^ 32 = d.etx_ota_fw_received_size + 4 := by
      omega
    have e3 : (T.ETX_APP_FLASH_ADDR + d.etx_ota_fw_received_size) % 2 ^ 32
        = T.ETX_APP_FLASH_ADDR + d.etx_ota_fw_received_size := Nat.mod_eq_of_lt (by omega)
    have e4 : (4 : Nat) % 256 = 4 := by decide
    have e5 : programmed_words T data d.etx_ota_fw_received_size (4 / 4)
        = [(FlashOp.program (T.ETX_APP_FLASH_ADDR + d.etx_ota_fw_received_size)
            (le32 (fun i => data.getD i 0) 0), HAL_OK)] := rfl
    have e6 : storeBytes f.mem (T.ETX_APP_FLASH_ADDR + d.etx_ota_fw_received_size)
        (bytes_le32 (le32 (fun i => data.getD i 0) 0))
        = fun a =>
            if T.ETX_APP_FLASH_ADDR + d.etx_ota_fw_received_size ≤ a
                ∧ a < T.ETX_APP_FLASH_ADDR + d.etx_ota_fw_received_size + 4 then
              data.getD (a - (T.ETX_APP_FLASH_ADDR + d.etx_ota_fw_received_size)) 0
            else f.mem a := by
      funext a
      rw [program_word_mem data hb, Nat.zero_add]
    rw [e1, e2, e3, e4, fill_word_data_full, e5, e6]

theorem getD_lt_of_forall_mem (data : List Nat) (h : ∀ b ∈ data, b < 256) (i : Nat) :
    data.getD i 0 < 256 := by
  by_cases hi : i < data.length
  · rw [List.getD_eq_getElem _ _ hi]
    exact h _ (List.getElem_mem hi)
  · rw [List.getD_eq_default _ _ (by omega)]
    decide

theorem readBytes_eq_of_getD (data : List Nat) (m : Mem) (i : Nat)
    (h : ∀ k, k < data.length → m (i + k) = data.getD k 0) :
    readBytes m i data.length = data := by
  induction data generalizing i with
  | nil => rfl
  | cons b bs ih =>
    simp only [List.length_cons, readBytes]
    have h0 := h 0 (by simp)
    simp only [Nat.add_zero, List.getD_cons_zero] at h0
    rw [h0, ih (i + 1) (fun k hk => by
      have := h (k + 1) (by simp; omega)
      rw [show i + (k + 1) = i + 1 + k by omega] at this
      simpa using this)]

/-- C11: a block of `L` bytes, `L` a multiple of 4 with `4 ≤ L ≤ 1024`, written by
`write_data_to_flash_app` while every flash call succeeds: the call returns
`ETX_OTA_EC_OK`; after `HAL_FLASH_Unlock` (and the page erase of a first block) the flash
HAL is called for exactly the `L / 4` words `programmed_words`, word `k` at
`ETX_APP_FLASH_ADDR + r + 4 * k` with the little-endian value of bytes `4k .. 4k+3` of the
block, then for `HAL_FLASH_Lock`; the `L` flash bytes from `ETX_APP_FLASH_ADDR + r` on equal
the block; and `etx_ota_fw_received_size` is `r + L`. -/
theorem write_data_to_flash_app_whole_words (T : Target) (d : Device) (data : List Nat)
    (L : Nat) (is_first_block : Bool)
    (hL4 : L % 4 = 0) (h4 : 4 ≤ L) (hmax : L ≤ 1024)
    (hlen : data.length = L) (hbytes : ∀ b ∈ data, b < 256)
    (hok : d.flash.hal_rets = [])
    (haddr : T.ETX_APP_FLASH_ADDR + d.etx_ota_fw_received_size + L < 2 ^ 32) :
    (write_data_to_flash_app T d data L is_first_block).1 = ETX_OTA_EC_OK
    ∧ (write_data_to_flash_app T d data L is_first_block).2.flash.log
        = d.flash.log ++ [(FlashOp.unlock, HAL_OK)]
          ++ (if is_first_block then
                [(FlashOp.erase T.ETX_APP_FLASH_ADDR T.ETX_APP_FLASH_PAGES_SIZE, HAL_OK)]
              else [])
          ++ programmed_words T data d.etx_ota_fw_received_size (L / 4)
          ++ [(FlashOp.lock, HAL_OK)]
    ∧ readBytes (write_data_to_flash_app T d data L is_first_block).2.flash.mem
        (T.ETX_APP_FLASH_ADDR + d.etx_ota_fw_received_size) L = data
    ∧ (write_data_to_flash_app T d data L is_first_block).2.etx_ota_fw_received_size
        = d.etx_ota_fw_received_size + L := by
  rw [write_whole_words T d data L is_first_block hok (getD_lt_of_forall_mem data hbytes) hL4 h4
    hmax haddr]
  refine ⟨rfl, ?_, ?_, rfl⟩
  · cases is_first_block
    · simp [flash_opened]
    · simp [flash_opened]
  · subst hlen
    apply readBytes_eq_of_getD
    intro k hk
    show (if _ then _ else _) = _
    rw [if_pos (by omega)]
    congr 1
    omega

theorem write_data_to_flash_app_whole_words_witness :
    (write_data_to_flash_app reference_target (sample_device ETX_OTA_STATE_DATA (fun _ => 0) [])
        [1, 2, 3, 4, 5, 6, 7, 8] 8 true).1 = ETX_OTA_EC_OK
    ∧ (write_data_to_flash_app reference_target (sample_device ETX_OTA_STATE_DATA (fun _ => 0) [])
        [1, 2, 3, 4, 5, 6, 7, 8] 8 true).2.flash.log
        = [(FlashOp.unlock, HAL_OK), (FlashOp.erase 0x0800A800 86, HAL_OK),
            (FlashOp.program 0x0800A800 0x04030201, HAL_OK),
            (FlashOp.program 0x0800A804 0x08070605, HAL_OK), (FlashOp.lock, HAL_OK)]
    ∧ readBytes (write_data_to_flash_app reference_target
        (sample_device ETX_OTA_STATE_DATA (fun _ => 0) []) [1, 2, 3, 4, 5, 6, 7, 8] 8
          true).2.flash.mem 0x0800A800 8 = [1, 2, 3, 4, 5, 6, 7, 8]
    ∧ (write_data_to_flash_app reference_target (sample_device ETX_OTA_STATE_DATA (fun _ => 0) [])
        [1, 2, 3, 4, 5, 6, 7, 8] 8 true).2.etx_ota_fw_received_size = 8 :=
  write_data_to_flash_app_whole_words reference_target
    (sample_device ETX_OTA_STATE_DATA (fun _ => 0) []) [1, 2, 3, 4, 5, 6, 7, 8] 8 true
    (by decide) (by decide) (by decide) rfl (by decide) rfl (by decide)

/-! ## The Data state of `etx_ota_process_data` -/

/-- `write_data_to_flash_app` touches only the flash and `etx_ota_fw_received_size`. -/
theorem write_data_to_flash_app_frame (T : Target) (d : Device) (data : List Nat) (L : Nat)
    (first : Bool) :
    (write_data_to_flash_app T d data L first).2.etx_ota_state = d.etx_ota_state
    ∧ (write_data_to_flash_app T d data L first).2.fw_config = d.fw_config
    ∧ (write_data_to_flash_app T d data L first).2.Rx_Buffer = d.Rx_Buffer
    ∧ (write_data_to_flash_app T d data L first).2.ETX_OTA_hardware_protocol
        = d.ETX_OTA_hardware_protocol
    ∧ (write_data_to_flash_app T d data L first).2.rx = d.rx
    ∧ (write_data_to_flash_app T d data L first).2.tx = d.tx
    ∧ (write_data_to_flash_app T d data L first).2.tx_rets = d.tx_rets
    ∧ (write_data_to_flash_app T d data L first).2.conf = d.conf := by
  unfold write_data_to_flash_app
  dsimp only
  split_ifs <;> exact ⟨rfl, rfl, rfl, rfl, rfl, rfl, rfl, rfl⟩

/-- `etx_ota_process_data` in the Data state on a Data packet whose `data_len` is a multiple
of 4. -/
theorem process_data_state (T : Target) (d : Device)
    (hs : d.etx_ota_state = ETX_OTA_STATE_DATA)
    (ht : d.Rx_Buffer 1 = ETX_OTA_PACKET_TYPE_DATA)
    (h4 : le16 d.Rx_Buffer 2 % 4 = 0) :
    etx_ota_process_data T d
      = if HAL_ret_handler (write_data_to_flash_app T d
            (readBytes d.Rx_Buffer ETX_OTA_DATA_FIELD_INDEX (le16 d.Rx_Buffer 2))
            (le16 d.Rx_Buffer 2) (decide (d.etx_ota_fw_received_size = 0))).1 ≠ HAL_OK then
          (HAL_ret_handler (write_data_to_flash_app T d
            (readBytes d.Rx_Buffer ETX_OTA_DATA_FIELD_INDEX (le16 d.Rx_Buffer 2))
            (le16 d.Rx_Buffer 2) (decide (d.etx_ota_fw_received_size = 0))).1,
           (write_data_to_flash_app T d
            (readBytes d.Rx_Buffer ETX_OTA_DATA_FIELD_INDEX (le16 d.Rx_Buffer 2))
            (le16 d.Rx_Buffer 2) (decide (d.etx_ota_fw_received_size = 0))).2)
        else if (write_data_to_flash_app T d
            (readBytes d.Rx_Buffer ETX_OTA_DATA_FIELD_INDEX (le16 d.Rx_Buffer 2))
            (le16 d.Rx_Buffer 2) (decide (d.etx_ota_fw_received_size = 0))).2.etx_ota_fw_received_size
            ≥ d.fw_config.App_fw_size then
          (ETX_OTA_EC_OK, { (write_data_to_flash_app T d
            (readBytes d.Rx_Buffer ETX_OTA_DATA_FIELD_INDEX (le16 d.Rx_Buffer 2))
            (le16 d.Rx_Buffer 2) (decide (d.etx_ota_fw_received_size = 0))).2 with
              etx_ota_state := ETX_OTA_STATE_END })
        else
          (ETX_OTA_EC_OK, (write_data_to_flash_app T d
            (readBytes d.Rx_Buffer ETX_OTA_DATA_FIELD_INDEX (le16 d.Rx_Buffer 2))
            (le16 d.Rx_Buffer 2) (decide (d.etx_ota_fw_received_size = 0))).2) := by
  unfold etx_ota_process_data
  dsimp only
  rw [if_neg (by rw [ht]; exact fun h => absurd h.1 (by decide)), if_neg (by rw [hs]; decide), if_neg (by rw [hs]; decide),
    if_neg (by rw [hs]; decide), if_pos hs, if_pos ht, if_neg (by rw [h4]; decide),
    (write_data_to_flash_app_frame T d _ _ _).2.1]

/-- C12: in the Data state, once `write_data_to_flash_app` has written the Data packet
successfully, `etx_ota_process_data` returns `ETX_OTA_EC_OK`, keeps the received size the
write has reached, and the state is End exactly when that size is at least `App_fw_size`;
otherwise the state is still Data. -/
theorem data_state_transition (T : Target) (d : Device)
    (hs : d.etx_ota_state = ETX_OTA_STATE_DATA)
    (ht : d.Rx_Buffer 1 = ETX_OTA_PACKET_TYPE_DATA)
    (h4 : le16 d.Rx_Buffer 2 % 4 = 0)
    (hw : (write_data_to_flash_app T d
        (readBytes d.Rx_Buffer ETX_OTA_DATA_FIELD_INDEX (le16 d.Rx_Buffer 2))
        (le16 d.Rx_Buffer 2) (decide (d.etx_ota_fw_received_size = 0))).1 = ETX_OTA_EC_OK) :
    (etx_ota_process_data T d).1 = ETX_OTA_EC_OK
    ∧ (etx_ota_process_data T d).2.etx_ota_fw_received_size
        = (write_data_to_flash_app T d
            (readBytes d.Rx_Buffer ETX_OTA_DATA_FIELD_INDEX (le16 d.Rx_Buffer 2))
            (le16 d.Rx_Buffer 2)
            (decide (d.etx_ota_fw_received_size = 0))).2.etx_ota_fw_received_size
    ∧ ((etx_ota_process_data T d).2.etx_ota_state = ETX_OTA_STATE_END
        ↔ (etx_ota_process_data T d).2.etx_ota_fw_received_size ≥ d.fw_config.App_fw_size)
    ∧ (¬ (etx_ota_process_data T d).2.etx_ota_fw_received_size ≥ d.fw_config.App_fw_size
        → (etx_ota_process_data T d).2.etx_ota_state = ETX_OTA_STATE_DATA) := by
  rw [process_data_state T d hs ht h4, hw, if_neg (by decide)]
  have hst := (write_data_to_flash_app_frame T d
    (readBytes d.Rx_Buffer ETX_OTA_DATA_FIELD_INDEX (le16 d.Rx_Buffer 2))
    (le16 d.Rx_Buffer 2) (decide (d.etx_ota_fw_received_size = 0))).1
  by_cases hge : (write_data_to_flash_app T d
      (readBytes d.Rx_Buffer ETX_OTA_DATA_FIELD_INDEX (le16 d.Rx_Buffer 2))
      (le16 d.Rx_Buffer 2) (decide (d.etx_ota_fw_received_size = 0))).2.etx_ota_fw_received_size
      ≥ d.fw_config.App_fw_size
  · rw [if_pos hge]
    exact ⟨rfl, rfl, ⟨fun _ => hge, fun _ => rfl⟩, fun h => absurd hge h⟩
  · rw [if_neg hge]
    refine ⟨rfl, rfl, ⟨fun h => ?_, fun h => absurd h hge⟩, fun _ => hst.trans hs⟩
    rw [hst, hs] at h
    exact absurd h (by decide)

theorem data_state_transition_witness :
    (data_device 8 0 [1, 2, 3, 4, 5, 6, 7, 8]).etx_ota_state = ETX_OTA_STATE_DATA
    ∧ (data_device 8 0 [1, 2, 3, 4, 5, 6, 7, 8]).Rx_Buffer 1 = ETX_OTA_PACKET_TYPE_DATA
    ∧ le16 (data_device 8 0 [1, 2, 3, 4, 5, 6, 7, 8]).Rx_Buffer 2 = 8
    ∧ (etx_ota_process_data reference_target (data_device 8 0 [1, 2, 3, 4, 5, 6, 7, 8])).1
        = ETX_OTA_EC_OK
    ∧ (etx_ota_process_data reference_target
        (data_device 8 0 [1, 2, 3, 4, 5, 6, 7, 8])).2.etx_ota_fw_received_size = 8
    ∧ (etx_ota_process_data reference_target
        (data_device 8 0 [1, 2, 3, 4, 5, 6, 7, 8])).2.etx_ota_state = ETX_OTA_STATE_END := by
  have h := data_state_transition reference_target (data_device 8 0 [1, 2, 3, 4, 5, 6, 7, 8])
    (by decide) (by decide) (by decide) (by decide)
  have hr : (etx_ota_process_data reference_target
      (data_device 8 0 [1, 2, 3, 4, 5, 6, 7, 8])).2.etx_ota_fw_received_size = 8 := by
    rw [h.2.1]; decide
  refine ⟨by decide, by decide, by decide, h.1, hr, ?_⟩
  exact h.2.2.1.2 (by rw [hr]; decide)

/-! ## Data packets that are not whole words, and the End state -/

/-- Against C13 as stated, a whole transaction for an image of 3 bytes: the Start and Header
packets are acknowledged, the Data packet that carries the 3 bytes (the last and only chunk)
is answered with NACK, the function returns `ETX_OTA_EC_ERR`, the state is still Data and the
flash HAL has not been called. -/
theorem final_short_chunk_rejected :
    (firmware_image_download_and_install reference_target short_final_chunk_device).map
        (fun o => (o.1, o.2.tx))
      = some (ETX_OTA_EC_ERR,
          [response_packet ETX_OTA_ACK, response_packet ETX_OTA_ACK,
            response_packet ETX_OTA_NACK])
    ∧ (firmware_image_download_and_install reference_target short_final_chunk_device).map
        (fun o => (o.2.etx_ota_state, o.2.fw_config.App_fw_size, o.2.flash.log))
      = some (ETX_OTA_STATE_DATA, 3, []) := by
  decide

/-- C13 as the code has it: in the Data state a Data packet whose `data_len` is not a multiple
of 4 is rejected with `ETX_OTA_EC_ERR` and the device is left as it was, whether or not the
packet would complete the image. -/
theorem data_len_not_word_multiple_rejected (T : Target) (d : Device)
    (hs : d.etx_ota_state = ETX_OTA_STATE_DATA)
    (ht : d.Rx_Buffer 1 = ETX_OTA_PACKET_TYPE_DATA)
    (h4 : le16 d.Rx_Buffer 2 % 4 ≠ 0) :
    etx_ota_process_data T d = (ETX_OTA_EC_ERR, d) := by
  unfold etx_ota_process_data
  dsimp only
  rw [if_neg (by rw [ht]; exact fun h => absurd h.1 (by decide)), if_neg (by rw [hs]; decide),
    if_neg (by rw [hs]; decide), if_neg (by rw [hs]; decide), if_pos hs, if_pos ht, if_pos h4]

theorem data_len_not_word_multiple_rejected_witness :
    (data_device 7 0 [5, 6, 7]).etx_ota_state = ETX_OTA_STATE_DATA
    ∧ (data_device 7 0 [5, 6, 7]).Rx_Buffer 1 = ETX_OTA_PACKET_TYPE_DATA
    ∧ le16 (data_device 7 0 [5, 6, 7]).Rx_Buffer 2 = 3
    ∧ etx_ota_process_data reference_target (data_device 7 0 [5, 6, 7])
        = (ETX_OTA_EC_ERR, data_device 7 0 [5, 6, 7]) :=
  ⟨by decide, by decide, by decide,
    data_len_not_word_multiple_rejected reference_target (data_device 7 0 [5, 6, 7])
      (by decide) (by decide) (by decide)⟩

/-- C15 at a transaction whose Data packet has `data_len = 0`: the packet is acknowledged like
Start and Header before it, the word `00000000` is programmed at `ETX_APP_FLASH_ADDR`, and the
function only returns (`ETX_OTA_EC_NR`) because nothing follows on the link.  In the Data state
`etx_ota_process_data` returns `ETX_OTA_EC_OK` for such a packet. -/
theorem empty_data_packet_accepted :
    (firmware_image_download_and_install reference_target empty_data_packet_device).map
        (fun o => (o.1, o.2.tx))
      = some (ETX_OTA_EC_NR,
          [response_packet ETX_OTA_ACK, response_packet ETX_OTA_ACK,
            response_packet ETX_OTA_ACK])
    ∧ (firmware_image_download_and_install reference_target empty_data_packet_device).map
        (fun o => (o.2.etx_ota_state, o.2.etx_ota_fw_received_size, o.2.flash.log))
      = some (ETX_OTA_STATE_DATA, 0,
          [(FlashOp.unlock, HAL_OK), (FlashOp.erase 0x0800A800 86, HAL_OK),
            (FlashOp.program 0x0800A800 0, HAL_OK), (FlashOp.lock, HAL_OK)])
    ∧ le16 (data_device 8 0 []).Rx_Buffer 2 = 0
    ∧ (etx_ota_process_data reference_target (data_device 8 0 [])).1 = ETX_OTA_EC_OK
    ∧ (etx_ota_process_data reference_target (data_device 8 0 [])).2.flash.log
        = [(FlashOp.unlock, HAL_OK), (FlashOp.erase 0x0800A800 86, HAL_OK),
            (FlashOp.program 0x0800A800 0, HAL_OK), (FlashOp.lock, HAL_OK)] := by
  decide

/-- C16: in the End state, on a packet that is not the Abort command.  For the End command
`etx_ota_process_data` returns `ETX_OTA_EC_OK` with the state Idle exactly when `crc32_mpeg2`
over the `App_fw_size` flash bytes from `ETX_APP_FLASH_ADDR` on equals `App_fw_rec_crc`, and on
a mismatch it returns `ETX_OTA_EC_ERR` leaving the device as it was; for every other packet it
returns `ETX_OTA_EC_ERR` leaving the device as it was. -/
theorem end_state_transition (T : Target) (d : Device)
    (hs : d.etx_ota_state = ETX_OTA_STATE_END)
    (hna : ¬ (d.Rx_Buffer 1 = ETX_OTA_PACKET_TYPE_CMD ∧ d.Rx_Buffer 4 = ETX_OTA_CMD_ABORT)) :
    (d.Rx_Buffer 1 = ETX_OTA_PACKET_TYPE_CMD ∧ d.Rx_Buffer 4 = ETX_OTA_CMD_END →
      (((etx_ota_process_data T d).1 = ETX_OTA_EC_OK
          ∧ (etx_ota_process_data T d).2.etx_ota_state = ETX_OTA_STATE_IDLE)
        ↔ crc32_mpeg2 (readBytes d.flash.mem T.ETX_APP_FLASH_ADDR d.fw_config.App_fw_size)
            = d.fw_config.App_fw_rec_crc)
      ∧ (crc32_mpeg2 (readBytes d.flash.mem T.ETX_APP_FLASH_ADDR d.fw_config.App_fw_size)
            ≠ d.fw_config.App_fw_rec_crc →
          etx_ota_process_data T d = (ETX_OTA_EC_ERR, d)))
    ∧ (¬ (d.Rx_Buffer 1 = ETX_OTA_PACKET_TYPE_CMD ∧ d.Rx_Buffer 4 = ETX_OTA_CMD_END) →
        etx_ota_process_data T d = (ETX_OTA_EC_ERR, d)) := by
  unfold etx_ota_process_data
  dsimp only
  rw [if_neg hna, if_neg (by rw [hs]; decide), if_neg (by rw [hs]; decide),
    if_neg (by rw [hs]; decide), if_neg (by rw [hs]; decide), if_pos hs]
  refine ⟨fun hc => ?_, fun hc => by rw [if_neg hc]⟩
  rw [if_pos hc]
  by_cases hcrc : crc32_mpeg2 (readBytes d.flash.mem T.ETX_APP_FLASH_ADDR d.fw_config.App_fw_size)
      = d.fw_config.App_fw_rec_crc
  · rw [if_neg (not_not.mpr hcrc)]
    exact ⟨⟨fun _ => hcrc, fun _ => ⟨rfl, rfl⟩⟩, fun h => absurd hcrc h⟩
  · rw [if_pos hcrc]
    exact ⟨⟨fun h => absurd h.1 (show ¬ ETX_OTA_EC_ERR = ETX_OTA_EC_OK by decide),
      fun h => absurd h hcrc⟩, fun _ => rfl⟩

theorem end_state_transition_witness :
    (end_device 4 0 ETX_OTA_PACKET_TYPE_CMD [ETX_OTA_CMD_END]).etx_ota_state = ETX_OTA_STATE_END
    ∧ (end_device 4 0 ETX_OTA_PACKET_TYPE_CMD [ETX_OTA_CMD_END]).Rx_Buffer 1
        = ETX_OTA_PACKET_TYPE_CMD
    ∧ (end_device 4 0 ETX_OTA_PACKET_TYPE_CMD [ETX_OTA_CMD_END]).Rx_Buffer 4 = ETX_OTA_CMD_END
    ∧ crc32_mpeg2 (readBytes (end_device 4 0 ETX_OTA_PACKET_TYPE_CMD [ETX_OTA_CMD_END]).flash.mem
        reference_target.ETX_APP_FLASH_ADDR 4) = 0
    ∧ (etx_ota_process_data reference_target
        (end_device 4 0 ETX_OTA_PACKET_TYPE_CMD [ETX_OTA_CMD_END])).1 = ETX_OTA_EC_OK
    ∧ (etx_ota_process_data reference_target
        (end_device 4 0 ETX_OTA_PACKET_TYPE_CMD [ETX_OTA_CMD_END])).2.etx_ota_state
        = ETX_OTA_STATE_IDLE := by
  have h := ((end_state_transition reference_target
    (end_device 4 0 ETX_OTA_PACKET_TYPE_CMD [ETX_OTA_CMD_END]) (by decide) (by decide)).1
      (by decide)).1.2 (by decide)
  exact ⟨by decide, by decide, by decide, by decide, h.1, h.2⟩

/-- Whenever `etx_ota_process_data` returns a status other than `ETX_OTA_EC_OK` the state is
the one it was called in. -/
theorem process_state_of_not_ok (T : Target) (d : Device)
    (h : (etx_ota_process_data T d).1 ≠ ETX_OTA_EC_OK) :
    (etx_ota_process_data T d).2.etx_ota_state = d.etx_ota_state := by
  revert h
  unfold etx_ota_process_data
  dsimp only
  by_cases hab : d.Rx_Buffer 1 = ETX_OTA_PACKET_TYPE_CMD ∧ d.Rx_Buffer 4 = ETX_OTA_CMD_ABORT
  · rw [if_pos hab]; intro _; rfl
  rw [if_neg hab]
  by_cases h0 : d.etx_ota_state = ETX_OTA_STATE_IDLE
  · rw [if_pos h0]; intro h; exact absurd rfl h
  rw [if_neg h0]
  by_cases h1 : d.etx_ota_state = ETX_OTA_STATE_START
  · rw [if_pos h1]
    by_cases hc : d.Rx_Buffer 1 = ETX_OTA_PACKET_TYPE_CMD ∧ d.Rx_Buffer 4 = ETX_OTA_CMD_START
    · rw [if_pos hc]; intro h; exact absurd rfl h
    · rw [if_neg hc]; intro _; rfl
  rw [if_neg h1]
  by_cases h2 : d.etx_ota_state = ETX_OTA_STATE_HEADER
  · rw [if_pos h2]
    by_cases ht : d.Rx_Buffer 1 = ETX_OTA_PACKET_TYPE_HEADER
    · rw [if_pos ht]
      split
      · intro _; rfl
      · split_ifs
        · intro _; rfl
        · intro h; exact absurd rfl h
    · rw [if_neg ht]; intro _; rfl
  rw [if_neg h2]
  by_cases h3 : d.etx_ota_state = ETX_OTA_STATE_DATA
  · rw [if_pos h3]
    by_cases ht : d.Rx_Buffer 1 = ETX_OTA_PACKET_TYPE_DATA
    · rw [if_pos ht]
      by_cases h4 : le16 d.Rx_Buffer 2 % 4 ≠ 0
      · rw [if_pos h4]; intro _; rfl
      · rw [if_neg h4]
        split_ifs
        · intro _; exact (write_data_to_flash_app_frame T d _ _ _).1
        · intro h; exact absurd rfl h
        · intro h; exact absurd rfl h
    · rw [if_neg ht]; intro _; rfl
  rw [if_neg h3]
  by_cases h4 : d.etx_ota_state = ETX_OTA_STATE_END
  · rw [if_pos h4]
    by_cases hc : d.Rx_Buffer 1 = ETX_OTA_PACKET_TYPE_CMD ∧ d.Rx_Buffer 4 = ETX_OTA_CMD_END
    · rw [if_pos hc]
      split_ifs
      · intro _; rfl
      · intro h; exact absurd rfl h
    · rw [if_neg hc]; intro _; rfl
  · rw [if_neg h4]; intro _; rfl

/-- C18: in every state and on every packet, when `etx_ota_process_data` returns
`ETX_OTA_EC_ERR` or `ETX_OTA_EC_NA` the state `etx_ota_state` after the call is the state
before it. -/
theorem process_error_keeps_state (T : Target) (d : Device)
    (h : (etx_ota_process_data T d).1 = ETX_OTA_EC_ERR
      ∨ (etx_ota_process_data T d).1 = ETX_OTA_EC_NA) :
    (etx_ota_process_data T d).2.etx_ota_state = d.etx_ota_state := by
  apply process_state_of_not_ok
  rcases h with h | h <;> rw [h] <;> decide

theorem process_error_keeps_state_witness :
    (etx_ota_process_data reference_target
        (device_holding ETX_OTA_STATE_HEADER ETX_OTA_PACKET_TYPE_HEADER
          (header_data 88065 0x12345678 ETX_OTA_Application_Firmware_Image))).1 = ETX_OTA_EC_NA
    ∧ (etx_ota_process_data reference_target
        (device_holding ETX_OTA_STATE_HEADER ETX_OTA_PACKET_TYPE_HEADER
          (header_data 88065 0x12345678 ETX_OTA_Application_Firmware_Image))).2.etx_ota_state
        = ETX_OTA_STATE_HEADER :=
  ⟨by decide,
    process_error_keeps_state reference_target
      (device_holding ETX_OTA_STATE_HEADER ETX_OTA_PACKET_TYPE_HEADER
        (header_data 88065 0x12345678 ETX_OTA_Application_Firmware_Image))
      (Or.inr (by decide))⟩

/-! ## The data a completed transaction has accepted -/

/-- The first loop of `write_data_to_flash_app`, whatever the flash HAL answers: the received
size grows by at most the bytes still to flash, and when the loop ends with `HAL_OK` it has
flashed all of them. -/
theorem write_full_words_bound (T : Target) (data : List Nat) (dlm : Nat) (hdlm : dlm < 65536)
    (hdlm4 : dlm % 4 = 0) :
    ∀ (passes bf r : Nat) (f : Flash), bf % 4 = 0 → bf ≤ dlm → dlm - bf ≤ 4 * passes →
      (write_full_words T data dlm passes bf r f).2.2.1 ≤ r + (dlm - bf)
      ∧ ((write_full_words T data dlm passes bf r f).1 = HAL_OK →
          (write_full_words T data dlm passes bf r f).2.1 = dlm) := by
  intro passes
  induction passes with
  | zero =>
    intro bf r f _ h2 h3
    exact ⟨Nat.le_add_right _ _, fun _ => by show bf = dlm; omega⟩
  | succ p ih =>
    intro bf r f h1 h2 h3
    simp only [write_full_words]
    by_cases hlt : bf < dlm
    · rw [if_pos hlt]
      rcases hP : HAL_FLASH_Program f ((T.ETX_APP_FLASH_ADDR + r) % 2 ^ 32)
        (le32 (fun i => data.getD i 0) (4 * (bf / 4))) with ⟨st, f1⟩
      dsimp only
      by_cases hst : HAL_ret_handler st % 256 = HAL_OK
      · rw [if_pos hst, Nat.mod_eq_of_lt (show bf + 4 < 65536 by omega)]
        obtain ⟨k1, k2⟩ := ih (bf + 4) ((r + 4) % 2 ^ 32) f1 (by omega) (by omega) (by omega)
        refine ⟨?_, k2⟩
        have : (r + 4) % 2 ^ 32 ≤ r + 4 := Nat.mod_le _ _
        omega
      · rw [if_neg hst]
        exact ⟨Nat.le_add_right _ _, fun h => absurd h hst⟩
    · rw [if_neg hlt]
      exact ⟨Nat.le_add_right _ _, fun _ => by show bf = dlm; omega⟩

/-- Whatever the flash HAL answers, `write_data_to_flash_app` on a block of whole words
raises `etx_ota_fw_received_size` by at most the length of the block. -/
theorem write_data_to_flash_app_received (T : Target) (d : Device) (data : List Nat) (L : Nat)
    (first : Bool) (hL : L % 4 = 0) :
    (write_data_to_flash_app T d data L first).2.etx_ota_fw_received_size
      ≤ d.etx_ota_fw_received_size + L := by
  unfold write_data_to_flash_app
  dsimp only
  generalize hW : write_full_words T data ((L + 65536 - 4) % 65536) ((L + 65536 - 4) % 65536) 0
    d.etx_ota_fw_received_size _ = W
  have k : W.2.2.1 ≤ d.etx_ota_fw_received_size + ((L + 65536 - 4) % 65536 - 0)
      ∧ (W.1 = HAL_OK → W.2.1 = (L + 65536 - 4) % 65536) := by
    rw [← hW]
    exact write_full_words_bound T data _ (by omega) (by omega) _ 0 _ _ rfl (Nat.zero_le _)
      (by omega)
  clear hW
  obtain ⟨ret, bf, rs, f2⟩ := W
  dsimp only at k ⊢
  obtain ⟨k1, k2⟩ := k
  split_ifs with h1 h2 h3 h4 h5 h6
  all_goals dsimp only
  all_goals omega

/-- The packets `etx_ota_process_data` answers with `ETX_OTA_EC_OK` outside the Idle state,
state by state, when the status `FIRM_UPDT_CONF_EC_OK` of the configuration module is 0. -/
theorem process_ok_cases (T : Target) (d : Device)
    (hT : T.FIRM_UPDT_CONF_EC_OK = ETX_OTA_EC_OK)
    (hok : (etx_ota_process_data T d).1 = ETX_OTA_EC_OK)
    (hni : d.etx_ota_state ≠ ETX_OTA_STATE_IDLE) :
    (d.etx_ota_state = ETX_OTA_STATE_START ∧ d.Rx_Buffer 1 = ETX_OTA_PACKET_TYPE_CMD
      ∧ (etx_ota_process_data T d).2.etx_ota_state = ETX_OTA_STATE_HEADER
      ∧ (etx_ota_process_data T d).2.etx_ota_fw_received_size = d.etx_ota_fw_received_size)
    ∨ (d.etx_ota_state = ETX_OTA_STATE_HEADER ∧ d.Rx_Buffer 1 = ETX_OTA_PACKET_TYPE_HEADER
      ∧ (etx_ota_process_data T d).2.etx_ota_state = ETX_OTA_STATE_DATA
      ∧ (etx_ota_process_data T d).2.etx_ota_fw_received_size = d.etx_ota_fw_received_size
      ∧ (etx_ota_process_data T d).2.fw_config.App_fw_size = le32 d.Rx_Buffer 4)
    ∨ (d.etx_ota_state = ETX_OTA_STATE_DATA ∧ d.Rx_Buffer 1 = ETX_OTA_PACKET_TYPE_DATA
      ∧ (etx_ota_process_data T d).2.fw_config = d.fw_config
      ∧ (etx_ota_process_data T d).2.etx_ota_fw_received_size
          ≤ d.etx_ota_fw_received_size + le16 d.Rx_Buffer 2
      ∧ ((etx_ota_process_data T d).2.etx_ota_state = ETX_OTA_STATE_DATA
        ∨ ((etx_ota_process_data T d).2.etx_ota_state = ETX_OTA_STATE_END
          ∧ d.fw_config.App_fw_size
              ≤ (etx_ota_process_data T d).2.etx_ota_fw_received_size)))
    ∨ (d.etx_ota_state = ETX_OTA_STATE_END ∧ d.Rx_Buffer 1 = ETX_OTA_PACKET_TYPE_CMD
      ∧ (etx_ota_process_data T d).2.etx_ota_state = ETX_OTA_STATE_IDLE) := by
  have hS : ¬ ETX_OTA_EC_STOP = ETX_OTA_EC_OK := by decide
  have hE : ¬ ETX_OTA_EC_ERR = ETX_OTA_EC_OK := by decide
  have hN : ¬ ETX_OTA_EC_NA = ETX_OTA_EC_OK := by decide
  revert hok
  unfold etx_ota_process_data
  dsimp only
  by_cases hab : d.Rx_Buffer 1 = ETX_OTA_PACKET_TYPE_CMD ∧ d.Rx_Buffer 4 = ETX_OTA_CMD_ABORT
  · rw [if_pos hab]; intro h; exact absurd h hS
  rw [if_neg hab, if_neg hni]
  by_cases h1 : d.etx_ota_state = ETX_OTA_STATE_START
  · rw [if_pos h1]
    by_cases hc : d.Rx_Buffer 1 = ETX_OTA_PACKET_TYPE_CMD ∧ d.Rx_Buffer 4 = ETX_OTA_CMD_START
    · rw [if_pos hc]; intro _; exact Or.inl ⟨h1, hc.1, rfl, rfl⟩
    · rw [if_neg hc]; intro h; exact absurd h hE
  rw [if_neg h1]
  by_cases h2 : d.etx_ota_state = ETX_OTA_STATE_HEADER
  · rw [if_pos h2]
    by_cases ht : d.Rx_Buffer 1 = ETX_OTA_PACKET_TYPE_HEADER
    · rw [if_pos ht]
      split
      · intro h; exact absurd h hN
      · split_ifs with hw
        · intro h; rw [hT] at hw; exact absurd h hw
        · intro _; exact Or.inr (Or.inl ⟨h2, ht, rfl, rfl, rfl⟩)
    · rw [if_neg ht]; intro h; exact absurd h hE
  rw [if_neg h2]
  by_cases h3 : d.etx_ota_state = ETX_OTA_STATE_DATA
  · rw [if_pos h3]
    by_cases ht : d.Rx_Buffer 1 = ETX_OTA_PACKET_TYPE_DATA
    · rw [if_pos ht]
      by_cases h4 : le16 d.Rx_Buffer 2 % 4 ≠ 0
      · rw [if_pos h4]; intro h; exact absurd h hE
      · rw [if_neg h4]
        have hfr := write_data_to_flash_app_frame T d
          (readBytes d.Rx_Buffer ETX_OTA_DATA_FIELD_INDEX (le16 d.Rx_Buffer 2))
          (le16 d.Rx_Buffer 2) (decide (d.etx_ota_fw_received_size = 0))
        have hrs := write_data_to_flash_app_received T d
          (readBytes d.Rx_Buffer ETX_OTA_DATA_FIELD_INDEX (le16 d.Rx_Buffer 2))
          (le16 d.Rx_Buffer 2) (decide (d.etx_ota_fw_received_size = 0)) (not_not.mp h4)
        split_ifs with hw hge
        · intro h; exact absurd h hw
        · intro _
          rw [hfr.2.1] at hge
          exact Or.inr (Or.inr (Or.inl ⟨h3, ht, hfr.2.1, hrs, Or.inr ⟨rfl, hge⟩⟩))
        · intro _
          exact Or.inr (Or.inr (Or.inl ⟨h3, ht, hfr.2.1, hrs, Or.inl (hfr.1.trans h3)⟩))
    · rw [if_neg ht]; intro h; exact absurd h hE
  rw [if_neg h3]
  by_cases h4 : d.etx_ota_state = ETX_OTA_STATE_END
  · rw [if_pos h4]
    by_cases hc : d.Rx_Buffer 1 = ETX_OTA_PACKET_TYPE_CMD ∧ d.Rx_Buffer 4 = ETX_OTA_CMD_END
    · rw [if_pos hc]
      split_ifs
      · intro h; exact absurd h hE
      · intro _; exact Or.inr (Or.inr (Or.inr ⟨h4, hc.1, rfl⟩))
    · rw [if_neg hc]; intro h; exact absurd h hE
  · rw [if_neg h4]; intro h; exact absurd h hE

theorem etx_ota_send_resp_frame (d : Device) (st : Nat) :
    (etx_ota_send_resp d st).2.etx_ota_state = d.etx_ota_state
    ∧ (etx_ota_send_resp d st).2.etx_ota_fw_received_size = d.etx_ota_fw_received_size
    ∧ (etx_ota_send_resp d st).2.fw_config = d.fw_config := by
  unfold etx_ota_send_resp
  split <;> exact ⟨rfl, rfl, rfl⟩

/-- A pass of the loop either returns, with a status other than `ETX_OTA_EC_OK`, or has
received and processed a packet with `ETX_OTA_EC_OK` and sent ACK. -/
theorem download_pass_cases (T : Target) (d : Device) :
    (∃ ret d1, download_pass T d = (some ret, d1) ∧ ret ≠ ETX_OTA_EC_OK)
    ∨ ((etx_ota_receive_packet d.ETX_OTA_hardware_protocol d.rx d.Rx_Buffer
          ETX_OTA_PACKET_MAX_SIZE).status = ETX_OTA_EC_OK
      ∧ (etx_ota_process_data T (after_reception d)).1 = ETX_OTA_EC_OK
      ∧ download_pass T d
          = (none, (etx_ota_send_resp (etx_ota_process_data T (after_reception d)).2
              ETX_OTA_ACK).2)) := by
  unfold download_pass
  dsimp only
  by_cases hr : (etx_ota_receive_packet d.ETX_OTA_hardware_protocol d.rx d.Rx_Buffer
      ETX_OTA_PACKET_MAX_SIZE).status = ETX_OTA_EC_OK
  · rw [if_pos hr]
    by_cases hp : (etx_ota_process_data T (after_reception d)).1 = ETX_OTA_EC_OK
    · right
      refine ⟨hr, hp, ?_⟩
      show (if (etx_ota_process_data T (after_reception d)).1 = ETX_OTA_EC_OK then _ else _) = _
      rw [if_pos hp]
      rfl
    · left
      show ∃ ret d1, (if (etx_ota_process_data T (after_reception d)).1 = ETX_OTA_EC_OK then _
        else _) = (some ret, d1) ∧ _
      rw [if_neg hp]
      split_ifs with h1 h2 h3 h4
      · exact ⟨_, _, rfl, by decide⟩
      · exact ⟨_, _, rfl, by decide⟩
      · exact ⟨_, _, rfl, by decide⟩
      · exact ⟨_, _, rfl, by decide⟩
      · exact ⟨_, _, rfl, hp⟩
  · left
    rw [if_neg hr]
    split_ifs with h1 h2
    · exact ⟨_, _, rfl, by decide⟩
    · exact ⟨_, _, rfl, by decide⟩
    · exact ⟨_, _, rfl, hr⟩

theorem declared_package_sizes_cons (a : Accepted) (tr : List Accepted) :
    declared_package_sizes (a :: tr)
      = if a.packet_type = ETX_OTA_PACKET_TYPE_HEADER then
          a.package_size :: declared_package_sizes tr
        else declared_package_sizes tr := by
  unfold declared_package_sizes
  by_cases h : a.packet_type = ETX_OTA_PACKET_TYPE_HEADER
  · simp [List.filter_cons, h]
  · simp [List.filter_cons, h]

theorem accepted_data_len_cons (a : Accepted) (tr : List Accepted) :
    accepted_data_len (a :: tr)
      = if a.packet_type = ETX_OTA_PACKET_TYPE_DATA then a.data_len + accepted_data_len tr
        else accepted_data_len tr := by
  unfold accepted_data_len
  by_cases h : a.packet_type = ETX_OTA_PACKET_TYPE_DATA
  · simp [List.filter_cons, h]
  · simp [List.filter_cons, h]

/-- What a run of the loop that ends with `ETX_OTA_EC_OK` has accepted, by the state the run
starts in. -/
theorem download_loop_accepted (T : Target) (hT : T.FIRM_UPDT_CONF_EC_OK = ETX_OTA_EC_OK) :
    ∀ (fuel : Nat) (d d' : Device), d.etx_ota_state ≠ ETX_OTA_STATE_IDLE →
      download_loop T fuel d = some (ETX_OTA_EC_OK, d') →
      ((d.etx_ota_state = ETX_OTA_STATE_START ∨ d.etx_ota_state = ETX_OTA_STATE_HEADER) →
        d.etx_ota_fw_received_size = 0 →
        ∃ s, declared_package_sizes (download_accepted T fuel d) = [s]
          ∧ s ≤ accepted_data_len (download_accepted T fuel d))
      ∧ (d.etx_ota_state = ETX_OTA_STATE_DATA →
        declared_package_sizes (download_accepted T fuel d) = []
        ∧ d.fw_config.App_fw_size
            ≤ d.etx_ota_fw_received_size + accepted_data_len (download_accepted T fuel d))
      ∧ (d.etx_ota_state = ETX_OTA_STATE_END →
        declared_package_sizes (download_accepted T fuel d) = []) := by
  intro fuel
  induction fuel with
  | zero => intro d d' _ h; simp [download_loop] at h
  | succ fuel ih =>
    intro d d' hni hloop
    rcases download_pass_cases T d with ⟨ret, d1, hp, hret⟩ | ⟨hr, hpo, hp⟩
    · simp only [download_loop, hp, Option.some.injEq, Prod.mk.injEq] at hloop
      exact absurd hloop.1 hret
    · have hacc : pass_accepted T d
          = some { state := d.etx_ota_state
                   packet_type := (after_reception d).Rx_Buffer 1
                   data_len := le16 (after_reception d).Rx_Buffer 2
                   package_size := le32 (after_reception d).Rx_Buffer 4 } := by
        unfold pass_accepted
        dsimp only
        rw [if_pos ⟨hr, hpo⟩]
        rfl
      have hfr := etx_ota_send_resp_frame (etx_ota_process_data T (after_reception d)).2
        ETX_OTA_ACK
      have hcases := process_ok_cases T (after_reception d) hT hpo hni
      have hst : (after_reception d).etx_ota_state = d.etx_ota_state := rfl
      have hrs : (after_reception d).etx_ota_fw_received_size = d.etx_ota_fw_received_size := rfl
      have hcf : (after_reception d).fw_config = d.fw_config := rfl
      rw [hst, hrs, hcf] at hcases
      simp only [download_loop, hp] at hloop
      simp only [download_accepted, hacc, hp, Option.toList, List.singleton_append,
        declared_package_sizes_cons, accepted_data_len_cons]
      generalize (etx_ota_send_resp (etx_ota_process_data T (after_reception d)).2
        ETX_OTA_ACK).2 = d1 at hfr hloop ⊢
      obtain ⟨f1, f2, f3⟩ := hfr
      generalize (etx_ota_process_data T (after_reception d)).2 = o at hcases f1 f2 f3
      generalize (after_reception d).Rx_Buffer = buf at hcases ⊢
      have hCH : ¬ ETX_OTA_PACKET_TYPE_CMD = ETX_OTA_PACKET_TYPE_HEADER := by decide
      have hCD : ¬ ETX_OTA_PACKET_TYPE_CMD = ETX_OTA_PACKET_TYPE_DATA := by decide
      have hHD : ¬ ETX_OTA_PACKET_TYPE_HEADER = ETX_OTA_PACKET_TYPE_DATA := by decide
      have hDH : ¬ ETX_OTA_PACKET_TYPE_DATA = ETX_OTA_PACKET_TYPE_HEADER := by decide
      rcases hcases with ⟨c1, c2, c3, c4⟩ | ⟨c1, c2, c3, c4, c5⟩ | ⟨c1, c2, c3, c4, c5⟩
        | ⟨c1, c2, c3⟩
      · have hd1 : d1.etx_ota_state = ETX_OTA_STATE_HEADER := f1.trans c3
        have hid : d1.etx_ota_state ≠ ETX_OTA_STATE_IDLE := by rw [hd1]; decide
        rw [if_pos hid] at hloop
        rw [c2, if_neg hCH, if_neg hCD, if_pos hid]
        obtain ⟨i1, -, -⟩ := ih d1 d' hid hloop
        refine ⟨fun _ h0 => i1 (Or.inr hd1) (by rw [f2, c4, h0]), fun h => ?_, fun h => ?_⟩
        · rw [c1] at h; exact absurd h (by decide)
        · rw [c1] at h; exact absurd h (by decide)
      · have hd1 : d1.etx_ota_state = ETX_OTA_STATE_DATA := f1.trans c3
        have hid : d1.etx_ota_state ≠ ETX_OTA_STATE_IDLE := by rw [hd1]; decide
        rw [if_pos hid] at hloop
        rw [c2, if_pos rfl, if_neg hHD, if_pos hid]
        obtain ⟨-, i2, -⟩ := ih d1 d' hid hloop
        obtain ⟨j1, j2⟩ := i2 hd1
        refine ⟨fun _ h0 => ⟨le32 buf 4, by rw [j1], ?_⟩, fun h => ?_, fun h => ?_⟩
        · rw [f3, c5, f2, c4, h0] at j2
          omega
        · rw [c1] at h; exact absurd h (by decide)
        · rw [c1] at h; exact absurd h (by decide)
      · rw [c2, if_neg hDH, if_pos rfl]
        have hcfg : d1.fw_config = d.fw_config := f3.trans c3
        refine ⟨fun h => ?_, fun _ => ?_, fun h => ?_⟩
        · rw [c1] at h; exact absurd h (by decide)
        · rcases c5 with c5 | ⟨c5, c6⟩
          · have hd1 : d1.etx_ota_state = ETX_OTA_STATE_DATA := f1.trans c5
            have hid : d1.etx_ota_state ≠ ETX_OTA_STATE_IDLE := by rw [hd1]; decide
            rw [if_pos hid] at hloop ⊢
            obtain ⟨-, i2, -⟩ := ih d1 d' hid hloop
            obtain ⟨j1, j2⟩ := i2 hd1
            refine ⟨j1, ?_⟩
            rw [hcfg, f2] at j2
            omega
          · have hd1 : d1.etx_ota_state = ETX_OTA_STATE_END := f1.trans c5
            have hid : d1.etx_ota_state ≠ ETX_OTA_STATE_IDLE := by rw [hd1]; decide
            rw [if_pos hid] at hloop ⊢
            obtain ⟨-, -, i3⟩ := ih d1 d' hid hloop
            refine ⟨i3 hd1, ?_⟩
            omega
        · rw [c1] at h; exact absurd h (by decide)
      · have hd1 : d1.etx_ota_state = ETX_OTA_STATE_IDLE := f1.trans c3
        rw [c2, if_neg hCH, if_neg hCD, if_neg (not_not.mpr hd1)]
        refine ⟨fun h => ?_, fun h => ?_, fun _ => rfl⟩
        · rw [c1] at h; rcases h with h | h <;> exact absurd h (by decide)
        · rw [c1] at h; exact absurd h (by decide)

/-- Against C17 as stated, a transaction that `firmware_image_download_and_install` completes
with `ETX_OTA_EC_OK` although the one Data packet it accepts carries 8 bytes and the Header
declared 4: the sum of `data_len` is 8, not the declared `package_size`. -/
theorem data_len_sum_exceeds_package_size :
    (firmware_image_download_and_install reference_target overshoot_device).map Prod.fst
      = some ETX_OTA_EC_OK
    ∧ declared_package_sizes (transaction_accepted reference_target overshoot_device) = [4]
    ∧ accepted_data_len (transaction_accepted reference_target overshoot_device) = 8 := by
  decide

/-- C17 as the code has it: in every transaction that `firmware_image_download_and_install`
completes with `ETX_OTA_EC_OK` exactly one Header packet has been accepted, and the sum of
`data_len` over the Data packets accepted is at least the `package_size` that Header declared
(the configuration module reporting success as status 0). -/
theorem accepted_data_len_reaches_package_size (T : Target) (d : Device)
    (hT : T.FIRM_UPDT_CONF_EC_OK = ETX_OTA_EC_OK)
    (h : (firmware_image_download_and_install T d).map Prod.fst = some ETX_OTA_EC_OK) :
    ∃ s, declared_package_sizes (transaction_accepted T d) = [s]
      ∧ s ≤ accepted_data_len (transaction_accepted T d) := by
  unfold firmware_image_download_and_install at h
  cases hl : download_loop T (d.rx.length + 1)
      { d with etx_ota_fw_received_size := 0, etx_ota_state := ETX_OTA_STATE_START } with
  | none => rw [hl] at h; simp at h
  | some o =>
    rw [hl] at h
    obtain ⟨st, d'⟩ := o
    simp only [Option.map_some', Option.some.injEq] at h
    subst h
    exact (download_loop_accepted T hT _ _ d'
      (show ETX_OTA_STATE_START ≠ ETX_OTA_STATE_IDLE by decide) hl).1 (Or.inl rfl) rfl

theorem accepted_data_len_reaches_package_size_witness :
    reference_target.FIRM_UPDT_CONF_EC_OK = ETX_OTA_EC_OK
    ∧ (firmware_image_download_and_install reference_target whole_image_device).map Prod.fst
        = some ETX_OTA_EC_OK
    ∧ ∃ s, declared_package_sizes (transaction_accepted reference_target whole_image_device)
          = [s]
        ∧ s ≤ accepted_data_len (transaction_accepted reference_target whole_image_device) :=
  ⟨rfl, by decide,
    accepted_data_len_reaches_package_size reference_target whole_image_device rfl
      (by decide)⟩

/-! ## Responses of the receive loop -/

/-- C19 at a transaction whose Data packet meets a flash time-out: the Data packet is received
successfully (`ETX_OTA_EC_OK` from `etx_ota_receive_packet`, every byte of the link consumed),
`HAL_FLASH_Program` reports `HAL_TIMEOUT`, and `firmware_image_download_and_install` returns
`ETX_OTA_EC_ERR` having sent two packets only, the ACKs of Start and Header: the third packet
received gets no response. -/
theorem no_response_after_flash_timeout :
    (etx_ota_receive_packet ETX_OTA_hw_Protocol.UART
        ((packet_bytes ETX_OTA_PACKET_TYPE_DATA [1, 2, 3, 4, 5, 6, 7, 8]).map RxEvent.byte)
        (fun _ => 0) ETX_OTA_PACKET_MAX_SIZE).status = ETX_OTA_EC_OK
    ∧ (firmware_image_download_and_install reference_target flash_timeout_device).map
        (fun o => (o.1, o.2.tx))
      = some (ETX_OTA_EC_ERR, [response_packet ETX_OTA_ACK, response_packet ETX_OTA_ACK])
    ∧ (firmware_image_download_and_install reference_target flash_timeout_device).map
        (fun o => (o.2.rx.length, o.2.etx_ota_state, o.2.flash.log))
      = some (0, ETX_OTA_STATE_DATA,
          [(FlashOp.unlock, HAL_OK), (FlashOp.erase 0x0800A800 86, HAL_OK),
            (FlashOp.program 0x0800A800 0x04030201, HAL_TIMEOUT)]) := by
  decide

/-! ## Reception on a link that stalls -/

theorem HAL_UART_Receive_stall (bs : List Nat) (t : List RxEvent) (ht : link_stalls t) :
    ∀ n, bs.length < n →
      ∃ st rx1, HAL_UART_Receive n (bs.map RxEvent.byte ++ t) = (st, bs, rx1)
        ∧ HAL_ret_handler st = ETX_OTA_EC_NR := by
  induction bs with
  | nil =>
    intro n hn
    obtain ⟨m, rfl⟩ : ∃ m, n = m + 1 := ⟨n - 1, by simp at hn; omega⟩
    rcases ht with h | ⟨rest, h⟩ | ⟨rest, h⟩
    · subst h; exact ⟨HAL_TIMEOUT, [], rfl, by decide⟩
    · subst h; exact ⟨HAL_BUSY, rest, rfl, by decide⟩
    · subst h; exact ⟨HAL_TIMEOUT, rest, rfl, by decide⟩
  | cons b bs ih =>
    intro n hn
    obtain ⟨m, rfl⟩ : ∃ m, n = m + 1 := ⟨n - 1, by simp at hn; omega⟩
    obtain ⟨st, rx1, h1, h2⟩ := ih m (by simp at hn; omega)
    refine ⟨st, rx1, ?_, h2⟩
    show (match HAL_UART_Receive m (bs.map RxEvent.byte ++ t) with
      | (st, bs, rx1) => (st, b :: bs, rx1)) = _
    rw [h1]

theorem receive_data_UART_stall (q : List Nat) (t : List RxEvent) (ht : link_stalls t) :
    ∀ n len buf, q.length < n →
      (receive_data_UART n len buf (q.map RxEvent.byte ++ t)).1 = ETX_OTA_EC_NR := by
  induction q with
  | nil =>
    intro n len buf hn
    obtain ⟨m, rfl⟩ : ∃ m, n = m + 1 := ⟨n - 1, by simp at hn; omega⟩
    obtain ⟨st, rx1, h1, h2⟩ := HAL_UART_Receive_stall [] t ht 1 (by simp)
    simp only [List.map_nil, List.nil_append] at h1 ⊢
    simp only [receive_data_UART, h1, h2]
    rw [if_pos (by decide)]
  | cons b q ih =>
    intro n len buf hn
    obtain ⟨m, rfl⟩ : ∃ m, n = m + 1 := ⟨n - 1, by simp at hn; omega⟩
    simp only [List.map_cons, List.cons_append, receive_data_UART, HAL_UART_Receive_one,
      HAL_ret_handler_OK]
    rw [if_neg (by decide)]
    exact ih m _ _ (by simp at hn; omega)

theorem receive_data_UART_run (q : List Nat) (rest : List RxEvent) :
    ∀ len buf, ∃ len1 buf1,
      receive_data_UART q.length len buf (q.map RxEvent.byte ++ rest)
        = (HAL_OK, len1, buf1, rest) := by
  induction q with
  | nil => intro len buf; exact ⟨len, buf, rfl⟩
  | cons b q ih =>
    intro len buf
    simp only [List.length_cons, List.map_cons, List.cons_append, receive_data_UART,
      HAL_UART_Receive_one, HAL_ret_handler_OK]
    rw [if_neg (by decide)]
    exact ih _ _

set_option maxHeartbeats 2000000 in
theorem receive_UART_stall (pre : List Nat) (t : List RxEvent) (ht : link_stalls t) (buf : Mem)
    (max_len : Nat)
    (hsof : 1 ≤ pre.length → pre.getD 0 0 = ETX_OTA_SOF)
    (htype : 2 ≤ pre.length → pre.getD 1 0 = ETX_OTA_PACKET_TYPE_CMD
      ∨ pre.getD 1 0 = ETX_OTA_PACKET_TYPE_DATA ∨ pre.getD 1 0 = ETX_OTA_PACKET_TYPE_HEADER
      ∨ pre.getD 1 0 = ETX_OTA_PACKET_TYPE_RESPONSE)
    (hshort : 4 ≤ pre.length → pre.length < 4 + (pre.getD 2 0 + 256 * pre.getD 3 0) + 5) :
    (etx_ota_receive_packet_UART (pre.map RxEvent.byte ++ t) buf max_len).status
      = ETX_OTA_EC_NR := by
  have hne : (ETX_OTA_EC_NR = HAL_OK) = False := by decide
  rcases pre with _ | ⟨s, _ | ⟨ty, _ | ⟨l0, _ | ⟨l1, body⟩⟩⟩⟩
  · obtain ⟨st, rx1, h1, h2⟩ := HAL_UART_Receive_stall [] t ht 1 (by decide)
    simp only [List.map_nil, List.nil_append] at h1 ⊢
    unfold etx_ota_receive_packet_UART
    simp only [ETX_OTA_SOF_SIZE, h1, h2, hne, ne_eq, not_false_eq_true, if_true]
  · have hs : s = ETX_OTA_SOF := hsof (by simp)
    subst hs
    obtain ⟨st, rx1, h1, h2⟩ := HAL_UART_Receive_stall [] t ht 1 (by decide)
    simp only [List.map_nil, List.nil_append, List.map_cons, List.cons_append] at h1 ⊢
    have s0 : (storeBytes buf 0 [ETX_OTA_SOF]) 0 = ETX_OTA_SOF := by simp [storeBytes, Mem.store]
    unfold etx_ota_receive_packet_UART
    simp only [ETX_OTA_SOF_SIZE, ETX_OTA_PACKET_TYPE_SIZE, HAL_UART_Receive_one,
      HAL_ret_handler_OK, s0, Nat.reduceAdd, Nat.reduceMod, ne_eq, not_true_eq_false, if_false,
      h1, h2, hne, not_false_eq_true, if_true]
  · have hs : s = ETX_OTA_SOF := hsof (by simp)
    subst hs
    have hty := htype (by simp)
    simp only [List.getD_cons_succ, List.getD_cons_zero] at hty
    obtain ⟨st, rx1, h1, h2⟩ := HAL_UART_Receive_stall [] t ht 2 (by decide)
    simp only [List.map_nil, List.nil_append, List.map_cons, List.cons_append] at h1 ⊢
    have s0 : (storeBytes buf 0 [ETX_OTA_SOF]) 0 = ETX_OTA_SOF := by simp [storeBytes, Mem.store]
    have s1 : (storeBytes (storeBytes buf 0 [ETX_OTA_SOF]) 1 [ty]) 1 = ty := by
      simp [storeBytes, Mem.store]
    unfold etx_ota_receive_packet_UART
    simp only [ETX_OTA_SOF_SIZE, ETX_OTA_PACKET_TYPE_SIZE, ETX_OTA_DATA_LENGTH_SIZE,
      HAL_UART_Receive_one, HAL_ret_handler_OK, s0, s1, hty, Nat.reduceAdd, Nat.reduceMod, ne_eq,
      not_true_eq_false, if_false, h1, h2, hne, not_false_eq_true, if_true]
  · have hs : s = ETX_OTA_SOF := hsof (by simp)
    subst hs
    have hty := htype (by simp)
    simp only [List.getD_cons_succ, List.getD_cons_zero] at hty
    obtain ⟨st, rx1, h1, h2⟩ := HAL_UART_Receive_stall [l0] t ht 2 (by simp)
    simp only [List.map_nil, List.nil_append, List.map_cons, List.cons_append] at h1 ⊢
    have s0 : (storeBytes buf 0 [ETX_OTA_SOF]) 0 = ETX_OTA_SOF := by simp [storeBytes, Mem.store]
    have s1 : (storeBytes (storeBytes buf 0 [ETX_OTA_SOF]) 1 [ty]) 1 = ty := by
      simp [storeBytes, Mem.store]
    unfold etx_ota_receive_packet_UART
    simp only [ETX_OTA_SOF_SIZE, ETX_OTA_PACKET_TYPE_SIZE, ETX_OTA_DATA_LENGTH_SIZE,
      HAL_UART_Receive_one, HAL_ret_handler_OK, s0, s1, hty, Nat.reduceAdd, Nat.reduceMod, ne_eq,
      not_true_eq_false, if_false, h1, h2, hne, not_false_eq_true, if_true]
  · have hs : s = ETX_OTA_SOF := hsof (by simp)
    subst hs
    have hty := htype (by simp)
    have hsh := hshort (by simp)
    simp only [List.getD_cons_succ, List.getD_cons_zero, List.length_cons] at hty hsh
    have s0 : (storeBytes buf 0 [ETX_OTA_SOF]) 0 = ETX_OTA_SOF := by simp [storeBytes, Mem.store]
    have s1 : (storeBytes (storeBytes buf 0 [ETX_OTA_SOF]) 1 [ty]) 1 = ty := by
      simp [storeBytes, Mem.store]
    have hdl : le16 (storeBytes (storeBytes (storeBytes buf 0 [ETX_OTA_SOF]) 1 [ty]) 2 [l0, l1]) 2
        = l0 + 256 * l1 := by
      simp [le16, storeBytes, Mem.store]
    simp only [List.map_cons, List.cons_append]
    by_cases hb : body.length < l0 + 256 * l1
    · have hD := receive_data_UART_stall body t ht (l0 + 256 * l1) 4
        (storeBytes (storeBytes (storeBytes buf 0 [ETX_OTA_SOF]) 1 [ty]) 2 [l0, l1]) hb
      unfold etx_ota_receive_packet_UART
      simp only [ETX_OTA_SOF_SIZE, ETX_OTA_PACKET_TYPE_SIZE, ETX_OTA_DATA_LENGTH_SIZE,
        HAL_UART_Receive_one, HAL_UART_Receive_two, HAL_ret_handler_OK, s0, s1, hty, hdl,
        Nat.reduceAdd, Nat.reduceMod, ne_eq, not_true_eq_false, if_false, hD, hne,
        not_false_eq_true, if_true]
    · have hq : (body.take (l0 + 256 * l1)).length = l0 + 256 * l1 := by
        rw [List.length_take]; omega
      have hr : (body.drop (l0 + 256 * l1)).length < 5 := by
        rw [List.length_drop]; omega
      have hbody : List.map RxEvent.byte body ++ t
          = (body.take (l0 + 256 * l1)).map RxEvent.byte
            ++ ((body.drop (l0 + 256 * l1)).map RxEvent.byte ++ t) := by
        rw [← List.append_assoc, ← List.map_append, List.take_append_drop]
      obtain ⟨len1, buf1, hrun⟩ := receive_data_UART_run (body.take (l0 + 256 * l1))
        ((body.drop (l0 + 256 * l1)).map RxEvent.byte ++ t) 4
        (storeBytes (storeBytes (storeBytes buf 0 [ETX_OTA_SOF]) 1 [ty]) 2 [l0, l1])
      rw [hq] at hrun
      generalize body.drop (l0 + 256 * l1) = r at hr hbody hrun
      by_cases hr4 : r.length < 4
      · obtain ⟨st, rx1, h1, h2⟩ := HAL_UART_Receive_stall r t ht 4 hr4
        unfold etx_ota_receive_packet_UART
        simp only [ETX_OTA_SOF_SIZE, ETX_OTA_PACKET_TYPE_SIZE, ETX_OTA_DATA_LENGTH_SIZE,
          ETX_OTA_CRC32_SIZE, HAL_UART_Receive_one, HAL_UART_Receive_two, HAL_ret_handler_OK, s0,
          s1, hty, hdl, hbody, hrun, Nat.reduceAdd, Nat.reduceMod, ne_eq, not_true_eq_false,
          if_false, h1, h2, hne, not_false_eq_true, if_true]
      · obtain ⟨c0, c1, c2, c3, rfl⟩ : ∃ c0 c1 c2 c3, r = [c0, c1, c2, c3] := by
          rcases r with _ | ⟨c0, _ | ⟨c1, _ | ⟨c2, _ | ⟨c3, _ | ⟨c4, r⟩⟩⟩⟩⟩
          · simp at hr4
          · simp at hr4
          · simp at hr4
          · simp at hr4
          · exact ⟨c0, c1, c2, c3, rfl⟩
          · simp at hr; omega
        obtain ⟨st, rx1, h1, h2⟩ := HAL_UART_Receive_stall [] t ht 1 (by decide)
        simp only [List.map_nil, List.nil_append, List.map_cons, List.cons_append] at h1 hbody hrun
        unfold etx_ota_receive_packet_UART
        simp only [ETX_OTA_SOF_SIZE, ETX_OTA_PACKET_TYPE_SIZE, ETX_OTA_DATA_LENGTH_SIZE,
          ETX_OTA_CRC32_SIZE, ETX_OTA_EOF_SIZE, HAL_UART_Receive_one, HAL_UART_Receive_two,
          HAL_UART_Receive_four, HAL_ret_handler_OK, s0, s1, hty, hdl, hbody, hrun, Nat.reduceAdd,
          Nat.reduceMod, ne_eq, not_true_eq_false, if_false, h1, h2, hne, not_false_eq_true,
          if_true]

/-- A pass of the loop whose reception returns `ETX_OTA_EC_NR` returns that status and only
takes over the buffer and the events left. -/
theorem download_pass_no_response (T : Target) (d : Device)
    (hrecv : (etx_ota_receive_packet d.ETX_OTA_hardware_protocol d.rx d.Rx_Buffer
      ETX_OTA_PACKET_MAX_SIZE).status = ETX_OTA_EC_NR) :
    download_pass T d
      = (some ETX_OTA_EC_NR,
          { d with
            Rx_Buffer := (etx_ota_receive_packet d.ETX_OTA_hardware_protocol d.rx d.Rx_Buffer
              ETX_OTA_PACKET_MAX_SIZE).buf
            rx := (etx_ota_receive_packet d.ETX_OTA_hardware_protocol d.rx d.Rx_Buffer
              ETX_OTA_PACKET_MAX_SIZE).rx }) := by
  unfold download_pass
  dsimp only
  rw [hrecv, if_neg (by decide), if_pos rfl]

/-- The loop of `firmware_image_download_and_install` entered with a reception that returns
`ETX_OTA_EC_NR`. -/
theorem download_loop_no_response (T : Target) (d : Device) (fuel : Nat)
    (hrecv : (etx_ota_receive_packet d.ETX_OTA_hardware_protocol d.rx d.Rx_Buffer
      ETX_OTA_PACKET_MAX_SIZE).status = ETX_OTA_EC_NR) :
    (download_loop T (fuel + 1) d).map
        (fun o => (o.1, o.2.tx, o.2.etx_ota_state, o.2.etx_ota_fw_received_size))
      = some (ETX_OTA_EC_NR, d.tx, d.etx_ota_state, d.etx_ota_fw_received_size) := by
  simp only [download_loop, download_pass_no_response T d hrecv]
  rfl

/-- C20: on the UART, when the link stalls (a read times out or reports busy) after the bytes
`pre`, which begin a packet (SOF, a packet type) and end before its EOF byte has been read,
`etx_ota_receive_packet` returns `ETX_OTA_EC_NR`; the loop of
`firmware_image_download_and_install` then returns `ETX_OTA_EC_NR` with no packet sent and
with `etx_ota_state` and `etx_ota_fw_received_size` as they were before the reception; and so
does the function itself when this is its first reception (state Start, size 0 from its
entry). -/
theorem uart_stall_no_response (T : Target) (d : Device) (pre : List Nat) (t : List RxEvent)
    (fuel : Nat)
    (huart : d.ETX_OTA_hardware_protocol = ETX_OTA_hw_Protocol.UART)
    (hrx : d.rx = pre.map RxEvent.byte ++ t) (ht : link_stalls t)
    (hsof : 1 ≤ pre.length → pre.getD 0 0 = ETX_OTA_SOF)
    (htype : 2 ≤ pre.length → pre.getD 1 0 = ETX_OTA_PACKET_TYPE_CMD
      ∨ pre.getD 1 0 = ETX_OTA_PACKET_TYPE_DATA ∨ pre.getD 1 0 = ETX_OTA_PACKET_TYPE_HEADER
      ∨ pre.getD 1 0 = ETX_OTA_PACKET_TYPE_RESPONSE)
    (hshort : 4 ≤ pre.length → pre.length < 4 + (pre.getD 2 0 + 256 * pre.getD 3 0) + 5) :
    (etx_ota_receive_packet d.ETX_OTA_hardware_protocol d.rx d.Rx_Buffer
        ETX_OTA_PACKET_MAX_SIZE).status = ETX_OTA_EC_NR
    ∧ (download_loop T (fuel + 1) d).map
        (fun o => (o.1, o.2.tx, o.2.etx_ota_state, o.2.etx_ota_fw_received_size))
      = some (ETX_OTA_EC_NR, d.tx, d.etx_ota_state, d.etx_ota_fw_received_size)
    ∧ (firmware_image_download_and_install T d).map
        (fun o => (o.1, o.2.tx, o.2.etx_ota_state, o.2.etx_ota_fw_received_size))
      = some (ETX_OTA_EC_NR, d.tx, ETX_OTA_STATE_START, 0) := by
  have hrecv : (etx_ota_receive_packet d.ETX_OTA_hardware_protocol d.rx d.Rx_Buffer
      ETX_OTA_PACKET_MAX_SIZE).status = ETX_OTA_EC_NR := by
    rw [huart, hrx]
    exact receive_UART_stall pre t ht d.Rx_Buffer ETX_OTA_PACKET_MAX_SIZE hsof htype hshort
  exact ⟨hrecv, download_loop_no_response T d fuel hrecv,
    download_loop_no_response T
      { d with etx_ota_fw_received_size := 0, etx_ota_state := ETX_OTA_STATE_START }
      d.rx.length hrecv⟩

theorem uart_stall_no_response_witness :
    (etx_ota_receive_packet ETX_OTA_hw_Protocol.UART
        ([0xAA, 1, 8, 0, 1, 2].map RxEvent.byte ++ [RxEvent.fault LinkFault.timeout])
        (fun _ => 0) ETX_OTA_PACKET_MAX_SIZE).status = ETX_OTA_EC_NR
    ∧ (download_loop reference_target 1
        (sample_device ETX_OTA_STATE_DATA (fun _ => 0)
          ([0xAA, 1, 8, 0, 1, 2].map RxEvent.byte ++ [RxEvent.fault LinkFault.timeout]))).map
        (fun o => (o.1, o.2.tx, o.2.etx_ota_state, o.2.etx_ota_fw_received_size))
      = some (ETX_OTA_EC_NR, [], ETX_OTA_STATE_DATA, 0)
    ∧ (firmware_image_download_and_install reference_target
        (sample_device ETX_OTA_STATE_DATA (fun _ => 0)
          ([0xAA, 1, 8, 0, 1, 2].map RxEvent.byte ++ [RxEvent.fault LinkFault.timeout]))).map
        (fun o => (o.1, o.2.tx, o.2.etx_ota_state, o.2.etx_ota_fw_received_size))
      = some (ETX_OTA_EC_NR, [], ETX_OTA_STATE_START, 0) :=
  uart_stall_no_response reference_target
    (sample_device ETX_OTA_STATE_DATA (fun _ => 0)
      ([0xAA, 1, 8, 0, 1, 2].map RxEvent.byte ++ [RxEvent.fault LinkFault.timeout]))
    [0xAA, 1, 8, 0, 1, 2] [RxEvent.fault LinkFault.timeout] 0 rfl rfl
    (Or.inr (Or.inr ⟨[], rfl⟩)) (by decide) (by decide) (by decide)

/-! ## The receive loop always returns -/

theorem HAL_ret_handler_eq_OK (st : Nat) (h : HAL_ret_handler st = HAL_OK) : st = HAL_OK := by
  unfold HAL_ret_handler at h
  split_ifs at h with h1 h2
  · exact absurd h (by decide)
  · exact absurd h (by decide)
  · exact h

theorem HAL_UART_Receive_length (n : Nat) :
    ∀ rx : List RxEvent,
      (HAL_UART_Receive n rx).2.2.length ≤ rx.length
      ∧ ((HAL_UART_Receive n rx).1 = HAL_OK → 0 < n →
          (HAL_UART_Receive n rx).2.2.length < rx.length) := by
  induction n with
  | zero => intro rx; exact ⟨Nat.le_refl _, fun _ h => absurd h (Nat.lt_irrefl 0)⟩
  | succ n ih =>
    intro rx
    rcases rx with _ | ⟨e, rx⟩
    · exact ⟨Nat.le_refl _, fun h _ => absurd h (show ¬ HAL_TIMEOUT = HAL_OK by decide)⟩
    · cases e with
      | fault f =>
        refine ⟨Nat.le_succ _, fun _ _ => Nat.lt_succ_self _⟩
      | byte b =>
        obtain ⟨i1, -⟩ := ih rx
        have e : (HAL_UART_Receive (n + 1) (RxEvent.byte b :: rx)).2.2
            = (HAL_UART_Receive n rx).2.2 := by
          simp only [HAL_UART_Receive]
        rw [e]
        simp only [List.length_cons]
        exact ⟨by omega, fun _ _ => by omega⟩

theorem receive_data_UART_length (n : Nat) :
    ∀ (len : Nat) (buf : Mem) (rx : List RxEvent),
      (receive_data_UART n len buf rx).2.2.2.length ≤ rx.length := by
  induction n with
  | zero => intro len buf rx; exact Nat.le_refl _
  | succ n ih =>
    intro len buf rx
    simp only [receive_data_UART]
    have h1 := (HAL_UART_Receive_length 1 rx).1
    split_ifs
    · exact h1
    · exact Nat.le_trans (ih _ _ _) h1

theorem checks_err_step (c : Prop) [Decidable c] (b : Mem) (r : List RxEvent) (X : Received)
    (n : Nat) (h : X.status = ETX_OTA_EC_OK → X.rx.length < n) :
    (if c then (⟨ETX_OTA_EC_ERR, b, r⟩ : Received) else X).status = ETX_OTA_EC_OK →
      (if c then (⟨ETX_OTA_EC_ERR, b, r⟩ : Received) else X).rx.length < n := by
  by_cases hc : c
  · rw [if_pos hc]; intro h1
    exact absurd h1 (show ¬ ETX_OTA_EC_ERR = ETX_OTA_EC_OK by decide)
  · rw [if_neg hc]; exact h

theorem status_err_step (s : Nat) (b : Mem) (r : List RxEvent) (X : Received) (n : Nat)
    (h : s = HAL_OK → X.status = ETX_OTA_EC_OK → X.rx.length < n) :
    (if s ≠ HAL_OK then (⟨s, b, r⟩ : Received) else X).status = ETX_OTA_EC_OK →
      (if s ≠ HAL_OK then (⟨s, b, r⟩ : Received) else X).rx.length < n := by
  by_cases hc : s ≠ HAL_OK
  · rw [if_pos hc]; intro h1; exact absurd h1 hc
  · rw [if_neg hc]; exact h (not_not.mp hc)

/-- A reception that returns `ETX_OTA_EC_OK` has consumed at least one event of the link. -/
theorem receive_UART_consumes (rx : List RxEvent) (buf : Mem) (max_len : Nat)
    (h : (etx_ota_receive_packet_UART rx buf max_len).status = ETX_OTA_EC_OK) :
    (etx_ota_receive_packet_UART rx buf max_len).rx.length < rx.length := by
  revert h
  unfold etx_ota_receive_packet_UART receive_packet_checks
  dsimp only
  refine status_err_step _ _ _ _ _ (fun h1 => ?_)
  refine checks_err_step _ _ _ _ _ ?_
  refine status_err_step _ _ _ _ _ (fun _ => ?_)
  refine checks_err_step _ _ _ _ _ ?_
  refine status_err_step _ _ _ _ _ (fun _ => ?_)
  refine status_err_step _ _ _ _ _ (fun _ => ?_)
  refine status_err_step _ _ _ _ _ (fun _ => ?_)
  refine status_err_step _ _ _ _ _ (fun _ => ?_)
  refine checks_err_step _ _ _ _ _ ?_
  refine checks_err_step _ _ _ _ _ ?_
  refine checks_err_step _ _ _ _ _ ?_
  intro _
  have s1 := (HAL_UART_Receive_length ETX_OTA_SOF_SIZE rx).2 (HAL_ret_handler_eq_OK _ h1)
    (by decide)
  refine Nat.lt_of_le_of_lt ?_ s1
  refine Nat.le_trans (HAL_UART_Receive_length _ _).1 ?_
  refine Nat.le_trans (HAL_UART_Receive_length _ _).1 ?_
  refine Nat.le_trans (receive_data_UART_length _ _ _ _) ?_
  refine Nat.le_trans (HAL_UART_Receive_length _ _).1 ?_
  exact (HAL_UART_Receive_length _ _).1

/-- On every transport. -/
theorem receive_consumes (hw : ETX_OTA_hw_Protocol) (rx : List RxEvent) (buf : Mem)
    (max_len : Nat) (h : (etx_ota_receive_packet hw rx buf max_len).status = ETX_OTA_EC_OK) :
    (etx_ota_receive_packet hw rx buf max_len).rx.length < rx.length := by
  have hhw := received_ok_protocol hw rx buf max_len h
  rw [etx_ota_receive_packet_eq_UART hw hhw] at h ⊢
  exact receive_UART_consumes rx buf max_len h

theorem process_data_rx (T : Target) (d : Device) :
    (etx_ota_process_data T d).2.rx = d.rx := by
  unfold etx_ota_process_data
  dsimp only
  by_cases hab : d.Rx_Buffer 1 = ETX_OTA_PACKET_TYPE_CMD ∧ d.Rx_Buffer 4 = ETX_OTA_CMD_ABORT
  · rw [if_pos hab]
  rw [if_neg hab]
  by_cases h0 : d.etx_ota_state = ETX_OTA_STATE_IDLE
  · rw [if_pos h0]
  rw [if_neg h0]
  by_cases h1 : d.etx_ota_state = ETX_OTA_STATE_START
  · rw [if_pos h1]
    split_ifs <;> rfl
  rw [if_neg h1]
  by_cases h2 : d.etx_ota_state = ETX_OTA_STATE_HEADER
  · rw [if_pos h2]
    by_cases ht : d.Rx_Buffer 1 = ETX_OTA_PACKET_TYPE_HEADER
    · rw [if_pos ht]
      split
      · rfl
      · split_ifs <;> rfl
    · rw [if_neg ht]
  rw [if_neg h2]
  by_cases h3 : d.etx_ota_state = ETX_OTA_STATE_DATA
  · rw [if_pos h3]
    by_cases ht : d.Rx_Buffer 1 = ETX_OTA_PACKET_TYPE_DATA
    · rw [if_pos ht]
      by_cases h4 : le16 d.Rx_Buffer 2 % 4 ≠ 0
      · rw [if_pos h4]
      · rw [if_neg h4]
        have hfr := (write_data_to_flash_app_frame T d
          (readBytes d.Rx_Buffer ETX_OTA_DATA_FIELD_INDEX (le16 d.Rx_Buffer 2))
          (le16 d.Rx_Buffer 2) (decide (d.etx_ota_fw_received_size = 0))).2.2.2.2.1
        split_ifs <;> exact hfr
    · rw [if_neg ht]
  rw [if_neg h3]
  by_cases h4 : d.etx_ota_state = ETX_OTA_STATE_END
  · rw [if_pos h4]
    split_ifs <;> rfl
  · rw [if_neg h4]

theorem etx_ota_send_resp_rx (d : Device) (st : Nat) : (etx_ota_send_resp d st).2.rx = d.rx := by
  unfold etx_ota_send_resp
  split <;> rfl

/-- With more passes allowed than the link has events, the loop of
`firmware_image_download_and_install` returns. -/
theorem download_loop_returns (T : Target) :
    ∀ (fuel : Nat) (d : Device), d.rx.length < fuel → ∃ o, download_loop T fuel d = some o := by
  intro fuel
  induction fuel with
  | zero => intro d h; exact absurd h (Nat.not_lt_zero _)
  | succ fuel ih =>
    intro d hlen
    rcases download_pass_cases T d with ⟨ret, d1, hp, -⟩ | ⟨hr, -, hp⟩
    · exact ⟨(ret, d1), by simp only [download_loop, hp]⟩
    · have hrx : ((etx_ota_send_resp (etx_ota_process_data T (after_reception d)).2
          ETX_OTA_ACK).2).rx.length < d.rx.length := by
        rw [etx_ota_send_resp_rx, process_data_rx]
        exact receive_consumes _ _ _ _ hr
      simp only [download_loop, hp]
      split_ifs with hid
      · exact ih _ (by omega)
      · exact ⟨_, rfl⟩

/-- The function `firmware_image_download_and_install` returns on every device and link. -/
theorem firmware_image_download_and_install_returns (T : Target) (d : Device) :
    ∃ o, firmware_image_download_and_install T d = some o :=
  download_loop_returns T _ _ (Nat.lt_succ_self _)

/-! ## Host tool: the response check -/

theorem storeBytes_memset_getD (m : Mem) (n : Nat) (bs : List Nat) (i : Nat) (hi : i < n) :
    storeBytes (memset m 0 n) 0 bs i = bs.getD i 0 := by
  by_cases h : i < bs.length
  · have := storeBytes_mid bs (memset m 0 n) 0 i h
    rwa [Nat.zero_add] at this
  · rw [storeBytes_ge _ _ _ _ (by omega)]
    simp only [memset, if_pos hi]
    rw [List.getD_eq_default _ _ (by omega)]

/-- What `is_ack_resp_received` tests, on the bytes the poll delivered. -/
theorem is_ack_resp_received_eq (h : Host) :
    (is_ack_resp_received h).1
      = decide (((h.port.polls.headD []).take 10).length % 65536 > 0
          ∧ ((h.port.polls.headD []).take 10).getD 1 0 = ETX_OTA_PACKET_TYPE_RESPONSE
          ∧ le32 (fun i => ((h.port.polls.headD []).take 10).getD i 0) 5
              = crc32_mpeg2 [((h.port.polls.headD []).take 10).getD 4 0]
          ∧ ((h.port.polls.headD []).take 10).getD 4 0 = ETX_OTA_ACK) := by
  unfold is_ack_resp_received RS232_PollComport
  simp only [le32, readBytes, ETX_OTA_PACKET_MAX_SIZE, ETX_OTA_DATA_MAX_SIZE,
    ETX_OTA_DATA_OVERHEAD, ETX_OTA_SOF_SIZE, ETX_OTA_PACKET_TYPE_SIZE, ETX_OTA_DATA_LENGTH_SIZE,
    ETX_OTA_CRC32_SIZE, ETX_OTA_EOF_SIZE, Nat.reduceAdd]
  rw [storeBytes_memset_getD _ _ _ 1 (by decide), storeBytes_memset_getD _ _ _ 4 (by decide),
    storeBytes_memset_getD _ _ _ 5 (by decide), storeBytes_memset_getD _ _ _ 6 (by decide),
    storeBytes_memset_getD _ _ _ 7 (by decide), storeBytes_memset_getD _ _ _ 8 (by decide)]
  split_ifs <;> simp_all

theorem response_poll_take (x s l0 l1 e : Nat) (rest : List (List Nat)) :
    ((([s, ETX_OTA_PACKET_TYPE_RESPONSE, l0, l1, ETX_OTA_ACK] ++ bytes_le32 x ++ [e])
        :: rest).headD []).take 10
      = [s, ETX_OTA_PACKET_TYPE_RESPONSE, l0, l1, ETX_OTA_ACK, x % 256, x / 256 % 256,
          x / 65536 % 256, x / 16777216 % 256, e] := by
  simp only [bytes_le32, List.cons_append, List.nil_append, List.headD_cons, List.take_succ_cons,
    List.take_zero, List.take_nil]

theorem response_poll_crc_field (x s l0 l1 e : Nat) :
    le32 (fun i => [s, ETX_OTA_PACKET_TYPE_RESPONSE, l0, l1, ETX_OTA_ACK, x % 256,
        x / 256 % 256, x / 65536 % 256, x / 16777216 % 256, e].getD i 0) 5
      = x % 256 + 256 * (x / 256 % 256) + 65536 * (x / 65536 % 256)
        + 16777216 * (x / 16777216 % 256) := by
  simp only [le32, List.getD_cons_zero, List.getD_cons_succ]

theorem response_poll_status (x s l0 l1 e : Nat) :
    [s, ETX_OTA_PACKET_TYPE_RESPONSE, l0, l1, ETX_OTA_ACK, x % 256, x / 256 % 256,
        x / 65536 % 256, x / 16777216 % 256, e].getD 4 0 = ETX_OTA_ACK := by
  simp only [List.getD_cons_zero, List.getD_cons_succ]

theorem response_poll_type (x s l0 l1 e : Nat) :
    [s, ETX_OTA_PACKET_TYPE_RESPONSE, l0, l1, ETX_OTA_ACK, x % 256, x / 256 % 256,
        x / 65536 % 256, x / 16777216 % 256, e].getD 1 0 = ETX_OTA_PACKET_TYPE_RESPONSE := by
  simp only [List.getD_cons_zero, List.getD_cons_succ]

/-- Bytes shaped `s, 3, l0, l1, 0, CRC of 0, e` at the next poll are taken as an ACK. -/
theorem is_ack_resp_received_ack (h : Host) (s l0 l1 e : Nat) (rest : List (List Nat)) :
    (is_ack_resp_received
      { h with port := { h.port with polls :=
        ([s, ETX_OTA_PACKET_TYPE_RESPONSE, l0, l1, ETX_OTA_ACK]
          ++ bytes_le32 (crc32_mpeg2 [ETX_OTA_ACK]) ++ [e]) :: rest } }).1 = true := by
  rw [is_ack_resp_received_eq]
  simp only [decide_eq_true_eq]
  rw [response_poll_take, response_poll_crc_field, response_poll_status, response_poll_type]
  refine ⟨by simp, rfl, ?_, rfl⟩
  exact (bytes_le32_sum _ (crc32_mpeg2_lt [ETX_OTA_ACK])).symm

theorem response_packet_ack_eq :
    response_packet ETX_OTA_ACK
      = [ETX_OTA_SOF, ETX_OTA_PACKET_TYPE_RESPONSE, 1, 0, ETX_OTA_ACK]
          ++ bytes_le32 (crc32_mpeg2 [ETX_OTA_ACK]) ++ [ETX_OTA_EOF] := by
  simp only [response_packet, bytes_le16, ETX_OTA_ACK, Nat.reduceMod, Nat.reduceDiv,
    List.cons_append, List.nil_append, List.append_assoc]

theorem is_ack_resp_received_fst (h : Host) :
    (is_ack_resp_received h).1 = poll_is_ack h.port.polls :=
  is_ack_resp_received_eq h

/-- The whole result of `is_ack_resp_received`: the answer, the buffer with the bytes polled,
the port with one poll used up. -/
theorem is_ack_resp_received_full (h : Host) :
    is_ack_resp_received h
      = (poll_is_ack h.port.polls,
          ⟨storeBytes (memset h.ETX_OTA_Packet_Buffer 0 ETX_OTA_PACKET_MAX_SIZE) 0
            ((h.port.polls.headD []).take 10),
          ⟨h.port.sent, h.port.send_rets, h.port.polls.tail⟩, h.payload_send_attempts⟩) := by
  rw [← is_ack_resp_received_fst]
  unfold is_ack_resp_received RS232_PollComport
  simp only []
  split_ifs <;> rfl

/-- The Response packet with status ACK that the device sends is taken as an ACK. -/
theorem poll_is_ack_response (polls : List (List Nat)) :
    poll_is_ack (response_packet ETX_OTA_ACK :: polls) = true := by
  have h := is_ack_resp_received_ack ⟨fun _ => 0, ⟨[], [], []⟩, 0⟩ ETX_OTA_SOF 1 0
    ETX_OTA_EOF polls
  rw [is_ack_resp_received_fst, ← response_packet_ack_eq] at h
  exact h

theorem command_packet_buffer_bytes (m : Mem) (cmd : Nat) :
    readBytes (command_packet_buffer m cmd) 0 ETX_OTA_CMD_PACKET_T_SIZE
      = packet_bytes ETX_OTA_PACKET_TYPE_CMD [cmd] := by
  simp [command_packet_buffer, ETX_OTA_CMD_PACKET_T_SIZE, readBytes, storeBytes, Mem.store,
    bytes_le16, bytes_le32, packet_bytes]

theorem header_data_t_bytes_length (x : header_data_t) : x.bytes.length = 16 := by
  simp [header_data_t.bytes, bytes_le32, bytes_le16]

theorem header_packet_buffer_bytes (m : Mem) (x : header_data_t) :
    readBytes
      ((storeBytes (storeBytes (storeBytes (((memset m 0 ETX_OTA_PACKET_MAX_SIZE).store 0
        ETX_OTA_SOF).store 1 ETX_OTA_PACKET_TYPE_HEADER) 2 (bytes_le16 ETX_OTA_HEADER_DATA_T_SIZE))
        4 x.bytes) 20
        (bytes_le32 (crc32_mpeg2 (readBytes (storeBytes (storeBytes
          (((memset m 0 ETX_OTA_PACKET_MAX_SIZE).store 0 ETX_OTA_SOF).store 1
            ETX_OTA_PACKET_TYPE_HEADER) 2 (bytes_le16 ETX_OTA_HEADER_DATA_T_SIZE)) 4 x.bytes)
          4 ETX_OTA_HEADER_DATA_T_SIZE)))).store 24 ETX_OTA_EOF)
      0 ETX_OTA_HEADER_PACKET_T_SIZE
      = packet_bytes ETX_OTA_PACKET_TYPE_HEADER x.bytes := by
  simp [ETX_OTA_HEADER_PACKET_T_SIZE, ETX_OTA_HEADER_DATA_T_SIZE, readBytes, storeBytes,
    Mem.store, bytes_le16, bytes_le32, packet_bytes, header_data_t.bytes]

/-- A command function on a port that accepts every byte: the Command packet goes out, one
poll is used up, and the status tells whether that poll was an ACK. -/
theorem send_command_packet_full (m : Mem) (sent : List Nat) (polls : List (List Nat))
    (attempts cmd : Nat) :
    ∃ m1, send_command_packet ⟨m, ⟨sent, [], polls⟩, attempts⟩ cmd
      = (if poll_is_ack polls then ETX_OTA_EC_OK else ETX_OTA_EC_ERR,
          ⟨m1, ⟨sent ++ packet_bytes ETX_OTA_PACKET_TYPE_CMD [cmd], [], polls.tail⟩,
            attempts⟩) := by
  apply Exists.intro
  unfold send_command_packet
  simp only [command_packet_buffer_bytes, send_packet_bytes_ok]
  rw [is_ack_resp_received_full]
  cases poll_is_ack polls <;> rfl

/-- The function `send_etx_ota_header` on a port that accepts every byte. -/
theorem send_etx_ota_header_full (m : Mem) (sent : List Nat) (polls : List (List Nat))
    (attempts : Nat) (x : header_data_t) :
    ∃ m1, send_etx_ota_header ⟨m, ⟨sent, [], polls⟩, attempts⟩ x
      = (if poll_is_ack polls then ETX_OTA_EC_OK else ETX_OTA_EC_ERR,
          ⟨m1, ⟨sent ++ packet_bytes ETX_OTA_PACKET_TYPE_HEADER x.bytes, [], polls.tail⟩,
            attempts⟩) := by
  apply Exists.intro
  unfold send_etx_ota_header
  simp only [header_packet_buffer_bytes, send_packet_bytes_ok]
  rw [is_ack_resp_received_full]
  cases poll_is_ack polls <;> rfl

theorem send_etx_ota_data_take (h : Host) (p : List Nat) (n : Nat) :
    send_etx_ota_data h p n = send_etx_ota_data h (p.take n) n := by
  unfold send_etx_ota_data
  simp only [List.take_take, Nat.min_self]

theorem send_etx_ota_data_whole (m : Mem) (sent : List Nat) (polls : List (List Nat))
    (attempts : Nat) (d : List Nat) (hd : d.length ≤ 1024) :
    ∃ m1, send_etx_ota_data ⟨m, ⟨sent, [], polls⟩, attempts⟩ d d.length
      = (if poll_is_ack polls then ETX_OTA_EC_OK else ETX_OTA_EC_ERR,
          ⟨m1, ⟨sent ++ packet_bytes ETX_OTA_PACKET_TYPE_DATA d, [], polls.tail⟩,
            attempts⟩) := by
  apply Exists.intro
  unfold send_etx_ota_data
  simp only [List.take_length, data_field_index_eq, packet_max_size_eq, ETX_OTA_CRC32_SIZE,
    ETX_OTA_EOF_SIZE]
  have e1 : (4 + d.length) % 65536 = 4 + d.length := by omega
  have e2 : (4 + d.length + 4) % 65536 = 4 + d.length + 4 := by omega
  have e3 : (4 + d.length + 4 + 1) % 65536 = d.length + 9 := by omega
  rw [e1, e2, e3, data_packet_buffer m d hd, send_packet_bytes_ok]
  simp only []
  rw [is_ack_resp_received_full]
  cases poll_is_ack polls <;> rfl

/-- The function `send_etx_ota_data` on a port that accepts every byte, for `n` bytes of a
payload that has them, `n` at most 1024. -/
theorem send_etx_ota_data_full (m : Mem) (sent : List Nat) (polls : List (List Nat))
    (attempts : Nat) (p : List Nat) (n : Nat) (hn : n ≤ 1024) (hp : n ≤ p.length) :
    ∃ m1, send_etx_ota_data ⟨m, ⟨sent, [], polls⟩, attempts⟩ p n
      = (if poll_is_ack polls then ETX_OTA_EC_OK else ETX_OTA_EC_ERR,
          ⟨m1, ⟨sent ++ packet_bytes ETX_OTA_PACKET_TYPE_DATA (p.take n), [], polls.tail⟩,
            attempts⟩) := by
  have hl : (p.take n).length = n := by simp [hp]
  obtain ⟨m1, h1⟩ := send_etx_ota_data_whole m sent polls attempts (p.take n) (by omega)
  rw [hl] at h1
  rw [send_etx_ota_data_take]
  exact ⟨m1, h1⟩

theorem is_ack_resp_received_attempts (h : Host) :
    (is_ack_resp_received h).2.payload_send_attempts = h.payload_send_attempts := by
  rw [is_ack_resp_received_full]

theorem is_ack_resp_received_attempts_of (h h1 : Host) (b : Bool)
    (heq : is_ack_resp_received h = (b, h1)) :
    h1.payload_send_attempts = h.payload_send_attempts := by
  have := is_ack_resp_received_attempts h
  rw [heq] at this
  exact this

/-! ## Host tool: the Data loop when every packet is acknowledged -/

theorem reference_chunks_length (k : Nat) (p : List Nat) : (reference_chunks k p).length = k := by
  induction k generalizing p with
  | zero => rfl
  | succ k ih => simp [reference_chunks, ih]

/-- The chunks put together give the payload back when there are enough of them. -/
theorem reference_chunks_flatten (k : Nat) (p : List Nat) (h : p.length ≤ 1024 * k) :
    (reference_chunks k p).flatten = p := by
  induction k generalizing p with
  | zero =>
    have : p = [] := List.length_eq_zero.mp (by omega)
    subst this
    rfl
  | succ k ih =>
    simp only [reference_chunks, List.flatten_cons]
    rw [ih _ (by simp only [List.length_drop]; omega), List.take_append_drop]

/-- The length of each chunk: 1024 for all but the last, the rest for the last. -/
theorem reference_chunks_getD (k : Nat) (p : List Nat) (j : Nat) (hj : j < k) :
    ((reference_chunks k p).getD j []).length = min 1024 (p.length - 1024 * j) := by
  induction k generalizing p j with
  | zero => omega
  | succ k ih =>
    cases j with
    | zero => simp [reference_chunks]
    | succ j =>
      simp only [reference_chunks, List.getD_cons_succ]
      rw [ih _ j (by omega), List.length_drop,
        show p.length - 1024 - 1024 * j = p.length - 1024 * (j + 1) by omega]

/-- The Data loop from index `i` on, with `k` chunks left to send and an ACK for each. -/
theorem data_packets_loop_acked (ack : List Nat)
    (hack : ∀ rest : List (List Nat), poll_is_ack (ack :: rest) = true)
    (payload : List Nat) (n : Nat) (hn : payload.length = n)
    (h32 : n < 2 ^ 32) (polls : List (List Nat)) (attempts : Nat) :
    ∀ (k passes i : Nat) (m : Mem) (sent : List Nat), i ≤ n → (n - i + 1023) / 1024 = k →
      k < passes →
      ∃ m1, data_packets_loop payload n passes i
          ⟨m, ⟨sent, [], List.replicate k ack ++ polls⟩, attempts⟩
        = some (ETX_OTA_EC_OK,
            ⟨m1, ⟨sent ++ ((reference_chunks k (payload.drop i)).map
              (packet_bytes ETX_OTA_PACKET_TYPE_DATA)).flatten, [], polls⟩, attempts⟩) := by
  intro k
  induction k with
  | zero =>
    intro passes i m sent hi hk hp
    obtain ⟨passes, rfl⟩ : ∃ q, passes = q + 1 := ⟨passes - 1, by omega⟩
    refine ⟨m, ?_⟩
    rw [data_packets_loop, if_neg (by omega)]
    simp [reference_chunks]
  | succ k ih =>
    intro passes i m sent hi hk hp
    obtain ⟨passes, rfl⟩ : ∃ q, passes = q + 1 := ⟨passes - 1, by omega⟩
    have hlt : i < n := by omega
    have hdl : (payload.drop i).length = n - i := by rw [List.length_drop, hn]
    rw [data_packets_loop, if_pos hlt]
    dsimp only
    by_cases hbig : n - i ≥ ETX_OTA_DATA_MAX_SIZE
    · have hbig' : n - i ≥ 1024 := hbig
      rw [if_pos hbig]
      obtain ⟨m1, h1⟩ := send_etx_ota_data_full m sent
        (List.replicate (k + 1) ack ++ polls) attempts
        (payload.drop i) ETX_OTA_DATA_MAX_SIZE (Nat.le_refl _) (by rw [hdl]; exact hbig)
      rw [h1, List.replicate_succ, List.cons_append, hack, if_pos rfl]
      dsimp only
      rw [if_neg (not_not.mpr rfl), List.tail_cons]
      have e : (i + ETX_OTA_DATA_MAX_SIZE) % 2 ^ 32 = i + 1024 :=
        Nat.mod_eq_of_lt (by simp only [ETX_OTA_DATA_MAX_SIZE]; omega)
      rw [e]
      obtain ⟨m2, h2⟩ := ih passes (i + 1024) m1
        (sent ++ packet_bytes ETX_OTA_PACKET_TYPE_DATA
          (List.take ETX_OTA_DATA_MAX_SIZE (List.drop i payload)))
        (by omega) (by omega) (by omega)
      refine ⟨m2, ?_⟩
      rw [h2]
      simp only [reference_chunks, List.map_cons, List.flatten_cons, List.append_assoc,
        List.drop_drop, ETX_OTA_DATA_MAX_SIZE]
    · rw [if_neg hbig]
      have hsmall : n - i < 1024 := Nat.lt_of_not_ge hbig
      have hk0 : k = 0 := by omega
      subst hk0
      have e0 : (n - i) % 65536 = n - i := Nat.mod_eq_of_lt (by omega)
      rw [e0]
      obtain ⟨m1, h1⟩ := send_etx_ota_data_full m sent
        (List.replicate (0 + 1) ack ++ polls) attempts
        (payload.drop i) (n - i) (by omega) (by rw [hdl])
      rw [h1, List.replicate_succ, List.cons_append, hack, if_pos rfl]
      dsimp only
      rw [if_neg (not_not.mpr rfl), List.tail_cons]
      have e : (i + (n - i)) % 2 ^ 32 = n := by
        rw [Nat.add_sub_cancel' hi]
        exact Nat.mod_eq_of_lt h32
      rw [e]
      obtain ⟨m2, h2⟩ := ih passes n m1
        (sent ++ packet_bytes ETX_OTA_PACKET_TYPE_DATA (List.take (n - i) (List.drop i payload)))
        (Nat.le_refl _) (by omega) (by omega)
      refine ⟨m2, ?_⟩
      rw [h2]
      have ht : List.take (n - i) (List.drop i payload) = List.take 1024 (List.drop i payload) := by
        rw [List.take_of_length_le (by rw [hdl]), List.take_of_length_le (by rw [hdl]; omega)]
      rw [ht]
      simp [reference_chunks]

/-! ## Host tool: a transaction in which every packet is acknowledged -/

theorem load_payload_env (env : HostEnv) (a : List Nat) (b : Nat) (t : Nat) :
    load_payload { env with open_rets := a, opened := b } t = load_payload env t := rfl

theorem abort_loop_acked (ack : List Nat)
    (hack : ∀ rest : List (List Nat), poll_is_ack (ack :: rest) = true) (fuel : Nat) (m : Mem) (sent : List Nat) (polls : List (List Nat))
    (attempts : Nat) :
    ∃ m1, abort_loop (fuel + 1) ⟨m, ⟨sent, [], ack :: polls⟩, attempts⟩
      = some ⟨m1, ⟨sent ++ packet_bytes ETX_OTA_PACKET_TYPE_CMD [ETX_OTA_CMD_ABORT], [], polls⟩,
          attempts⟩ := by
  obtain ⟨m1, h1⟩ := send_command_packet_full m sent (ack :: polls)
    attempts ETX_OTA_CMD_ABORT
  refine ⟨m1, ?_⟩
  rw [abort_loop, send_etx_ota_abort, h1, hack, if_pos rfl]
  dsimp only
  rw [if_neg (not_not.mpr rfl), List.tail_cons]

theorem start_etx_ota_process_acked (ack : List Nat)
    (hack : ∀ rest : List (List Nat), poll_is_ack (ack :: rest) = true) (fuel : Nat) (env : HostEnv) (m : Mem) (sent : List Nat)
    (polls : List (List Nat)) (t : Nat) (payload : List Nat)
    (hopen : env.open_rets.headD 0 = 0)
    (hload : load_payload env t = Except.ok (payload, payload.length))
    (h32 : payload.length < 2 ^ 32) :
    ∃ m1, start_etx_ota_process (fuel + 1) env
        ⟨m, ⟨sent, [], ack :: ack
          :: ack
          :: (List.replicate ((payload.length + 1023) / 1024) (ack)
            ++ ack :: polls)⟩, 0⟩ t
      = some (ETX_OTA_EC_OK,
          ⟨m1, ⟨sent ++ packet_bytes ETX_OTA_PACKET_TYPE_CMD [ETX_OTA_CMD_ABORT]
            ++ packet_bytes ETX_OTA_PACKET_TYPE_CMD [ETX_OTA_CMD_START]
            ++ packet_bytes ETX_OTA_PACKET_TYPE_HEADER
              (header_data_t.bytes
                { package_size := payload.length
                  package_crc := crc32_mpeg2 payload
                  reserved1 := ETX_OTA_32BITS_RESET_VALUE
                  reserved2 := ETX_OTA_16BITS_RESET_VALUE
                  reserved3 := ETX_OTA_8BITS_RESET_VALUE
                  payload_type := t })
            ++ ((reference_chunks ((payload.length + 1023) / 1024) payload).map
                (packet_bytes ETX_OTA_PACKET_TYPE_DATA)).flatten
            ++ packet_bytes ETX_OTA_PACKET_TYPE_CMD [ETX_OTA_CMD_END], [], polls⟩, 0⟩,
          { env with open_rets := env.open_rets.tail, opened := env.opened + 1 }) := by
  rw [start_etx_ota_process]
  dsimp only
  rw [if_neg (not_not.mpr hopen), load_payload_env, hload]
  dsimp only
  rw [if_pos rfl]
  obtain ⟨m1, h1⟩ := abort_loop_acked ack hack fuel m sent (ack
          :: ack
          :: (List.replicate ((payload.length + 1023) / 1024) (ack)
            ++ ack :: polls)) 0
  rw [h1]
  dsimp only
  obtain ⟨m2, h2⟩ := send_command_packet_full m1
    (sent ++ packet_bytes ETX_OTA_PACKET_TYPE_CMD [ETX_OTA_CMD_ABORT])
    (ack
          :: ack
          :: (List.replicate ((payload.length + 1023) / 1024) (ack)
            ++ ack :: polls)) 0 ETX_OTA_CMD_START
  rw [send_etx_ota_start, h2, hack, if_pos rfl]
  dsimp only
  rw [if_neg (not_not.mpr rfl), List.tail_cons, List.take_length]
  obtain ⟨m3, h3⟩ := send_etx_ota_header_full m2
    (sent ++ packet_bytes ETX_OTA_PACKET_TYPE_CMD [ETX_OTA_CMD_ABORT]
      ++ packet_bytes ETX_OTA_PACKET_TYPE_CMD [ETX_OTA_CMD_START])
    (ack
          :: (List.replicate ((payload.length + 1023) / 1024) (ack)
            ++ ack :: polls)) 0
    { package_size := payload.length
      package_crc := crc32_mpeg2 payload
      reserved1 := ETX_OTA_32BITS_RESET_VALUE
      reserved2 := ETX_OTA_16BITS_RESET_VALUE
      reserved3 := ETX_OTA_8BITS_RESET_VALUE
      payload_type := t }
  rw [h3, hack, if_pos rfl]
  dsimp only
  rw [if_neg (not_not.mpr rfl), List.tail_cons]
  obtain ⟨m4, h4⟩ := data_packets_loop_acked ack hack payload payload.length rfl h32
    (ack :: polls) 0
    ((payload.length + 1023) / 1024) (payload.length + 1) 0 m3
    (sent ++ packet_bytes ETX_OTA_PACKET_TYPE_CMD [ETX_OTA_CMD_ABORT]
      ++ packet_bytes ETX_OTA_PACKET_TYPE_CMD [ETX_OTA_CMD_START]
      ++ packet_bytes ETX_OTA_PACKET_TYPE_HEADER
              (header_data_t.bytes
                { package_size := payload.length
                  package_crc := crc32_mpeg2 payload
                  reserved1 := ETX_OTA_32BITS_RESET_VALUE
                  reserved2 := ETX_OTA_16BITS_RESET_VALUE
                  reserved3 := ETX_OTA_8BITS_RESET_VALUE
                  payload_type := t }))
    (Nat.zero_le _) rfl (by omega)
  rw [List.drop_zero] at h4
  rw [h4]
  dsimp only
  rw [if_neg (not_not.mpr rfl)]
  obtain ⟨m5, h5⟩ := send_command_packet_full m4
    (sent ++ packet_bytes ETX_OTA_PACKET_TYPE_CMD [ETX_OTA_CMD_ABORT]
      ++ packet_bytes ETX_OTA_PACKET_TYPE_CMD [ETX_OTA_CMD_START]
      ++ packet_bytes ETX_OTA_PACKET_TYPE_HEADER
              (header_data_t.bytes
                { package_size := payload.length
                  package_crc := crc32_mpeg2 payload
                  reserved1 := ETX_OTA_32BITS_RESET_VALUE
                  reserved2 := ETX_OTA_16BITS_RESET_VALUE
                  reserved3 := ETX_OTA_8BITS_RESET_VALUE
                  payload_type := t })
      ++ ((reference_chunks ((payload.length + 1023) / 1024) payload).map
                (packet_bytes ETX_OTA_PACKET_TYPE_DATA)).flatten)
    (ack :: polls) 0 ETX_OTA_CMD_END
  rw [send_etx_ota_end, h5, hack, if_pos rfl]
  dsimp only
  rw [if_neg (not_not.mpr rfl), List.tail_cons]
  exact ⟨m5, rfl⟩

/-! ## The receiver state after an Abort -/

/-- C21 fails when Abort arrives after the Header: the transaction Start, Header (application
image of 8 bytes), Abort makes `firmware_image_download_and_install` answer three ACKs and return
`ETX_OTA_EC_STOP` with `etx_ota_state` equal to `ETX_OTA_STATE_DATA`, not
`ETX_OTA_STATE_START`. -/
theorem abort_in_data_state_returns_in_data_state :
    (firmware_image_download_and_install reference_target abort_mid_download_device).map
        (fun r => (r.1, r.2.etx_ota_state, r.2.tx))
      = some (ETX_OTA_EC_STOP, ETX_OTA_STATE_DATA,
          [response_packet ETX_OTA_ACK, response_packet ETX_OTA_ACK,
            response_packet ETX_OTA_ACK])
    ∧ ETX_OTA_STATE_DATA ≠ ETX_OTA_STATE_START := by
  decide

/-- C21 as the code has it: when `etx_ota_receive_packet` has decoded a Command packet
carrying Abort, the receive loop returns `ETX_OTA_EC_STOP` with `etx_ota_state` equal to the
state in which the packet arrived, whatever that state is; the state is
`ETX_OTA_STATE_START` on return when the packet is the first one of a call of
`firmware_image_download_and_install`, whose entry is the only place that sets it to Start. -/
theorem abort_returns_in_arrival_state (T : Target) (d : Device)
    (hrecv : (etx_ota_receive_packet d.ETX_OTA_hardware_protocol d.rx d.Rx_Buffer
      ETX_OTA_PACKET_MAX_SIZE).status = ETX_OTA_EC_OK)
    (htype : (etx_ota_receive_packet d.ETX_OTA_hardware_protocol d.rx d.Rx_Buffer
      ETX_OTA_PACKET_MAX_SIZE).buf 1 = ETX_OTA_PACKET_TYPE_CMD)
    (hcmd : (etx_ota_receive_packet d.ETX_OTA_hardware_protocol d.rx d.Rx_Buffer
      ETX_OTA_PACKET_MAX_SIZE).buf 4 = ETX_OTA_CMD_ABORT) :
    (∀ passes : Nat, ∃ d1, download_loop T (passes + 1) d = some (ETX_OTA_EC_STOP, d1)
        ∧ d1.etx_ota_state = d.etx_ota_state)
    ∧ ∃ d2, firmware_image_download_and_install T d = some (ETX_OTA_EC_STOP, d2)
        ∧ d2.etx_ota_state = ETX_OTA_STATE_START := by
  constructor
  · intro passes
    have h := download_pass_abort T d hrecv htype hcmd
    refine ⟨(download_pass T d).2, ?_, ?_⟩
    · simp only [download_loop]
      rw [h]
    · rw [h]
  · have h := download_pass_abort T
      { d with etx_ota_fw_received_size := 0, etx_ota_state := ETX_OTA_STATE_START }
      hrecv htype hcmd
    refine ⟨(download_pass T
      { d with etx_ota_fw_received_size := 0, etx_ota_state := ETX_OTA_STATE_START }).2, ?_, ?_⟩
    · unfold firmware_image_download_and_install
      simp only [download_loop]
      rw [h]
    · rw [h]

theorem abort_returns_in_arrival_state_witness :
    (etx_ota_receive_packet abort_device.ETX_OTA_hardware_protocol abort_device.rx
        abort_device.Rx_Buffer ETX_OTA_PACKET_MAX_SIZE).status = ETX_OTA_EC_OK
    ∧ (etx_ota_receive_packet abort_device.ETX_OTA_hardware_protocol abort_device.rx
        abort_device.Rx_Buffer ETX_OTA_PACKET_MAX_SIZE).buf 1 = ETX_OTA_PACKET_TYPE_CMD
    ∧ (etx_ota_receive_packet abort_device.ETX_OTA_hardware_protocol abort_device.rx
        abort_device.Rx_Buffer ETX_OTA_PACKET_MAX_SIZE).buf 4 = ETX_OTA_CMD_ABORT
    ∧ abort_device.etx_ota_state = ETX_OTA_STATE_DATA
    ∧ ((∀ passes : Nat, ∃ d1,
          download_loop reference_target (passes + 1) abort_device = some (ETX_OTA_EC_STOP, d1)
          ∧ d1.etx_ota_state = abort_device.etx_ota_state)
      ∧ ∃ d2, firmware_image_download_and_install reference_target abort_device
          = some (ETX_OTA_EC_STOP, d2)
        ∧ d2.etx_ota_state = ETX_OTA_STATE_START) :=
  ⟨by decide, by decide, by decide, rfl,
    abort_returns_in_arrival_state reference_target abort_device (by decide) (by decide)
      (by decide)⟩

/-! ## Claims on the response check of the host -/

/-- C22 fails on bytes that are not a valid Response packet: with 0x00 in place of the SOF,
a length field of 0 and 0x00 in place of the EOF, `is_ack_resp_received` returns true. -/
theorem is_ack_resp_received_accepts_malformed_packet :
    (is_ack_resp_received malformed_ack_host).1 = true
    ∧ (malformed_ack_host.port.polls.headD []).getD 0 0 ≠ ETX_OTA_SOF
    ∧ (malformed_ack_host.port.polls.headD []).getD 9 0 ≠ ETX_OTA_EOF
    ∧ le16 (fun i => (malformed_ack_host.port.polls.headD []).getD i 0) 2 ≠ 1 := by
  decide

/-- C22 as the code has it: `is_ack_resp_received` returns true if and only if the poll
delivered at least one byte and, reading the at most ten bytes delivered with zeros after them,
the type byte is 3, the CRC field (bytes 5 to 8, little-endian) equals `crc32_mpeg2` of the
status byte, and the status byte is ACK; the SOF byte, the length field and the EOF byte are
not looked at, so the bytes `s, 3, l0, l1, 0, CRC of 0, e` are taken as an ACK whatever `s`,
`l0`, `l1` and `e` are. -/
theorem is_ack_resp_received_iff (h : Host) :
    ((is_ack_resp_received h).1 = true
      ↔ (((h.port.polls.headD []).take 10).length % 65536 > 0
          ∧ ((h.port.polls.headD []).take 10).getD 1 0 = ETX_OTA_PACKET_TYPE_RESPONSE
          ∧ le32 (fun i => ((h.port.polls.headD []).take 10).getD i 0) 5
              = crc32_mpeg2 [((h.port.polls.headD []).take 10).getD 4 0]
          ∧ ((h.port.polls.headD []).take 10).getD 4 0 = ETX_OTA_ACK))
    ∧ ∀ (s l0 l1 e : Nat) (rest : List (List Nat)),
        (is_ack_resp_received
          { h with port := { h.port with polls :=
            ([s, ETX_OTA_PACKET_TYPE_RESPONSE, l0, l1, ETX_OTA_ACK]
              ++ bytes_le32 (crc32_mpeg2 [ETX_OTA_ACK]) ++ [e]) :: rest } }).1 = true := by
  constructor
  · rw [is_ack_resp_received_eq]
    simp only [decide_eq_true_eq]
  · intro s l0 l1 e rest
    exact is_ack_resp_received_ack h s l0 l1 e rest

/-! ## Claims on the Data loop of the host -/

/-- C23: for a payload of `n` bytes, `n` at most `ETX_OTA_MAX_FW_SIZE`, on a port that accepts
every byte and answers ACK to each Data packet, the Data loop of `start_etx_ota_process` ends
with `ETX_OTA_EC_OK` having sent exactly `(n + 1023) / 1024` Data packets and used as many
polls; every packet before the last carries 1024 bytes, the last carries 1 to 1024 bytes, and
the data fields put together in sending order are the payload. -/
theorem data_loop_chunking (payload : List Nat) (m : Mem) (sent : List Nat)
    (polls : List (List Nat)) (attempts : Nat)
    (hn : payload.length ≤ PcTool.ETX_OTA_MAX_FW_SIZE) :
    ∃ (m1 : Mem) (chunks : List (List Nat)),
      data_packets_loop payload payload.length (payload.length + 1) 0
          ⟨m, ⟨sent, [], List.replicate ((payload.length + 1023) / 1024)
            (response_packet ETX_OTA_ACK) ++ polls⟩, attempts⟩
        = some (ETX_OTA_EC_OK,
            ⟨m1, ⟨sent ++ (chunks.map (packet_bytes ETX_OTA_PACKET_TYPE_DATA)).flatten, [],
              polls⟩, attempts⟩)
      ∧ chunks.length = (payload.length + 1023) / 1024
      ∧ (∀ j, j + 1 < chunks.length → (chunks.getD j []).length = 1024)
      ∧ (∀ j, j + 1 = chunks.length →
          1 ≤ (chunks.getD j []).length ∧ (chunks.getD j []).length ≤ 1024)
      ∧ chunks.flatten = payload := by
  have hmax : PcTool.ETX_OTA_MAX_FW_SIZE = 88064 := by decide
  rw [hmax] at hn
  obtain ⟨m1, h1⟩ := data_packets_loop_acked (response_packet ETX_OTA_ACK) poll_is_ack_response payload payload.length rfl (by omega) polls attempts
    ((payload.length + 1023) / 1024) (payload.length + 1) 0 m sent (Nat.zero_le _) rfl (by omega)
  rw [List.drop_zero] at h1
  refine ⟨m1, reference_chunks ((payload.length + 1023) / 1024) payload, h1,
    reference_chunks_length _ _, ?_, ?_, reference_chunks_flatten ((payload.length + 1023) / 1024) payload (by omega)⟩
  · intro j hj
    rw [reference_chunks_length] at hj
    rw [reference_chunks_getD _ _ j (by omega)]
    omega
  · intro j hj
    rw [reference_chunks_length] at hj
    rw [reference_chunks_getD _ _ j (by omega)]
    omega

theorem data_loop_chunking_witness :
    [1, 2, 3, 4, 5].length ≤ PcTool.ETX_OTA_MAX_FW_SIZE
    ∧ ∃ (m1 : Mem) (chunks : List (List Nat)),
      data_packets_loop [1, 2, 3, 4, 5] [1, 2, 3, 4, 5].length ([1, 2, 3, 4, 5].length + 1) 0
          ⟨fun _ => 0, ⟨[], [], List.replicate (([1, 2, 3, 4, 5].length + 1023) / 1024)
            (response_packet ETX_OTA_ACK) ++ []⟩, 0⟩
        = some (ETX_OTA_EC_OK,
            ⟨m1, ⟨[] ++ (chunks.map (packet_bytes ETX_OTA_PACKET_TYPE_DATA)).flatten, [],
              []⟩, 0⟩)
      ∧ chunks.length = ([1, 2, 3, 4, 5].length + 1023) / 1024
      ∧ (∀ j, j + 1 < chunks.length → (chunks.getD j []).length = 1024)
      ∧ (∀ j, j + 1 = chunks.length →
          1 ≤ (chunks.getD j []).length ∧ (chunks.getD j []).length ≤ 1024)
      ∧ chunks.flatten = [1, 2, 3, 4, 5] :=
  ⟨by decide, data_loop_chunking [1, 2, 3, 4, 5] (fun _ => 0) [] [] 0 (by decide)⟩

/-! ## The Header packet of the host -/

/-- What `load_payload` delivers: a known payload type, the payload with its size, within the
capacity of the largest image. -/
theorem load_payload_ok (env : HostEnv) (t : Nat) (p : List Nat) (n : Nat)
    (h : load_payload env t = Except.ok (p, n)) :
    t ≤ 2 ∧ p.length = n ∧ n < 2 ^ 32 := by
  unfold load_payload at h
  by_cases h1 : t = ETX_OTA_Bootloader_Firmware_Image ∨ t = ETX_OTA_Application_Firmware_Image
  · rw [if_pos h1] at h
    cases hf : env.payload_file with
    | none => rw [hf] at h; cases h
    | some file =>
      rw [hf] at h
      dsimp only at h
      by_cases c1 : t = ETX_OTA_Bootloader_Firmware_Image
          ∧ file.length % 2 ^ 32 > PcTool.ETX_OTA_BL_FW_SIZE
      · rw [if_pos c1] at h; cases h
      · rw [if_neg c1] at h
        by_cases c2 : t = ETX_OTA_Application_Firmware_Image
            ∧ file.length % 2 ^ 32 > PcTool.ETX_OTA_APP_FW_SIZE
        · rw [if_pos c2] at h; cases h
        · rw [if_neg c2] at h
          by_cases c3 : env.fread_fails = true
          · rw [if_pos c3] at h; cases h
          · rw [if_neg c3] at h
            have hlt : file.length % 2 ^ 32 < 2 ^ 32 := Nat.mod_lt _ (by decide)
            cases h
            refine ⟨?_, ?_, hlt⟩
            · rcases h1 with h1 | h1 <;> rw [h1] <;> decide
            · rw [List.length_take]
              exact Nat.min_eq_left (Nat.mod_le _ _)
  · rw [if_neg h1] at h
    by_cases h2 : t = ETX_OTA_Custom_Data
    · rw [if_pos h2] at h
      dsimp only at h
      rw [if_neg (Nat.lt_irrefl _)] at h
      have hp := (Prod.mk.inj (Except.ok.inj h)).1
      have hn := (Prod.mk.inj (Except.ok.inj h)).2
      subst hp
      subst hn
      refine ⟨by rw [h2]; decide, ?_, by decide⟩
      rw [List.length_map, List.length_range]
    · rw [if_neg h2] at h; cases h

theorem reset_value_bytes :
    bytes_le32 ETX_OTA_32BITS_RESET_VALUE = [0xFF, 0xFF, 0xFF, 0xFF]
    ∧ bytes_le16 ETX_OTA_16BITS_RESET_VALUE = [0xFF, 0xFF]
    ∧ ETX_OTA_8BITS_RESET_VALUE % 256 = 0xFF := by
  decide

/-- The 16 bytes of the header data that `start_etx_ota_process` builds. -/
theorem etx_ota_header_info_bytes (n crc t : Nat) (ht : t < 256) :
    header_data_t.bytes
      { package_size := n
        package_crc := crc
        reserved1 := ETX_OTA_32BITS_RESET_VALUE
        reserved2 := ETX_OTA_16BITS_RESET_VALUE
        reserved3 := ETX_OTA_8BITS_RESET_VALUE
        payload_type := t }
      = bytes_le32 n ++ bytes_le32 crc ++ [0xFF, 0xFF, 0xFF, 0xFF, 0xFF, 0xFF, 0xFF] ++ [t] := by
  unfold header_data_t.bytes
  dsimp only
  rw [reset_value_bytes.1, reset_value_bytes.2.1, reset_value_bytes.2.2, Nat.mod_eq_of_lt ht]
  simp only [List.append_assoc, List.cons_append, List.nil_append]

/-- The fields that the Header state reads in a buffer holding a Header packet. -/
theorem header_packet_fields (buf : Mem) (n crc t : Nat) (hn : n < 2 ^ 32) (hc : crc < 2 ^ 32) :
    le32 (storeBytes buf 0 (packet_bytes ETX_OTA_PACKET_TYPE_HEADER
        (bytes_le32 n ++ bytes_le32 crc ++ [0xFF, 0xFF, 0xFF, 0xFF, 0xFF, 0xFF, 0xFF] ++ [t]))) 4
      = n
    ∧ le32 (storeBytes buf 0 (packet_bytes ETX_OTA_PACKET_TYPE_HEADER
        (bytes_le32 n ++ bytes_le32 crc ++ [0xFF, 0xFF, 0xFF, 0xFF, 0xFF, 0xFF, 0xFF] ++ [t]))) 8
      = crc
    ∧ (storeBytes buf 0 (packet_bytes ETX_OTA_PACKET_TYPE_HEADER
        (bytes_le32 n ++ bytes_le32 crc ++ [0xFF, 0xFF, 0xFF, 0xFF, 0xFF, 0xFF, 0xFF] ++ [t]))) 19
      = t := by
  have h := (packet_bytes_stored buf ETX_OTA_PACKET_TYPE_HEADER
    (bytes_le32 n ++ bytes_le32 crc ++ [0xFF, 0xFF, 0xFF, 0xFF, 0xFF, 0xFF, 0xFF] ++ [t])).2.2
  generalize storeBytes buf 0 _ = b at h ⊢
  simp only [bytes_le32, List.cons_append, List.nil_append, List.length_cons, List.length_nil,
    Nat.reduceAdd, readBytes, List.cons.injEq, and_true] at h
  obtain ⟨h4, h5, h6, h7, h8, h9, h10, h11, _, _, _, _, _, _, _, h19⟩ := h
  refine ⟨?_, ?_, h19⟩
  · unfold le32
    rw [h4, h5, h6, h7]
    exact (bytes_le32_sum n hn).symm
  · unfold le32
    rw [h8, h9, h10, h11]
    exact (bytes_le32_sum crc hc).symm

theorem reference_header_packet_eq (n crc t : Nat) :
    packet_bytes ETX_OTA_PACKET_TYPE_HEADER
        (bytes_le32 n ++ bytes_le32 crc ++ [0xFF, 0xFF, 0xFF, 0xFF, 0xFF, 0xFF, 0xFF] ++ [t])
      = reference_header_packet n crc t := by
  unfold packet_bytes reference_header_packet
  have hl : (bytes_le32 n ++ bytes_le32 crc ++ [0xFF, 0xFF, 0xFF, 0xFF, 0xFF, 0xFF, 0xFF]
      ++ [t]).length = 16 := rfl
  rw [hl]
  rfl

theorem reference_header_packet_length (n crc t : Nat) :
    (reference_header_packet n crc t).length = 25 := by
  rw [← reference_header_packet_eq, packet_bytes_length]
  rfl

/-- C24: for the payload `p` and the payload type `t` that `start_etx_ota_process` has loaded,
the Header packet it hands to the port is the 25 bytes `0xAA, 0x02, 0x10, 0x00`, the 16 header
bytes (`|p|` and `crc32_mpeg2 p` little-endian, seven bytes `0xFF`, `t`), their CRC
little-endian and `0xBB`: these are the bytes `send_etx_ota_header` sends for the header data it
is given, whatever the response, and the third packet of a transaction in which every packet is
acknowledged.  The device receives them with `ETX_OTA_EC_OK`, and the fields that its Header
state reads in the buffer are `package_size = |p|`, `package_crc = crc32_mpeg2 p` and
`payload_type = t`. -/
theorem header_packet_wire (env : HostEnv) (t : Nat) (p : List Nat) (n : Nat)
    (hload : load_payload env t = Except.ok (p, n)) :
    (reference_header_packet p.length (crc32_mpeg2 p) t).length = 25
    ∧ (∀ (m : Mem) (sent : List Nat) (polls : List (List Nat)) (attempts : Nat),
        ∃ m1, send_etx_ota_header ⟨m, ⟨sent, [], polls⟩, attempts⟩
            { package_size := n
              package_crc := crc32_mpeg2 (p.take n)
              reserved1 := ETX_OTA_32BITS_RESET_VALUE
              reserved2 := ETX_OTA_16BITS_RESET_VALUE
              reserved3 := ETX_OTA_8BITS_RESET_VALUE
              payload_type := t }
          = (if poll_is_ack polls then ETX_OTA_EC_OK else ETX_OTA_EC_ERR,
              ⟨m1, ⟨sent ++ reference_header_packet p.length (crc32_mpeg2 p) t, [], polls.tail⟩,
                attempts⟩))
    ∧ (∀ (fuel : Nat) (m : Mem) (sent : List Nat) (polls : List (List Nat)),
        env.open_rets.headD 0 = 0 →
        ∃ m1, start_etx_ota_process (fuel + 1) env
            ⟨m, ⟨sent, [], response_packet ETX_OTA_ACK :: response_packet ETX_OTA_ACK
              :: response_packet ETX_OTA_ACK
              :: (List.replicate ((p.length + 1023) / 1024) (response_packet ETX_OTA_ACK)
                ++ response_packet ETX_OTA_ACK :: polls)⟩, 0⟩ t
          = some (ETX_OTA_EC_OK,
              ⟨m1, ⟨sent ++ packet_bytes ETX_OTA_PACKET_TYPE_CMD [ETX_OTA_CMD_ABORT]
                ++ packet_bytes ETX_OTA_PACKET_TYPE_CMD [ETX_OTA_CMD_START]
                ++ reference_header_packet p.length (crc32_mpeg2 p) t
                ++ ((reference_chunks ((p.length + 1023) / 1024) p).map
                    (packet_bytes ETX_OTA_PACKET_TYPE_DATA)).flatten
                ++ packet_bytes ETX_OTA_PACKET_TYPE_CMD [ETX_OTA_CMD_END], [], polls⟩, 0⟩,
              { env with open_rets := env.open_rets.tail, opened := env.opened + 1 }))
    ∧ (∀ (hw : ETX_OTA_hw_Protocol) (buf : Mem) (rest : List RxEvent),
        hw ≠ ETX_OTA_hw_Protocol.other →
        etx_ota_receive_packet hw
            ((reference_header_packet p.length (crc32_mpeg2 p) t).map RxEvent.byte ++ rest) buf
            ETX_OTA_PACKET_MAX_SIZE
          = ⟨ETX_OTA_EC_OK, storeBytes buf 0 (reference_header_packet p.length (crc32_mpeg2 p) t),
              rest⟩
        ∧ le32 (storeBytes buf 0 (reference_header_packet p.length (crc32_mpeg2 p) t)) 4
            = p.length
        ∧ le32 (storeBytes buf 0 (reference_header_packet p.length (crc32_mpeg2 p) t)) 8
            = crc32_mpeg2 p
        ∧ (storeBytes buf 0 (reference_header_packet p.length (crc32_mpeg2 p) t)) 19 = t) := by
  obtain ⟨ht, hn, h32⟩ := load_payload_ok env t p n hload
  subst hn
  have hinfo := etx_ota_header_info_bytes p.length (crc32_mpeg2 p) t (by omega)
  refine ⟨reference_header_packet_length _ _ _, ?_, ?_, ?_⟩
  · intro m sent polls attempts
    obtain ⟨m1, h1⟩ := send_etx_ota_header_full m sent polls attempts
      { package_size := p.length
        package_crc := crc32_mpeg2 p
        reserved1 := ETX_OTA_32BITS_RESET_VALUE
        reserved2 := ETX_OTA_16BITS_RESET_VALUE
        reserved3 := ETX_OTA_8BITS_RESET_VALUE
        payload_type := t }
    rw [hinfo, reference_header_packet_eq] at h1
    rw [List.take_length]
    exact ⟨m1, h1⟩
  · intro fuel m sent polls hopen
    obtain ⟨m1, h1⟩ := start_etx_ota_process_acked (response_packet ETX_OTA_ACK)
      poll_is_ack_response fuel env m sent polls t p hopen hload h32
    rw [hinfo, reference_header_packet_eq] at h1
    exact ⟨m1, h1⟩
  · intro hw buf rest hhw
    rw [etx_ota_receive_packet_eq_UART hw hhw, ← reference_header_packet_eq,
      receive_UART_packet_bytes ETX_OTA_PACKET_TYPE_HEADER _ rest buf ETX_OTA_PACKET_MAX_SIZE
        (by decide) (by simp [bytes_le32])]
    have hf := header_packet_fields buf p.length (crc32_mpeg2 p) t h32 (crc32_mpeg2_lt p)
    refine ⟨?_, hf⟩
    have hl : (bytes_le32 p.length ++ bytes_le32 (crc32_mpeg2 p)
        ++ [0xFF, 0xFF, 0xFF, 0xFF, 0xFF, 0xFF, 0xFF] ++ [t]).length = 16 := rfl
    rw [hl, if_neg (by decide)]

theorem header_packet_wire_witness :
    load_payload ⟨[], some [1, 2, 3, 4, 5, 6, 7, 8], false, 0⟩
        ETX_OTA_Application_Firmware_Image = Except.ok ([1, 2, 3, 4, 5, 6, 7, 8], 8)
    ∧ (reference_header_packet [1, 2, 3, 4, 5, 6, 7, 8].length
        (crc32_mpeg2 [1, 2, 3, 4, 5, 6, 7, 8]) ETX_OTA_Application_Firmware_Image).length = 25 :=
  ⟨rfl,
    (header_packet_wire ⟨[], some [1, 2, 3, 4, 5, 6, 7, 8], false, 0⟩
      ETX_OTA_Application_Firmware_Image [1, 2, 3, 4, 5, 6, 7, 8] 8 rfl).1⟩

/-! ## The pre-bootloader -/

theorem custom_firmware_update_config_init_keeps (T : Target) (V : ConfigValues) (depth : Nat)
    (s : PreBootloader.State) :
    (PreBootloader.custom_firmware_update_config_init T V depth s).2.flash = s.flash
    ∧ (PreBootloader.custom_firmware_update_config_init T V depth s).2.record = s.record := by
  induction depth generalizing s with
  | zero => exact ⟨rfl, rfl⟩
  | succ depth ih =>
    unfold PreBootloader.custom_firmware_update_config_init
    by_cases h1 : s.attempts > 2
    · rw [if_pos h1]; exact ⟨rfl, rfl⟩
    · rw [if_neg h1]
      dsimp only
      by_cases h2 : s.init_rets.headD T.FIRM_UPDT_CONF_EC_OK ≠ T.FIRM_UPDT_CONF_EC_OK
      · rw [if_pos h2]
        exact ih _
      · rw [if_neg h2]
        exact ⟨rfl, rfl⟩

/-- The `switch` of `main` once the configuration sub-module is initialised. -/
theorem main_of_init_ok (T : Target) (V : ConfigValues)
    (install : PreBootloader.State → Nat × PreBootloader.State) (s : PreBootloader.State)
    (hinit : (PreBootloader.custom_firmware_update_config_init T V 4 s).1 % 256
      = T.FIRM_UPDT_CONF_EC_OK) :
    PreBootloader.main T V install s
      = if (PreBootloader.custom_firmware_update_config_init T V 4
              s).2.fw_config.is_bl_fw_install_pending = V.DATA_BLOCK_8BIT_ERASED_VALUE
            ∨ (PreBootloader.custom_firmware_update_config_init T V 4
              s).2.fw_config.is_bl_fw_install_pending = T.NOT_PENDING then
          (PreBootloader.Exit.goto_bootloader_firmware,
            (PreBootloader.custom_firmware_update_config_init T V 4 s).2)
        else if (PreBootloader.custom_firmware_update_config_init T V 4
              s).2.fw_config.is_bl_fw_install_pending = T.IS_PENDING then
          if PreBootloader.validate_application_firmware T V
                (PreBootloader.custom_firmware_update_config_init T V 4 s).2
                ≠ PreBootloader.PRE_BL_EC_OK
              ∨ (PreBootloader.custom_firmware_update_config_init T V 4
                s).2.fw_config.is_bl_fw_stored_in_app_fw ≠ T.BT_FW_STORED_IN_APP_FW then
            (PreBootloader.Exit.goto_bootloader_firmware,
              (PreBootloader.custom_firmware_update_config_init T V 4 s).2)
          else
            (PreBootloader.Exit.install_then_reset
              ((install (PreBootloader.custom_firmware_update_config_init T V 4 s).2).1 % 256),
              (install (PreBootloader.custom_firmware_update_config_init T V 4 s).2).2)
        else (PreBootloader.Exit.halt,
          (PreBootloader.custom_firmware_update_config_init T V 4 s).2) := by
  unfold PreBootloader.main
  dsimp only
  rw [if_neg (not_not.mpr hinit)]

/-- When the configuration sub-module cannot be initialised `main` halts. -/
theorem main_of_init_failed (T : Target) (V : ConfigValues)
    (install : PreBootloader.State → Nat × PreBootloader.State) (s : PreBootloader.State)
    (hinit : (PreBootloader.custom_firmware_update_config_init T V 4 s).1 % 256
      ≠ T.FIRM_UPDT_CONF_EC_OK) :
    (PreBootloader.main T V install s).1 = PreBootloader.Exit.halt := by
  unfold PreBootloader.main
  dsimp only
  rw [if_pos hinit]

/-- C27: once the configuration sub-module is initialised and has delivered the record (`s1` is
the state then), `main` calls `install_bl_stored_in_app_fw` and resets if and only if
`is_bl_fw_install_pending` is `IS_PENDING`, `validate_application_firmware` returns
`PRE_BL_EC_OK` and `is_bl_fw_stored_in_app_fw` is `BT_FW_STORED_IN_APP_FW`; it jumps to the
bootloader without installing when the pending flag is `NOT_PENDING` or the erased byte value,
and when the flag is `IS_PENDING` and one of the two checks fails; for every other value of the
flag it halts.  The three `case` labels are different values. -/
theorem pre_bootloader_decision (T : Target) (V : ConfigValues)
    (install : PreBootloader.State → Nat × PreBootloader.State) (s s1 : PreBootloader.State)
    (hd1 : T.IS_PENDING ≠ T.NOT_PENDING)
    (hd2 : T.IS_PENDING ≠ V.DATA_BLOCK_8BIT_ERASED_VALUE)
    (hinit : (PreBootloader.custom_firmware_update_config_init T V 4 s).1 % 256
      = T.FIRM_UPDT_CONF_EC_OK)
    (hs1 : (PreBootloader.custom_firmware_update_config_init T V 4 s).2 = s1) :
    ((∃ ret, (PreBootloader.main T V install s).1 = PreBootloader.Exit.install_then_reset ret)
      ↔ (s1.fw_config.is_bl_fw_install_pending = T.IS_PENDING
          ∧ PreBootloader.validate_application_firmware T V s1 = PreBootloader.PRE_BL_EC_OK
          ∧ s1.fw_config.is_bl_fw_stored_in_app_fw = T.BT_FW_STORED_IN_APP_FW))
    ∧ (s1.fw_config.is_bl_fw_install_pending = T.IS_PENDING
        → PreBootloader.validate_application_firmware T V s1 = PreBootloader.PRE_BL_EC_OK
        → s1.fw_config.is_bl_fw_stored_in_app_fw = T.BT_FW_STORED_IN_APP_FW
        → PreBootloader.main T V install s
            = (PreBootloader.Exit.install_then_reset ((install s1).1 % 256), (install s1).2))
    ∧ (s1.fw_config.is_bl_fw_install_pending = T.NOT_PENDING
          ∨ s1.fw_config.is_bl_fw_install_pending = V.DATA_BLOCK_8BIT_ERASED_VALUE
        → PreBootloader.main T V install s = (PreBootloader.Exit.goto_bootloader_firmware, s1))
    ∧ (s1.fw_config.is_bl_fw_install_pending = T.IS_PENDING
        → (PreBootloader.validate_application_firmware T V s1 ≠ PreBootloader.PRE_BL_EC_OK
            ∨ s1.fw_config.is_bl_fw_stored_in_app_fw ≠ T.BT_FW_STORED_IN_APP_FW)
        → PreBootloader.main T V install s = (PreBootloader.Exit.goto_bootloader_firmware, s1))
    ∧ (s1.fw_config.is_bl_fw_install_pending ≠ T.IS_PENDING
        → s1.fw_config.is_bl_fw_install_pending ≠ T.NOT_PENDING
        → s1.fw_config.is_bl_fw_install_pending ≠ V.DATA_BLOCK_8BIT_ERASED_VALUE
        → PreBootloader.main T V install s = (PreBootloader.Exit.halt, s1)) := by
  rw [main_of_init_ok T V install s hinit, hs1]
  by_cases hp : s1.fw_config.is_bl_fw_install_pending = T.IS_PENDING
  · have hn1 : ¬ (s1.fw_config.is_bl_fw_install_pending = V.DATA_BLOCK_8BIT_ERASED_VALUE
        ∨ s1.fw_config.is_bl_fw_install_pending = T.NOT_PENDING) := by
      rw [hp]
      exact fun h => h.elim hd2 hd1
    rw [if_neg hn1, if_pos hp]
    by_cases hc : PreBootloader.validate_application_firmware T V s1
        ≠ PreBootloader.PRE_BL_EC_OK
        ∨ s1.fw_config.is_bl_fw_stored_in_app_fw ≠ T.BT_FW_STORED_IN_APP_FW
    · rw [if_pos hc]
      refine ⟨⟨fun ⟨_, h⟩ => (by cases h), fun ⟨_, h2, h3⟩ => (hc.elim (fun a => a h2)
        (fun a => a h3)).elim⟩, fun _ h2 h3 => (hc.elim (fun a => a h2) (fun a => a h3)).elim,
        fun _ => rfl, fun _ _ => rfl, fun h => (h hp).elim⟩
    · rw [if_neg hc]
      have hv : PreBootloader.validate_application_firmware T V s1
          = PreBootloader.PRE_BL_EC_OK := by
        by_contra h
        exact hc (Or.inl h)
      have hst : s1.fw_config.is_bl_fw_stored_in_app_fw = T.BT_FW_STORED_IN_APP_FW := by
        by_contra h
        exact hc (Or.inr h)
      refine ⟨⟨fun _ => ⟨hp, hv, hst⟩, fun _ => ⟨_, rfl⟩⟩, fun _ _ _ => rfl,
        fun h => ?_, fun _ h => (hc h).elim, fun h => (h hp).elim⟩
      rw [hp] at h
      exact (h.elim hd1 hd2).elim
  · by_cases hq : s1.fw_config.is_bl_fw_install_pending = V.DATA_BLOCK_8BIT_ERASED_VALUE
        ∨ s1.fw_config.is_bl_fw_install_pending = T.NOT_PENDING
    · rw [if_pos hq]
      refine ⟨⟨fun ⟨_, h⟩ => (by cases h), fun ⟨h, _⟩ => (hp h).elim⟩, fun h => (hp h).elim,
        fun _ => rfl, fun h => (hp h).elim, fun _ h2 h3 => (hq.elim h3 h2).elim⟩
    · rw [if_neg hq, if_neg hp]
      refine ⟨⟨fun ⟨_, h⟩ => (by cases h), fun ⟨h, _⟩ => (hp h).elim⟩, fun h => (hp h).elim,
        fun h => (hq h.symm).elim, fun h => (hp h).elim, fun _ _ _ => rfl⟩

theorem pre_bootloader_decision_witness :
    reference_target.IS_PENDING ≠ reference_target.NOT_PENDING
    ∧ reference_target.IS_PENDING ≠ reference_values.DATA_BLOCK_8BIT_ERASED_VALUE
    ∧ (PreBootloader.custom_firmware_update_config_init reference_target reference_values 4
        (boot_state (config_record 8 336301528 1 1) (flash_with_image [1, 2, 3, 4, 5, 6, 7, 8]))).1
        % 256 = reference_target.FIRM_UPDT_CONF_EC_OK
    ∧ (PreBootloader.main reference_target reference_values install_succeeding
        (boot_state (config_record 8 336301528 1 1)
          (flash_with_image [1, 2, 3, 4, 5, 6, 7, 8]))).1
      = PreBootloader.Exit.install_then_reset ETX_OTA_EC_OK
    ∧ (∃ ret, (PreBootloader.main reference_target reference_values install_succeeding
          (boot_state (config_record 8 336301528 1 1)
            (flash_with_image [1, 2, 3, 4, 5, 6, 7, 8]))).1
        = PreBootloader.Exit.install_then_reset ret) :=
  ⟨by decide, by decide, by decide, by decide,
    ((pre_bootloader_decision reference_target reference_values install_succeeding
      (boot_state (config_record 8 336301528 1 1) (flash_with_image [1, 2, 3, 4, 5, 6, 7, 8]))
      _ (by decide) (by decide) (by decide) rfl).1).mpr (by decide)⟩

/-! ## Validation of the application firmware by the pre-bootloader -/

/-- C28 fails on two records whose recorded CRC is the CRC of the bytes in the application
slot: the image 185, 80, 155, 182 of 4 bytes, whose CRC is `0xFFFFFFFF`, and the record of
size 0 with the CRC of no bytes.  `validate_application_firmware` returns `PRE_BL_EC_ERR` for
both. -/
theorem validate_application_firmware_rejects_matching_crc :
    crc32_mpeg2 (readBytes all_ones_crc_state.flash reference_target.ETX_APP_FLASH_ADDR
        all_ones_crc_state.fw_config.App_fw_size) = all_ones_crc_state.fw_config.App_fw_rec_crc
    ∧ PreBootloader.validate_application_firmware reference_target reference_values
        all_ones_crc_state = PreBootloader.PRE_BL_EC_ERR
    ∧ crc32_mpeg2 (readBytes empty_image_state.flash reference_target.ETX_APP_FLASH_ADDR
        empty_image_state.fw_config.App_fw_size) = empty_image_state.fw_config.App_fw_rec_crc
    ∧ PreBootloader.validate_application_firmware reference_target reference_values
        empty_image_state = PreBootloader.PRE_BL_EC_ERR := by
  decide

/-- C28 as the code has it: `validate_application_firmware` of the pre-bootloader returns
`PRE_BL_EC_OK` if and only if `App_fw_size` is neither the erased word nor 0, `App_fw_rec_crc`
is not the erased word, and `crc32_mpeg2` over the `App_fw_size` bytes at the application slot
equals `App_fw_rec_crc`; it returns `PRE_BL_EC_ERR` otherwise. -/
theorem validate_application_firmware_iff (T : Target) (V : ConfigValues)
    (s : PreBootloader.State) :
    (PreBootloader.validate_application_firmware T V s = PreBootloader.PRE_BL_EC_OK
      ↔ (s.fw_config.App_fw_size ≠ V.DATA_BLOCK_32BIT_ERASED_VALUE
          ∧ s.fw_config.App_fw_size ≠ 0
          ∧ s.fw_config.App_fw_rec_crc ≠ V.DATA_BLOCK_32BIT_ERASED_VALUE
          ∧ crc32_mpeg2 (readBytes s.flash T.ETX_APP_FLASH_ADDR s.fw_config.App_fw_size)
              = s.fw_config.App_fw_rec_crc))
    ∧ (PreBootloader.validate_application_firmware T V s = PreBootloader.PRE_BL_EC_OK
        ∨ PreBootloader.validate_application_firmware T V s = PreBootloader.PRE_BL_EC_ERR) := by
  have hne : PreBootloader.PRE_BL_EC_ERR ≠ PreBootloader.PRE_BL_EC_OK := by decide
  unfold PreBootloader.validate_application_firmware
  by_cases h1 : s.fw_config.App_fw_size = V.DATA_BLOCK_32BIT_ERASED_VALUE
      ∨ s.fw_config.App_fw_size = 0
  · rw [if_pos h1]
    exact ⟨⟨fun h => (hne h).elim, fun ⟨a, b, _⟩ => (h1.elim a b).elim⟩, Or.inr rfl⟩
  · rw [if_neg h1]
    by_cases h2 : s.fw_config.App_fw_rec_crc = V.DATA_BLOCK_32BIT_ERASED_VALUE
    · rw [if_pos h2]
      exact ⟨⟨fun h => (hne h).elim, fun ⟨_, _, c, _⟩ => (c h2).elim⟩, Or.inr rfl⟩
    · rw [if_neg h2]
      dsimp only
      by_cases h3 : crc32_mpeg2 (readBytes s.flash T.ETX_APP_FLASH_ADDR s.fw_config.App_fw_size)
          ≠ s.fw_config.App_fw_rec_crc
      · rw [if_pos h3]
        exact ⟨⟨fun h => (hne h).elim, fun ⟨_, _, _, e⟩ => (h3 e).elim⟩, Or.inr rfl⟩
      · rw [if_neg h3]
        exact ⟨⟨fun _ => ⟨fun a => h1 (Or.inl a), fun a => h1 (Or.inr a), h2,
          not_not.mp h3⟩, fun _ => rfl⟩, Or.inl rfl⟩

/-! ## Two boots of the pre-bootloader in succession -/

theorem validate_application_firmware_congr (T : Target) (V : ConfigValues)
    (s s' : PreBootloader.State)
    (hsize : s'.fw_config.App_fw_size = s.fw_config.App_fw_size)
    (hcrc : s'.fw_config.App_fw_rec_crc = s.fw_config.App_fw_rec_crc)
    (hflash : readBytes s'.flash T.ETX_APP_FLASH_ADDR s.fw_config.App_fw_size
      = readBytes s.flash T.ETX_APP_FLASH_ADDR s.fw_config.App_fw_size) :
    PreBootloader.validate_application_firmware T V s'
      = PreBootloader.validate_application_firmware T V s := by
  unfold PreBootloader.validate_application_firmware
  rw [hsize, hcrc, hflash]

/-- A run of `main` that ends in `install_then_reset` has passed the three tests. -/
theorem main_install_cases (T : Target) (V : ConfigValues)
    (install : PreBootloader.State → Nat × PreBootloader.State) (s : PreBootloader.State)
    (ret : Nat)
    (h : (PreBootloader.main T V install s).1 = PreBootloader.Exit.install_then_reset ret) :
    (PreBootloader.custom_firmware_update_config_init T V 4 s).1 % 256 = T.FIRM_UPDT_CONF_EC_OK
    ∧ PreBootloader.validate_application_firmware T V
        (PreBootloader.custom_firmware_update_config_init T V 4 s).2
        = PreBootloader.PRE_BL_EC_OK
    ∧ (PreBootloader.custom_firmware_update_config_init T V 4
        s).2.fw_config.is_bl_fw_stored_in_app_fw = T.BT_FW_STORED_IN_APP_FW
    ∧ (PreBootloader.main T V install s).2
        = (install (PreBootloader.custom_firmware_update_config_init T V 4 s).2).2 := by
  by_cases hinit : (PreBootloader.custom_firmware_update_config_init T V 4 s).1 % 256
      = T.FIRM_UPDT_CONF_EC_OK
  · refine ⟨hinit, ?_⟩
    rw [main_of_init_ok T V install s hinit] at h ⊢
    split_ifs at h ⊢ with h1 h2 h3
    exact ⟨by_contra (fun a => h3 (Or.inl a)), by_contra (fun a => h3 (Or.inr a)), rfl⟩
  · rw [main_of_init_failed T V install s hinit] at h
    cases h

/-- C29: let a boot of the pre-bootloader perform the promotion (`main` ends in
`install_then_reset`) and let `s3` be the state of the next boot once the configuration
sub-module is initialised and the record read.  If the record read has
`is_bl_fw_install_pending` equal to `NOT_PENDING`, the next boot jumps to the bootloader without
calling `install_bl_stored_in_app_fw`, and leaves the flash and the record of the store as the
first boot left them.  If the record read still has the flag `IS_PENDING` and the size, the
CRC, the stored flag and the bytes of the application slot are those of the first boot, the
next boot calls `install_bl_stored_in_app_fw` again. -/
theorem promotion_idempotence (T : Target) (V : ConfigValues)
    (install : PreBootloader.State → Nat × PreBootloader.State)
    (s s1 s3 : PreBootloader.State) (ret : Nat)
    (hd1 : T.IS_PENDING ≠ T.NOT_PENDING)
    (hd2 : T.IS_PENDING ≠ V.DATA_BLOCK_8BIT_ERASED_VALUE)
    (hfirst : (PreBootloader.main T V install s).1 = PreBootloader.Exit.install_then_reset ret)
    (hs1 : (PreBootloader.custom_firmware_update_config_init T V 4 s).2 = s1)
    (hinit : (PreBootloader.custom_firmware_update_config_init T V 4
      (PreBootloader.reset (PreBootloader.main T V install s).2)).1 % 256 = T.FIRM_UPDT_CONF_EC_OK)
    (hs3 : (PreBootloader.custom_firmware_update_config_init T V 4
      (PreBootloader.reset (PreBootloader.main T V install s).2)).2 = s3) :
    (s3.fw_config.is_bl_fw_install_pending = T.NOT_PENDING
      → PreBootloader.main T V install (PreBootloader.reset (PreBootloader.main T V install s).2)
          = (PreBootloader.Exit.goto_bootloader_firmware, s3)
        ∧ s3.flash = (PreBootloader.main T V install s).2.flash
        ∧ s3.record = (PreBootloader.main T V install s).2.record)
    ∧ (s3.fw_config.is_bl_fw_install_pending = T.IS_PENDING
      → s3.fw_config.App_fw_size = s1.fw_config.App_fw_size
      → s3.fw_config.App_fw_rec_crc = s1.fw_config.App_fw_rec_crc
      → s3.fw_config.is_bl_fw_stored_in_app_fw = s1.fw_config.is_bl_fw_stored_in_app_fw
      → readBytes s3.flash T.ETX_APP_FLASH_ADDR s1.fw_config.App_fw_size
          = readBytes s1.flash T.ETX_APP_FLASH_ADDR s1.fw_config.App_fw_size
      → PreBootloader.main T V install (PreBootloader.reset (PreBootloader.main T V install s).2)
          = (PreBootloader.Exit.install_then_reset ((install s3).1 % 256), (install s3).2)) := by
  have hk := custom_firmware_update_config_init_keeps T V 4 (PreBootloader.reset (PreBootloader.main T V install s).2)
  rw [hs3] at hk
  obtain ⟨_, hv, hst, _⟩ := main_install_cases T V install s ret hfirst
  rw [hs1] at hv hst
  rw [main_of_init_ok T V install _ hinit, hs3]
  constructor
  · intro hp
    rw [if_pos (Or.inr hp)]
    exact ⟨rfl, hk.1, hk.2⟩
  · intro hp hsize hcrc hstored hflash
    have hn1 : ¬ (s3.fw_config.is_bl_fw_install_pending = V.DATA_BLOCK_8BIT_ERASED_VALUE
        ∨ s3.fw_config.is_bl_fw_install_pending = T.NOT_PENDING) := by
      rw [hp]
      exact fun h => h.elim hd2 hd1
    have hv3 : PreBootloader.validate_application_firmware T V s3
        = PreBootloader.PRE_BL_EC_OK := by
      rw [validate_application_firmware_congr T V s1 s3 hsize hcrc hflash]
      exact hv
    have hn2 : ¬ (PreBootloader.validate_application_firmware T V s3
        ≠ PreBootloader.PRE_BL_EC_OK
        ∨ s3.fw_config.is_bl_fw_stored_in_app_fw ≠ T.BT_FW_STORED_IN_APP_FW) :=
      fun h => h.elim (fun a => a hv3) (fun a => a (hstored.trans hst))
    rw [if_neg hn1, if_pos hp, if_neg hn2]

theorem promotion_idempotence_witness :
    (PreBootloader.main reference_target reference_values install_succeeding
        (boot_state (config_record 8 336301528 1 1)
          (flash_with_image [1, 2, 3, 4, 5, 6, 7, 8]))).1
      = PreBootloader.Exit.install_then_reset ETX_OTA_EC_OK
    ∧ (PreBootloader.main reference_target reference_values install_succeeding
        (PreBootloader.reset
          (PreBootloader.main reference_target reference_values install_succeeding
            (boot_state (config_record 8 336301528 1 1)
              (flash_with_image [1, 2, 3, 4, 5, 6, 7, 8]))).2)).1
      = PreBootloader.Exit.goto_bootloader_firmware
    ∧ (PreBootloader.main reference_target reference_values install_failing
        (boot_state (config_record 8 336301528 1 1)
          (flash_with_image [1, 2, 3, 4, 5, 6, 7, 8]))).1
      = PreBootloader.Exit.install_then_reset ETX_OTA_EC_ERR
    ∧ (PreBootloader.main reference_target reference_values install_failing
        (PreBootloader.reset
          (PreBootloader.main reference_target reference_values install_failing
            (boot_state (config_record 8 336301528 1 1)
              (flash_with_image [1, 2, 3, 4, 5, 6, 7, 8]))).2)).1
      = PreBootloader.Exit.install_then_reset ETX_OTA_EC_ERR :=
  ⟨by decide,
    congrArg Prod.fst
      ((promotion_idempotence reference_target reference_values install_succeeding
        (boot_state (config_record 8 336301528 1 1) (flash_with_image [1, 2, 3, 4, 5, 6, 7, 8]))
        _ _ ETX_OTA_EC_OK (by decide) (by decide) (by decide) rfl (by decide) rfl).1
        (by decide)).1,
    by decide,
    congrArg Prod.fst
      ((promotion_idempotence reference_target reference_values install_failing
        (boot_state (config_record 8 336301528 1 1) (flash_with_image [1, 2, 3, 4, 5, 6, 7, 8]))
        _ _ ETX_OTA_EC_ERR (by decide) (by decide) (by decide) rfl (by decide) rfl).2
        (by decide) (by decide) (by decide) (by decide) (by decide))⟩

/-! ## A corrupted byte of the data field -/

/-- For a fixed register the update of the CRC is injective in the byte. -/
theorem crc32_mpeg2_step_injective_byte (c a b : Nat) (ha : a < 256) (hb : b < 256)
    (h : crc32_mpeg2_step c a = crc32_mpeg2_step c b) : a = b := by
  rw [crc32_mpeg2_step_eq_ref, crc32_mpeg2_step_eq_ref] at h
  unfold crc_ref_byte at h
  have h1 := crc_ref_bits_injective 8 _ _ (Nat.mod_lt _ (by positivity))
    (Nat.mod_lt _ (by positivity)) h
  have ha' : a <<< 24 < 2 ^ 32 := by rw [Nat.shiftLeft_eq]; omega
  have hb' : b <<< 24 < 2 ^ 32 := by rw [Nat.shiftLeft_eq]; omega
  rw [xor_mod_two_pow, xor_mod_two_pow c, Nat.mod_eq_of_lt ha', Nat.mod_eq_of_lt hb',
    Nat.xor_comm, Nat.xor_comm (c % 2 ^ 32)] at h1
  have h2 := xor_cancel_right _ _ _ h1
  rw [Nat.shiftLeft_eq, Nat.shiftLeft_eq] at h2
  omega

/-- Two data fields that differ in one byte have different CRCs. -/
theorem crc32_mpeg2_ne_of_one_byte (pre suf : List Nat) (a b : Nat) (ha : a < 256)
    (hb : b < 256) (hab : a ≠ b) :
    crc32_mpeg2 (pre ++ b :: suf) ≠ crc32_mpeg2 (pre ++ a :: suf) := by
  unfold crc32_mpeg2
  simp only [List.foldl_append, List.foldl_cons]
  have hc : pre.foldl crc32_mpeg2_step 0xFFFFFFFF < 2 ^ 32 :=
    foldl_crc32_mpeg2_step_lt pre _ (by decide)
  exact foldl_crc32_mpeg2_step_ne suf _ _ (crc32_mpeg2_step_lt _ b) (crc32_mpeg2_step_lt _ a)
    (fun e => hab (crc32_mpeg2_step_injective_byte _ a b ha hb e.symm))

/-- Outcome of the UART branch on a frame whose CRC field is not the CRC of its data. -/
theorem receive_UART_crc_mismatch (t lo hi : Nat) (d : List Nat) (c0 c1 c2 c3 : Nat)
    (rest : List RxEvent) (buf : Mem) (max_len : Nat)
    (ht : t ≤ 3) (hn : d.length = lo + 256 * hi) (hd : d.length ≤ 65527)
    (hcrc : crc32_mpeg2 d ≠ c0 + 256 * c1 + 65536 * c2 + 16777216 * c3) :
    etx_ota_receive_packet_UART
      (([ETX_OTA_SOF, t, lo, hi] ++ d ++ [c0, c1, c2, c3] ++ [ETX_OTA_EOF]).map RxEvent.byte
        ++ rest) buf max_len
    = ⟨ETX_OTA_EC_ERR,
        storeBytes buf 0 ([ETX_OTA_SOF, t, lo, hi] ++ d ++ [c0, c1, c2, c3] ++ [ETX_OTA_EOF]),
        rest⟩ := by
  rw [receive_UART_frame t lo hi d c0 c1 c2 c3 ETX_OTA_EOF rest buf max_len ht hn (by omega)]
  have e1 : (4 + d.length) % 65536 = 4 + d.length := Nat.mod_eq_of_lt (by omega)
  have e2 : (4 + d.length + 4) % 65536 = 4 + d.length + 4 := Nat.mod_eq_of_lt (by omega)
  rw [e1, e2, le32_storeBytes_four]
  have hb : storeBytes buf 0 ([ETX_OTA_SOF, t, lo, hi] ++ d ++ [c0, c1, c2, c3] ++ [ETX_OTA_EOF])
      = storeBytes (storeBytes (storeBytes (storeBytes buf 0 [ETX_OTA_SOF, t, lo, hi]) 4 d)
          (4 + d.length) [c0, c1, c2, c3]) (4 + d.length + 4) [ETX_OTA_EOF] := by
    rw [storeBytes_append, storeBytes_append, storeBytes_append]
    simp only [List.length_append, List.length_cons, List.length_nil, Nat.zero_add]
  rw [← hb]
  have hlast : storeBytes buf 0
      ([ETX_OTA_SOF, t, lo, hi] ++ d ++ [c0, c1, c2, c3] ++ [ETX_OTA_EOF]) (4 + d.length + 4)
      = ETX_OTA_EOF := by
    rw [hb]; simp [storeBytes, Mem.store]
  have hdata : readBytes (storeBytes buf 0
      ([ETX_OTA_SOF, t, lo, hi] ++ d ++ [c0, c1, c2, c3] ++ [ETX_OTA_EOF])) 4 d.length = d := by
    rw [hb, readBytes_congr _ (storeBytes (storeBytes buf 0 [ETX_OTA_SOF, t, lo, hi]) 4 d) _ _
      (fun j _ hj => by
        rw [storeBytes_lt _ _ _ _ (by omega), storeBytes_lt _ _ _ _ (by omega)])]
    exact readBytes_storeBytes d _ 4
  unfold receive_packet_checks
  simp only [hlast, data_field_index_eq, hdata, ne_eq, not_true_eq_false, if_false]
  rw [if_pos hcrc]

/-- A pass of the receive loop whose `etx_ota_receive_packet` reports `ETX_OTA_EC_ERR`: a
Response packet with status NACK is sent and the pass returns `ETX_OTA_EC_ERR`. -/
theorem download_pass_receive_err (T : Target) (d : Device)
    (hhw : d.ETX_OTA_hardware_protocol ≠ ETX_OTA_hw_Protocol.other)
    (hrecv : (etx_ota_receive_packet d.ETX_OTA_hardware_protocol d.rx d.Rx_Buffer
      ETX_OTA_PACKET_MAX_SIZE).status = ETX_OTA_EC_ERR) :
    download_pass T d = (some ETX_OTA_EC_ERR,
      { d with
        Rx_Buffer := (etx_ota_receive_packet d.ETX_OTA_hardware_protocol d.rx d.Rx_Buffer
          ETX_OTA_PACKET_MAX_SIZE).buf
        rx := (etx_ota_receive_packet d.ETX_OTA_hardware_protocol d.rx d.Rx_Buffer
          ETX_OTA_PACKET_MAX_SIZE).rx
        tx := d.tx ++ [response_packet ETX_OTA_NACK]
        tx_rets := d.tx_rets.tail }) := by
  unfold download_pass
  simp only [hrecv, show ¬ ETX_OTA_EC_ERR = ETX_OTA_EC_OK by decide,
    show ¬ ETX_OTA_EC_ERR = ETX_OTA_EC_NR by decide, if_false, if_true]
  rw [send_resp_tx]
  exact hhw

/-- C30: a data field `pre ++ b :: suf` of 1 to 1024 bytes that differs from `pre ++ a :: suf`
in the one byte `b ≠ a` has a different `crc32_mpeg2`; so for the frame that carries it with
the CRC of `pre ++ a :: suf`, on the UART or the BT link and whatever the packet type,
`etx_ota_receive_packet` returns `ETX_OTA_EC_ERR`, the receive loop sends one Response packet
with status NACK and returns `ETX_OTA_EC_ERR`, and `etx_ota_fw_received_size`, the state, the
configuration record and the flash are as before. -/
theorem single_byte_corruption_detected (T : Target) (dev : Device) (t : Nat)
    (pre suf : List Nat) (a b : Nat) (rest : List RxEvent)
    (hhw : dev.ETX_OTA_hardware_protocol ≠ ETX_OTA_hw_Protocol.other)
    (ht : t ≤ 3) (ha : a < 256) (hb : b < 256) (hab : a ≠ b)
    (hlen : (pre ++ b :: suf).length ≤ 1024)
    (hrx : dev.rx
      = (([ETX_OTA_SOF, t, (pre ++ b :: suf).length % 256, (pre ++ b :: suf).length / 256]
          ++ (pre ++ b :: suf) ++ bytes_le32 (crc32_mpeg2 (pre ++ a :: suf))
          ++ [ETX_OTA_EOF]).map RxEvent.byte ++ rest)) :
    crc32_mpeg2 (pre ++ b :: suf) ≠ crc32_mpeg2 (pre ++ a :: suf)
    ∧ (etx_ota_receive_packet dev.ETX_OTA_hardware_protocol dev.rx dev.Rx_Buffer
        ETX_OTA_PACKET_MAX_SIZE).status = ETX_OTA_EC_ERR
    ∧ ∃ d1, (∀ passes : Nat, download_loop T (passes + 1) dev = some (ETX_OTA_EC_ERR, d1))
        ∧ d1.tx = dev.tx ++ [response_packet ETX_OTA_NACK]
        ∧ d1.rx = rest
        ∧ d1.etx_ota_fw_received_size = dev.etx_ota_fw_received_size
        ∧ d1.etx_ota_state = dev.etx_ota_state
        ∧ d1.fw_config = dev.fw_config
        ∧ d1.flash = dev.flash := by
  have hne := crc32_mpeg2_ne_of_one_byte pre suf a b ha hb hab
  have hlt := crc32_mpeg2_lt (pre ++ a :: suf)
  have hr := receive_UART_crc_mismatch t ((pre ++ b :: suf).length % 256)
    ((pre ++ b :: suf).length / 256) (pre ++ b :: suf)
    (crc32_mpeg2 (pre ++ a :: suf) % 256) (crc32_mpeg2 (pre ++ a :: suf) / 256 % 256)
    (crc32_mpeg2 (pre ++ a :: suf) / 65536 % 256)
    (crc32_mpeg2 (pre ++ a :: suf) / 16777216 % 256) rest dev.Rx_Buffer
    ETX_OTA_PACKET_MAX_SIZE ht (by omega) (by omega)
    (by rw [← bytes_le32_sum _ hlt]; exact hne)
  have hrecv : etx_ota_receive_packet dev.ETX_OTA_hardware_protocol dev.rx dev.Rx_Buffer
      ETX_OTA_PACKET_MAX_SIZE
      = ⟨ETX_OTA_EC_ERR,
          storeBytes dev.Rx_Buffer 0
            ([ETX_OTA_SOF, t, (pre ++ b :: suf).length % 256, (pre ++ b :: suf).length / 256]
              ++ (pre ++ b :: suf) ++ bytes_le32 (crc32_mpeg2 (pre ++ a :: suf))
              ++ [ETX_OTA_EOF]), rest⟩ := by
    rw [etx_ota_receive_packet_eq_UART _ hhw, hrx]
    exact hr
  have hst : (etx_ota_receive_packet dev.ETX_OTA_hardware_protocol dev.rx dev.Rx_Buffer
      ETX_OTA_PACKET_MAX_SIZE).status = ETX_OTA_EC_ERR := by rw [hrecv]
  have hp := download_pass_receive_err T dev hhw hst
  refine ⟨hne, hst, (download_pass T dev).2, ?_, ?_, ?_, ?_, ?_, ?_, ?_⟩
  · intro passes
    simp only [download_loop]
    rw [hp]
  · rw [hp]
  · rw [hp, hrecv]
  · rw [hp]
  · rw [hp]
  · rw [hp]
  · rw [hp]

theorem single_byte_corruption_detected_witness :
    crc32_mpeg2 ([1] ++ 3 :: [4, 5]) ≠ crc32_mpeg2 ([1] ++ 2 :: [4, 5])
    ∧ (etx_ota_receive_packet corrupted_data_packet_device.ETX_OTA_hardware_protocol
        corrupted_data_packet_device.rx corrupted_data_packet_device.Rx_Buffer
        ETX_OTA_PACKET_MAX_SIZE).status = ETX_OTA_EC_ERR
    ∧ ∃ d1, (∀ passes : Nat, download_loop reference_target (passes + 1)
          corrupted_data_packet_device = some (ETX_OTA_EC_ERR, d1))
        ∧ d1.tx = corrupted_data_packet_device.tx ++ [response_packet ETX_OTA_NACK]
        ∧ d1.rx = []
        ∧ d1.etx_ota_fw_received_size = corrupted_data_packet_device.etx_ota_fw_received_size
        ∧ d1.etx_ota_state = corrupted_data_packet_device.etx_ota_state
        ∧ d1.fw_config = corrupted_data_packet_device.fw_config
        ∧ d1.flash = corrupted_data_packet_device.flash :=
  single_byte_corruption_detected reference_target corrupted_data_packet_device
    ETX_OTA_PACKET_TYPE_DATA [1] [4, 5] 2 3 [] (by decide) (by decide) (by decide) (by decide)
    (by decide) (by decide) (by decide)

/-! ## Host tool: `payload_send_attempts` and the runs of the transaction -/

theorem send_command_packet_attempts (h : Host) (cmd : Nat) :
    (send_command_packet h cmd).2.payload_send_attempts = h.payload_send_attempts := by
  unfold send_command_packet
  dsimp only
  split
  · rfl
  · next port1 _ =>
    split
    · next h1 heq =>
      have := is_ack_resp_received_attempts_of _ _ _ heq
      exact this
    · next h1 heq =>
      have := is_ack_resp_received_attempts_of _ _ _ heq
      exact this

theorem send_etx_ota_header_attempts (h : Host) (x : header_data_t) :
    (send_etx_ota_header h x).2.payload_send_attempts = h.payload_send_attempts := by
  unfold send_etx_ota_header
  dsimp only
  split
  · rfl
  · next port1 _ =>
    split
    · next h1 heq =>
      have := is_ack_resp_received_attempts_of _ _ _ heq
      exact this
    · next h1 heq =>
      have := is_ack_resp_received_attempts_of _ _ _ heq
      exact this

theorem send_etx_ota_data_attempts (h : Host) (p : List Nat) (n : Nat) :
    (send_etx_ota_data h p n).2.payload_send_attempts = h.payload_send_attempts := by
  unfold send_etx_ota_data
  dsimp only
  split
  · rfl
  · next port1 _ =>
    split
    · next h1 heq =>
      have := is_ack_resp_received_attempts_of _ _ _ heq
      exact this
    · next h1 heq =>
      have := is_ack_resp_received_attempts_of _ _ _ heq
      exact this

theorem abort_loop_attempts (passes : Nat) (h h1 : Host) (hr : abort_loop passes h = some h1) :
    h1.payload_send_attempts = h.payload_send_attempts := by
  induction passes generalizing h with
  | zero => cases hr
  | succ passes ih =>
    rw [abort_loop] at hr
    have ha := send_command_packet_attempts h ETX_OTA_CMD_ABORT
    unfold send_etx_ota_abort at hr
    generalize send_command_packet h ETX_OTA_CMD_ABORT = r at hr ha
    obtain ⟨ret, h2⟩ := r
    dsimp only at hr ha
    by_cases hc : ret ≠ ETX_OTA_EC_OK
    · rw [if_pos hc] at hr
      rw [ih h2 hr, ha]
    · rw [if_neg hc] at hr
      cases hr
      exact ha

theorem data_packets_loop_attempts (payload : List Nat) (n passes i : Nat) (h h1 : Host)
    (ret : Nat) (hr : data_packets_loop payload n passes i h = some (ret, h1)) :
    h1.payload_send_attempts = h.payload_send_attempts := by
  induction passes generalizing i h with
  | zero => cases hr
  | succ passes ih =>
    rw [data_packets_loop] at hr
    by_cases hi : i < n
    · rw [if_pos hi] at hr
      dsimp only at hr
      generalize hsz : (if n - i ≥ ETX_OTA_DATA_MAX_SIZE then ETX_OTA_DATA_MAX_SIZE
        else (n - i) % 65536) = sz at hr
      have ha := send_etx_ota_data_attempts h (payload.drop i) sz
      generalize send_etx_ota_data h (payload.drop i) sz = r at hr ha
      obtain ⟨ret1, h2⟩ := r
      dsimp only at hr ha
      by_cases hc : ret1 ≠ ETX_OTA_EC_OK
      · rw [if_pos hc] at hr
        cases hr
        exact ha
      · rw [if_neg hc] at hr
        rw [ih _ h2 hr, ha]
    · rw [if_neg hi] at hr
      cases hr
      rfl

/-- One run of the body of `start_etx_ota_process` that leads to a result: either the run
itself returns, with `payload_send_attempts` as it was or (when it was not 0) one more and the
status `ETX_OTA_EC_ERR`; or `payload_send_attempts` was 0 and the result is that of the
recursive call, entered with `payload_send_attempts` equal to 1. -/
theorem start_etx_ota_process_cases (fuel : Nat) (env : HostEnv) (h : Host) (t : Nat)
    (ret : Nat) (h' : Host) (env' : HostEnv)
    (hr : start_etx_ota_process (fuel + 1) env h t = some (ret, h', env')) :
    (env' = { env with open_rets := env.open_rets.tail, opened := env.opened + 1 }
      ∧ (h'.payload_send_attempts = h.payload_send_attempts
        ∨ (h.payload_send_attempts ≠ 0 ∧ ret = ETX_OTA_EC_ERR
          ∧ h'.payload_send_attempts = (h.payload_send_attempts + 1) % 256)))
    ∨ (h.payload_send_attempts = 0
      ∧ ∃ g : Host, g.payload_send_attempts = 1
        ∧ start_etx_ota_process fuel
            { env with open_rets := env.open_rets.tail, opened := env.opened + 1 } g t
          = some (ret, h', env')) := by
  rw [start_etx_ota_process] at hr
  dsimp only at hr
  by_cases ho : env.open_rets.headD 0 ≠ 0
  · rw [if_pos ho] at hr
    cases hr
    exact Or.inl ⟨rfl, Or.inl rfl⟩
  rw [if_neg ho] at hr
  cases hl : load_payload
      { env with open_rets := env.open_rets.tail, opened := env.opened + 1 } t with
  | error e =>
    rw [hl] at hr
    cases hr
    exact Or.inl ⟨rfl, Or.inl rfl⟩
  | ok pn =>
  obtain ⟨p, n⟩ := pn
  rw [hl] at hr
  dsimp only at hr
  generalize hab : (if h.payload_send_attempts = 0 then abort_loop (fuel + 1) h else some h)
    = ab at hr
  cases ab with
  | none => cases hr
  | some h1 =>
  have ha1 : h1.payload_send_attempts = h.payload_send_attempts := by
    by_cases c : h.payload_send_attempts = 0
    · rw [if_pos c] at hab
      exact abort_loop_attempts _ _ _ hab
    · rw [if_neg c] at hab
      cases hab
      rfl
  dsimp only at hr
  have hs := send_command_packet_attempts h1 ETX_OTA_CMD_START
  unfold send_etx_ota_start at hr
  generalize send_command_packet h1 ETX_OTA_CMD_START = r at hr hs
  obtain ⟨ret1, h2⟩ := r
  dsimp only at hr hs
  rw [ha1] at hs
  by_cases c1 : ret1 ≠ ETX_OTA_EC_OK
  · rw [if_pos c1] at hr
    by_cases c0 : h2.payload_send_attempts = 0
    · rw [if_pos c0] at hr
      exact Or.inr ⟨hs ▸ c0, _, by rw [c0], hr⟩
    · rw [if_neg c0] at hr
      cases hr
      exact Or.inl ⟨rfl, Or.inr ⟨hs ▸ c0, rfl, by rw [← hs]⟩⟩
  rw [if_neg c1] at hr
  generalize hinfo : header_data_t.mk n (crc32_mpeg2 (List.take n p)) ETX_OTA_32BITS_RESET_VALUE
    ETX_OTA_16BITS_RESET_VALUE ETX_OTA_8BITS_RESET_VALUE t = info at hr
  have hh := send_etx_ota_header_attempts h2 info
  generalize send_etx_ota_header h2 info = r at hr hh
  obtain ⟨ret2, h3⟩ := r
  dsimp only at hr hh
  rw [hs] at hh
  by_cases c2 : ret2 ≠ ETX_OTA_EC_OK
  · rw [if_pos c2] at hr
    by_cases c0 : h3.payload_send_attempts = 0
    · rw [if_pos c0] at hr
      exact Or.inr ⟨hh ▸ c0, _, by rw [c0], hr⟩
    · rw [if_neg c0] at hr
      cases hr
      exact Or.inl ⟨rfl, Or.inr ⟨hh ▸ c0, rfl, by rw [← hh]⟩⟩
  rw [if_neg c2] at hr
  cases hd : data_packets_loop p n (n + 1) 0 h3 with
  | none => rw [hd] at hr; cases hr
  | some rd =>
  obtain ⟨ret3, h4⟩ := rd
  have h4a := data_packets_loop_attempts p n (n + 1) 0 h3 h4 ret3 hd
  rw [hd] at hr
  dsimp only at hr
  by_cases c3 : ret3 ≠ ETX_OTA_EC_OK
  · rw [if_pos c3] at hr
    cases hr
    exact Or.inl ⟨rfl, Or.inl (h4a.trans hh)⟩
  rw [if_neg c3] at hr
  have he := send_command_packet_attempts h4 ETX_OTA_CMD_END
  unfold send_etx_ota_end at hr
  generalize send_command_packet h4 ETX_OTA_CMD_END = r at hr he
  obtain ⟨ret4, h5⟩ := r
  dsimp only at hr he
  by_cases c4 : ret4 ≠ ETX_OTA_EC_OK
  · rw [if_pos c4] at hr
    cases hr
    exact Or.inl ⟨rfl, Or.inl (he.trans (h4a.trans hh))⟩
  · rw [if_neg c4] at hr
    cases hr
    exact Or.inl ⟨rfl, Or.inl (he.trans (h4a.trans hh))⟩

/-- A call entered with `payload_send_attempts` equal to 0 that returns has run the body once
or twice; it has run it twice exactly when the counter has left 0, the counter ends at most at
2, and at 2 the status is `ETX_OTA_EC_ERR`. -/
theorem start_etx_ota_process_runs (fuel : Nat) (env : HostEnv) (h : Host) (t : Nat)
    (ret : Nat) (h' : Host) (env' : HostEnv) (h0 : h.payload_send_attempts = 0)
    (hr : start_etx_ota_process fuel env h t = some (ret, h', env')) :
    env.opened + 1 ≤ env'.opened ∧ env'.opened ≤ env.opened + 2
    ∧ h'.payload_send_attempts ≤ 2
    ∧ (env'.opened = env.opened + 2 ↔ 1 ≤ h'.payload_send_attempts)
    ∧ (h'.payload_send_attempts = 2 → ret = ETX_OTA_EC_ERR) := by
  cases fuel with
  | zero => cases hr
  | succ fuel =>
    rcases start_etx_ota_process_cases fuel env h t ret h' env' hr with
      ⟨he, ha⟩ | ⟨_, g, hg, hr2⟩
    · have ha' : h'.payload_send_attempts = 0 := by
        rcases ha with ha | ⟨hne, _, _⟩
        · rw [ha, h0]
        · exact absurd h0 hne
      subst he
      dsimp only
      rw [ha']
      omega
    · cases fuel with
      | zero => cases hr2
      | succ fuel =>
        rcases start_etx_ota_process_cases fuel _ g t ret h' env' hr2 with
          ⟨he, ha⟩ | ⟨hg0, _⟩
        · subst he
          dsimp only
          rcases ha with ha | ⟨_, hret, ha⟩
          · rw [ha, hg]
            omega
          · rw [ha, hg]
            refine ⟨by omega, by omega, by decide, ⟨fun _ => by decide, fun _ => rfl⟩,
              fun _ => hret⟩
        · rw [hg] at hg0
          cases hg0

/-- The steps of one run of `start_etx_ota_process` whose port opens and whose payload loads,
`h1` being the host once the Abort loop, if it is entered, is left: what a failed Start step,
a failed Header step, a failed Data loop and the End step lead to. -/
theorem start_etx_ota_process_steps (fuel : Nat) (env : HostEnv) (h h1 : Host) (t : Nat)
    (p : List Nat) (n : Nat)
    (hopen : env.open_rets.headD 0 = 0)
    (hload : load_payload env t = Except.ok (p, n))
    (habort : (if h.payload_send_attempts = 0 then abort_loop (fuel + 1) h else some h)
      = some h1) :
    ((send_etx_ota_start h1).1 ≠ ETX_OTA_EC_OK →
      start_etx_ota_process (fuel + 1) env h t
        = if h.payload_send_attempts = 0 then
            start_etx_ota_process fuel
              { env with open_rets := env.open_rets.tail, opened := env.opened + 1 }
              { (send_etx_ota_start h1).2 with payload_send_attempts := 1 } t
          else some (ETX_OTA_EC_ERR,
            { (send_etx_ota_start h1).2 with
              payload_send_attempts := (h.payload_send_attempts + 1) % 256 },
            { env with open_rets := env.open_rets.tail, opened := env.opened + 1 }))
    ∧ ((send_etx_ota_start h1).1 = ETX_OTA_EC_OK →
      ∀ info : header_data_t,
      info = header_data_t.mk n (crc32_mpeg2 (p.take n)) ETX_OTA_32BITS_RESET_VALUE
        ETX_OTA_16BITS_RESET_VALUE ETX_OTA_8BITS_RESET_VALUE t →
      ((send_etx_ota_header (send_etx_ota_start h1).2 info).1 ≠ ETX_OTA_EC_OK →
        start_etx_ota_process (fuel + 1) env h t
          = if h.payload_send_attempts = 0 then
              start_etx_ota_process fuel
                { env with open_rets := env.open_rets.tail, opened := env.opened + 1 }
                { (send_etx_ota_header (send_etx_ota_start h1).2 info).2 with
                  payload_send_attempts := 1 } t
            else some (ETX_OTA_EC_ERR,
              { (send_etx_ota_header (send_etx_ota_start h1).2 info).2 with
                payload_send_attempts := (h.payload_send_attempts + 1) % 256 },
              { env with open_rets := env.open_rets.tail, opened := env.opened + 1 }))
      ∧ ((send_etx_ota_header (send_etx_ota_start h1).2 info).1 = ETX_OTA_EC_OK →
        ∀ (ret3 : Nat) (h4 : Host),
        data_packets_loop p n (n + 1) 0 (send_etx_ota_header (send_etx_ota_start h1).2 info).2
          = some (ret3, h4) →
        (ret3 ≠ ETX_OTA_EC_OK →
          start_etx_ota_process (fuel + 1) env h t
            = some (ETX_OTA_EC_ERR, h4,
                { env with open_rets := env.open_rets.tail, opened := env.opened + 1 }))
        ∧ (ret3 = ETX_OTA_EC_OK →
          start_etx_ota_process (fuel + 1) env h t
            = some (if (send_etx_ota_end h4).1 ≠ ETX_OTA_EC_OK then ETX_OTA_EC_ERR
                else ETX_OTA_EC_OK, (send_etx_ota_end h4).2,
                { env with open_rets := env.open_rets.tail, opened := env.opened + 1 })))
      ∧ ((send_etx_ota_header (send_etx_ota_start h1).2 info).1 = ETX_OTA_EC_OK →
        data_packets_loop p n (n + 1) 0 (send_etx_ota_header (send_etx_ota_start h1).2 info).2
          = none →
        start_etx_ota_process (fuel + 1) env h t = none)) := by
  have ha1 : h1.payload_send_attempts = h.payload_send_attempts := by
    by_cases c : h.payload_send_attempts = 0
    · rw [if_pos c] at habort
      exact abort_loop_attempts _ _ _ habort
    · rw [if_neg c] at habort
      cases habort
      rfl
  have hs : (send_etx_ota_start h1).2.payload_send_attempts = h.payload_send_attempts :=
    (send_command_packet_attempts h1 ETX_OTA_CMD_START).trans ha1
  have hunf : start_etx_ota_process (fuel + 1) env h t
      = if (send_etx_ota_start h1).1 ≠ ETX_OTA_EC_OK then
          if (send_etx_ota_start h1).2.payload_send_attempts = 0 then
            start_etx_ota_process fuel
              { env with open_rets := env.open_rets.tail, opened := env.opened + 1 }
              { (send_etx_ota_start h1).2 with
                payload_send_attempts :=
                  ((send_etx_ota_start h1).2.payload_send_attempts + 1) % 256 } t
          else some (ETX_OTA_EC_ERR,
            { (send_etx_ota_start h1).2 with
              payload_send_attempts :=
                ((send_etx_ota_start h1).2.payload_send_attempts + 1) % 256 },
            { env with open_rets := env.open_rets.tail, opened := env.opened + 1 })
        else
          if (send_etx_ota_header (send_etx_ota_start h1).2
              (header_data_t.mk n (crc32_mpeg2 (p.take n)) ETX_OTA_32BITS_RESET_VALUE
                ETX_OTA_16BITS_RESET_VALUE ETX_OTA_8BITS_RESET_VALUE t)).1 ≠ ETX_OTA_EC_OK then
            if (send_etx_ota_header (send_etx_ota_start h1).2
                (header_data_t.mk n (crc32_mpeg2 (p.take n)) ETX_OTA_32BITS_RESET_VALUE
                  ETX_OTA_16BITS_RESET_VALUE ETX_OTA_8BITS_RESET_VALUE t)).2.payload_send_attempts
                = 0 then
              start_etx_ota_process fuel
                { env with open_rets := env.open_rets.tail, opened := env.opened + 1 }
                { (send_etx_ota_header (send_etx_ota_start h1).2
                    (header_data_t.mk n (crc32_mpeg2 (p.take n)) ETX_OTA_32BITS_RESET_VALUE
                      ETX_OTA_16BITS_RESET_VALUE ETX_OTA_8BITS_RESET_VALUE t)).2 with
                  payload_send_attempts :=
                    ((send_etx_ota_header (send_etx_ota_start h1).2
                      (header_data_t.mk n (crc32_mpeg2 (p.take n)) ETX_OTA_32BITS_RESET_VALUE
                        ETX_OTA_16BITS_RESET_VALUE ETX_OTA_8BITS_RESET_VALUE
                        t)).2.payload_send_attempts + 1) % 256 } t
            else some (ETX_OTA_EC_ERR,
              { (send_etx_ota_header (send_etx_ota_start h1).2
                  (header_data_t.mk n (crc32_mpeg2 (p.take n)) ETX_OTA_32BITS_RESET_VALUE
                    ETX_OTA_16BITS_RESET_VALUE ETX_OTA_8BITS_RESET_VALUE t)).2 with
                payload_send_attempts :=
                  ((send_etx_ota_header (send_etx_ota_start h1).2
                    (header_data_t.mk n (crc32_mpeg2 (p.take n)) ETX_OTA_32BITS_RESET_VALUE
                      ETX_OTA_16BITS_RESET_VALUE ETX_OTA_8BITS_RESET_VALUE
                      t)).2.payload_send_attempts + 1) % 256 },
              { env with open_rets := env.open_rets.tail, opened := env.opened + 1 })
          else
            (data_packets_loop p n (n + 1) 0 (send_etx_ota_header (send_etx_ota_start h1).2
                (header_data_t.mk n (crc32_mpeg2 (p.take n)) ETX_OTA_32BITS_RESET_VALUE
                  ETX_OTA_16BITS_RESET_VALUE ETX_OTA_8BITS_RESET_VALUE t)).2).bind
              (fun r =>
                if r.1 ≠ ETX_OTA_EC_OK then
                  some (ETX_OTA_EC_ERR, r.2,
                    { env with open_rets := env.open_rets.tail, opened := env.opened + 1 })
                else
                  some (if (send_etx_ota_end r.2).1 ≠ ETX_OTA_EC_OK then ETX_OTA_EC_ERR
                    else ETX_OTA_EC_OK, (send_etx_ota_end r.2).2,
                    { env with open_rets := env.open_rets.tail, opened := env.opened + 1 })) := by
    rw [start_etx_ota_process]
    dsimp only
    rw [if_neg (not_not.mpr hopen), load_payload_env, hload]
    dsimp only
    rw [habort]
    dsimp only
    by_cases c1 : (send_etx_ota_start h1).1 ≠ ETX_OTA_EC_OK
    · rw [if_pos c1, if_pos c1]
    rw [if_neg c1, if_neg c1]
    by_cases c2 : (send_etx_ota_header (send_etx_ota_start h1).2
        (header_data_t.mk n (crc32_mpeg2 (p.take n)) ETX_OTA_32BITS_RESET_VALUE
          ETX_OTA_16BITS_RESET_VALUE ETX_OTA_8BITS_RESET_VALUE t)).1 ≠ ETX_OTA_EC_OK
    · rw [if_pos c2, if_pos c2]
    rw [if_neg c2, if_neg c2]
    cases data_packets_loop p n (n + 1) 0 (send_etx_ota_header (send_etx_ota_start h1).2
        (header_data_t.mk n (crc32_mpeg2 (p.take n)) ETX_OTA_32BITS_RESET_VALUE
          ETX_OTA_16BITS_RESET_VALUE ETX_OTA_8BITS_RESET_VALUE t)).2 with
    | none => rfl
    | some r =>
      obtain ⟨ret3, h4⟩ := r
      dsimp only [Option.bind]
      by_cases c3 : ret3 ≠ ETX_OTA_EC_OK
      · rw [if_pos c3, if_pos c3]
      · rw [if_neg c3, if_neg c3]
        by_cases c4 : (send_etx_ota_end h4).1 ≠ ETX_OTA_EC_OK
        · rw [if_pos c4, if_pos c4]
        · rw [if_neg c4, if_neg c4]
  rw [hunf]
  refine ⟨fun c1 => ?_, fun c1 info hinfo => ?_⟩
  · rw [if_pos c1, hs]
    by_cases c0 : h.payload_send_attempts = 0
    · rw [if_pos c0, if_pos c0, c0]
    · rw [if_neg c0, if_neg c0]
  · subst hinfo
    have hh := (send_etx_ota_header_attempts (send_etx_ota_start h1).2
      (header_data_t.mk n (crc32_mpeg2 (p.take n)) ETX_OTA_32BITS_RESET_VALUE
        ETX_OTA_16BITS_RESET_VALUE ETX_OTA_8BITS_RESET_VALUE t)).trans hs
    rw [if_neg (not_not.mpr c1)]
    refine ⟨fun c2 => ?_, fun c2 ret3 h4 hd => ?_, fun c2 hd => ?_⟩
    · rw [if_pos c2, hh]
      by_cases c0 : h.payload_send_attempts = 0
      · rw [if_pos c0, if_pos c0, c0]
      · rw [if_neg c0, if_neg c0]
    · rw [if_neg (not_not.mpr c2), hd]
      dsimp only [Option.bind]
      refine ⟨fun c3 => ?_, fun c3 => ?_⟩
      · rw [if_pos c3]
      · rw [if_neg (not_not.mpr c3)]
    · rw [if_neg (not_not.mpr c2), hd]
      rfl

/-- On a port that accepts every byte the Data loop only appends to the bytes sent. -/
theorem data_packets_loop_sent (p : List Nat) (n : Nat) (hn : p.length = n) (h32 : n < 2 ^ 32) :
    ∀ (passes i : Nat) (h h1 : Host) (ret : Nat), h.port.send_rets = [] → i ≤ n →
      data_packets_loop p n passes i h = some (ret, h1) →
      ∃ more, h1.port.sent = h.port.sent ++ more ∧ h1.port.send_rets = [] := by
  intro passes
  induction passes with
  | zero => intro i h h1 ret _ _ hr; cases hr
  | succ passes ih =>
    intro i h h1 ret hs hi hr
    obtain ⟨m, ⟨sent, rets, polls⟩, a⟩ := h
    dsimp only at hs
    subst hs
    rw [data_packets_loop] at hr
    by_cases c : i < n
    · rw [if_pos c] at hr
      dsimp only at hr
      have hdl : (p.drop i).length = n - i := by rw [List.length_drop, hn]
      have hsz : (if n - i ≥ ETX_OTA_DATA_MAX_SIZE then ETX_OTA_DATA_MAX_SIZE
          else (n - i) % 65536) ≤ 1024
          ∧ (if n - i ≥ ETX_OTA_DATA_MAX_SIZE then ETX_OTA_DATA_MAX_SIZE
          else (n - i) % 65536) ≤ n - i := by
        have e : ETX_OTA_DATA_MAX_SIZE = 1024 := rfl
        rw [e]
        split_ifs <;> omega
      generalize (if n - i ≥ ETX_OTA_DATA_MAX_SIZE then ETX_OTA_DATA_MAX_SIZE
          else (n - i) % 65536) = sz at hr hsz
      obtain ⟨m1, h2⟩ := send_etx_ota_data_full m sent polls a (p.drop i) sz hsz.1
        (by rw [hdl]; exact hsz.2)
      rw [h2] at hr
      dsimp only at hr
      by_cases c1 : (if poll_is_ack polls = true then ETX_OTA_EC_OK else ETX_OTA_EC_ERR)
          ≠ ETX_OTA_EC_OK
      · rw [if_pos c1] at hr
        cases hr
        exact ⟨_, rfl, rfl⟩
      · rw [if_neg c1] at hr
        obtain ⟨more, e1, e2⟩ := ih _ _ _ _ rfl
          (by rw [Nat.mod_eq_of_lt (by omega)]; omega) hr
        exact ⟨_, by rw [e1, List.append_assoc], e2⟩
    · rw [if_neg c] at hr
      cases hr
      exact ⟨[], (List.append_nil _).symm, rfl⟩

/-- A run entered with `payload_send_attempts` other than 0, on a port that opens and accepts
every byte and with a payload that loads: the first bytes it hands to the port are the Command
packet carrying Start. -/
theorem start_etx_ota_process_start_first (fuel : Nat) (env : HostEnv) (m : Mem)
    (sent : List Nat) (polls : List (List Nat)) (attempts t : Nat) (p : List Nat) (n : Nat)
    (ret : Nat) (h' : Host) (env' : HostEnv)
    (ha : attempts ≠ 0)
    (hopen : env.open_rets.headD 0 = 0)
    (hload : load_payload env t = Except.ok (p, n))
    (hr : start_etx_ota_process (fuel + 1) env ⟨m, ⟨sent, [], polls⟩, attempts⟩ t
      = some (ret, h', env')) :
    ∃ more, h'.port.sent
      = sent ++ packet_bytes ETX_OTA_PACKET_TYPE_CMD [ETX_OTA_CMD_START] ++ more := by
  obtain ⟨_, hn, h32⟩ := load_payload_ok env t p n hload
  have hsteps := start_etx_ota_process_steps fuel env ⟨m, ⟨sent, [], polls⟩, attempts⟩
    ⟨m, ⟨sent, [], polls⟩, attempts⟩ t p n hopen hload (if_neg ha)
  obtain ⟨m1, e1⟩ := send_command_packet_full m sent polls attempts ETX_OTA_CMD_START
  unfold send_etx_ota_start at hsteps
  rw [e1] at hsteps
  dsimp only at hsteps
  by_cases c1 : (if poll_is_ack polls = true then ETX_OTA_EC_OK else ETX_OTA_EC_ERR)
      ≠ ETX_OTA_EC_OK
  · rw [hsteps.1 c1, if_neg ha] at hr
    cases hr
    exact ⟨[], (List.append_nil _).symm⟩
  · have hs2 := hsteps.2 (not_not.mp c1) _ rfl
    obtain ⟨m2, e2⟩ := send_etx_ota_header_full m1
      (sent ++ packet_bytes ETX_OTA_PACKET_TYPE_CMD [ETX_OTA_CMD_START]) polls.tail attempts
      (header_data_t.mk n (crc32_mpeg2 (p.take n)) ETX_OTA_32BITS_RESET_VALUE
        ETX_OTA_16BITS_RESET_VALUE ETX_OTA_8BITS_RESET_VALUE t)
    rw [e2] at hs2
    dsimp only at hs2
    by_cases c2 : (if poll_is_ack polls.tail = true then ETX_OTA_EC_OK else ETX_OTA_EC_ERR)
        ≠ ETX_OTA_EC_OK
    · rw [hs2.1 c2, if_neg ha] at hr
      cases hr
      exact ⟨_, rfl⟩
    · cases hd : data_packets_loop p n (n + 1) 0
          ⟨m2, ⟨sent ++ packet_bytes ETX_OTA_PACKET_TYPE_CMD [ETX_OTA_CMD_START]
            ++ packet_bytes ETX_OTA_PACKET_TYPE_HEADER
              (header_data_t.mk n (crc32_mpeg2 (p.take n)) ETX_OTA_32BITS_RESET_VALUE
                ETX_OTA_16BITS_RESET_VALUE ETX_OTA_8BITS_RESET_VALUE t).bytes, [],
            polls.tail.tail⟩, attempts⟩ with
      | none =>
        rw [hs2.2.2 (not_not.mp c2) hd] at hr
        cases hr
      | some rd =>
        obtain ⟨ret3, h4⟩ := rd
        obtain ⟨more, s1, s2⟩ := data_packets_loop_sent p n hn h32 _ _ _ _ _ rfl (Nat.zero_le _) hd
        dsimp only at s1
        have hs3 := hs2.2.1 (not_not.mp c2) ret3 h4 hd
        by_cases c3 : ret3 ≠ ETX_OTA_EC_OK
        · rw [hs3.1 c3] at hr
          cases hr
          exact ⟨_, by rw [s1, List.append_assoc, List.append_assoc]⟩
        · rw [hs3.2 (not_not.mp c3)] at hr
          obtain ⟨m4, ⟨sent4, rets4, polls4⟩, a4⟩ := h4
          dsimp only at s1 s2
          subst s2
          obtain ⟨m5, e5⟩ := send_command_packet_full m4 sent4 polls4 a4 ETX_OTA_CMD_END
          unfold send_etx_ota_end at hr
          rw [e5] at hr
          cases hr
          dsimp only
          exact ⟨_, by rw [s1, List.append_assoc, List.append_assoc, List.append_assoc]⟩

/-! ## Claims on the retry of the host -/

/-- C26: a call of `start_etx_ota_process` entered with `payload_send_attempts = 0` that
returns has run the transaction once or twice (`opened` counts the runs), twice exactly when a
Start or Header step has failed, and when two such steps have failed the status is
`ETX_OTA_EC_ERR`.  On the first run (the port opened, the payload loaded, the Abort loop left
with the host `h1`) a failed Start step, and a failed Header step after a Start step that
succeeded, make the call the result of one more run, entered with the counter at 1; a failed
Data loop or End step returns `ETX_OTA_EC_ERR` at once.  On a run entered with the counter at 1
a failed Start or Header step returns `ETX_OTA_EC_ERR` with the counter at 2 and no further
run, and on a port that accepts every byte the first packet such a run sends is the Command
packet carrying Start, not Abort. -/
theorem one_shot_retry (fuel : Nat) (env : HostEnv) (h : Host) (t : Nat)
    (h0 : h.payload_send_attempts = 0) :
    (∀ (ret : Nat) (h' : Host) (env' : HostEnv),
        start_etx_ota_process fuel env h t = some (ret, h', env') →
        env.opened + 1 ≤ env'.opened ∧ env'.opened ≤ env.opened + 2
        ∧ h'.payload_send_attempts ≤ 2
        ∧ (env'.opened = env.opened + 2 ↔ 1 ≤ h'.payload_send_attempts)
        ∧ (h'.payload_send_attempts = 2 → ret = ETX_OTA_EC_ERR))
    ∧ (∀ (p : List Nat) (n : Nat) (h1 : Host) (info : header_data_t),
        env.open_rets.headD 0 = 0 → load_payload env t = Except.ok (p, n) →
        abort_loop (fuel + 1) h = some h1 →
        info = header_data_t.mk n (crc32_mpeg2 (p.take n)) ETX_OTA_32BITS_RESET_VALUE
          ETX_OTA_16BITS_RESET_VALUE ETX_OTA_8BITS_RESET_VALUE t →
        ((send_etx_ota_start h1).1 ≠ ETX_OTA_EC_OK →
          start_etx_ota_process (fuel + 1) env h t
            = start_etx_ota_process fuel
                { env with open_rets := env.open_rets.tail, opened := env.opened + 1 }
                { (send_etx_ota_start h1).2 with payload_send_attempts := 1 } t)
        ∧ ((send_etx_ota_start h1).1 = ETX_OTA_EC_OK →
            (send_etx_ota_header (send_etx_ota_start h1).2 info).1 ≠ ETX_OTA_EC_OK →
          start_etx_ota_process (fuel + 1) env h t
            = start_etx_ota_process fuel
                { env with open_rets := env.open_rets.tail, opened := env.opened + 1 }
                { (send_etx_ota_header (send_etx_ota_start h1).2 info).2 with
                  payload_send_attempts := 1 } t)
        ∧ ((send_etx_ota_start h1).1 = ETX_OTA_EC_OK →
            (send_etx_ota_header (send_etx_ota_start h1).2 info).1 = ETX_OTA_EC_OK →
            ∀ (ret3 : Nat) (h4 : Host),
            data_packets_loop p n (n + 1) 0 (send_etx_ota_header (send_etx_ota_start h1).2 info).2
              = some (ret3, h4) →
            (ret3 ≠ ETX_OTA_EC_OK →
              start_etx_ota_process (fuel + 1) env h t
                = some (ETX_OTA_EC_ERR, h4,
                    { env with open_rets := env.open_rets.tail, opened := env.opened + 1 }))
            ∧ (ret3 = ETX_OTA_EC_OK → (send_etx_ota_end h4).1 ≠ ETX_OTA_EC_OK →
              start_etx_ota_process (fuel + 1) env h t
                = some (ETX_OTA_EC_ERR, (send_etx_ota_end h4).2,
                    { env with open_rets := env.open_rets.tail,
                               opened := env.opened + 1 }))))
    ∧ (∀ (g : Host) (p : List Nat) (n : Nat) (info : header_data_t),
        g.payload_send_attempts = 1 →
        env.open_rets.headD 0 = 0 → load_payload env t = Except.ok (p, n) →
        info = header_data_t.mk n (crc32_mpeg2 (p.take n)) ETX_OTA_32BITS_RESET_VALUE
          ETX_OTA_16BITS_RESET_VALUE ETX_OTA_8BITS_RESET_VALUE t →
        ((send_etx_ota_start g).1 ≠ ETX_OTA_EC_OK →
          start_etx_ota_process (fuel + 1) env g t
            = some (ETX_OTA_EC_ERR, { (send_etx_ota_start g).2 with payload_send_attempts := 2 },
                { env with open_rets := env.open_rets.tail, opened := env.opened + 1 }))
        ∧ ((send_etx_ota_start g).1 = ETX_OTA_EC_OK →
            (send_etx_ota_header (send_etx_ota_start g).2 info).1 ≠ ETX_OTA_EC_OK →
          start_etx_ota_process (fuel + 1) env g t
            = some (ETX_OTA_EC_ERR,
                { (send_etx_ota_header (send_etx_ota_start g).2 info).2 with
                  payload_send_attempts := 2 },
                { env with open_rets := env.open_rets.tail, opened := env.opened + 1 })))
    ∧ (∀ (m : Mem) (sent : List Nat) (polls : List (List Nat)) (p : List Nat) (n ret : Nat)
        (h' : Host) (env' : HostEnv),
        env.open_rets.headD 0 = 0 → load_payload env t = Except.ok (p, n) →
        start_etx_ota_process (fuel + 1) env ⟨m, ⟨sent, [], polls⟩, 1⟩ t = some (ret, h', env') →
        ∃ more, h'.port.sent
          = sent ++ packet_bytes ETX_OTA_PACKET_TYPE_CMD [ETX_OTA_CMD_START] ++ more) := by
  refine ⟨fun ret h' env' hr => start_etx_ota_process_runs fuel env h t ret h' env' h0 hr,
    ?_, ?_, ?_⟩
  · intro p n h1 info hopen hload habort hinfo
    have hs := start_etx_ota_process_steps fuel env h h1 t p n hopen hload
      (by rw [if_pos h0]; exact habort)
    refine ⟨fun c1 => ?_, fun c1 c2 => ?_, fun c1 c2 ret3 h4 hd => ⟨fun c3 => ?_, fun c3 c4 => ?_⟩⟩
    · rw [hs.1 c1, if_pos h0]
    · rw [(hs.2 c1 info hinfo).1 c2, if_pos h0]
    · exact ((hs.2 c1 info hinfo).2.1 c2 ret3 h4 hd).1 c3
    · rw [((hs.2 c1 info hinfo).2.1 c2 ret3 h4 hd).2 c3, if_pos c4]
  · intro g p n info hg hopen hload hinfo
    have hg0 : g.payload_send_attempts ≠ 0 := by rw [hg]; decide
    have hs := start_etx_ota_process_steps fuel env g g t p n hopen hload (if_neg hg0)
    refine ⟨fun c1 => ?_, fun c1 c2 => ?_⟩
    · rw [hs.1 c1, if_neg hg0, hg]
    · rw [(hs.2 c1 info hinfo).1 c2, if_neg hg0, hg]
  · intro m sent polls p n ret h' env' hopen hload hr
    exact start_etx_ota_process_start_first fuel env m sent polls 1 t p n ret h' env'
      (by decide) hopen hload hr

theorem one_shot_retry_witness :
    refused_start_host.payload_send_attempts = 0
    ∧ (start_etx_ota_process 2 small_image_env refused_start_host
        ETX_OTA_Application_Firmware_Image).map
        (fun r => (r.1, r.2.1.payload_send_attempts, r.2.2.opened, r.2.1.port.sent))
      = some (ETX_OTA_EC_ERR, 2, 2,
          packet_bytes ETX_OTA_PACKET_TYPE_CMD [ETX_OTA_CMD_ABORT]
            ++ packet_bytes ETX_OTA_PACKET_TYPE_CMD [ETX_OTA_CMD_START]
            ++ packet_bytes ETX_OTA_PACKET_TYPE_CMD [ETX_OTA_CMD_START])
    ∧ (∀ (ret : Nat) (h' : Host) (env' : HostEnv),
        start_etx_ota_process 2 small_image_env refused_start_host
          ETX_OTA_Application_Firmware_Image = some (ret, h', env') →
        small_image_env.opened + 1 ≤ env'.opened ∧ env'.opened ≤ small_image_env.opened + 2
        ∧ h'.payload_send_attempts ≤ 2
        ∧ (env'.opened = small_image_env.opened + 2 ↔ 1 ≤ h'.payload_send_attempts)
        ∧ (h'.payload_send_attempts = 2 → ret = ETX_OTA_EC_ERR)) :=
  ⟨rfl, by decide,
    (one_shot_retry 2 small_image_env refused_start_host ETX_OTA_Application_Firmware_Image
      rfl).1⟩

/-! ## Bootloader receiver: a transaction whose packets are all accepted -/

/-- A pass of the receive loop on a packet in wire order that `etx_ota_process_data` accepts:
the pass does not return, and an ACK has been sent. -/
theorem download_pass_accepts (T : Target) (d d1 : Device) (t : Nat) (data : List Nat)
    (rest : List RxEvent)
    (hhw : d.ETX_OTA_hardware_protocol ≠ ETX_OTA_hw_Protocol.other)
    (hhw1 : d1.ETX_OTA_hardware_protocol ≠ ETX_OTA_hw_Protocol.other)
    (ht : t ≤ 3) (hlen : data.length ≤ 1024)
    (hrx : d.rx = (packet_bytes t data).map RxEvent.byte ++ rest)
    (hproc : etx_ota_process_data T
        { d with Rx_Buffer := storeBytes d.Rx_Buffer 0 (packet_bytes t data), rx := rest }
      = (ETX_OTA_EC_OK, d1)) :
    download_pass T d
      = (none, { d1 with tx := d1.tx ++ [response_packet ETX_OTA_ACK],
                         tx_rets := d1.tx_rets.tail }) := by
  have hrecv : etx_ota_receive_packet d.ETX_OTA_hardware_protocol d.rx d.Rx_Buffer
      ETX_OTA_PACKET_MAX_SIZE
      = ⟨ETX_OTA_EC_OK, storeBytes d.Rx_Buffer 0 (packet_bytes t data), rest⟩ := by
    rw [etx_ota_receive_packet_eq_UART _ hhw, hrx,
      receive_UART_packet_bytes t data rest _ _ ht (by omega),
      if_neg (by rw [packet_max_size_eq]; omega)]
  unfold download_pass
  dsimp only
  rw [hrecv]
  dsimp only
  rw [if_pos rfl, hproc]
  dsimp only
  rw [if_pos rfl, send_resp_tx _ _ hhw1]

/-- The loop after such a pass, when the state reached is not Idle. -/
theorem download_loop_accepts (T : Target) (d d1 : Device) (t : Nat) (data : List Nat)
    (rest : List RxEvent) (fuel : Nat)
    (hhw : d.ETX_OTA_hardware_protocol ≠ ETX_OTA_hw_Protocol.other)
    (hhw1 : d1.ETX_OTA_hardware_protocol ≠ ETX_OTA_hw_Protocol.other)
    (ht : t ≤ 3) (hlen : data.length ≤ 1024)
    (hrx : d.rx = (packet_bytes t data).map RxEvent.byte ++ rest)
    (hproc : etx_ota_process_data T
        { d with Rx_Buffer := storeBytes d.Rx_Buffer 0 (packet_bytes t data), rx := rest }
      = (ETX_OTA_EC_OK, d1))
    (hstate : d1.etx_ota_state ≠ ETX_OTA_STATE_IDLE) :
    download_loop T (fuel + 1) d
      = download_loop T fuel { d1 with tx := d1.tx ++ [response_packet ETX_OTA_ACK],
                                       tx_rets := d1.tx_rets.tail } := by
  rw [download_loop, download_pass_accepts T d d1 t data rest hhw hhw1 ht hlen hrx hproc]
  dsimp only
  rw [if_pos hstate]

/-- The loop after such a pass, when the state reached is Idle. -/
theorem download_loop_finishes (T : Target) (d d1 : Device) (t : Nat) (data : List Nat)
    (rest : List RxEvent) (fuel : Nat)
    (hhw : d.ETX_OTA_hardware_protocol ≠ ETX_OTA_hw_Protocol.other)
    (hhw1 : d1.ETX_OTA_hardware_protocol ≠ ETX_OTA_hw_Protocol.other)
    (ht : t ≤ 3) (hlen : data.length ≤ 1024)
    (hrx : d.rx = (packet_bytes t data).map RxEvent.byte ++ rest)
    (hproc : etx_ota_process_data T
        { d with Rx_Buffer := storeBytes d.Rx_Buffer 0 (packet_bytes t data), rx := rest }
      = (ETX_OTA_EC_OK, d1))
    (hstate : d1.etx_ota_state = ETX_OTA_STATE_IDLE) :
    download_loop T (fuel + 1) d
      = some (ETX_OTA_EC_OK, { d1 with tx := d1.tx ++ [response_packet ETX_OTA_ACK],
                                       tx_rets := d1.tx_rets.tail }) := by
  rw [download_loop, download_pass_accepts T d d1 t data rest hhw hhw1 ht hlen hrx hproc]
  dsimp only
  rw [if_neg (not_not.mpr hstate)]

theorem packet_bytes_command (buf : Mem) (t cmd : Nat) :
    (storeBytes buf 0 (packet_bytes t [cmd])) 1 = t
    ∧ (storeBytes buf 0 (packet_bytes t [cmd])) 4 = cmd := by
  have h := packet_bytes_stored buf t [cmd]
  refine ⟨h.1, ?_⟩
  have h2 := h.2.2
  simp only [List.length_cons, List.length_nil, Nat.zero_add, readBytes, List.cons.injEq,
    and_true] at h2
  exact h2

/-- `etx_ota_process_data` in the Start state on the Start command. -/
theorem process_start (T : Target) (d : Device) (hs : d.etx_ota_state = ETX_OTA_STATE_START)
    (ht : d.Rx_Buffer 1 = ETX_OTA_PACKET_TYPE_CMD) (hc : d.Rx_Buffer 4 = ETX_OTA_CMD_START) :
    etx_ota_process_data T d = (ETX_OTA_EC_OK, { d with etx_ota_state := ETX_OTA_STATE_HEADER }) := by
  unfold etx_ota_process_data
  dsimp only
  rw [if_neg (by rw [hc]; exact fun h => absurd h.2 (by decide)), if_neg (by rw [hs]; decide),
    if_pos hs, if_pos ⟨ht, hc⟩]

/-- `etx_ota_process_data` in the End state on the End command when the CRC of the flash
content is the recorded one. -/
theorem process_end (T : Target) (d : Device) (hs : d.etx_ota_state = ETX_OTA_STATE_END)
    (ht : d.Rx_Buffer 1 = ETX_OTA_PACKET_TYPE_CMD) (hc : d.Rx_Buffer 4 = ETX_OTA_CMD_END)
    (hcrc : crc32_mpeg2 (readBytes d.flash.mem T.ETX_APP_FLASH_ADDR d.fw_config.App_fw_size)
      = d.fw_config.App_fw_rec_crc) :
    etx_ota_process_data T d = (ETX_OTA_EC_OK, { d with etx_ota_state := ETX_OTA_STATE_IDLE }) := by
  unfold etx_ota_process_data
  dsimp only
  rw [if_neg (by rw [hc]; exact fun h => absurd h.2 (by decide)), if_neg (by rw [hs]; decide),
    if_neg (by rw [hs]; decide), if_neg (by rw [hs]; decide), if_neg (by rw [hs]; decide),
    if_pos hs, if_pos ⟨ht, hc⟩, if_neg (not_not.mpr hcrc)]

/-- `etx_ota_process_data` in the Header state on the Header packet of an application image
that fits, the configuration write succeeding. -/
theorem process_header_application (T : Target) (d : Device)
    (hs : d.etx_ota_state = ETX_OTA_STATE_HEADER)
    (ht : d.Rx_Buffer 1 = ETX_OTA_PACKET_TYPE_HEADER)
    (hp : d.Rx_Buffer 19 = ETX_OTA_Application_Firmware_Image)
    (hsize : le32 d.Rx_Buffer 4 ≤ ETX_OTA_APP_FW_SIZE T)
    (hconf : d.conf.write_rets = []) :
    etx_ota_process_data T d
      = (ETX_OTA_EC_OK, header_accepted d T.BT_FW_NOT_STORED_IN_APP_FW T.NOT_PENDING) := by
  rw [process_header T d hs ht, if_pos hp, if_neg (Nat.not_lt.mpr hsize)]
  dsimp only
  rw [hconf]
  exact if_pos rfl

/-- `etx_ota_process_data` in the Data state on a Data packet of whole words, every flash call
succeeding: the block is in the flash at the offset reached so far, the received size has
grown by its length, and the state is End when the declared size is reached. -/
theorem process_data_chunk (T : Target) (d : Device) (buf0 : Mem) (c : List Nat)
    (hs : d.etx_ota_state = ETX_OTA_STATE_DATA)
    (hbuf : d.Rx_Buffer = storeBytes buf0 0 (packet_bytes ETX_OTA_PACKET_TYPE_DATA c))
    (hL4 : c.length % 4 = 0) (h4 : 4 ≤ c.length) (hmax : c.length ≤ 1024)
    (hbytes : ∀ b ∈ c, b < 256) (hok : d.flash.hal_rets = [])
    (haddr : T.ETX_APP_FLASH_ADDR + d.etx_ota_fw_received_size + c.length < 2 ^ 32) :
    ∃ d1, etx_ota_process_data T d = (ETX_OTA_EC_OK, d1)
      ∧ d1.etx_ota_state
          = (if d.etx_ota_fw_received_size + c.length ≥ d.fw_config.App_fw_size then
              ETX_OTA_STATE_END else ETX_OTA_STATE_DATA)
      ∧ d1.etx_ota_fw_received_size = d.etx_ota_fw_received_size + c.length
      ∧ d1.fw_config = d.fw_config
      ∧ d1.flash.hal_rets = []
      ∧ (∀ a, d1.flash.mem a
          = if T.ETX_APP_FLASH_ADDR + d.etx_ota_fw_received_size ≤ a
                ∧ a < T.ETX_APP_FLASH_ADDR + d.etx_ota_fw_received_size + c.length then
              c.getD (a - (T.ETX_APP_FLASH_ADDR + d.etx_ota_fw_received_size)) 0
            else (flash_opened T d.flash (decide (d.etx_ota_fw_received_size = 0))).mem a)
      ∧ d1.ETX_OTA_hardware_protocol = d.ETX_OTA_hardware_protocol
      ∧ d1.tx = d.tx ∧ d1.rx = d.rx ∧ d1.conf = d.conf := by
  have hst := packet_bytes_stored buf0 ETX_OTA_PACKET_TYPE_DATA c
  rw [← hbuf] at hst
  have hlen : le16 d.Rx_Buffer 2 = c.length := by rw [hst.2.1]; omega
  have hw := write_whole_words T d c c.length (decide (d.etx_ota_fw_received_size = 0)) hok
    (getD_lt_of_forall_mem c hbytes) hL4 h4 hmax haddr
  rw [process_data_state T d hs hst.1 (by rw [hlen]; exact hL4), hlen, data_field_index_eq,
    hst.2.2, hw]
  dsimp only
  rw [if_neg (by decide)]
  by_cases hge : d.etx_ota_fw_received_size + c.length ≥ d.fw_config.App_fw_size
  · rw [if_pos hge]
    exact ⟨_, rfl, by rw [if_pos hge], rfl, rfl, rfl, fun a => rfl, rfl, rfl, rfl, rfl⟩
  · rw [if_neg hge]
    exact ⟨_, rfl, by rw [if_neg hge]; exact hs, rfl, rfl, rfl, fun a => rfl, rfl, rfl, rfl, rfl⟩

theorem chunk_getD (p : List Nat) (i j : Nat) (hj : j < 1024) :
    ((p.drop i).take 1024).getD j 0 = p.getD (i + j) 0 := by
  simp only [List.getD_eq_getElem?_getD, List.getElem?_take, List.getElem?_drop, if_pos hj]

theorem chunk_bytes (p : List Nat) (i : Nat) (hbytes : ∀ b ∈ p, b < 256) :
    ∀ b ∈ (p.drop i).take 1024, b < 256 :=
  fun b hb => hbytes b (List.mem_of_mem_drop (List.mem_of_mem_take hb))

/-- The Data state over the chunks of a payload of whole words, from the offset `i` reached so
far: `k` passes of the loop, an ACK for each chunk, the payload in the flash, the End state. -/
theorem data_phase (T : Target) (p : List Nat) (hbytes : ∀ b ∈ p, b < 256)
    (hp4 : p.length % 4 = 0) (haddr : T.ETX_APP_FLASH_ADDR + p.length < 2 ^ 32) :
    ∀ (k i : Nat) (d : Device) (rest : List RxEvent),
      d.etx_ota_state = ETX_OTA_STATE_DATA →
      d.ETX_OTA_hardware_protocol ≠ ETX_OTA_hw_Protocol.other →
      d.etx_ota_fw_received_size = i →
      d.fw_config.App_fw_size = p.length →
      d.flash.hal_rets = [] →
      (∀ j, j < i → d.flash.mem (T.ETX_APP_FLASH_ADDR + j) = p.getD j 0) →
      i < p.length → i % 4 = 0 → (p.length - i + 1023) / 1024 = k →
      d.rx = (((reference_chunks k (p.drop i)).map
          (packet_bytes ETX_OTA_PACKET_TYPE_DATA)).flatten).map RxEvent.byte ++ rest →
      ∃ d1, (∀ fuel, download_loop T (fuel + k) d = download_loop T fuel d1)
        ∧ d1.etx_ota_state = ETX_OTA_STATE_END
        ∧ d1.ETX_OTA_hardware_protocol ≠ ETX_OTA_hw_Protocol.other
        ∧ d1.rx = rest
        ∧ d1.fw_config = d.fw_config
        ∧ d1.tx = d.tx ++ List.replicate k (response_packet ETX_OTA_ACK)
        ∧ (∀ j, j < p.length → d1.flash.mem (T.ETX_APP_FLASH_ADDR + j) = p.getD j 0)
        ∧ d1.conf = d.conf := by
  intro k
  induction k with
  | zero =>
    intro i d rest _ _ _ _ _ _ hi _ hk _
    omega
  | succ k ih =>
    intro i d rest hs hhw hr hsz hok hmem hi hi4 hk hrx
    have hcl : ((p.drop i).take 1024).length = min 1024 (p.length - i) := by
      rw [List.length_take, List.length_drop]
    have hrx' : d.rx = (packet_bytes ETX_OTA_PACKET_TYPE_DATA ((p.drop i).take 1024)).map
          RxEvent.byte
        ++ ((((reference_chunks k (p.drop (i + 1024))).map
          (packet_bytes ETX_OTA_PACKET_TYPE_DATA)).flatten).map RxEvent.byte ++ rest) := by
      rw [hrx]
      simp only [reference_chunks, List.map_cons, List.flatten_cons, List.map_append,
        List.append_assoc, List.drop_drop, Nat.add_comm 1024 i]
    obtain ⟨d1, hproc, h1s, h1r, h1c, h1ok, h1m, h1hw, h1tx, h1rx, h1conf⟩ := process_data_chunk T
      { d with
        Rx_Buffer := storeBytes d.Rx_Buffer 0
          (packet_bytes ETX_OTA_PACKET_TYPE_DATA ((p.drop i).take 1024))
        rx := (((reference_chunks k (p.drop (i + 1024))).map
          (packet_bytes ETX_OTA_PACKET_TYPE_DATA)).flatten).map RxEvent.byte ++ rest }
      d.Rx_Buffer ((p.drop i).take 1024) hs rfl (by rw [hcl]; omega) (by rw [hcl]; omega)
      (by rw [hcl]; omega) (chunk_bytes p i hbytes) hok
      (by rw [hcl]; show T.ETX_APP_FLASH_ADDR + d.etx_ota_fw_received_size + _ < _
          rw [hr]; omega)
    dsimp only at h1s h1r h1c h1m h1hw h1tx h1rx h1conf
    rw [hr, hcl] at h1s h1r h1m
    rw [hsz] at h1s
    have hmem1 : ∀ j, j < i + min 1024 (p.length - i)
        → d1.flash.mem (T.ETX_APP_FLASH_ADDR + j) = p.getD j 0 := by
      intro j hj
      rw [h1m]
      by_cases hji : i ≤ j
      · rw [if_pos ⟨by omega, by omega⟩, chunk_getD p i _ (by omega)]
        congr 1
        omega
      · rw [if_neg (by omega)]
        have hi0 : ¬ i = 0 := by omega
        rw [decide_eq_false hi0]
        exact hmem j (by omega)
    by_cases hlast : i + min 1024 (p.length - i) ≥ p.length
    · rw [if_pos hlast] at h1s
      have hk0 : k = 0 := by omega
      subst hk0
      refine ⟨{ d1 with tx := d1.tx ++ [response_packet ETX_OTA_ACK],
                        tx_rets := d1.tx_rets.tail }, ?_, h1s, by rw [← h1hw] at hhw; exact hhw,
        ?_, h1c, ?_, fun j hj => hmem1 j (by omega), h1conf⟩
      · intro fuel
        exact download_loop_accepts T d d1 ETX_OTA_PACKET_TYPE_DATA _ _ fuel hhw
          (by rw [h1hw]; exact hhw) (by decide) (by rw [hcl]; omega) hrx' hproc
          (by rw [h1s]; decide)
      · show d1.rx = rest
        rw [h1rx]
        simp [reference_chunks]
      · show d1.tx ++ [response_packet ETX_OTA_ACK] = _
        rw [h1tx]
        rfl
    · rw [if_neg hlast] at h1s
      have hmin : min 1024 (p.length - i) = 1024 := by omega
      rw [hmin] at h1r hmem1
      obtain ⟨d2, h2l, h2s, h2hw, h2rx, h2c, h2tx, h2m, h2conf⟩ := ih (i + 1024)
        { d1 with tx := d1.tx ++ [response_packet ETX_OTA_ACK], tx_rets := d1.tx_rets.tail }
        rest h1s (by rw [← h1hw] at hhw; exact hhw) h1r (by rw [← hsz, ← h1c]) h1ok hmem1
        (by omega) (by omega) (by omega) h1rx
      refine ⟨d2, ?_, h2s, h2hw, h2rx, h2c.trans h1c, ?_, h2m, h2conf.trans h1conf⟩
      · intro fuel
        rw [← h2l fuel, ← Nat.add_assoc]
        exact download_loop_accepts T d d1 ETX_OTA_PACKET_TYPE_DATA _ _ (fuel + k) hhw
          (by rw [h1hw]; exact hhw) (by decide) (by rw [hcl]; omega) hrx' hproc
          (by rw [h1s]; decide)
      · rw [h2tx]
        show d1.tx ++ [response_packet ETX_OTA_ACK] ++ _ = _
        rw [h1tx, List.append_assoc, List.replicate_succ]
        rfl

/-- The Start state on the Start command in wire order: one pass, an ACK, the Header state. -/
theorem start_phase (T : Target) (d : Device) (rest : List RxEvent)
    (hs : d.etx_ota_state = ETX_OTA_STATE_START)
    (hhw : d.ETX_OTA_hardware_protocol ≠ ETX_OTA_hw_Protocol.other)
    (hrx : d.rx = (packet_bytes ETX_OTA_PACKET_TYPE_CMD [ETX_OTA_CMD_START]).map RxEvent.byte
      ++ rest) :
    ∃ d1, (∀ fuel, download_loop T (fuel + 1) d = download_loop T fuel d1)
      ∧ d1.etx_ota_state = ETX_OTA_STATE_HEADER
      ∧ d1.ETX_OTA_hardware_protocol = d.ETX_OTA_hardware_protocol
      ∧ d1.rx = rest
      ∧ d1.tx = d.tx ++ [response_packet ETX_OTA_ACK]
      ∧ d1.fw_config = d.fw_config ∧ d1.flash = d.flash ∧ d1.conf = d.conf
      ∧ d1.etx_ota_fw_received_size = d.etx_ota_fw_received_size := by
  have hproc := process_start T
    { d with
      Rx_Buffer := storeBytes d.Rx_Buffer 0
        (packet_bytes ETX_OTA_PACKET_TYPE_CMD [ETX_OTA_CMD_START])
      rx := rest } hs
    (packet_bytes_command d.Rx_Buffer ETX_OTA_PACKET_TYPE_CMD ETX_OTA_CMD_START).1
    (packet_bytes_command d.Rx_Buffer ETX_OTA_PACKET_TYPE_CMD ETX_OTA_CMD_START).2
  exact ⟨_, fun fuel => download_loop_accepts T d _ ETX_OTA_PACKET_TYPE_CMD [ETX_OTA_CMD_START]
      rest fuel hhw (by exact hhw) (by decide) (by decide) hrx hproc
      (by show ETX_OTA_STATE_HEADER ≠ ETX_OTA_STATE_IDLE; decide),
    rfl, rfl, rfl, rfl, rfl, rfl, rfl, rfl⟩

/-- The Header state on the Header packet of an application image in wire order: one pass, an
ACK, the declared size and CRC in the configuration, the Data state. -/
theorem header_phase (T : Target) (d : Device) (rest : List RxEvent) (n crc : Nat)
    (hn : n < 2 ^ 32) (hc : crc < 2 ^ 32) (hsize : n ≤ ETX_OTA_APP_FW_SIZE T)
    (hs : d.etx_ota_state = ETX_OTA_STATE_HEADER)
    (hhw : d.ETX_OTA_hardware_protocol ≠ ETX_OTA_hw_Protocol.other)
    (hconf : d.conf.write_rets = [])
    (hrx : d.rx = (packet_bytes ETX_OTA_PACKET_TYPE_HEADER
        (bytes_le32 n ++ bytes_le32 crc ++ [0xFF, 0xFF, 0xFF, 0xFF, 0xFF, 0xFF, 0xFF]
          ++ [ETX_OTA_Application_Firmware_Image])).map RxEvent.byte ++ rest) :
    ∃ d1, (∀ fuel, download_loop T (fuel + 1) d = download_loop T fuel d1)
      ∧ d1.etx_ota_state = ETX_OTA_STATE_DATA
      ∧ d1.ETX_OTA_hardware_protocol = d.ETX_OTA_hardware_protocol
      ∧ d1.rx = rest
      ∧ d1.tx = d.tx ++ [response_packet ETX_OTA_ACK]
      ∧ d1.fw_config.App_fw_size = n ∧ d1.fw_config.App_fw_rec_crc = crc
      ∧ d1.flash = d.flash
      ∧ d1.etx_ota_fw_received_size = d.etx_ota_fw_received_size
      ∧ d1.conf.records = d1.fw_config :: d.conf.records := by
  have hf := header_packet_fields d.Rx_Buffer n crc ETX_OTA_Application_Firmware_Image hn hc
  have hproc := process_header_application T
    { d with
      Rx_Buffer := storeBytes d.Rx_Buffer 0 (packet_bytes ETX_OTA_PACKET_TYPE_HEADER
        (bytes_le32 n ++ bytes_le32 crc ++ [0xFF, 0xFF, 0xFF, 0xFF, 0xFF, 0xFF, 0xFF]
          ++ [ETX_OTA_Application_Firmware_Image]))
      rx := rest } hs
    (packet_bytes_stored d.Rx_Buffer ETX_OTA_PACKET_TYPE_HEADER
      (bytes_le32 n ++ bytes_le32 crc ++ [0xFF, 0xFF, 0xFF, 0xFF, 0xFF, 0xFF, 0xFF]
        ++ [ETX_OTA_Application_Firmware_Image])).1
    hf.2.2 (by rw [hf.1]; exact hsize) hconf
  exact ⟨_, fun fuel => download_loop_accepts T d _ ETX_OTA_PACKET_TYPE_HEADER _
      rest fuel hhw (by exact hhw) (by decide) (by show 16 ≤ 1024; decide) hrx hproc
      (by show ETX_OTA_STATE_DATA ≠ ETX_OTA_STATE_IDLE; decide),
    rfl, rfl, rfl, rfl, hf.1, hf.2.1, rfl, rfl, rfl⟩

/-- The End state on the End command in wire order, the CRC of the flash content being the
recorded one: one pass, an ACK, the Idle state, and the loop returns `ETX_OTA_EC_OK`. -/
theorem end_phase (T : Target) (d : Device) (rest : List RxEvent)
    (hs : d.etx_ota_state = ETX_OTA_STATE_END)
    (hhw : d.ETX_OTA_hardware_protocol ≠ ETX_OTA_hw_Protocol.other)
    (hcrc : crc32_mpeg2 (readBytes d.flash.mem T.ETX_APP_FLASH_ADDR d.fw_config.App_fw_size)
      = d.fw_config.App_fw_rec_crc)
    (hrx : d.rx = (packet_bytes ETX_OTA_PACKET_TYPE_CMD [ETX_OTA_CMD_END]).map RxEvent.byte
      ++ rest) :
    ∃ d1, (∀ fuel, download_loop T (fuel + 1) d = some (ETX_OTA_EC_OK, d1))
      ∧ d1.etx_ota_state = ETX_OTA_STATE_IDLE
      ∧ d1.rx = rest
      ∧ d1.tx = d.tx ++ [response_packet ETX_OTA_ACK]
      ∧ d1.fw_config = d.fw_config ∧ d1.flash = d.flash ∧ d1.conf = d.conf := by
  have hproc := process_end T
    { d with
      Rx_Buffer := storeBytes d.Rx_Buffer 0
        (packet_bytes ETX_OTA_PACKET_TYPE_CMD [ETX_OTA_CMD_END])
      rx := rest } hs
    (packet_bytes_command d.Rx_Buffer ETX_OTA_PACKET_TYPE_CMD ETX_OTA_CMD_END).1
    (packet_bytes_command d.Rx_Buffer ETX_OTA_PACKET_TYPE_CMD ETX_OTA_CMD_END).2 hcrc
  exact ⟨_, fun fuel => download_loop_finishes T d _ ETX_OTA_PACKET_TYPE_CMD [ETX_OTA_CMD_END]
      rest fuel hhw (by exact hhw) (by decide) (by decide) hrx hproc rfl,
    rfl, rfl, rfl, rfl, rfl, rfl⟩

theorem replicate_around (k : Nat) (a : List Nat) :
    List.replicate (k + 3) a = [a] ++ ([a] ++ (List.replicate k a ++ [a])) := by
  rw [← List.replicate_succ' k a]
  rfl

theorem chunk_packets_length (t : Nat) : ∀ (k : Nat) (q : List Nat),
    k ≤ (((reference_chunks k q).map (packet_bytes t)).flatten).length
  | 0, _ => Nat.zero_le _
  | k + 1, q => by
    simp only [reference_chunks, List.map_cons, List.flatten_cons, List.length_append,
      packet_bytes_length]
    have h := chunk_packets_length t k (q.drop 1024)
    omega

/-- The receive loop, entered in the Start state, on the packets of a whole transaction for the
application image `p` in wire order, every peripheral call succeeding: as many passes as there
are packets, an ACK for each, the Idle state, the size and CRC of `p` in the configuration and
`p` in the application slot. -/
theorem download_loop_whole_image (T : Target) (p : List Nat) (hbytes : ∀ b ∈ p, b < 256)
    (hpos : 0 < p.length) (hp4 : p.length % 4 = 0) (hsize : p.length ≤ ETX_OTA_APP_FW_SIZE T)
    (haddr : T.ETX_APP_FLASH_ADDR + p.length < 2 ^ 32) (d : Device)
    (hs : d.etx_ota_state = ETX_OTA_STATE_START) (hr : d.etx_ota_fw_received_size = 0)
    (hhw : d.ETX_OTA_hardware_protocol ≠ ETX_OTA_hw_Protocol.other)
    (hok : d.flash.hal_rets = []) (hconf : d.conf.write_rets = [])
    (hrx : d.rx = (packet_bytes ETX_OTA_PACKET_TYPE_CMD [ETX_OTA_CMD_START]).map RxEvent.byte
      ++ ((packet_bytes ETX_OTA_PACKET_TYPE_HEADER
          (bytes_le32 p.length ++ bytes_le32 (crc32_mpeg2 p)
            ++ [0xFF, 0xFF, 0xFF, 0xFF, 0xFF, 0xFF, 0xFF]
            ++ [ETX_OTA_Application_Firmware_Image])).map RxEvent.byte
        ++ ((((reference_chunks ((p.length + 1023) / 1024) p).map
            (packet_bytes ETX_OTA_PACKET_TYPE_DATA)).flatten).map RxEvent.byte
          ++ ((packet_bytes ETX_OTA_PACKET_TYPE_CMD [ETX_OTA_CMD_END]).map RxEvent.byte
            ++ [])))) :
    ∃ d1, (∀ fuel, download_loop T (fuel + ((p.length + 1023) / 1024 + 3)) d
          = some (ETX_OTA_EC_OK, d1))
      ∧ d1.etx_ota_state = ETX_OTA_STATE_IDLE
      ∧ d1.rx = []
      ∧ d1.tx = d.tx ++ List.replicate ((p.length + 1023) / 1024 + 3)
          (response_packet ETX_OTA_ACK)
      ∧ d1.fw_config.App_fw_size = p.length
      ∧ d1.fw_config.App_fw_rec_crc = crc32_mpeg2 p
      ∧ readBytes d1.flash.mem T.ETX_APP_FLASH_ADDR p.length = p
      ∧ d1.conf.records = d1.fw_config :: d.conf.records := by
  obtain ⟨dA, hA, hAs, hAhw, hArx, hAtx, _, hAf, hAconf, hAr⟩ := start_phase T d _ hs hhw hrx
  obtain ⟨dB, hB, hBs, hBhw, hBrx, hBtx, hBn, hBcrc, hBf, hBr, hBconf⟩ := header_phase T dA _ p.length
    (crc32_mpeg2 p) (by omega) (crc32_mpeg2_lt p) hsize hAs (by rw [hAhw]; exact hhw)
    (by rw [hAconf]; exact hconf) hArx
  obtain ⟨dC, hC, hCs, hChw, hCrx, hCc, hCtx, hCm, hCconf⟩ := data_phase T p hbytes hp4 haddr
    ((p.length + 1023) / 1024) 0 dB _ hBs (by rw [hBhw, hAhw]; exact hhw)
    (by rw [hBr, hAr]; exact hr) hBn (by rw [hBf, hAf]; exact hok)
    (fun j hj => absurd hj (Nat.not_lt_zero j)) hpos rfl rfl hBrx
  have hread : readBytes dC.flash.mem T.ETX_APP_FLASH_ADDR p.length = p :=
    readBytes_eq_of_getD p _ _ hCm
  obtain ⟨dD, hD, hDs, hDrx, hDtx, hDc, hDf, hDconf⟩ := end_phase T dC [] hCs hChw
    (by rw [hCc, hBn, hBcrc, hread]) hCrx
  refine ⟨dD, fun fuel => ?_, hDs, hDrx, ?_, ?_, ?_, ?_, ?_⟩
  · rw [show fuel + ((p.length + 1023) / 1024 + 3)
        = (fuel + 1 + (p.length + 1023) / 1024 + 1) + 1 by omega, hA, hB, hC, hD]
  · rw [hDtx, hCtx, hBtx, hAtx, replicate_around]
    simp only [List.append_assoc]
  · rw [hDc, hCc, hBn]
  · rw [hDc, hCc, hBcrc]
  · rw [hDf]
    exact hread
  · rw [hDconf, hCconf, hBconf, hDc, hCc, hAconf]

/-! ## A whole transaction, host and device -/

theorem load_payload_application (env : HostEnv) (p : List Nat)
    (hfile : env.payload_file = some p) (hread : env.fread_fails = false)
    (hhost : p.length ≤ PcTool.ETX_OTA_APP_FW_SIZE) :
    load_payload env ETX_OTA_Application_Firmware_Image = Except.ok (p, p.length) := by
  have h32 : p.length % 2 ^ 32 = p.length :=
    Nat.mod_eq_of_lt (Nat.lt_of_le_of_lt hhost (by decide))
  unfold load_payload
  rw [if_pos (Or.inr rfl), hfile]
  dsimp only
  rw [h32, if_neg (fun h => absurd h.1 (by decide)), if_neg (fun h => absurd h.2 (by omega)),
    hread, if_neg (by decide), List.take_length]

theorem replicate_polls (k : Nat) (a : List Nat) :
    List.replicate (k + 4) a = a :: a :: a :: (List.replicate k a ++ a :: []) := by
  rw [← List.replicate_succ' k a]
  rfl

theorem reference_transaction_length (p : List Nat) :
    (p.length + 1023) / 1024 + 3 ≤ ((reference_transaction p).map RxEvent.byte).length + 1 := by
  have h := chunk_packets_length ETX_OTA_PACKET_TYPE_DATA ((p.length + 1023) / 1024) p
  rw [List.length_map]
  unfold reference_transaction
  simp only [List.length_append, packet_bytes_length, reference_header_packet_length]
  omega

/-- C25: for every payload file `p` of bytes whose size is a positive multiple of 4, at most
`ETX_OTA_APP_FW_SIZE` on the host and on the device, sent with the application payload type
over a port that opens and delivers an ACK response to every packet, `start_etx_ota_process`
returns `ETX_OTA_EC_OK` having sent the Abort command followed by Command(Start), the Header
packet, the Data packets of the chunks and Command(End).  Fed with these packets after the
Abort, with every transport, flash and configuration-store call succeeding,
`firmware_image_download_and_install` returns `ETX_OTA_EC_OK`, has answered ACK to each of the
packets, and leaves the state Idle, `App_fw_size = |p|` and `App_fw_rec_crc = crc32_mpeg2 p` in
the configuration (which is the record written to the store), and `p` in the first `|p|` bytes
of the application slot. -/
theorem happy_path_end_to_end (T : Target) (fuel : Nat) (env : HostEnv) (m : Mem)
    (p : List Nat) (d : Device)
    (hbytes : ∀ b ∈ p, b < 256) (hpos : 0 < p.length) (hp4 : p.length % 4 = 0)
    (hsize : p.length ≤ ETX_OTA_APP_FW_SIZE T)
    (hhost : p.length ≤ PcTool.ETX_OTA_APP_FW_SIZE)
    (haddr : T.ETX_APP_FLASH_ADDR + p.length < 2 ^ 32)
    (hopen : env.open_rets.headD 0 = 0) (hfile : env.payload_file = some p)
    (hread : env.fread_fails = false)
    (hhw : d.ETX_OTA_hardware_protocol ≠ ETX_OTA_hw_Protocol.other)
    (hok : d.flash.hal_rets = []) (hconf : d.conf.write_rets = []) :
    ∃ (m1 : Mem) (d1 : Device),
      start_etx_ota_process (fuel + 1) env
          ⟨m, ⟨[], [], List.replicate ((p.length + 1023) / 1024 + 4)
            (response_packet ETX_OTA_ACK)⟩, 0⟩ ETX_OTA_Application_Firmware_Image
        = some (ETX_OTA_EC_OK,
            ⟨m1, ⟨packet_bytes ETX_OTA_PACKET_TYPE_CMD [ETX_OTA_CMD_ABORT]
              ++ reference_transaction p, [], []⟩, 0⟩,
            { env with open_rets := env.open_rets.tail, opened := env.opened + 1 })
      ∧ firmware_image_download_and_install T
          { d with rx := (reference_transaction p).map RxEvent.byte }
        = some (ETX_OTA_EC_OK, d1)
      ∧ d1.tx = d.tx ++ List.replicate ((p.length + 1023) / 1024 + 3)
          (response_packet ETX_OTA_ACK)
      ∧ d1.etx_ota_state = ETX_OTA_STATE_IDLE
      ∧ d1.fw_config.App_fw_size = p.length
      ∧ d1.fw_config.App_fw_rec_crc = crc32_mpeg2 p
      ∧ d1.conf.records = d1.fw_config :: d.conf.records
      ∧ readBytes d1.flash.mem T.ETX_APP_FLASH_ADDR p.length = p := by
  obtain ⟨m1, hrun⟩ := start_etx_ota_process_acked (response_packet ETX_OTA_ACK)
    poll_is_ack_response fuel env m [] [] ETX_OTA_Application_Firmware_Image p hopen
    (load_payload_application env p hfile hread hhost)
    (Nat.lt_of_le_of_lt hhost (by decide))
  rw [etx_ota_header_info_bytes _ _ _ (by decide), reference_header_packet_eq,
    ← replicate_polls, List.nil_append, List.append_assoc, List.append_assoc,
    List.append_assoc] at hrun
  obtain ⟨d1, hloop, hstate, _, htx, hn, hcrc, hflash, hrec⟩ := download_loop_whole_image T p
    hbytes hpos hp4 hsize haddr
    { d with
      rx := (reference_transaction p).map RxEvent.byte
      etx_ota_fw_received_size := 0
      etx_ota_state := ETX_OTA_STATE_START }
    rfl rfl hhw hok hconf
    (by
      show (reference_transaction p).map RxEvent.byte = _
      unfold reference_transaction
      rw [← reference_header_packet_eq]
      simp only [List.map_append, List.append_assoc, List.append_nil])
  refine ⟨m1, d1, ?_, ?_, htx, hstate, hn, hcrc, hrec, hflash⟩
  · rw [hrun]
    unfold reference_transaction
    simp only [List.append_assoc]
  · unfold firmware_image_download_and_install
    have hlen := reference_transaction_length p
    have hfuel := hloop (((reference_transaction p).map RxEvent.byte).length + 1
      - ((p.length + 1023) / 1024 + 3))
    rw [Nat.sub_add_cancel hlen] at hfuel
    exact hfuel

theorem happy_path_end_to_end_witness :
    ∃ d1 : Device,
      firmware_image_download_and_install reference_target
          { sample_device ETX_OTA_STATE_IDLE (fun _ => 0) [] with
            rx := (reference_transaction [1, 2, 3, 4, 5, 6, 7, 8]).map RxEvent.byte }
        = some (ETX_OTA_EC_OK, d1)
      ∧ d1.etx_ota_state = ETX_OTA_STATE_IDLE
      ∧ d1.fw_config.App_fw_size = [1, 2, 3, 4, 5, 6, 7, 8].length
      ∧ d1.fw_config.App_fw_rec_crc = crc32_mpeg2 [1, 2, 3, 4, 5, 6, 7, 8]
      ∧ readBytes d1.flash.mem reference_target.ETX_APP_FLASH_ADDR
          [1, 2, 3, 4, 5, 6, 7, 8].length = [1, 2, 3, 4, 5, 6, 7, 8] :=
  match happy_path_end_to_end reference_target 0 small_image_env (fun _ => 0)
      [1, 2, 3, 4, 5, 6, 7, 8] (sample_device ETX_OTA_STATE_IDLE (fun _ => 0) [])
      (by decide) (by decide) (by decide) (by decide) (by decide) (by decide) rfl rfl rfl
      (by decide) rfl rfl with
  | ⟨_, d1, _, h2, _, h4, h5, h6, _, h8⟩ => ⟨d1, h2, h4, h5, h6, h8⟩

/-! ## Bootloader receiver: Data packets below the declared size -/

/-- A run of the receive loop that returns does so with every larger bound on the passes. -/
theorem download_loop_more_passes (T : Target) (k : Nat) :
    ∀ (fuel : Nat) (d : Device) (o : Nat × Device),
      download_loop T fuel d = some o → download_loop T (fuel + k) d = some o := by
  intro fuel
  induction fuel with
  | zero => intro d o h; simp [download_loop] at h
  | succ fuel ih =>
    intro d o h
    rw [show fuel + 1 + k = (fuel + k) + 1 by omega]
    rw [download_loop] at h ⊢
    generalize download_pass T d = P at h ⊢
    obtain ⟨r, d1⟩ := P
    cases r with
    | some ret => exact h
    | none =>
      dsimp only at h ⊢
      by_cases hs : d1.etx_ota_state ≠ ETX_OTA_STATE_IDLE
      · rw [if_pos hs] at h ⊢
        exact ih d1 o h
      · rw [if_neg hs] at h ⊢
        exact h

/-- The Data state over Data packets of whole words that together stay below the declared
size, every flash call succeeding: one pass and one ACK for each, the state still Data, and
the received size grown by the bytes of the packets. -/
theorem data_chunks_phase (T : Target) :
    ∀ (chunks : List (List Nat)) (d : Device) (rest : List RxEvent),
      d.etx_ota_state = ETX_OTA_STATE_DATA →
      d.ETX_OTA_hardware_protocol ≠ ETX_OTA_hw_Protocol.other →
      d.flash.hal_rets = [] →
      (∀ c ∈ chunks, c.length % 4 = 0 ∧ 4 ≤ c.length ∧ c.length ≤ 1024 ∧ ∀ b ∈ c, b < 256) →
      d.etx_ota_fw_received_size + (chunks.map List.length).sum < d.fw_config.App_fw_size →
      T.ETX_APP_FLASH_ADDR + d.fw_config.App_fw_size < 2 ^ 32 →
      d.rx = ((chunks.map (packet_bytes ETX_OTA_PACKET_TYPE_DATA)).flatten).map RxEvent.byte
        ++ rest →
      ∃ d1, (∀ fuel, download_loop T (fuel + chunks.length) d = download_loop T fuel d1)
        ∧ d1.etx_ota_state = ETX_OTA_STATE_DATA
        ∧ d1.ETX_OTA_hardware_protocol = d.ETX_OTA_hardware_protocol
        ∧ d1.rx = rest
        ∧ d1.fw_config = d.fw_config
        ∧ d1.etx_ota_fw_received_size
            = d.etx_ota_fw_received_size + (chunks.map List.length).sum
        ∧ d1.flash.hal_rets = []
        ∧ d1.tx = d.tx ++ List.replicate chunks.length (response_packet ETX_OTA_ACK) := by
  intro chunks
  induction chunks with
  | nil =>
    intro d rest hs _ hok _ _ _ hrx
    exact ⟨d, fun _ => rfl, hs, rfl, by rw [hrx]; rfl, rfl, rfl, hok,
      by rw [List.length_nil, List.replicate_zero, List.append_nil]⟩
  | cons c chunks ih =>
    intro d rest hs hhw hok hch hsum haddr hrx
    obtain ⟨hc4, hc, hcmax, hcb⟩ := hch c (List.mem_cons_self c chunks)
    simp only [List.map_cons, List.sum_cons] at hsum
    have hrx' : d.rx = (packet_bytes ETX_OTA_PACKET_TYPE_DATA c).map RxEvent.byte
        ++ (((chunks.map (packet_bytes ETX_OTA_PACKET_TYPE_DATA)).flatten).map RxEvent.byte
          ++ rest) := by
      rw [hrx]
      simp only [List.map_cons, List.flatten_cons, List.map_append, List.append_assoc]
    obtain ⟨d1, hproc, h1s, h1r, h1c, h1ok, -, h1hw, h1tx, h1rx, -⟩ := process_data_chunk T
      { d with
        Rx_Buffer := storeBytes d.Rx_Buffer 0 (packet_bytes ETX_OTA_PACKET_TYPE_DATA c)
        rx := ((chunks.map (packet_bytes ETX_OTA_PACKET_TYPE_DATA)).flatten).map RxEvent.byte
          ++ rest }
      d.Rx_Buffer c hs rfl hc4 hc hcmax hcb hok
      (by show T.ETX_APP_FLASH_ADDR + d.etx_ota_fw_received_size + c.length < 2 ^ 32; omega)
    dsimp only at h1s h1r h1c h1hw h1tx h1rx
    rw [if_neg (by omega)] at h1s
    obtain ⟨d2, h2l, h2s, h2hw, h2rx, h2c, h2r, h2ok, h2tx⟩ := ih
      { d1 with tx := d1.tx ++ [response_packet ETX_OTA_ACK], tx_rets := d1.tx_rets.tail }
      rest h1s (by rw [← h1hw] at hhw; exact hhw) h1ok
      (fun c' hc' => hch c' (List.mem_cons_of_mem c hc'))
      (by show d1.etx_ota_fw_received_size + _ < d1.fw_config.App_fw_size
          rw [h1r, h1c]; omega)
      (by show _ + d1.fw_config.App_fw_size < _; rw [h1c]; exact haddr) h1rx
    refine ⟨d2, ?_, h2s, h2hw.trans h1hw, h2rx, h2c.trans h1c, ?_, h2ok, ?_⟩
    · intro fuel
      rw [← h2l fuel, List.length_cons, ← Nat.add_assoc]
      exact download_loop_accepts T d d1 ETX_OTA_PACKET_TYPE_DATA _ _ (fuel + chunks.length) hhw
        (by rw [h1hw]; exact hhw) (by decide) hcmax hrx' hproc (by rw [h1s]; decide)
    · rw [h2r]
      show d1.etx_ota_fw_received_size + _ = _
      rw [h1r, List.map_cons, List.sum_cons, Nat.add_assoc]
    · rw [h2tx]
      show d1.tx ++ [response_packet ETX_OTA_ACK] ++ _ = _
      rw [h1tx, List.append_assoc, List.length_cons, List.replicate_succ]
      rfl

/-! ## Recency of the configuration store -/

theorem filter_used_eq (l : List (List Nat))
    (h : ∀ ws ∈ l, FirmwareUpdateConfig.slot_empty ws = false) :
    l.filter (fun ws => !FirmwareUpdateConfig.slot_empty ws) = l := by
  rw [List.filter_eq_self]
  intro ws hws
  rw [h ws hws]
  rfl

/-- What Read-latest returns when page 1 is erased. -/
theorem read_page0 (xs : List (List Nat)) (c0 c1 : Nat)
    (hx : ∀ ws ∈ xs, FirmwareUpdateConfig.slot_empty ws = false) :
    FirmwareUpdateConfig.firmware_update_configurations_read ⟨⟨xs, c0⟩, ⟨[], c1⟩⟩
      = xs.getLast? := by
  unfold FirmwareUpdateConfig.firmware_update_configurations_read
  dsimp only
  rw [List.append_nil, filter_used_eq xs hx]

/-- A call of `etx_ota_process_data` leaves the state as it is or moves it one step along
Start, Header, Data, End, Idle. -/
theorem process_state_step (T : Target) (d : Device) :
    (etx_ota_process_data T d).2.etx_ota_state = d.etx_ota_state
    ∨ (d.etx_ota_state = ETX_OTA_STATE_START
      ∧ (etx_ota_process_data T d).2.etx_ota_state = ETX_OTA_STATE_HEADER)
    ∨ (d.etx_ota_state = ETX_OTA_STATE_HEADER
      ∧ (etx_ota_process_data T d).2.etx_ota_state = ETX_OTA_STATE_DATA)
    ∨ (d.etx_ota_state = ETX_OTA_STATE_DATA
      ∧ (etx_ota_process_data T d).2.etx_ota_state = ETX_OTA_STATE_END)
    ∨ (d.etx_ota_state = ETX_OTA_STATE_END
      ∧ (etx_ota_process_data T d).2.etx_ota_state = ETX_OTA_STATE_IDLE) := by
  unfold etx_ota_process_data
  dsimp only
  by_cases hab : d.Rx_Buffer 1 = ETX_OTA_PACKET_TYPE_CMD ∧ d.Rx_Buffer 4 = ETX_OTA_CMD_ABORT
  · rw [if_pos hab]; exact Or.inl rfl
  rw [if_neg hab]
  by_cases h0 : d.etx_ota_state = ETX_OTA_STATE_IDLE
  · rw [if_pos h0]; exact Or.inl rfl
  rw [if_neg h0]
  by_cases h1 : d.etx_ota_state = ETX_OTA_STATE_START
  · rw [if_pos h1]
    split_ifs
    · exact Or.inr (Or.inl ⟨h1, rfl⟩)
    · exact Or.inl rfl
  rw [if_neg h1]
  by_cases h2 : d.etx_ota_state = ETX_OTA_STATE_HEADER
  · rw [if_pos h2]
    by_cases ht : d.Rx_Buffer 1 = ETX_OTA_PACKET_TYPE_HEADER
    · rw [if_pos ht]
      split
      · exact Or.inl rfl
      · split_ifs
        · exact Or.inl rfl
        · exact Or.inr (Or.inr (Or.inl ⟨h2, rfl⟩))
    · rw [if_neg ht]; exact Or.inl rfl
  rw [if_neg h2]
  by_cases h3 : d.etx_ota_state = ETX_OTA_STATE_DATA
  · rw [if_pos h3]
    by_cases ht : d.Rx_Buffer 1 = ETX_OTA_PACKET_TYPE_DATA
    · rw [if_pos ht]
      by_cases h4 : le16 d.Rx_Buffer 2 % 4 ≠ 0
      · rw [if_pos h4]; exact Or.inl rfl
      · rw [if_neg h4]
        have hfr := write_data_to_flash_app_frame T d
          (readBytes d.Rx_Buffer ETX_OTA_DATA_FIELD_INDEX (le16 d.Rx_Buffer 2))
          (le16 d.Rx_Buffer 2) (decide (d.etx_ota_fw_received_size = 0))
        split_ifs
        · exact Or.inl hfr.1
        · exact Or.inr (Or.inr (Or.inr (Or.inl ⟨h3, rfl⟩)))
        · exact Or.inl hfr.1
    · rw [if_neg ht]; exact Or.inl rfl
  rw [if_neg h3]
  by_cases h4 : d.etx_ota_state = ETX_OTA_STATE_END
  · rw [if_pos h4]
    split_ifs
    · exact Or.inl rfl
    · exact Or.inr (Or.inr (Or.inr (Or.inr ⟨h4, rfl⟩)))
    · exact Or.inl rfl
  · rw [if_neg h4]; exact Or.inl rfl

/-- The command that a packet accepted in the Start or the End state carries. -/
theorem process_ok_command (T : Target) (d : Device)
    (hok : (etx_ota_process_data T d).1 = ETX_OTA_EC_OK) :
    (d.etx_ota_state = ETX_OTA_STATE_START → d.Rx_Buffer 1 = ETX_OTA_PACKET_TYPE_CMD
      ∧ d.Rx_Buffer 4 = ETX_OTA_CMD_START)
    ∧ (d.etx_ota_state = ETX_OTA_STATE_END → d.Rx_Buffer 1 = ETX_OTA_PACKET_TYPE_CMD
      ∧ d.Rx_Buffer 4 = ETX_OTA_CMD_END) := by
  have hS : ¬ ETX_OTA_EC_STOP = ETX_OTA_EC_OK := by decide
  have hE : ¬ ETX_OTA_EC_ERR = ETX_OTA_EC_OK := by decide
  revert hok
  unfold etx_ota_process_data
  dsimp only
  by_cases hab : d.Rx_Buffer 1 = ETX_OTA_PACKET_TYPE_CMD ∧ d.Rx_Buffer 4 = ETX_OTA_CMD_ABORT
  · rw [if_pos hab]; intro h; exact absurd h hS
  rw [if_neg hab]
  intro hok
  constructor
  · intro hs
    rw [if_neg (by rw [hs]; decide), if_pos hs] at hok
    by_cases hc : d.Rx_Buffer 1 = ETX_OTA_PACKET_TYPE_CMD ∧ d.Rx_Buffer 4 = ETX_OTA_CMD_START
    · exact hc
    · rw [if_neg hc] at hok; exact absurd hok hE
  · intro hs
    rw [if_neg (by rw [hs]; decide), if_neg (by rw [hs]; decide), if_neg (by rw [hs]; decide),
      if_neg (by rw [hs]; decide), if_pos hs] at hok
    by_cases hc : d.Rx_Buffer 1 = ETX_OTA_PACKET_TYPE_CMD ∧ d.Rx_Buffer 4 = ETX_OTA_CMD_END
    · exact hc
    · rw [if_neg hc] at hok; exact absurd hok hE

theorem reference_order_start (k : Nat) :
    reference_order ETX_OTA_STATE_START k
      = (ETX_OTA_STATE_START, ETX_OTA_PACKET_TYPE_CMD)
          :: reference_order ETX_OTA_STATE_HEADER k := rfl

theorem reference_order_header (k : Nat) :
    reference_order ETX_OTA_STATE_HEADER k
      = (ETX_OTA_STATE_HEADER, ETX_OTA_PACKET_TYPE_HEADER)
          :: reference_order ETX_OTA_STATE_DATA k := rfl

theorem reference_order_data_succ (k : Nat) :
    reference_order ETX_OTA_STATE_DATA (k + 1)
      = (ETX_OTA_STATE_DATA, ETX_OTA_PACKET_TYPE_DATA)
          :: reference_order ETX_OTA_STATE_DATA k := rfl

theorem reference_order_data_zero (k : Nat) :
    reference_order ETX_OTA_STATE_DATA 0
      = (ETX_OTA_STATE_DATA, ETX_OTA_PACKET_TYPE_DATA)
          :: reference_order ETX_OTA_STATE_END k := rfl

theorem reference_order_end (k : Nat) :
    reference_order ETX_OTA_STATE_END k = [(ETX_OTA_STATE_END, ETX_OTA_PACKET_TYPE_CMD)] := rfl

/-- A run of the receive loop that ends with `ETX_OTA_EC_OK` ends in the Idle state, and the
packets it has accepted come in the order of the protocol from the state the run starts in. -/
theorem download_loop_order (T : Target) (hT : T.FIRM_UPDT_CONF_EC_OK = ETX_OTA_EC_OK) :
    ∀ (fuel : Nat) (d d' : Device), d.etx_ota_state ≠ ETX_OTA_STATE_IDLE →
      download_loop T fuel d = some (ETX_OTA_EC_OK, d') →
      d'.etx_ota_state = ETX_OTA_STATE_IDLE
      ∧ ∃ k, (download_accepted T fuel d).map (fun a => (a.state, a.packet_type))
          = reference_order d.etx_ota_state k := by
  intro fuel
  induction fuel with
  | zero => intro d d' _ h; simp [download_loop] at h
  | succ fuel ih =>
    intro d d' hni hloop
    rcases download_pass_cases T d with ⟨ret, d1, hp, hret⟩ | ⟨hr, hpo, hp⟩
    · simp only [download_loop, hp, Option.some.injEq, Prod.mk.injEq] at hloop
      exact absurd hloop.1 hret
    · have hacc : pass_accepted T d
          = some { state := d.etx_ota_state
                   packet_type := (after_reception d).Rx_Buffer 1
                   data_len := le16 (after_reception d).Rx_Buffer 2
                   package_size := le32 (after_reception d).Rx_Buffer 4 } := by
        unfold pass_accepted
        dsimp only
        rw [if_pos ⟨hr, hpo⟩]
        rfl
      have hfr := etx_ota_send_resp_frame (etx_ota_process_data T (after_reception d)).2
        ETX_OTA_ACK
      have hcases := process_ok_cases T (after_reception d) hT hpo hni
      have hst : (after_reception d).etx_ota_state = d.etx_ota_state := rfl
      rw [hst] at hcases
      simp only [download_loop, hp] at hloop
      simp only [download_accepted, hacc, hp, Option.toList, List.singleton_append,
        List.map_cons]
      generalize (etx_ota_send_resp (etx_ota_process_data T (after_reception d)).2
        ETX_OTA_ACK).2 = d1 at hfr hloop ⊢
      obtain ⟨f1, -, -⟩ := hfr
      generalize (etx_ota_process_data T (after_reception d)).2 = o at hcases f1
      generalize (after_reception d).Rx_Buffer = buf at hcases ⊢
      rcases hcases with ⟨c1, c2, c3, -⟩ | ⟨c1, c2, c3, -, -⟩ | ⟨c1, c2, -, -, c5⟩
        | ⟨c1, c2, c3⟩
      · have hd1 : d1.etx_ota_state = ETX_OTA_STATE_HEADER := f1.trans c3
        have hid : d1.etx_ota_state ≠ ETX_OTA_STATE_IDLE := by rw [hd1]; decide
        rw [if_pos hid] at hloop ⊢
        obtain ⟨i1, k, i2⟩ := ih d1 d' hid hloop
        exact ⟨i1, k, by rw [i2, hd1, c1, c2, reference_order_start]⟩
      · have hd1 : d1.etx_ota_state = ETX_OTA_STATE_DATA := f1.trans c3
        have hid : d1.etx_ota_state ≠ ETX_OTA_STATE_IDLE := by rw [hd1]; decide
        rw [if_pos hid] at hloop ⊢
        obtain ⟨i1, k, i2⟩ := ih d1 d' hid hloop
        exact ⟨i1, k, by rw [i2, hd1, c1, c2, reference_order_header]⟩
      · rcases c5 with c5 | ⟨c5, -⟩
        · have hd1 : d1.etx_ota_state = ETX_OTA_STATE_DATA := f1.trans c5
          have hid : d1.etx_ota_state ≠ ETX_OTA_STATE_IDLE := by rw [hd1]; decide
          rw [if_pos hid] at hloop ⊢
          obtain ⟨i1, k, i2⟩ := ih d1 d' hid hloop
          exact ⟨i1, k + 1, by rw [i2, hd1, c1, c2, reference_order_data_succ]⟩
        · have hd1 : d1.etx_ota_state = ETX_OTA_STATE_END := f1.trans c5
          have hid : d1.etx_ota_state ≠ ETX_OTA_STATE_IDLE := by rw [hd1]; decide
          rw [if_pos hid] at hloop ⊢
          obtain ⟨i1, k, i2⟩ := ih d1 d' hid hloop
          exact ⟨i1, 0, by rw [i2, hd1, c1, c2, reference_order_data_zero k]⟩
      · have hd1 : d1.etx_ota_state = ETX_OTA_STATE_IDLE := f1.trans c3
        rw [if_neg (not_not.mpr hd1)] at hloop ⊢
        simp only [Option.some.injEq, Prod.mk.injEq, true_and] at hloop
        subst hloop
        exact ⟨hd1, 0, by rw [c1, c2, reference_order_end]; rfl⟩

/-- A pass of the loop that ends in a `return` leaves the state as it was. -/
theorem download_pass_return_state (T : Target) (d d1 : Device) (ret : Nat)
    (h : download_pass T d = (some ret, d1)) : d1.etx_ota_state = d.etx_ota_state := by
  revert h
  unfold download_pass
  dsimp only
  by_cases hr : (etx_ota_receive_packet d.ETX_OTA_hardware_protocol d.rx d.Rx_Buffer
      ETX_OTA_PACKET_MAX_SIZE).status = ETX_OTA_EC_OK
  · rw [if_pos hr]
    show (if (etx_ota_process_data T (after_reception d)).1 = ETX_OTA_EC_OK then _ else _) = _
      → _
    by_cases hp : (etx_ota_process_data T (after_reception d)).1 = ETX_OTA_EC_OK
    · rw [if_pos hp]
      intro h
      exact absurd (congrArg Prod.fst h) (by simp)
    · rw [if_neg hp]
      have hst : (etx_ota_process_data T (after_reception d)).2.etx_ota_state
          = d.etx_ota_state := process_state_of_not_ok T (after_reception d) hp
      split_ifs <;> intro h <;> rw [← (Prod.mk.inj h).2]
      · exact (etx_ota_send_resp_frame _ _).1.trans hst
      · exact hst
      · exact (etx_ota_send_resp_frame _ _).1.trans hst
      · exact (etx_ota_send_resp_frame _ _).1.trans hst
      · exact hst
  · rw [if_neg hr]
    split_ifs <;> intro h <;> rw [← (Prod.mk.inj h).2] <;>
      exact (etx_ota_send_resp_frame _ _).1

/-- A run of the receive loop that returns in the Idle state returns `ETX_OTA_EC_OK`. -/
theorem download_loop_idle_ok (T : Target) :
    ∀ (fuel : Nat) (d d' : Device) (ret : Nat), d.etx_ota_state ≠ ETX_OTA_STATE_IDLE →
      download_loop T fuel d = some (ret, d') → d'.etx_ota_state = ETX_OTA_STATE_IDLE →
      ret = ETX_OTA_EC_OK := by
  intro fuel
  induction fuel with
  | zero => intro d d' ret _ h; simp [download_loop] at h
  | succ fuel ih =>
    intro d d' ret hni hloop hidle
    rw [download_loop] at hloop
    generalize hP : download_pass T d = P at hloop
    obtain ⟨r, d1⟩ := P
    cases r with
    | some ret1 =>
      dsimp only at hloop
      simp only [Option.some.injEq, Prod.mk.injEq] at hloop
      have hst := download_pass_return_state T d d1 ret1 hP
      rw [hloop.2, hidle] at hst
      exact absurd hst.symm hni
    | none =>
      dsimp only at hloop
      by_cases hs : d1.etx_ota_state ≠ ETX_OTA_STATE_IDLE
      · rw [if_pos hs] at hloop
        exact ih d1 d' ret hs hloop hidle
      · rw [if_neg hs] at hloop
        simp only [Option.some.injEq, Prod.mk.injEq] at hloop
        exact hloop.1.symm

/-- C32: a call of `etx_ota_process_data`, in every state and on every packet, leaves
`etx_ota_state` as it is or moves it to the next state in the order Start, Header, Data, End,
Idle; a packet it accepts in the Start state carries the Start command and one it accepts in
the End state the End command.  So every transaction of `firmware_image_download_and_install`
that ends in the Idle state has returned `ETX_OTA_EC_OK`, and the packets it accepted are, in
this order, the Start command, one Header packet, one or more Data packets and the End command
(the configuration module reporting success as status 0). -/
theorem state_order (T : Target) (d d' : Device) (ret : Nat)
    (hT : T.FIRM_UPDT_CONF_EC_OK = ETX_OTA_EC_OK)
    (h : firmware_image_download_and_install T d = some (ret, d'))
    (hidle : d'.etx_ota_state = ETX_OTA_STATE_IDLE) :
    (∀ e : Device,
      (etx_ota_process_data T e).2.etx_ota_state = e.etx_ota_state
      ∨ (e.etx_ota_state = ETX_OTA_STATE_START
        ∧ (etx_ota_process_data T e).2.etx_ota_state = ETX_OTA_STATE_HEADER)
      ∨ (e.etx_ota_state = ETX_OTA_STATE_HEADER
        ∧ (etx_ota_process_data T e).2.etx_ota_state = ETX_OTA_STATE_DATA)
      ∨ (e.etx_ota_state = ETX_OTA_STATE_DATA
        ∧ (etx_ota_process_data T e).2.etx_ota_state = ETX_OTA_STATE_END)
      ∨ (e.etx_ota_state = ETX_OTA_STATE_END
        ∧ (etx_ota_process_data T e).2.etx_ota_state = ETX_OTA_STATE_IDLE))
    ∧ (∀ e : Device, (etx_ota_process_data T e).1 = ETX_OTA_EC_OK →
      (e.etx_ota_state = ETX_OTA_STATE_START → e.Rx_Buffer 1 = ETX_OTA_PACKET_TYPE_CMD
        ∧ e.Rx_Buffer 4 = ETX_OTA_CMD_START)
      ∧ (e.etx_ota_state = ETX_OTA_STATE_END → e.Rx_Buffer 1 = ETX_OTA_PACKET_TYPE_CMD
        ∧ e.Rx_Buffer 4 = ETX_OTA_CMD_END))
    ∧ ret = ETX_OTA_EC_OK
    ∧ ∃ k, (transaction_accepted T d).map (fun a => (a.state, a.packet_type))
        = (ETX_OTA_STATE_START, ETX_OTA_PACKET_TYPE_CMD)
          :: (ETX_OTA_STATE_HEADER, ETX_OTA_PACKET_TYPE_HEADER)
          :: (List.replicate (k + 1) (ETX_OTA_STATE_DATA, ETX_OTA_PACKET_TYPE_DATA)
            ++ [(ETX_OTA_STATE_END, ETX_OTA_PACKET_TYPE_CMD)]) := by
  refine ⟨process_state_step T, process_ok_command T, ?_⟩
  unfold firmware_image_download_and_install at h
  have hok := download_loop_idle_ok T _ _ d' ret
    (by show ETX_OTA_STATE_START ≠ ETX_OTA_STATE_IDLE; decide) h hidle
  rw [hok] at h
  exact ⟨hok, (download_loop_order T hT _ _ d'
    (by show ETX_OTA_STATE_START ≠ ETX_OTA_STATE_IDLE; decide) h).2⟩

theorem state_order_witness :
    ∃ d' : Device,
      firmware_image_download_and_install reference_target whole_image_device
        = some (ETX_OTA_EC_OK, d')
      ∧ d'.etx_ota_state = ETX_OTA_STATE_IDLE
      ∧ ∃ k, (transaction_accepted reference_target whole_image_device).map
          (fun a => (a.state, a.packet_type))
        = (ETX_OTA_STATE_START, ETX_OTA_PACKET_TYPE_CMD)
          :: (ETX_OTA_STATE_HEADER, ETX_OTA_PACKET_TYPE_HEADER)
          :: (List.replicate (k + 1) (ETX_OTA_STATE_DATA, ETX_OTA_PACKET_TYPE_DATA)
            ++ [(ETX_OTA_STATE_END, ETX_OTA_PACKET_TYPE_CMD)]) :=
  match hrun : firmware_image_download_and_install reference_target whole_image_device with
  | some (ret, d') => by
    have h : (firmware_image_download_and_install reference_target whole_image_device).map
        (fun o => (o.1, o.2.etx_ota_state)) = some (ETX_OTA_EC_OK, ETX_OTA_STATE_IDLE) := by
      decide
    rw [hrun] at h
    simp only [Option.map_some', Option.some.injEq, Prod.mk.injEq] at h
    obtain ⟨h1, h2⟩ := h
    subst h1
    exact ⟨d', rfl, h2,
      (state_order reference_target whole_image_device d' _ rfl hrun h2).2.2.2⟩
  | none => by
    have h : (firmware_image_download_and_install reference_target whole_image_device).map
        Prod.fst = some ETX_OTA_EC_OK := by decide
    rw [hrun] at h
    exact absurd h (by simp)

/-! ## The two transports of the receiver -/

/-- C33: for every sequence of events of the link, every buffer and every `max_len`, the BT
branch of `etx_ota_receive_packet` returns the status, leaves the buffer and leaves the events
that the UART branch does.  The reads of the BT branch deliver the bytes of the same link; a
read of either branch that succeeds stores the bytes delivered, and a read that fails ends the
function with the status of the failure. -/
theorem transport_independence (rx : List RxEvent) (buf : Mem) (max_len : Nat) :
    etx_ota_receive_packet ETX_OTA_hw_Protocol.BT rx buf max_len
      = etx_ota_receive_packet ETX_OTA_hw_Protocol.UART rx buf max_len :=
  etx_ota_receive_packet_BT_eq rx buf max_len

/-! ## The erase of the application slot -/

set_option maxRecDepth 100000 in
theorem repeated_erase_device_run :
    (firmware_image_download_and_install reference_target repeated_erase_device).map
        (fun r => (r.1, r.2.flash.log.map Prod.fst))
      = some (ETX_OTA_EC_OK,
          [FlashOp.unlock, FlashOp.erase 0x0800A800 86, FlashOp.program 0x0800A800 0,
            FlashOp.lock,
            FlashOp.unlock, FlashOp.erase 0x0800A800 86, FlashOp.program 0x0800A800 0x04030201,
            FlashOp.program 0x0800A804 0x08070605, FlashOp.lock]) := by
  decide

/-- C34, at the failing input: in the transaction Start, Header (8 bytes), Data with
`data_len = 0`, Data with the 8 bytes, End, which `firmware_image_download_and_install` ends
with `ETX_OTA_EC_OK`, the application slot is erased twice: while the first Data packet is
processed, and again while the second one is, after a word has been programmed. -/
theorem erase_repeated_for_second_data_packet :
    (firmware_image_download_and_install reference_target repeated_erase_device).map
        (fun r => (r.1, r.2.flash.log.map Prod.fst))
      = some (ETX_OTA_EC_OK,
          [FlashOp.unlock, FlashOp.erase 0x0800A800 86, FlashOp.program 0x0800A800 0,
            FlashOp.lock,
            FlashOp.unlock, FlashOp.erase 0x0800A800 86, FlashOp.program 0x0800A800 0x04030201,
            FlashOp.program 0x0800A804 0x08070605, FlashOp.lock]) :=
  repeated_erase_device_run

/-! ## The length field of a Header packet -/

set_option maxRecDepth 100000 in
theorem long_header_device_run :
    (firmware_image_download_and_install reference_target long_header_device).map
        (fun r => (r.1, r.2.etx_ota_state, r.2.tx))
      = some (ETX_OTA_EC_NR, ETX_OTA_STATE_DATA,
          [response_packet ETX_OTA_ACK, response_packet ETX_OTA_ACK]) := by
  decide

/-- C35 fails on a Header-type packet whose `data_len` is 20: after Start, the packet is
answered with ACK and the state is Data (the call then returns `ETX_OTA_EC_NR`, the link having
nothing more to deliver). -/
theorem header_with_data_len_20_accepted :
    (firmware_image_download_and_install reference_target long_header_device).map
        (fun r => (r.1, r.2.etx_ota_state, r.2.tx))
      = some (ETX_OTA_EC_NR, ETX_OTA_STATE_DATA,
          [response_packet ETX_OTA_ACK, response_packet ETX_OTA_ACK])
    ∧ (long_header_device.rx.drop 10).take 4
        = [RxEvent.byte ETX_OTA_SOF, RxEvent.byte ETX_OTA_PACKET_TYPE_HEADER, RxEvent.byte 20,
            RxEvent.byte 0] :=
  ⟨long_header_device_run, rfl⟩

/-- C35 as the code has it: in the Header state, what `etx_ota_process_data` does with a
Header-type packet does not depend on the `data_len` field (bytes 2 and 3 of the buffer): with
any two bytes `x`, `y` in its place the status, the state reached, the configuration and the
configuration store are the same. -/
theorem header_data_len_not_examined (T : Target) (d : Device) (x y : Nat)
    (hs : d.etx_ota_state = ETX_OTA_STATE_HEADER)
    (ht : d.Rx_Buffer 1 = ETX_OTA_PACKET_TYPE_HEADER) :
    (etx_ota_process_data T
        { d with Rx_Buffer := (d.Rx_Buffer.store 2 x).store 3 y }).1
      = (etx_ota_process_data T d).1
    ∧ (etx_ota_process_data T
        { d with Rx_Buffer := (d.Rx_Buffer.store 2 x).store 3 y }).2.etx_ota_state
      = (etx_ota_process_data T d).2.etx_ota_state
    ∧ (etx_ota_process_data T
        { d with Rx_Buffer := (d.Rx_Buffer.store 2 x).store 3 y }).2.fw_config
      = (etx_ota_process_data T d).2.fw_config
    ∧ (etx_ota_process_data T
        { d with Rx_Buffer := (d.Rx_Buffer.store 2 x).store 3 y }).2.conf
      = (etx_ota_process_data T d).2.conf := by
  have b1 : ((d.Rx_Buffer.store 2 x).store 3 y) 1 = d.Rx_Buffer 1 := by
    rw [store_ne _ _ (by decide), store_ne _ _ (by decide)]
  have b4 : le32 ((d.Rx_Buffer.store 2 x).store 3 y) 4 = le32 d.Rx_Buffer 4 := by
    unfold le32
    rw [store_ne _ _ (by decide), store_ne _ _ (by decide), store_ne _ _ (by decide),
      store_ne _ _ (by decide), store_ne _ _ (by decide), store_ne _ _ (by decide),
      store_ne _ _ (by decide), store_ne _ _ (by decide)]
  have b8 : le32 ((d.Rx_Buffer.store 2 x).store 3 y) 8 = le32 d.Rx_Buffer 8 := by
    unfold le32
    rw [store_ne _ _ (by decide), store_ne _ _ (by decide), store_ne _ _ (by decide),
      store_ne _ _ (by decide), store_ne _ _ (by decide), store_ne _ _ (by decide),
      store_ne _ _ (by decide), store_ne _ _ (by decide)]
  have b19 : ((d.Rx_Buffer.store 2 x).store 3 y) 19 = d.Rx_Buffer 19 := by
    rw [store_ne _ _ (by decide), store_ne _ _ (by decide)]
  rw [process_header T d hs ht,
    process_header T { d with Rx_Buffer := (d.Rx_Buffer.store 2 x).store 3 y } hs
      (b1.trans ht)]
  unfold header_accepted
  dsimp only
  rw [b4, b8, b19]
  split_ifs <;> exact ⟨rfl, rfl, rfl, rfl⟩

theorem header_data_len_not_examined_witness :
    (device_holding ETX_OTA_STATE_HEADER ETX_OTA_PACKET_TYPE_HEADER
        (header_data 8 336301528 ETX_OTA_Application_Firmware_Image)).etx_ota_state
      = ETX_OTA_STATE_HEADER
    ∧ (etx_ota_process_data reference_target
        { device_holding ETX_OTA_STATE_HEADER ETX_OTA_PACKET_TYPE_HEADER
            (header_data 8 336301528 ETX_OTA_Application_Firmware_Image) with
          Rx_Buffer := ((device_holding ETX_OTA_STATE_HEADER ETX_OTA_PACKET_TYPE_HEADER
            (header_data 8 336301528 ETX_OTA_Application_Firmware_Image)).Rx_Buffer.store 2
              20).store 3 0 }).1
      = (etx_ota_process_data reference_target
          (device_holding ETX_OTA_STATE_HEADER ETX_OTA_PACKET_TYPE_HEADER
            (header_data 8 336301528 ETX_OTA_Application_Firmware_Image))).1
    ∧ (etx_ota_process_data reference_target
          (device_holding ETX_OTA_STATE_HEADER ETX_OTA_PACKET_TYPE_HEADER
            (header_data 8 336301528 ETX_OTA_Application_Firmware_Image))).1 = ETX_OTA_EC_OK :=
  ⟨rfl,
    (header_data_len_not_examined reference_target
      (device_holding ETX_OTA_STATE_HEADER ETX_OTA_PACKET_TYPE_HEADER
        (header_data 8 336301528 ETX_OTA_Application_Firmware_Image)) 20 0 rfl
      (by decide)).1,
    by decide⟩

/-! ## Initialisation of the configuration module -/

theorem headD_tails (l : List Nat) (d : Nat) :
    l.headD d = l.getD 0 d ∧ l.tail.headD d = l.getD 1 d ∧ l.tail.tail.headD d = l.getD 2 d
    ∧ l.tail = l.drop 1 ∧ l.tail.tail = l.drop 2 ∧ l.tail.tail.tail = l.drop 3 := by
  rcases l with _ | ⟨a, _ | ⟨b, _ | ⟨c, l⟩⟩⟩ <;> exact ⟨rfl, rfl, rfl, rfl, rfl, rfl⟩

/-- The pre-bootloader's `custom_firmware_update_config_init` entered with `attempts = 0`, by
the statuses of the first three calls of `firmware_update_configurations_init`. -/
theorem pre_bootloader_init_cases (T : Target) (V : ConfigValues) (s : PreBootloader.State)
    (h0 : s.attempts = 0) :
    PreBootloader.custom_firmware_update_config_init T V 4 s
      = if s.init_rets.getD 0 T.FIRM_UPDT_CONF_EC_OK = T.FIRM_UPDT_CONF_EC_OK then
          (T.FIRM_UPDT_CONF_EC_OK,
            { s with fw_config := s.record, init_rets := s.init_rets.drop 1, attempts := 1 })
        else if s.init_rets.getD 1 T.FIRM_UPDT_CONF_EC_OK = T.FIRM_UPDT_CONF_EC_OK then
          (T.FIRM_UPDT_CONF_EC_OK,
            { s with fw_config := s.record, init_rets := s.init_rets.drop 2, attempts := 2 })
        else if s.init_rets.getD 2 T.FIRM_UPDT_CONF_EC_OK = T.FIRM_UPDT_CONF_EC_OK then
          (T.FIRM_UPDT_CONF_EC_OK,
            { s with fw_config := s.record, init_rets := s.init_rets.drop 3, attempts := 3 })
        else (V.FIRM_UPDT_CONF_EC_ERR, { s with init_rets := s.init_rets.drop 3, attempts := 3 }) := by
  obtain ⟨e0, e1, e2, t1, t2, t3⟩ := headD_tails s.init_rets T.FIRM_UPDT_CONF_EC_OK
  simp only [PreBootloader.custom_firmware_update_config_init,
    PreBootloader.firmware_update_configurations_read, h0, e0, e1, e2, Nat.reduceAdd,
    Nat.reduceMod, gt_iff_lt, Nat.reduceLT, if_false]
  rw [t3, t2, t1]
  by_cases c0 : s.init_rets.getD 0 T.FIRM_UPDT_CONF_EC_OK = T.FIRM_UPDT_CONF_EC_OK
  · rw [if_neg (not_not.mpr c0), if_pos c0]
  rw [if_pos c0, if_neg c0]
  by_cases c1 : s.init_rets.getD 1 T.FIRM_UPDT_CONF_EC_OK = T.FIRM_UPDT_CONF_EC_OK
  · rw [if_neg (not_not.mpr c1), if_pos c1]
  rw [if_pos c1, if_neg c1]
  by_cases c2 : s.init_rets.getD 2 T.FIRM_UPDT_CONF_EC_OK = T.FIRM_UPDT_CONF_EC_OK
  · rw [if_neg (not_not.mpr c2), if_pos c2]
  rw [if_pos c2, if_neg c2, if_pos trivial]

/-- The application's `custom_firmware_update_config_init`, by the statuses of the first
three calls of `firmware_update_configurations_init`. -/
theorem application_init_cases (T : Target) (s : PreBootloader.State) :
    Application.custom_firmware_update_config_init T s
      = if s.init_rets.getD 0 T.FIRM_UPDT_CONF_EC_OK = T.FIRM_UPDT_CONF_EC_OK then
          some (Application.Outcome.returned, 1,
            { s with fw_config := s.record, init_rets := s.init_rets.drop 1 })
        else if s.init_rets.getD 1 T.FIRM_UPDT_CONF_EC_OK = T.FIRM_UPDT_CONF_EC_OK then
          some (Application.Outcome.returned, 2,
            { s with fw_config := s.record, init_rets := s.init_rets.drop 2 })
        else if s.init_rets.getD 2 T.FIRM_UPDT_CONF_EC_OK = T.FIRM_UPDT_CONF_EC_OK then
          some (Application.Outcome.returned, 3,
            { s with fw_config := s.record, init_rets := s.init_rets.drop 3 })
        else some (Application.Outcome.halted, 3, { s with init_rets := s.init_rets.drop 3 }) := by
  obtain ⟨e0, e1, e2, t1, t2, t3⟩ := headD_tails s.init_rets T.FIRM_UPDT_CONF_EC_OK
  simp only [Application.custom_firmware_update_config_init, Application.config_init_loop,
    PreBootloader.firmware_update_configurations_read, e0, e1, e2, Nat.reduceAdd,
    Nat.reduceMod, Nat.reduceLT, if_true, if_false]
  rw [t3, t2, t1]

/-- C36: entered with its counter `attempts` at 0, the pre-bootloader's
`custom_firmware_update_config_init` calls `firmware_update_configurations_init` at least once
and at most three times (`attempts` counts the calls, each taking the next status); every call
but the last has failed, and it returns `FIRM_UPDT_CONF_EC_OK`, with the latest record read
into `fw_config`, exactly when the last call succeeded; it returns `FIRM_UPDT_CONF_EC_ERR`
exactly when the first three calls all fail.  The loop of the application makes the same
number of calls on the same statuses, leaves the same `fw_config`, and halts exactly when the
pre-bootloader's function returns `FIRM_UPDT_CONF_EC_ERR`. -/
theorem config_init_three_attempts (T : Target) (V : ConfigValues) (s : PreBootloader.State)
    (h0 : s.attempts = 0) (hne : V.FIRM_UPDT_CONF_EC_ERR ≠ T.FIRM_UPDT_CONF_EC_OK) :
    1 ≤ (PreBootloader.custom_firmware_update_config_init T V 4 s).2.attempts
    ∧ (PreBootloader.custom_firmware_update_config_init T V 4 s).2.attempts ≤ 3
    ∧ (PreBootloader.custom_firmware_update_config_init T V 4 s).2.init_rets
        = s.init_rets.drop (PreBootloader.custom_firmware_update_config_init T V 4 s).2.attempts
    ∧ (∀ j, j + 1 < (PreBootloader.custom_firmware_update_config_init T V 4 s).2.attempts →
        s.init_rets.getD j T.FIRM_UPDT_CONF_EC_OK ≠ T.FIRM_UPDT_CONF_EC_OK)
    ∧ ((PreBootloader.custom_firmware_update_config_init T V 4 s).1 = T.FIRM_UPDT_CONF_EC_OK
        ↔ s.init_rets.getD
            ((PreBootloader.custom_firmware_update_config_init T V 4 s).2.attempts - 1)
            T.FIRM_UPDT_CONF_EC_OK = T.FIRM_UPDT_CONF_EC_OK)
    ∧ ((PreBootloader.custom_firmware_update_config_init T V 4 s).1 = T.FIRM_UPDT_CONF_EC_OK
        → (PreBootloader.custom_firmware_update_config_init T V 4 s).2.fw_config = s.record)
    ∧ ((PreBootloader.custom_firmware_update_config_init T V 4 s).1 = V.FIRM_UPDT_CONF_EC_ERR
        ↔ ∀ j, j < 3 → s.init_rets.getD j T.FIRM_UPDT_CONF_EC_OK ≠ T.FIRM_UPDT_CONF_EC_OK)
    ∧ ((PreBootloader.custom_firmware_update_config_init T V 4 s).1 = T.FIRM_UPDT_CONF_EC_OK
        ∨ (PreBootloader.custom_firmware_update_config_init T V 4 s).1
            = V.FIRM_UPDT_CONF_EC_ERR)
    ∧ ∃ s', Application.custom_firmware_update_config_init T s
          = some
            (if (PreBootloader.custom_firmware_update_config_init T V 4 s).1
                = V.FIRM_UPDT_CONF_EC_ERR then Application.Outcome.halted
              else Application.Outcome.returned,
              (PreBootloader.custom_firmware_update_config_init T V 4 s).2.attempts, s')
        ∧ s'.fw_config = (PreBootloader.custom_firmware_update_config_init T V 4 s).2.fw_config
        ∧ s'.init_rets = (PreBootloader.custom_firmware_update_config_init T V 4 s).2.init_rets
        ∧ s'.record = (PreBootloader.custom_firmware_update_config_init T V 4 s).2.record
        ∧ s'.flash = (PreBootloader.custom_firmware_update_config_init T V 4 s).2.flash := by
  rw [pre_bootloader_init_cases T V s h0, application_init_cases T s]
  have hne' : T.FIRM_UPDT_CONF_EC_OK ≠ V.FIRM_UPDT_CONF_EC_ERR := fun e => hne e.symm
  by_cases c0 : s.init_rets.getD 0 T.FIRM_UPDT_CONF_EC_OK = T.FIRM_UPDT_CONF_EC_OK
  · rw [if_pos c0, if_pos c0]
    dsimp only
    rw [if_neg hne']
    exact ⟨Nat.le_refl _, by decide, rfl, fun j hj => absurd hj (by omega),
      ⟨fun _ => c0, fun _ => rfl⟩, fun _ => rfl,
      ⟨fun e => absurd e hne', fun h => absurd c0 (h 0 (by decide))⟩, Or.inl rfl,
      _, rfl, rfl, rfl, rfl, rfl⟩
  rw [if_neg c0, if_neg c0]
  by_cases c1 : s.init_rets.getD 1 T.FIRM_UPDT_CONF_EC_OK = T.FIRM_UPDT_CONF_EC_OK
  · rw [if_pos c1, if_pos c1]
    dsimp only
    rw [if_neg hne']
    refine ⟨by decide, by decide, rfl, fun j hj => ?_,
      ⟨fun _ => c1, fun _ => rfl⟩, fun _ => rfl,
      ⟨fun e => absurd e hne', fun h => absurd c1 (h 1 (by decide))⟩, Or.inl rfl,
      _, rfl, rfl, rfl, rfl, rfl⟩
    have hj0 : j = 0 := by omega
    rw [hj0]
    exact c0
  rw [if_neg c1, if_neg c1]
  by_cases c2 : s.init_rets.getD 2 T.FIRM_UPDT_CONF_EC_OK = T.FIRM_UPDT_CONF_EC_OK
  · rw [if_pos c2, if_pos c2]
    dsimp only
    rw [if_neg hne']
    refine ⟨by decide, by decide, rfl, fun j hj => ?_,
      ⟨fun _ => c2, fun _ => rfl⟩, fun _ => rfl,
      ⟨fun e => absurd e hne', fun h => absurd c2 (h 2 (by decide))⟩, Or.inl rfl,
      _, rfl, rfl, rfl, rfl, rfl⟩
    have hj0 : j = 0 ∨ j = 1 := by omega
    rcases hj0 with e | e <;> rw [e]
    · exact c0
    · exact c1
  rw [if_neg c2, if_neg c2]
  dsimp only
  rw [if_pos rfl]
  refine ⟨by decide, by decide, rfl, fun j hj => ?_,
    ⟨fun e => absurd e hne, fun e => absurd e c2⟩, fun e => absurd e hne,
    ⟨fun _ j hj => ?_, fun _ => rfl⟩, Or.inr rfl,
    _, rfl, rfl, rfl, rfl, rfl⟩
  · have hj0 : j = 0 ∨ j = 1 := by omega
    rcases hj0 with e | e <;> rw [e]
    · exact c0
    · exact c1
  · have hj0 : j = 0 ∨ j = 1 ∨ j = 2 := by omega
    rcases hj0 with e | e | e <;> rw [e]
    · exact c0
    · exact c1
    · exact c2

theorem config_init_three_attempts_witness :
    third_attempt_state.attempts = 0
    ∧ (PreBootloader.custom_firmware_update_config_init reference_target reference_values 4
        third_attempt_state).2.attempts = 3
    ∧ (PreBootloader.custom_firmware_update_config_init reference_target reference_values 4
        third_attempt_state).1 = reference_target.FIRM_UPDT_CONF_EC_OK
    ∧ (PreBootloader.custom_firmware_update_config_init reference_target reference_values 4
        third_attempt_state).2.init_rets
      = third_attempt_state.init_rets.drop
        (PreBootloader.custom_firmware_update_config_init reference_target reference_values 4
          third_attempt_state).2.attempts :=
  ⟨rfl, by decide, by decide,
    (config_init_three_attempts reference_target reference_values third_attempt_state rfl
      (by decide)).2.2.1⟩

/-! ## The addresses programmed in the Data state -/

set_option maxRecDepth 100000 in
theorem slot_end_device_run :
    (etx_ota_process_data reference_target slot_end_device).1 = ETX_OTA_EC_OK
    ∧ (etx_ota_process_data reference_target slot_end_device).2.etx_ota_fw_received_size
        = 88068
    ∧ (etx_ota_process_data reference_target slot_end_device).2.flash.log.map Prod.fst
        = [FlashOp.unlock, FlashOp.program 134348796 0x04030201,
            FlashOp.program 134348800 0x08070605, FlashOp.lock] := by
  decide

theorem data_packets_length (t : Nat) : ∀ (chunks : List (List Nat)),
    chunks.length ≤ ((chunks.map (packet_bytes t)).flatten).length
  | [] => Nat.le_refl 0
  | c :: chunks => by
    have ih := data_packets_length t chunks
    simp only [List.map_cons, List.flatten_cons, List.length_append, List.length_cons,
      packet_bytes_length]
    omega

theorem link_of_transaction (a b e : List Nat) (cs : List (List Nat)) :
    link_of ([a, b] ++ cs ++ [e])
      = a.map RxEvent.byte ++ (b.map RxEvent.byte
          ++ (cs.flatten.map RxEvent.byte ++ (e.map RxEvent.byte ++ []))) := by
  simp [link_of]

/-- A transaction on the UART whose last Data packet passes the declared size, after which the
link falls silent: Start, a Header declaring `n` bytes, Data packets of whole words that stay
below `n`, and a Data packet `c` of whole words that reaches or passes `n`.  Every packet is
acknowledged, the bytes of `c` are in flash from `ETX_APP_FLASH_ADDR` plus the bytes received
before it, and the function returns `ETX_OTA_EC_NR` in the End state. -/
theorem data_overrun_transaction (T : Target) (chunks : List (List Nat)) (c : List Nat)
    (n crc : Nat) (d : Device)
    (hn : n < 2 ^ 32) (hcrc : crc < 2 ^ 32) (hsize : n ≤ ETX_OTA_APP_FW_SIZE T)
    (haddr : T.ETX_APP_FLASH_ADDR + n + 1024 < 2 ^ 32)
    (hch : ∀ c ∈ chunks, c.length % 4 = 0 ∧ 4 ≤ c.length ∧ c.length ≤ 1024 ∧ ∀ b ∈ c, b < 256)
    (hsum : (chunks.map List.length).sum < n)
    (hc4 : c.length % 4 = 0) (hc : 4 ≤ c.length) (hcmax : c.length ≤ 1024)
    (hcb : ∀ b ∈ c, b < 256) (hover : n ≤ (chunks.map List.length).sum + c.length)
    (huart : d.ETX_OTA_hardware_protocol = ETX_OTA_hw_Protocol.UART)
    (hok : d.flash.hal_rets = []) (hconf : d.conf.write_rets = [])
    (hrx : d.rx = link_of ([packet_bytes ETX_OTA_PACKET_TYPE_CMD [ETX_OTA_CMD_START],
        packet_bytes ETX_OTA_PACKET_TYPE_HEADER
          (header_data n crc ETX_OTA_Application_Firmware_Image)]
      ++ chunks.map (packet_bytes ETX_OTA_PACKET_TYPE_DATA)
      ++ [packet_bytes ETX_OTA_PACKET_TYPE_DATA c])) :
    ∃ d1, firmware_image_download_and_install T d = some (ETX_OTA_EC_NR, d1)
      ∧ d1.etx_ota_state = ETX_OTA_STATE_END
      ∧ d1.fw_config.App_fw_size = n
      ∧ d1.etx_ota_fw_received_size = (chunks.map List.length).sum + c.length
      ∧ (∀ j, j < c.length →
          d1.flash.mem (T.ETX_APP_FLASH_ADDR + (chunks.map List.length).sum + j) = c.getD j 0)
      ∧ d1.tx = d.tx ++ List.replicate (chunks.length + 3) (response_packet ETX_OTA_ACK) := by
  have hhw : d.ETX_OTA_hardware_protocol ≠ ETX_OTA_hw_Protocol.other := by
    rw [huart]; decide
  rw [link_of_transaction] at hrx
  have hhd : header_data n crc ETX_OTA_Application_Firmware_Image
      = bytes_le32 n ++ bytes_le32 crc ++ [0xFF, 0xFF, 0xFF, 0xFF, 0xFF, 0xFF, 0xFF]
        ++ [ETX_OTA_Application_Firmware_Image] := by
    simp [header_data]
  rw [hhd] at hrx
  have hlen : chunks.length + 3 ≤ d.rx.length := by
    have h := data_packets_length ETX_OTA_PACKET_TYPE_DATA chunks
    rw [hrx]
    simp only [List.length_append, List.length_map, packet_bytes_length, List.length_nil,
      List.length_cons]
    omega
  obtain ⟨dA, hA, hAs, hAhw, hArx, hAtx, hAc, hAf, hAconf, hAr⟩ := start_phase T
    { d with etx_ota_fw_received_size := 0, etx_ota_state := ETX_OTA_STATE_START } _ rfl hhw hrx
  obtain ⟨dB, hB, hBs, hBhw, hBrx, hBtx, hBn, hBcrc, hBf, hBr, hBconf⟩ := header_phase T dA _ n
    crc hn hcrc hsize hAs (by rw [hAhw]; exact hhw) (by rw [hAconf]; exact hconf) hArx
  obtain ⟨dC, hC, hCs, hChw, hCrx, hCc, hCr, hCok, hCtx⟩ := data_chunks_phase T chunks dB _ hBs
    (by rw [hBhw, hAhw]; exact hhw) (by rw [hBf, hAf]; exact hok) hch
    (by rw [hBr, hAr, hBn]; show 0 + _ < n; omega) (by rw [hBn]; omega) hBrx
  have hCr0 : dC.etx_ota_fw_received_size = (chunks.map List.length).sum := by
    rw [hCr, hBr, hAr]; show 0 + _ = _; omega
  obtain ⟨dD, hproc, hDs, hDr, hDc, hDok, hDm, hDhw, hDtx, hDrx, -⟩ := process_data_chunk T
    { dC with
      Rx_Buffer := storeBytes dC.Rx_Buffer 0 (packet_bytes ETX_OTA_PACKET_TYPE_DATA c)
      rx := [] }
    dC.Rx_Buffer c hCs rfl hc4 hc hcmax hcb hCok
    (by show T.ETX_APP_FLASH_ADDR + dC.etx_ota_fw_received_size + c.length < 2 ^ 32
        rw [hCr0]; omega)
  dsimp only at hDs hDr hDc hDm hDhw hDtx hDrx
  rw [hCr0] at hDm hDr hDs
  rw [hCc, hBn, if_pos hover] at hDs
  have hChw1 : dC.ETX_OTA_hardware_protocol ≠ ETX_OTA_hw_Protocol.other := by
    rw [hChw, hBhw, hAhw]; exact hhw
  have hD := fun fuel => download_loop_accepts T dC dD ETX_OTA_PACKET_TYPE_DATA c [] fuel hChw1
    (by rw [hDhw]; exact hChw1) (by decide) hcmax hCrx hproc (by rw [hDs]; decide)
  have hrecv : (etx_ota_receive_packet ETX_OTA_hw_Protocol.UART [] dD.Rx_Buffer
      ETX_OTA_PACKET_MAX_SIZE).status = ETX_OTA_EC_NR :=
    receive_UART_stall [] [] (Or.inl rfl) dD.Rx_Buffer ETX_OTA_PACKET_MAX_SIZE
      (fun h => absurd h (by decide)) (fun h => absurd h (by decide))
      (fun h => absurd h (by decide))
  have hDuart : dD.ETX_OTA_hardware_protocol = ETX_OTA_hw_Protocol.UART := by
    rw [hDhw, hChw, hBhw, hAhw]; exact huart
  have hE := download_pass_no_response T
    { dD with tx := dD.tx ++ [response_packet ETX_OTA_ACK], tx_rets := dD.tx_rets.tail }
    (by show (etx_ota_receive_packet dD.ETX_OTA_hardware_protocol dD.rx dD.Rx_Buffer
          ETX_OTA_PACKET_MAX_SIZE).status = ETX_OTA_EC_NR
        rw [hDuart, hDrx]; exact hrecv)
  have hrun : ∃ dE, download_loop T (chunks.length + 4)
        { d with etx_ota_fw_received_size := 0, etx_ota_state := ETX_OTA_STATE_START }
        = some (ETX_OTA_EC_NR, dE)
      ∧ dE.etx_ota_state = dD.etx_ota_state ∧ dE.fw_config = dD.fw_config
      ∧ dE.etx_ota_fw_received_size = dD.etx_ota_fw_received_size ∧ dE.flash = dD.flash
      ∧ dE.tx = dD.tx ++ [response_packet ETX_OTA_ACK] :=
    ⟨{ dD with
        tx := dD.tx ++ [response_packet ETX_OTA_ACK]
        tx_rets := dD.tx_rets.tail
        Rx_Buffer := (etx_ota_receive_packet dD.ETX_OTA_hardware_protocol dD.rx dD.Rx_Buffer
          ETX_OTA_PACKET_MAX_SIZE).buf
        rx := (etx_ota_receive_packet dD.ETX_OTA_hardware_protocol dD.rx dD.Rx_Buffer
          ETX_OTA_PACKET_MAX_SIZE).rx },
      by rw [show chunks.length + 4 = (0 + 1 + 1 + chunks.length + 1) + 1 by omega, hA, hB,
        hC, hD, download_loop, hE], rfl, rfl, rfl, rfl, rfl⟩
  obtain ⟨dE, hrun, hEs, hEc, hEr, hEf, hEtx⟩ := hrun
  refine ⟨dE, ?_, hEs.trans hDs, ?_, hEr.trans hDr, ?_, ?_⟩
  · have h := download_loop_more_passes T (d.rx.length + 1 - (chunks.length + 4)) _ _ _ hrun
    rw [show chunks.length + 4 + (d.rx.length + 1 - (chunks.length + 4)) = d.rx.length + 1
      by omega] at h
    exact h
  · rw [hEc, hDc, hCc, hBn]
  · intro j hj
    rw [hEf, hDm, if_pos ⟨by omega, by omega⟩]
    congr 1
    omega
  · rw [hEtx, hDtx, hCtx, hBtx, hAtx, replicate_around]
    simp only [List.append_assoc]

theorem slot_overrun_chunks_sum : (slot_overrun_chunks.map List.length).sum = 88060 := by
  simp only [slot_overrun_chunks, List.map_append, List.map_replicate, List.length_replicate,
    List.sum_append, List.sum_replicate, List.map_cons, List.map_nil, List.sum_cons,
    List.sum_nil, smul_eq_mul, Nat.reduceMul, Nat.reduceAdd]

theorem slot_overrun_chunks_whole_words : ∀ c ∈ slot_overrun_chunks,
    c.length % 4 = 0 ∧ 4 ≤ c.length ∧ c.length ≤ 1024 ∧ ∀ b ∈ c, b < 256 := by
  intro c hc
  simp only [slot_overrun_chunks, List.mem_append, List.mem_replicate, List.mem_singleton]
    at hc
  rcases hc with ⟨-, rfl⟩ | rfl
  · rw [List.length_replicate]
    refine ⟨by decide, by decide, by decide, fun b hb => ?_⟩
    rw [(List.mem_replicate.1 hb).2]
    decide
  · rw [List.length_replicate]
    refine ⟨by decide, by decide, by decide, fun b hb => ?_⟩
    rw [(List.mem_replicate.1 hb).2]
    decide

/-- C37, at the failing input: on the reference target, whose application slot is the 88064
bytes from `0x0800A800` to `0x08020000`, the device is sent Start, a Header declaring 88064
bytes, Data packets of 88060 bytes in all and a Data packet of the 8 bytes 1 to 8, and the link
falls silent.  All 89 packets are acknowledged, `etx_ota_fw_received_size` reaches 88068, and
the bytes 5, 6, 7, 8 are programmed at `0x08020000` and after, past the end of the slot.  The
last step taken alone (`slot_end_device`): the words go to `0x0801FFFC` and `0x08020000`. -/
theorem word_programmed_past_application_slot :
    reference_target.ETX_APP_FLASH_ADDR + ETX_OTA_APP_FW_SIZE reference_target = 134348800
    ∧ slot_overrun_device.flash.mem 134348800 = 0xFF
    ∧ (∃ d1, firmware_image_download_and_install reference_target slot_overrun_device
          = some (ETX_OTA_EC_NR, d1)
        ∧ d1.etx_ota_state = ETX_OTA_STATE_END
        ∧ d1.fw_config.App_fw_size = ETX_OTA_APP_FW_SIZE reference_target
        ∧ d1.etx_ota_fw_received_size = 88068
        ∧ d1.flash.mem 134348800 = 5 ∧ d1.flash.mem 134348801 = 6
        ∧ d1.flash.mem 134348802 = 7 ∧ d1.flash.mem 134348803 = 8
        ∧ d1.tx = List.replicate 89 (response_packet ETX_OTA_ACK))
    ∧ slot_end_device.etx_ota_state = ETX_OTA_STATE_DATA
    ∧ slot_end_device.fw_config.App_fw_size = ETX_OTA_APP_FW_SIZE reference_target
    ∧ slot_end_device.etx_ota_fw_received_size = 88060
    ∧ (etx_ota_process_data reference_target slot_end_device).1 = ETX_OTA_EC_OK
    ∧ (etx_ota_process_data reference_target slot_end_device).2.etx_ota_fw_received_size
        = 88068
    ∧ (etx_ota_process_data reference_target slot_end_device).2.flash.log.map Prod.fst
        = [FlashOp.unlock, FlashOp.program 134348796 0x04030201,
            FlashOp.program 134348800 0x08070605, FlashOp.lock] := by
  refine ⟨by decide, rfl, ?_, rfl, by decide, rfl, slot_end_device_run⟩
  obtain ⟨d1, hrun, hs, hn, hr, hm, htx⟩ := data_overrun_transaction reference_target
    slot_overrun_chunks [1, 2, 3, 4, 5, 6, 7, 8] 88064 0 slot_overrun_device (by decide)
    (by decide) (by decide) (by decide) slot_overrun_chunks_whole_words
    (by rw [slot_overrun_chunks_sum]; decide) (by decide) (by decide) (by decide) (by decide)
    (by rw [slot_overrun_chunks_sum]; decide) rfl rfl rfl rfl
  rw [slot_overrun_chunks_sum] at hr hm
  have hlen : slot_overrun_chunks.length + 3 = 89 := by
    simp only [slot_overrun_chunks, List.length_append, List.length_replicate,
      List.length_singleton]
  rw [hlen] at htx
  exact ⟨d1, hrun, hs, by rw [hn]; decide, hr, hm 4 (by decide), hm 5 (by decide),
    hm 6 (by decide), hm 7 (by decide), htx⟩

/-! ## The bytes stored by the reception and the size of the buffer -/

/-- The last byte of a packet in wire order. -/
theorem packet_bytes_last (buf : Mem) (t : Nat) (d : List Nat) :
    storeBytes buf 0 (packet_bytes t d) (d.length + 8) = ETX_OTA_EOF := by
  unfold packet_bytes
  rw [storeBytes_append]
  have hl : ([ETX_OTA_SOF, t, d.length % 256, d.length / 256] ++ d
      ++ bytes_le32 (crc32_mpeg2 d)).length = d.length + 8 := by
    simp only [List.length_append, List.length_cons, List.length_nil, bytes_le32]
    omega
  rw [Nat.zero_add, hl]
  simp only [storeBytes, store_same]

/-- C38, at the failing input: on the Data frame that declares `data_len = 1025`, with 1025
zero bytes as data, their CRC and the EOF byte, `etx_ota_receive_packet` with `max_len = 1033`
returns `ETX_OTA_EC_ERR` after having stored the EOF byte at index 1033 of the buffer, which
is `ETX_OTA_PACKET_MAX_SIZE`, one past the last element of `Rx_Buffer`. -/
theorem receive_stores_past_buffer :
    (etx_ota_receive_packet ETX_OTA_hw_Protocol.UART
      ((packet_bytes ETX_OTA_PACKET_TYPE_DATA (List.replicate 1025 0)).map RxEvent.byte)
      (fun _ => 0) ETX_OTA_PACKET_MAX_SIZE).status = ETX_OTA_EC_ERR
    ∧ (etx_ota_receive_packet ETX_OTA_hw_Protocol.UART
      ((packet_bytes ETX_OTA_PACKET_TYPE_DATA (List.replicate 1025 0)).map RxEvent.byte)
      (fun _ => 0) ETX_OTA_PACKET_MAX_SIZE).buf ETX_OTA_PACKET_MAX_SIZE = ETX_OTA_EOF
    ∧ ETX_OTA_PACKET_MAX_SIZE = 1033 := by
  have hl : (List.replicate 1025 0).length = 1025 := List.length_replicate _ _
  have h := receive_UART_packet_bytes ETX_OTA_PACKET_TYPE_DATA (List.replicate 1025 0) []
    (fun _ => 0) ETX_OTA_PACKET_MAX_SIZE (by decide) (by rw [hl]; decide)
  rw [List.append_nil, hl] at h
  have e : etx_ota_receive_packet ETX_OTA_hw_Protocol.UART
      ((packet_bytes ETX_OTA_PACKET_TYPE_DATA (List.replicate 1025 0)).map RxEvent.byte)
      (fun _ => 0) ETX_OTA_PACKET_MAX_SIZE
      = ⟨if ETX_OTA_PACKET_MAX_SIZE < (1025 + 9) % 65536 then ETX_OTA_EC_ERR else ETX_OTA_EC_OK,
          storeBytes (fun _ => 0) 0
            (packet_bytes ETX_OTA_PACKET_TYPE_DATA (List.replicate 1025 0)), []⟩ := h
  rw [e]
  refine ⟨by decide, ?_, by decide⟩
  have h2 := packet_bytes_last (fun _ => 0) ETX_OTA_PACKET_TYPE_DATA (List.replicate 1025 0)
  rw [hl, show 1025 + 8 = 1033 from rfl] at h2
  dsimp only
  rw [packet_max_size_eq, h2]

/-! ## The Response packet of the device at the host -/

theorem response_packet_length (st : Nat) : (response_packet st).length = 10 := rfl

/-- The status byte of the Response packet the device fills in, as the host reads it from the
bytes of a poll. -/
theorem response_packet_status (st : Nat) (polls : List (List Nat)) :
    (((response_packet st :: polls).headD []).take 10).getD 4 0 = st % 256 := by
  unfold response_packet
  generalize crc32_mpeg2 [st % 256] = x
  simp only [bytes_le16, bytes_le32, List.cons_append, List.nil_append, List.headD_cons,
    List.take_succ_cons, List.take_zero, List.take_nil, List.getD_cons_zero, List.getD_cons_succ]

/-- A Response packet of the device whose status byte is not ACK is not taken as an ACK. -/
theorem poll_is_ack_not_ack (st : Nat) (hst : st % 256 ≠ ETX_OTA_ACK) (polls : List (List Nat)) :
    poll_is_ack (response_packet st :: polls) = false := by
  unfold poll_is_ack
  rw [decide_eq_false_iff_not, response_packet_status]
  exact fun h => hst h.2.2.2

/-- C39: on a device whose hardware protocol is the UART or BT, `etx_ota_send_resp` hands the
link one packet of 10 bytes.  When these bytes are what the next poll of the host delivers,
`is_ack_resp_received` returns true for the packet sent for ACK and false for the packet sent
for NACK. -/
theorem response_round_trip (d : Device)
    (hhw : d.ETX_OTA_hardware_protocol ≠ ETX_OTA_hw_Protocol.other) :
    (∃ ack : List Nat, (etx_ota_send_resp d ETX_OTA_ACK).2.tx = d.tx ++ [ack]
      ∧ ack.length = 10
      ∧ ∀ (h : Host) (rest : List (List Nat)),
          (is_ack_resp_received { h with port := { h.port with polls := ack :: rest } }).1
            = true)
    ∧ ∃ nack : List Nat, (etx_ota_send_resp d ETX_OTA_NACK).2.tx = d.tx ++ [nack]
      ∧ nack.length = 10
      ∧ ∀ (h : Host) (rest : List (List Nat)),
          (is_ack_resp_received { h with port := { h.port with polls := nack :: rest } }).1
            = false := by
  constructor
  · refine ⟨response_packet ETX_OTA_ACK, by rw [send_resp_tx d _ hhw], rfl, ?_⟩
    intro h rest
    rw [is_ack_resp_received_fst]
    exact poll_is_ack_response rest
  · refine ⟨response_packet ETX_OTA_NACK, by rw [send_resp_tx d _ hhw], rfl, ?_⟩
    intro h rest
    rw [is_ack_resp_received_fst]
    exact poll_is_ack_not_ack ETX_OTA_NACK (by decide) rest

theorem response_round_trip_witness :
    (∃ ack : List Nat,
      (etx_ota_send_resp (sample_device ETX_OTA_STATE_START (fun _ => 0) []) ETX_OTA_ACK).2.tx
          = (sample_device ETX_OTA_STATE_START (fun _ => 0) []).tx ++ [ack]
      ∧ ack.length = 10
      ∧ ∀ (h : Host) (rest : List (List Nat)),
          (is_ack_resp_received { h with port := { h.port with polls := ack :: rest } }).1
            = true)
    ∧ ∃ nack : List Nat,
      (etx_ota_send_resp (sample_device ETX_OTA_STATE_START (fun _ => 0) []) ETX_OTA_NACK).2.tx
          = (sample_device ETX_OTA_STATE_START (fun _ => 0) []).tx ++ [nack]
      ∧ nack.length = 10
      ∧ ∀ (h : Host) (rest : List (List Nat)),
          (is_ack_resp_received { h with port := { h.port with polls := nack :: rest } }).1
            = false :=
  response_round_trip (sample_device ETX_OTA_STATE_START (fun _ => 0) []) (by decide)

/-! ## The status handler of the HAL -/

/-- A status of the HAL enumeration comes out of `HAL_ret_handler`, cut to a `uint8_t`, as
OK, NR or ERR. -/
theorem HAL_ret_handler_values (st : Nat) (h : st ≤ HAL_TIMEOUT) :
    HAL_ret_handler st % 256 = ETX_OTA_EC_OK ∨ HAL_ret_handler st % 256 = ETX_OTA_EC_NR
      ∨ HAL_ret_handler st % 256 = ETX_OTA_EC_ERR := by
  have h3 : st ≤ 3 := h
  interval_cases st <;> decide

theorem HAL_ret_handler_twice (h : Nat) : HAL_ret_handler (HAL_ret_handler h) = HAL_ret_handler h := by
  unfold HAL_ret_handler
  by_cases h1 : h = HAL_BUSY ∨ h = HAL_TIMEOUT
  · rw [if_pos h1]
    rfl
  · rw [if_neg h1]
    by_cases h2 : h = HAL_ERROR
    · rw [if_pos h2]
      rfl
    · rw [if_neg h2, if_neg h1, if_neg h2]

/-- The status of a flash HAL call is the next scripted one, and the script goes on with its
tail. -/
theorem Flash_call_status (f : Flash) (op : FlashOp) (h : ∀ st ∈ f.hal_rets, st ≤ HAL_TIMEOUT) :
    (f.call op).1 ≤ HAL_TIMEOUT ∧ ∀ st ∈ (f.call op).2.hal_rets, st ≤ HAL_TIMEOUT := by
  unfold Flash.call
  dsimp only
  constructor
  · cases hr : f.hal_rets with
    | nil => exact Nat.zero_le _
    | cons a l => exact h a (by rw [hr]; exact List.mem_cons_self a l)
  · intro st hst
    exact h st (List.mem_of_mem_tail hst)

theorem HAL_FLASH_Program_status (f : Flash) (address word : Nat)
    (h : ∀ st ∈ f.hal_rets, st ≤ HAL_TIMEOUT) :
    (HAL_FLASH_Program f address word).1 ≤ HAL_TIMEOUT
    ∧ ∀ st ∈ (HAL_FLASH_Program f address word).2.hal_rets, st ≤ HAL_TIMEOUT := by
  have hc := Flash_call_status f (FlashOp.program address word) h
  unfold HAL_FLASH_Program
  generalize f.call (FlashOp.program address word) = C at hc ⊢
  obtain ⟨ret, f1⟩ := C
  dsimp only at hc ⊢
  split_ifs <;> exact hc

theorem HAL_FLASHEx_Erase_status (T : Target) (f : Flash) (page_address nb_pages : Nat)
    (h : ∀ st ∈ f.hal_rets, st ≤ HAL_TIMEOUT) :
    (HAL_FLASHEx_Erase T f page_address nb_pages).1 ≤ HAL_TIMEOUT
    ∧ ∀ st ∈ (HAL_FLASHEx_Erase T f page_address nb_pages).2.hal_rets, st ≤ HAL_TIMEOUT := by
  have hc := Flash_call_status f (FlashOp.erase page_address nb_pages) h
  unfold HAL_FLASHEx_Erase
  generalize f.call (FlashOp.erase page_address nb_pages) = C at hc ⊢
  obtain ⟨ret, f1⟩ := C
  dsimp only at hc ⊢
  split_ifs <;> exact hc

/-- The word loop of `write_data_to_flash_app` ends with OK, NR or ERR when the HAL returns
values of its enumeration. -/
theorem write_full_words_status (T : Target) (data : List Nat) (dlm : Nat) :
    ∀ (passes bf r : Nat) (f : Flash), (∀ st ∈ f.hal_rets, st ≤ HAL_TIMEOUT) →
      ((write_full_words T data dlm passes bf r f).1 = ETX_OTA_EC_OK
        ∨ (write_full_words T data dlm passes bf r f).1 = ETX_OTA_EC_NR
        ∨ (write_full_words T data dlm passes bf r f).1 = ETX_OTA_EC_ERR)
      ∧ ∀ st ∈ (write_full_words T data dlm passes bf r f).2.2.2.hal_rets, st ≤ HAL_TIMEOUT := by
  intro passes
  induction passes with
  | zero => intro bf r f h; exact ⟨Or.inl rfl, h⟩
  | succ p ih =>
    intro bf r f h
    simp only [write_full_words]
    by_cases hlt : bf < dlm
    · rw [if_pos hlt]
      have hp := HAL_FLASH_Program_status f ((T.ETX_APP_FLASH_ADDR + r) % 2 ^ 32)
        (le32 (fun i => data.getD i 0) (4 * (bf / 4))) h
      generalize HAL_FLASH_Program f ((T.ETX_APP_FLASH_ADDR + r) % 2 ^ 32)
        (le32 (fun i => data.getD i 0) (4 * (bf / 4))) = P at hp ⊢
      obtain ⟨st, f1⟩ := P
      dsimp only at hp ⊢
      by_cases hok : HAL_ret_handler st % 256 = HAL_OK
      · rw [if_pos hok]
        exact ih _ _ f1 hp.2
      · rw [if_neg hok]
        exact ⟨HAL_ret_handler_values st hp.1, hp.2⟩
    · rw [if_neg hlt]
      exact ⟨Or.inl rfl, h⟩

/-- The status of `write_data_to_flash_app` is OK, NR or ERR when the HAL returns values of
its enumeration. -/
theorem write_data_to_flash_app_status (T : Target) (d : Device) (data : List Nat) (L : Nat)
    (first : Bool) (h : ∀ st ∈ d.flash.hal_rets, st ≤ HAL_TIMEOUT) :
    (write_data_to_flash_app T d data L first).1 = ETX_OTA_EC_OK
      ∨ (write_data_to_flash_app T d data L first).1 = ETX_OTA_EC_NR
      ∨ (write_data_to_flash_app T d data L first).1 = ETX_OTA_EC_ERR := by
  unfold write_data_to_flash_app
  have hu := Flash_call_status d.flash FlashOp.unlock h
  unfold HAL_FLASH_Unlock
  generalize d.flash.call FlashOp.unlock = U at hu ⊢
  obtain ⟨st0, f0⟩ := U
  dsimp only at hu ⊢
  by_cases h0 : HAL_ret_handler st0 % 256 = HAL_OK
  swap
  · rw [if_pos h0]
    exact HAL_ret_handler_values st0 hu.1
  rw [if_neg (not_not.mpr h0)]
  have he : ((if first = true then
        (HAL_ret_handler (HAL_FLASHEx_Erase T f0 T.ETX_APP_FLASH_ADDR
            T.ETX_APP_FLASH_PAGES_SIZE).1 % 256,
          (HAL_FLASHEx_Erase T f0 T.ETX_APP_FLASH_ADDR T.ETX_APP_FLASH_PAGES_SIZE).2)
        else (HAL_OK, f0)).1 = ETX_OTA_EC_OK
      ∨ (if first = true then
        (HAL_ret_handler (HAL_FLASHEx_Erase T f0 T.ETX_APP_FLASH_ADDR
            T.ETX_APP_FLASH_PAGES_SIZE).1 % 256,
          (HAL_FLASHEx_Erase T f0 T.ETX_APP_FLASH_ADDR T.ETX_APP_FLASH_PAGES_SIZE).2)
        else (HAL_OK, f0)).1 = ETX_OTA_EC_NR
      ∨ (if first = true then
        (HAL_ret_handler (HAL_FLASHEx_Erase T f0 T.ETX_APP_FLASH_ADDR
            T.ETX_APP_FLASH_PAGES_SIZE).1 % 256,
          (HAL_FLASHEx_Erase T f0 T.ETX_APP_FLASH_ADDR T.ETX_APP_FLASH_PAGES_SIZE).2)
        else (HAL_OK, f0)).1 = ETX_OTA_EC_ERR)
      ∧ ∀ st ∈ (if first = true then
        (HAL_ret_handler (HAL_FLASHEx_Erase T f0 T.ETX_APP_FLASH_ADDR
            T.ETX_APP_FLASH_PAGES_SIZE).1 % 256,
          (HAL_FLASHEx_Erase T f0 T.ETX_APP_FLASH_ADDR T.ETX_APP_FLASH_PAGES_SIZE).2)
        else (HAL_OK, f0)).2.hal_rets, st ≤ HAL_TIMEOUT := by
    have hE := HAL_FLASHEx_Erase_status T f0 T.ETX_APP_FLASH_ADDR T.ETX_APP_FLASH_PAGES_SIZE hu.2
    by_cases hf : first = true
    · rw [if_pos hf]
      exact ⟨HAL_ret_handler_values _ hE.1, hE.2⟩
    · rw [if_neg hf]
      exact ⟨Or.inl rfl, hu.2⟩
  generalize (if first = true then
        (HAL_ret_handler (HAL_FLASHEx_Erase T f0 T.ETX_APP_FLASH_ADDR
            T.ETX_APP_FLASH_PAGES_SIZE).1 % 256,
          (HAL_FLASHEx_Erase T f0 T.ETX_APP_FLASH_ADDR T.ETX_APP_FLASH_PAGES_SIZE).2)
        else (HAL_OK, f0)) = E at he ⊢
  obtain ⟨ret1, f1⟩ := E
  dsimp only at he ⊢
  have hW := write_full_words_status T data ((L + 65536 - 4) % 65536) ((L + 65536 - 4) % 65536)
    0 d.etx_ota_fw_received_size f1 he.2
  generalize write_full_words T data ((L + 65536 - 4) % 65536) ((L + 65536 - 4) % 65536) 0
    d.etx_ota_fw_received_size f1 = W at hW ⊢
  obtain ⟨wret, wbf, wr, wf⟩ := W
  dsimp only at hW ⊢
  have hP1 := fun a w => HAL_FLASH_Program_status wf a w hW.2
  have hP2 := fun a w => HAL_FLASH_Program_status f1 a w he.2
  have hL := fun f hf => Flash_call_status f FlashOp.lock hf
  split_ifs
  · exact he.1
  · exact hW.1
  · exact HAL_ret_handler_values _ (hP1 _ _).1
  · exact HAL_ret_handler_values _ (hL _ (hP1 _ _).2).1
  · exact HAL_ret_handler_values _ (hP2 _ _).1
  · exact HAL_ret_handler_values _ (hL _ (hP2 _ _).2).1

/-- C40: `HAL_ret_handler` maps `HAL_BUSY` and `HAL_TIMEOUT` to `ETX_OTA_EC_NR`, `HAL_ERROR` to
`ETX_OTA_EC_ERR` and every other value to itself; applied twice it gives what it gives applied
once, for every value.  When the flash HAL returns values of its enumeration,
`write_data_to_flash_app` returns OK, NR or ERR, and the second application of
`HAL_ret_handler` that the Data state makes leaves that status as it is. -/
theorem HAL_ret_handler_idempotent (T : Target) (d : Device) (data : List Nat) (data_len : Nat)
    (is_first_block : Bool) (hhal : ∀ st ∈ d.flash.hal_rets, st ≤ HAL_TIMEOUT) :
    HAL_ret_handler HAL_BUSY = ETX_OTA_EC_NR
    ∧ HAL_ret_handler HAL_TIMEOUT = ETX_OTA_EC_NR
    ∧ HAL_ret_handler HAL_ERROR = ETX_OTA_EC_ERR
    ∧ (∀ h, h ≠ HAL_BUSY → h ≠ HAL_TIMEOUT → h ≠ HAL_ERROR → HAL_ret_handler h = h)
    ∧ (∀ h, HAL_ret_handler (HAL_ret_handler h) = HAL_ret_handler h)
    ∧ ((write_data_to_flash_app T d data data_len is_first_block).1 = ETX_OTA_EC_OK
      ∨ (write_data_to_flash_app T d data data_len is_first_block).1 = ETX_OTA_EC_NR
      ∨ (write_data_to_flash_app T d data data_len is_first_block).1 = ETX_OTA_EC_ERR)
    ∧ HAL_ret_handler (write_data_to_flash_app T d data data_len is_first_block).1
        = (write_data_to_flash_app T d data data_len is_first_block).1 := by
  have hs := write_data_to_flash_app_status T d data data_len is_first_block hhal
  refine ⟨rfl, rfl, rfl, ?_, HAL_ret_handler_twice, hs, ?_⟩
  · intro h h1 h2 h3
    unfold HAL_ret_handler
    rw [if_neg (fun e => e.elim h1 h2), if_neg h3]
  · rcases hs with e | e | e <;> rw [e] <;> rfl

theorem HAL_ret_handler_idempotent_witness :
    (∀ st ∈ flash_timeout_device.flash.hal_rets, st ≤ HAL_TIMEOUT)
    ∧ (write_data_to_flash_app reference_target flash_timeout_device [1, 2, 3, 4, 5, 6, 7, 8] 8
        true).1 = ETX_OTA_EC_NR
    ∧ HAL_ret_handler (write_data_to_flash_app reference_target flash_timeout_device
        [1, 2, 3, 4, 5, 6, 7, 8] 8 true).1
        = (write_data_to_flash_app reference_target flash_timeout_device
          [1, 2, 3, 4, 5, 6, 7, 8] 8 true).1 :=
  ⟨by decide, by decide,
    (HAL_ret_handler_idempotent reference_target flash_timeout_device [1, 2, 3, 4, 5, 6, 7, 8] 8
      true (by decide)).2.2.2.2.2.2⟩

/-! ## What a reception that returns `ETX_OTA_EC_OK` has read -/

theorem receive_packet_checks_buf (buf : Mem) (rx : List RxEvent)
    (len data_len rec_data_crc max_len : Nat) :
    (receive_packet_checks buf rx len data_len rec_data_crc max_len).buf = buf := by
  unfold receive_packet_checks
  dsimp only
  split_ifs <;> rfl

end EtxOta
